import Mathlib

/-!
# GP2 compiler: static analysis of rollback strategies

A shallow embedding of `src/analysis.c` (`getStatementType`, `getSequenceType`, `annotate`,
`staticAnalysis`) together with theorems about the classification of commands and the annotation of the AST.

Modelling conventions.

* A value of `GPStatement` models a `GPStatement *`: the constructor `NULL` is the null pointer,
  every other constructor is a pointer to a node with that `statement_type`.
* A C `List *` of commands is a Lean list; the null list pointer is `[]`.
* The C functions update annotation fields in place.  The embedding passes the tree explicitly:
  every function returns the tree as it stands after the call.
* A result `none` stands for a run that dereferences a null pointer (no result is produced).
* Two embeddings of the program are given.  In the first one (`getStatementType`,
  `getSequenceType`, `annotate`) a command is a tree:
  `statement->value.proc_call.procedure->commands` is read from the call node, which holds
  the command tree of the called procedure, and the `int` values (`restore_point`, `com_seq`)
  are integers without overflow.  It is used for the properties of the classification and of
  the fields written at a node, which depend on the shape of the commands only.
* In the second one (`Shared.getStatementType`, `Shared.getSequenceType`, `Shared.annotate`,
  `staticAnalysis`) a `GPProcedure` is one object shared by its declaration and by all its
  calls: the command trees of the procedures are held in a separate table, a call node refers
  to its procedure by name, and the writes made while a procedure body is traversed stay in
  the table.  The increments of `restore_point` are C `int` increments (`increment`).  A
  recursion bound stands for the C stack: a run on a procedure that calls itself has no
  result.  This embedding is used wherever the value of a restore point or the state of a
  procedure body after the run matters.
-/

namespace GP2

/-- Rollback strategies, `typedef enum {NO_COPY = 0, RECORD_CHANGES, COPY} copyType` of
`analysis.h`. -/
inductive copyType
  | NO_COPY
  | RECORD_CHANGES
  | COPY
  deriving DecidableEq, Repr

/-- Integer value of an enumerator of `copyType`. -/
def copyType.toNat : copyType → Nat
  | .NO_COPY => 0
  | .RECORD_CHANGES => 1
  | .COPY => 2

theorem copyType.toNat_injective : Function.Injective copyType.toNat := by
  intro a b h
  cases a <;> cases b <;> first | rfl | (exact absurd h (by decide))

/-- The order `NO_COPY < RECORD_CHANGES < COPY` of the enumerators. -/
instance : LinearOrder copyType := LinearOrder.lift' copyType.toNat copyType.toNat_injective

/-- Modelled from the spec: the AST node type `GPStatement` of `ast.h`, which is not part of the
sources at hand.  The variants and their payloads are those named in `analysis.c` and in the
data model of the specification.  The annotation field `restore_point` is an `int` in C; here
`none` stands for the value the AST constructor gave it (never written by the analysis) and
`some r` for a value `r` stored by an assignment.  `UNKNOWN` stands for a node whose
`statement_type` is none of the eleven known tags.  A `PROCEDURE_CALL` node holds the name of
the called procedure, which stands for the pointer `proc_call.procedure`, and a command tree:
the tree embedding reads the commands of the procedure from it, the embedding with shared
procedures reads them from the table of procedures and never reads this component. -/
inductive GPStatement
  | NULL
  | COMMAND_SEQUENCE (commands : List GPStatement)
  | RULE_CALL (rule_name : String)
  | RULE_SET_CALL (rule_set : List String)
  | PROCEDURE_CALL (proc_name : String) (procedure : GPStatement)
  | IF_STATEMENT (condition then_stmt else_stmt : GPStatement)
      (restore_point : Option Int) (roll_back : Bool)
  | TRY_STATEMENT (condition then_stmt else_stmt : GPStatement)
      (restore_point : Option Int) (roll_back : Bool)
  | ALAP_STATEMENT (loop_body : GPStatement)
      (restore_point : Option Int) (roll_back : Bool) (stop_recording : Bool)
  | PROGRAM_OR (left_stmt right_stmt : GPStatement)
  | SKIP_STATEMENT
  | FAIL_STATEMENT
  | BREAK_STATEMENT
  | UNKNOWN (statement_type : Nat)
  deriving Repr

open copyType GPStatement

mutual
/-- Embedding of `getSequenceType` (`analysis.c`, lines 151-164): the loop over the list returns
`COPY` at the first command classified `COPY` and `RECORD_CHANGES` when the list is exhausted. -/
def getSequenceType : List GPStatement → Bool → Int → Option (copyType × List GPStatement)
  | [], _, _ => some (RECORD_CHANGES, [])
  | c :: next, if_body, com_seq =>
    let new_com_seq : Int := if com_seq = 0 ∨ (com_seq = 1 ∧ next.isEmpty) then 1 else 2
    match getStatementType c if_body new_com_seq next.isEmpty with
    | none => none
    | some (type, c1) =>
      if type = COPY then some (COPY, c1 :: next)
      else
        match getSequenceType next if_body com_seq with
        | none => none
        | some (t, next1) => some (t, c1 :: next1)
/-- Embedding of `getStatementType` (`analysis.c`, lines 170-245).  The result is the returned
`copyType` and the tree after the call (the only field written is `stop_recording`). -/
def getStatementType : GPStatement → Bool → Int → Bool → Option (copyType × GPStatement)
  | NULL, _, _, _ => none
  | COMMAND_SEQUENCE commands, if_body, com_seq, _ =>
    match commands with
    | [] => none
    | [c] =>
      match getStatementType c if_body com_seq true with
      | none => none
      | some (t, c1) => some (t, COMMAND_SEQUENCE [c1])
    | c :: d :: rest =>
      match getSequenceType (c :: d :: rest) if_body com_seq with
      | none => none
      | some (t, cs) => some (t, COMMAND_SEQUENCE cs)
  | RULE_CALL n, _, _, _ => some (NO_COPY, RULE_CALL n)
  | RULE_SET_CALL ns, _, _, _ => some (NO_COPY, RULE_SET_CALL ns)
  | PROCEDURE_CALL n p, if_body, com_seq, last_command =>
    match getStatementType p if_body com_seq last_command with
    | none => none
    | some (t, p1) => some (t, PROCEDURE_CALL n p1)
  | IF_STATEMENT c t e rp rb, if_body, com_seq, last_command =>
    match getStatementType c if_body com_seq last_command with
    | none => none
    | some (cond_type, c1) =>
      match getStatementType t if_body com_seq last_command with
      | none => none
      | some (then_type, t1) =>
        match getStatementType e if_body com_seq last_command with
        | none => none
        | some (else_type, e1) =>
          some (if cond_type = COPY ∨ then_type = COPY ∨ else_type = COPY then COPY
                else RECORD_CHANGES, IF_STATEMENT c1 t1 e1 rp rb)
  | TRY_STATEMENT c t e rp rb, if_body, com_seq, last_command =>
    match getStatementType c if_body com_seq last_command with
    | none => none
    | some (cond_type, c1) =>
      match getStatementType t if_body com_seq last_command with
      | none => none
      | some (then_type, t1) =>
        match getStatementType e if_body com_seq last_command with
        | none => none
        | some (else_type, e1) =>
          some (if cond_type = COPY ∨ then_type = COPY ∨ else_type = COPY then COPY
                else RECORD_CHANGES, TRY_STATEMENT c1 t1 e1 rp rb)
  | ALAP_STATEMENT b rp rb sr, if_body, com_seq, last_command =>
    if if_body then some (COPY, ALAP_STATEMENT b rp rb sr)
    else if com_seq = 2 then some (COPY, ALAP_STATEMENT b rp rb sr)
    else if com_seq = 1 ∧ ¬ last_command then some (COPY, ALAP_STATEMENT b rp rb sr)
    else if com_seq = 1 ∧ last_command then some (NO_COPY, ALAP_STATEMENT b rp rb true)
    else some (NO_COPY, ALAP_STATEMENT b rp rb sr)
  | PROGRAM_OR l r, if_body, com_seq, last_command =>
    match getStatementType l if_body com_seq last_command with
    | none => none
    | some (left_type, l1) =>
      match getStatementType r if_body com_seq last_command with
      | none => none
      | some (right_type, r1) =>
        some (if left_type.toNat > right_type.toNat then left_type else right_type,
              PROGRAM_OR l1 r1)
  | SKIP_STATEMENT, _, _, _ => some (NO_COPY, SKIP_STATEMENT)
  | FAIL_STATEMENT, _, _, _ => some (NO_COPY, FAIL_STATEMENT)
  | BREAK_STATEMENT, _, _, _ => some (NO_COPY, BREAK_STATEMENT)
  | UNKNOWN k, _, _, _ => some (COPY, UNKNOWN k)
end

/-- The strategy returned by `getStatementType`, without the updated tree. -/
def classify (s : GPStatement) (if_body : Bool) (com_seq : Int) (last_command : Bool) :
    Option copyType :=
  (getStatementType s if_body com_seq last_command).map Prod.fst

/-- The strategy returned by `getSequenceType`, without the updated list. -/
def classifySequence (cmds : List GPStatement) (if_body : Bool) (com_seq : Int) :
    Option copyType :=
  (getSequenceType cmds if_body com_seq).map Prod.fst

mutual
/-- A tree without null pointers and without empty command lists. -/
def wellFormed : GPStatement → Bool
  | NULL => false
  | COMMAND_SEQUENCE commands => !commands.isEmpty && wellFormedList commands
  | RULE_CALL _ => true
  | RULE_SET_CALL _ => true
  | PROCEDURE_CALL _ p => wellFormed p
  | IF_STATEMENT c t e _ _ => wellFormed c && wellFormed t && wellFormed e
  | TRY_STATEMENT c t e _ _ => wellFormed c && wellFormed t && wellFormed e
  | ALAP_STATEMENT b _ _ _ => wellFormed b
  | PROGRAM_OR l r => wellFormed l && wellFormed r
  | SKIP_STATEMENT => true
  | FAIL_STATEMENT => true
  | BREAK_STATEMENT => true
  | UNKNOWN _ => true
/-- Every command of the list is well formed. -/
def wellFormedList : List GPStatement → Bool
  | [] => true
  | c :: next => wellFormed c && wellFormedList next
end

mutual
/-- Number of nodes of a tree (list cells included); the termination measure of `annotate`. -/
def GPStatement.size : GPStatement → Nat
  | NULL => 1
  | COMMAND_SEQUENCE commands => 1 + sizeList commands
  | RULE_CALL _ => 1
  | RULE_SET_CALL _ => 1
  | PROCEDURE_CALL _ p => 1 + p.size
  | IF_STATEMENT c t e _ _ => 1 + c.size + t.size + e.size
  | TRY_STATEMENT c t e _ _ => 1 + c.size + t.size + e.size
  | ALAP_STATEMENT b _ _ _ => 1 + b.size
  | PROGRAM_OR l r => 1 + l.size + r.size
  | SKIP_STATEMENT => 1
  | FAIL_STATEMENT => 1
  | BREAK_STATEMENT => 1
  | UNKNOWN _ => 1
/-- Number of nodes of a list of commands. -/
def sizeList : List GPStatement → Nat
  | [] => 0
  | c :: next => 1 + c.size + sizeList next
end

mutual
/-- Reset of the three annotation fields of every node; two trees with the same image differ in
annotation fields only. -/
def erase : GPStatement → GPStatement
  | NULL => NULL
  | COMMAND_SEQUENCE commands => COMMAND_SEQUENCE (eraseList commands)
  | RULE_CALL n => RULE_CALL n
  | RULE_SET_CALL ns => RULE_SET_CALL ns
  | PROCEDURE_CALL n p => PROCEDURE_CALL n (erase p)
  | IF_STATEMENT c t e _ _ => IF_STATEMENT (erase c) (erase t) (erase e) none false
  | TRY_STATEMENT c t e _ _ => TRY_STATEMENT (erase c) (erase t) (erase e) none false
  | ALAP_STATEMENT b _ _ _ => ALAP_STATEMENT (erase b) none false false
  | PROGRAM_OR l r => PROGRAM_OR (erase l) (erase r)
  | SKIP_STATEMENT => SKIP_STATEMENT
  | FAIL_STATEMENT => FAIL_STATEMENT
  | BREAK_STATEMENT => BREAK_STATEMENT
  | UNKNOWN k => UNKNOWN k
/-- Reset of the annotation fields in every command of a list. -/
def eraseList : List GPStatement → List GPStatement
  | [] => []
  | c :: next => erase c :: eraseList next
end

/-! ### The classifier keeps the shape of the tree -/

set_option linter.unnecessarySeqFocus false
set_option linter.unusedVariables false

mutual
theorem getStatementType_erase : ∀ (s : GPStatement) (ib : Bool) (cs : Int) (l : Bool)
    (t : copyType) (s1 : GPStatement),
    getStatementType s ib cs l = some (t, s1) → erase s1 = erase s
  | NULL, _, _, _, _, _, h => by simp [getStatementType] at h
  | COMMAND_SEQUENCE [], _, _, _, _, _, h => by simp [getStatementType] at h
  | COMMAND_SEQUENCE [c], ib, cs, l, t, s1, h => by
    simp only [getStatementType] at h
    split at h
    · simp at h
    · rename_i t1 c1 h1
      have := getStatementType_erase c _ _ _ _ _ h1
      simp at h
      rw [← h.2]
      simp [erase, eraseList, this]
  | COMMAND_SEQUENCE (c :: d :: r), ib, cs, l, t, s1, h => by
    simp only [getStatementType] at h
    split at h
    · simp at h
    · rename_i t1 c1 h1
      have := getSequenceType_erase (c :: d :: r) _ _ _ _ h1
      simp at h
      rw [← h.2]
      simp [erase, this]
  | RULE_CALL n, _, _, _, _, _, h => by
    simp [getStatementType] at h; rw [← h.2]
  | RULE_SET_CALL n, _, _, _, _, _, h => by
    simp [getStatementType] at h; rw [← h.2]
  | PROCEDURE_CALL n b, ib, cs, l, t, s1, h => by
    simp only [getStatementType] at h
    split at h
    · simp at h
    · rename_i t1 c1 h1
      have := getStatementType_erase b _ _ _ _ _ h1
      simp at h
      rw [← h.2]
      simp [erase, this]
  | IF_STATEMENT c th e rp rb, ib, cs, l, t, s1, h => by
    simp only [getStatementType] at h
    split at h
    · simp at h
    · rename_i t1 c1 h1
      split at h
      · simp at h
      · rename_i t2 c2 h2
        split at h
        · simp at h
        · rename_i t3 c3 h3
          have := getStatementType_erase c _ _ _ _ _ h1
          have := getStatementType_erase th _ _ _ _ _ h2
          have := getStatementType_erase e _ _ _ _ _ h3
          simp at h
          rw [← h.2]
          simp [erase, *]
  | TRY_STATEMENT c th e rp rb, ib, cs, l, t, s1, h => by
    simp only [getStatementType] at h
    split at h
    · simp at h
    · rename_i t1 c1 h1
      split at h
      · simp at h
      · rename_i t2 c2 h2
        split at h
        · simp at h
        · rename_i t3 c3 h3
          have := getStatementType_erase c _ _ _ _ _ h1
          have := getStatementType_erase th _ _ _ _ _ h2
          have := getStatementType_erase e _ _ _ _ _ h3
          simp at h
          rw [← h.2]
          simp [erase, *]
  | ALAP_STATEMENT b rp rb sr, ib, cs, l, t, s1, h => by
    simp only [getStatementType] at h
    split_ifs at h <;> simp at h <;> rw [← h.2] <;> simp [erase]
  | PROGRAM_OR a b, ib, cs, l, t, s1, h => by
    simp only [getStatementType] at h
    split at h
    · simp at h
    · rename_i t1 c1 h1
      split at h
      · simp at h
      · rename_i t2 c2 h2
        have := getStatementType_erase a _ _ _ _ _ h1
        have := getStatementType_erase b _ _ _ _ _ h2
        simp at h
        rw [← h.2]
        simp [erase, *]
  | SKIP_STATEMENT, _, _, _, _, _, h => by
    simp [getStatementType] at h; rw [← h.2]
  | FAIL_STATEMENT, _, _, _, _, _, h => by
    simp [getStatementType] at h; rw [← h.2]
  | BREAK_STATEMENT, _, _, _, _, _, h => by
    simp [getStatementType] at h; rw [← h.2]
  | UNKNOWN k, _, _, _, _, _, h => by
    simp [getStatementType] at h; rw [← h.2]
theorem getSequenceType_erase : ∀ (cmds : List GPStatement) (ib : Bool) (cs : Int)
    (t : copyType) (cmds1 : List GPStatement),
    getSequenceType cmds ib cs = some (t, cmds1) → eraseList cmds1 = eraseList cmds
  | [], _, _, _, _, h => by simp [getSequenceType] at h; rw [← h.2]
  | c :: next, ib, cs, t, cmds1, h => by
    simp only [getSequenceType] at h
    split at h
    · simp at h
    · rename_i t1 c1 h1
      have := getStatementType_erase c _ _ _ _ _ h1
      split_ifs at h
      · simp at h; rw [← h.2]; simp [eraseList, this]
      · split at h
        · simp at h
        · rename_i t2 n2 h2
          have := getSequenceType_erase next _ _ _ _ h2
          simp at h; rw [← h.2]; simp [eraseList, *]
end

mutual
theorem size_erase : ∀ s : GPStatement, (erase s).size = s.size
  | NULL => rfl
  | COMMAND_SEQUENCE cs => by simp [erase, GPStatement.size, sizeList_erase cs]
  | RULE_CALL _ => rfl
  | RULE_SET_CALL _ => rfl
  | PROCEDURE_CALL _ p => by simp [erase, GPStatement.size, size_erase p]
  | IF_STATEMENT c t e _ _ => by
    simp [erase, GPStatement.size, size_erase c, size_erase t, size_erase e]
  | TRY_STATEMENT c t e _ _ => by
    simp [erase, GPStatement.size, size_erase c, size_erase t, size_erase e]
  | ALAP_STATEMENT b _ _ _ => by simp [erase, GPStatement.size, size_erase b]
  | PROGRAM_OR l r => by simp [erase, GPStatement.size, size_erase l, size_erase r]
  | SKIP_STATEMENT => rfl
  | FAIL_STATEMENT => rfl
  | BREAK_STATEMENT => rfl
  | UNKNOWN _ => rfl
theorem sizeList_erase : ∀ cs : List GPStatement, sizeList (eraseList cs) = sizeList cs
  | [] => rfl
  | c :: next => by simp [eraseList, sizeList, size_erase c, sizeList_erase next]
end

theorem getStatementType_size {s : GPStatement} {ib : Bool} {cs : Int} {l : Bool}
    {t : copyType} {s1 : GPStatement} (h : getStatementType s ib cs l = some (t, s1)) :
    s1.size = s.size := by
  rw [← size_erase s1, getStatementType_erase s ib cs l t s1 h, size_erase]

mutual
/-- Embedding of `annotate` (`analysis.c`, lines 41-149).  The calls
`getStatementType(..., true, false, 0)` and `getStatementType(..., false, false, 0)` of the source
pass `false` for the `int com_seq` (the value 0) and `0` for the `bool last_command` (the value
false).  The condition or body handed to the recursive call is the tree as the classifier left
it.  A call node is annotated in the command tree it holds and `restore_point + 1` is taken in
the integers: for the restore points of a procedure body that several calls share, and for
increments at `INT_MAX`, see `Shared.annotate`. -/
def annotate (statement : GPStatement) (restore_point : Int) : Option GPStatement :=
  match statement with
  | NULL => none
  | COMMAND_SEQUENCE commands =>
    match annotateCommands commands restore_point with
    | none => none
    | some cs => some (COMMAND_SEQUENCE cs)
  | RULE_CALL n => some (RULE_CALL n)
  | RULE_SET_CALL ns => some (RULE_SET_CALL ns)
  | PROCEDURE_CALL n p =>
    match annotate p restore_point with
    | none => none
    | some p1 => some (PROCEDURE_CALL n p1)
  | IF_STATEMENT c t e rp rb =>
    match h : getStatementType c true 0 false with
    | none => none
    | some (type, c1) =>
      let rb1 := if type = RECORD_CHANGES then true else rb
      let rp1 := if type = COPY then some restore_point else rp
      let if_restore_point := if type = COPY then restore_point + 1 else restore_point
      match annotate c1 if_restore_point with
      | none => none
      | some c2 =>
        match annotate t restore_point with
        | none => none
        | some t2 =>
          match annotate e restore_point with
          | none => none
          | some e2 => some (IF_STATEMENT c2 t2 e2 rp1 rb1)
  | TRY_STATEMENT c t e rp rb =>
    match h : getStatementType c false 0 false with
    | none => none
    | some (type, c1) =>
      let rb1 := if type = RECORD_CHANGES then true else rb
      let rp1 := if type = COPY then some restore_point else rp
      let try_restore_point := if type = COPY then restore_point + 1 else restore_point
      match annotate c1 try_restore_point with
      | none => none
      | some c2 =>
        match annotate t restore_point with
        | none => none
        | some t2 =>
          match annotate e restore_point with
          | none => none
          | some e2 => some (TRY_STATEMENT c2 t2 e2 rp1 rb1)
  | ALAP_STATEMENT b rp rb sr =>
    match h : getStatementType b false 0 false with
    | none => none
    | some (type, b1) =>
      let rb1 := if type = RECORD_CHANGES then true else rb
      let rp1 := if type = COPY then some restore_point else rp
      let loop_restore_point := if type = COPY then restore_point + 1 else restore_point
      match annotate b1 loop_restore_point with
      | none => none
      | some b2 => some (ALAP_STATEMENT b2 rp1 rb1 sr)
  | PROGRAM_OR l r =>
    match annotate l restore_point with
    | none => none
    | some l1 =>
      match annotate r restore_point with
      | none => none
      | some r1 => some (PROGRAM_OR l1 r1)
  | SKIP_STATEMENT => some SKIP_STATEMENT
  | FAIL_STATEMENT => some FAIL_STATEMENT
  | BREAK_STATEMENT => some BREAK_STATEMENT
  | UNKNOWN k => some (UNKNOWN k)
termination_by statement.size
decreasing_by
  all_goals simp_wf
  all_goals first
    | (have hs := getStatementType_size h; simp only [GPStatement.size]; omega)
    | (simp only [GPStatement.size]; omega)
/-- The loop of the `COMMAND_SEQUENCE` case of `annotate`: every command of the list is annotated
with the same restore point. -/
def annotateCommands (commands : List GPStatement) (restore_point : Int) :
    Option (List GPStatement) :=
  match commands with
  | [] => some []
  | c :: next =>
    match annotate c restore_point with
    | none => none
    | some c1 =>
      match annotateCommands next restore_point with
      | none => none
      | some next1 => some (c1 :: next1)
termination_by sizeList commands
decreasing_by
  all_goals simp_wf
  all_goals simp only [sizeList]; omega
end

mutual
/-- All nodes of a tree in pre-order, the root first; the nodes of the body of a called
procedure are included. -/
def nodes : GPStatement → List GPStatement
  | NULL => [NULL]
  | COMMAND_SEQUENCE commands => COMMAND_SEQUENCE commands :: nodesList commands
  | RULE_CALL n => [RULE_CALL n]
  | RULE_SET_CALL ns => [RULE_SET_CALL ns]
  | PROCEDURE_CALL n p => PROCEDURE_CALL n p :: nodes p
  | IF_STATEMENT c t e rp rb => IF_STATEMENT c t e rp rb :: (nodes c ++ (nodes t ++ nodes e))
  | TRY_STATEMENT c t e rp rb => TRY_STATEMENT c t e rp rb :: (nodes c ++ (nodes t ++ nodes e))
  | ALAP_STATEMENT b rp rb sr => ALAP_STATEMENT b rp rb sr :: nodes b
  | PROGRAM_OR l r => PROGRAM_OR l r :: (nodes l ++ nodes r)
  | SKIP_STATEMENT => [SKIP_STATEMENT]
  | FAIL_STATEMENT => [FAIL_STATEMENT]
  | BREAK_STATEMENT => [BREAK_STATEMENT]
  | UNKNOWN k => [UNKNOWN k]
/-- All nodes of the commands of a list. -/
def nodesList : List GPStatement → List GPStatement
  | [] => []
  | c :: next => nodes c ++ nodesList next
end

mutual
/-- No node of the tree has a restore point written or `roll_back` set (the `stop_recording`
fields are free). -/
def unwritten : GPStatement → Bool
  | NULL => true
  | COMMAND_SEQUENCE commands => unwrittenList commands
  | RULE_CALL _ => true
  | RULE_SET_CALL _ => true
  | PROCEDURE_CALL _ p => unwritten p
  | IF_STATEMENT c t e rp rb => rp.isNone && !rb && unwritten c && unwritten t && unwritten e
  | TRY_STATEMENT c t e rp rb => rp.isNone && !rb && unwritten c && unwritten t && unwritten e
  | ALAP_STATEMENT b rp rb _ => rp.isNone && !rb && unwritten b
  | PROGRAM_OR l r => unwritten l && unwritten r
  | SKIP_STATEMENT => true
  | FAIL_STATEMENT => true
  | BREAK_STATEMENT => true
  | UNKNOWN _ => true
/-- No command of the list has a restore point written or `roll_back` set. -/
def unwrittenList : List GPStatement → Bool
  | [] => true
  | c :: next => unwritten c && unwrittenList next
end

mutual
/-- All three annotation fields of every node of the tree have their default value. -/
def defaultFields : GPStatement → Bool
  | NULL => true
  | COMMAND_SEQUENCE commands => defaultFieldsList commands
  | RULE_CALL _ => true
  | RULE_SET_CALL _ => true
  | PROCEDURE_CALL _ p => defaultFields p
  | IF_STATEMENT c t e rp rb =>
    rp.isNone && !rb && defaultFields c && defaultFields t && defaultFields e
  | TRY_STATEMENT c t e rp rb =>
    rp.isNone && !rb && defaultFields c && defaultFields t && defaultFields e
  | ALAP_STATEMENT b rp rb sr => rp.isNone && !rb && !sr && defaultFields b
  | PROGRAM_OR l r => defaultFields l && defaultFields r
  | SKIP_STATEMENT => true
  | FAIL_STATEMENT => true
  | BREAK_STATEMENT => true
  | UNKNOWN _ => true
/-- All annotation fields in the commands of the list have their default value. -/
def defaultFieldsList : List GPStatement → Bool
  | [] => true
  | c :: next => defaultFields c && defaultFieldsList next
end

/-- Agreement of the fields `restore_point` and `roll_back` of a node with a classification
result `c`: the classification produced a strategy `t`, a restore point is written exactly when
`t = COPY`, `roll_back` is set exactly when `t = RECORD_CHANGES`, neither holds exactly when
`t = NO_COPY`, and the two are never both present. -/
def fieldsAgree (c : Option copyType) (restore_point : Option Int) (roll_back : Bool) : Prop :=
  ∃ t, c = some t ∧
    (restore_point.isSome = true ↔ t = COPY) ∧
    (roll_back = true ↔ t = RECORD_CHANGES) ∧
    ((restore_point.isSome = false ∧ roll_back = false) ↔ t = NO_COPY) ∧
    ¬ (restore_point.isSome = true ∧ roll_back = true)

/-- Classifier-annotator agreement at one node: the fields of an `IF`, `TRY` or `ALAP` node
agree with the classification of its condition (`IF`: `if_body = true`; `TRY`:
`if_body = false`) or body (`ALAP`: `if_body = false`) under `com_seq = 0`,
`last_command = false`.  Other nodes carry no annotation. -/
def agreement : GPStatement → Prop
  | IF_STATEMENT c _ _ rp rb => fieldsAgree (classify c true 0 false) rp rb
  | TRY_STATEMENT c _ _ rp rb => fieldsAgree (classify c false 0 false) rp rb
  | ALAP_STATEMENT b rp rb _ => fieldsAgree (classify b false 0 false) rp rb
  | _ => True

mutual
/-- The tree holds no `IF`, `TRY` or `ALAP` node, the bodies of called procedures included. -/
def noCompound : GPStatement → Bool
  | NULL => true
  | COMMAND_SEQUENCE commands => noCompoundList commands
  | RULE_CALL _ => true
  | RULE_SET_CALL _ => true
  | PROCEDURE_CALL _ p => noCompound p
  | IF_STATEMENT _ _ _ _ _ => false
  | TRY_STATEMENT _ _ _ _ _ => false
  | ALAP_STATEMENT _ _ _ _ => false
  | PROGRAM_OR l r => noCompound l && noCompound r
  | SKIP_STATEMENT => true
  | FAIL_STATEMENT => true
  | BREAK_STATEMENT => true
  | UNKNOWN _ => true
/-- No command of the list holds an `IF`, `TRY` or `ALAP` node. -/
def noCompoundList : List GPStatement → Bool
  | [] => true
  | c :: next => noCompound c && noCompoundList next
end

/-- One step of a root-to-leaf path at an `IF`, `TRY` or `ALAP` node: when the node has a restore
point written, the path records it together with the edge by which it leaves the node (`true`:
into the condition or the loop body, `false`: into the `then` or `else` branch). -/
def pathEntry (restore_point : Option Int) (inner : Bool) (path : List (Int × Bool)) :
    List (Int × Bool) :=
  match restore_point with
  | none => path
  | some r => (r, inner) :: path

mutual
/-- The root-to-leaf paths of a tree (through the bodies of called procedures), each given by
the restore points written on its nodes, read from the root downwards, with the edge by which
the path leaves each of these nodes. -/
def restorePaths : GPStatement → List (List (Int × Bool))
  | NULL => [[]]
  | COMMAND_SEQUENCE commands =>
    match commands with
    | [] => [[]]
    | c :: next => restorePathsList (c :: next)
  | RULE_CALL _ => [[]]
  | RULE_SET_CALL _ => [[]]
  | PROCEDURE_CALL _ p => restorePaths p
  | IF_STATEMENT c t e rp _ =>
    (restorePaths c).map (pathEntry rp true) ++
      ((restorePaths t).map (pathEntry rp false) ++ (restorePaths e).map (pathEntry rp false))
  | TRY_STATEMENT c t e rp _ =>
    (restorePaths c).map (pathEntry rp true) ++
      ((restorePaths t).map (pathEntry rp false) ++ (restorePaths e).map (pathEntry rp false))
  | ALAP_STATEMENT b rp _ _ => (restorePaths b).map (pathEntry rp true)
  | PROGRAM_OR l r => restorePaths l ++ restorePaths r
  | SKIP_STATEMENT => [[]]
  | FAIL_STATEMENT => [[]]
  | BREAK_STATEMENT => [[]]
  | UNKNOWN _ => [[]]
/-- The root-to-leaf paths through the commands of a list. -/
def restorePathsList : List GPStatement → List (List (Int × Bool))
  | [] => []
  | c :: next => restorePaths c ++ restorePathsList next
end

/-- The field `stop_recording` of an `ALAP` node (`false` on every other node). -/
def stopRecording : GPStatement → Bool
  | ALAP_STATEMENT _ _ _ sr => sr
  | _ => false

mutual
/-- The `ALAP` nodes of a tree in pre-order, the loops inside loop bodies and inside the bodies
of called procedures included. -/
def loops : GPStatement → List GPStatement
  | NULL => []
  | COMMAND_SEQUENCE commands => loopsList commands
  | RULE_CALL _ => []
  | RULE_SET_CALL _ => []
  | PROCEDURE_CALL _ p => loops p
  | IF_STATEMENT c t e _ _ => loops c ++ (loops t ++ loops e)
  | TRY_STATEMENT c t e _ _ => loops c ++ (loops t ++ loops e)
  | ALAP_STATEMENT b rp rb sr => ALAP_STATEMENT b rp rb sr :: loops b
  | PROGRAM_OR l r => loops l ++ loops r
  | SKIP_STATEMENT => []
  | FAIL_STATEMENT => []
  | BREAK_STATEMENT => []
  | UNKNOWN _ => []
/-- The `ALAP` nodes of the commands of a list, in order. -/
def loopsList : List GPStatement → List GPStatement
  | [] => []
  | c :: next => loops c ++ loopsList next
end

mutual
/-- Trace of the calls of `getStatementType` on `ALAP` nodes: for every `ALAP` node of the tree,
in the order of `loops`, whether a run of `getStatementType` on the tree under the given context
calls the `ALAP` case on that node with `if_body = false`, `com_seq = 1` and
`last_command = true`.  The recursion is that of `getStatementType`: a loop body is not
entered, and `getSequenceType` stops at the first command classified `COPY`; the loops of the
parts that are not visited are listed as not reached. -/
def tailReached : GPStatement → Bool → Int → Bool → List Bool
  | NULL, _, _, _ => []
  | COMMAND_SEQUENCE commands, if_body, com_seq, _ =>
    match commands with
    | [] => []
    | [c] => tailReached c if_body com_seq true
    | c :: d :: rest => tailReachedSequence (c :: d :: rest) if_body com_seq
  | RULE_CALL _, _, _, _ => []
  | RULE_SET_CALL _, _, _, _ => []
  | PROCEDURE_CALL _ p, if_body, com_seq, last_command =>
    tailReached p if_body com_seq last_command
  | IF_STATEMENT c t e _ _, if_body, com_seq, last_command =>
    tailReached c if_body com_seq last_command ++
      (tailReached t if_body com_seq last_command ++ tailReached e if_body com_seq last_command)
  | TRY_STATEMENT c t e _ _, if_body, com_seq, last_command =>
    tailReached c if_body com_seq last_command ++
      (tailReached t if_body com_seq last_command ++ tailReached e if_body com_seq last_command)
  | ALAP_STATEMENT b _ _ _, if_body, com_seq, last_command =>
    decide (if_body = false ∧ com_seq = 1 ∧ last_command = true) ::
      List.replicate (loops b).length false
  | PROGRAM_OR l r, if_body, com_seq, last_command =>
    tailReached l if_body com_seq last_command ++ tailReached r if_body com_seq last_command
  | SKIP_STATEMENT, _, _, _ => []
  | FAIL_STATEMENT, _, _, _ => []
  | BREAK_STATEMENT, _, _, _ => []
  | UNKNOWN _, _, _, _ => []
/-- Trace of the calls on `ALAP` nodes made by a run of `getSequenceType`. -/
def tailReachedSequence : List GPStatement → Bool → Int → List Bool
  | [], _, _ => []
  | c :: next, if_body, com_seq =>
    tailReached c if_body (if com_seq = 0 ∨ (com_seq = 1 ∧ next.isEmpty) then 1 else 2)
        next.isEmpty ++
      (if classify c if_body (if com_seq = 0 ∨ (com_seq = 1 ∧ next.isEmpty) then 1 else 2)
            next.isEmpty = some COPY
        then List.replicate (loopsList next).length false
        else tailReachedSequence next if_body com_seq)
end

mutual
/-- Reset of the field `stop_recording` of every `ALAP` node; the fields `restore_point` and
`roll_back` are kept. -/
def clearStop : GPStatement → GPStatement
  | NULL => NULL
  | COMMAND_SEQUENCE commands => COMMAND_SEQUENCE (clearStopList commands)
  | RULE_CALL n => RULE_CALL n
  | RULE_SET_CALL ns => RULE_SET_CALL ns
  | PROCEDURE_CALL n p => PROCEDURE_CALL n (clearStop p)
  | IF_STATEMENT c t e rp rb => IF_STATEMENT (clearStop c) (clearStop t) (clearStop e) rp rb
  | TRY_STATEMENT c t e rp rb => TRY_STATEMENT (clearStop c) (clearStop t) (clearStop e) rp rb
  | ALAP_STATEMENT b rp rb _ => ALAP_STATEMENT (clearStop b) rp rb false
  | PROGRAM_OR l r => PROGRAM_OR (clearStop l) (clearStop r)
  | SKIP_STATEMENT => SKIP_STATEMENT
  | FAIL_STATEMENT => FAIL_STATEMENT
  | BREAK_STATEMENT => BREAK_STATEMENT
  | UNKNOWN k => UNKNOWN k
/-- Reset of the field `stop_recording` in every command of a list. -/
def clearStopList : List GPStatement → List GPStatement
  | [] => []
  | c :: next => clearStop c :: clearStopList next
end

/-- The `stop_recording` fields of the `ALAP` nodes of a tree, in the order of `loops`. -/
def stopFlags (s : GPStatement) : List Bool :=
  (loops s).map stopRecording

/-- The `stop_recording` fields of the `ALAP` nodes of the commands of a list. -/
def stopFlagsList (cmds : List GPStatement) : List Bool :=
  (loopsList cmds).map stopRecording

/-- The part of a compound node that `annotate` hands to the classifier, with the `if_body`
argument of the call: the condition of an `IF` (`true`), the condition of a `TRY` (`false`), the
body of an `ALAP` (`false`).  The call is made with `com_seq = 0` and `last_command = false`. -/
def classifiedPart : GPStatement → Option (GPStatement × Bool)
  | IF_STATEMENT c _ _ _ _ => some (c, true)
  | TRY_STATEMENT c _ _ _ _ => some (c, false)
  | ALAP_STATEMENT b _ _ _ => some (b, false)
  | _ => none

mutual
/-- No node of the tree has an unknown `statement_type`, the bodies of called procedures
included. -/
def noUnknown : GPStatement → Bool
  | NULL => true
  | COMMAND_SEQUENCE commands => noUnknownList commands
  | RULE_CALL _ => true
  | RULE_SET_CALL _ => true
  | PROCEDURE_CALL _ p => noUnknown p
  | IF_STATEMENT c t e _ _ => noUnknown c && noUnknown t && noUnknown e
  | TRY_STATEMENT c t e _ _ => noUnknown c && noUnknown t && noUnknown e
  | ALAP_STATEMENT b _ _ _ => noUnknown b
  | PROGRAM_OR l r => noUnknown l && noUnknown r
  | SKIP_STATEMENT => true
  | FAIL_STATEMENT => true
  | BREAK_STATEMENT => true
  | UNKNOWN _ => false
/-- No command of the list holds a node with an unknown `statement_type`. -/
def noUnknownList : List GPStatement → Bool
  | [] => true
  | c :: next => noUnknown c && noUnknownList next
end

mutual
/-- Reset of the field `roll_back` of every `IF`, `TRY` and `ALAP` node; the fields
`restore_point` and `stop_recording` are kept. -/
def clearRollBack : GPStatement → GPStatement
  | NULL => NULL
  | COMMAND_SEQUENCE commands => COMMAND_SEQUENCE (clearRollBackList commands)
  | RULE_CALL n => RULE_CALL n
  | RULE_SET_CALL ns => RULE_SET_CALL ns
  | PROCEDURE_CALL n p => PROCEDURE_CALL n (clearRollBack p)
  | IF_STATEMENT c t e rp _ =>
    IF_STATEMENT (clearRollBack c) (clearRollBack t) (clearRollBack e) rp false
  | TRY_STATEMENT c t e rp _ =>
    TRY_STATEMENT (clearRollBack c) (clearRollBack t) (clearRollBack e) rp false
  | ALAP_STATEMENT b rp _ sr => ALAP_STATEMENT (clearRollBack b) rp false sr
  | PROGRAM_OR l r => PROGRAM_OR (clearRollBack l) (clearRollBack r)
  | SKIP_STATEMENT => SKIP_STATEMENT
  | FAIL_STATEMENT => FAIL_STATEMENT
  | BREAK_STATEMENT => BREAK_STATEMENT
  | UNKNOWN k => UNKNOWN k
/-- Reset of the field `roll_back` in every command of a list. -/
def clearRollBackList : List GPStatement → List GPStatement
  | [] => []
  | c :: next => clearRollBack c :: clearRollBackList next
end

mutual
/-- The commands of a body in left-to-right flattened order: a command sequence and a call of a
procedure stand for the commands of the sequence and of the body of the procedure. -/
def flatCommands : GPStatement → List GPStatement
  | NULL => [NULL]
  | COMMAND_SEQUENCE commands => flatCommandsList commands
  | RULE_CALL n => [RULE_CALL n]
  | RULE_SET_CALL ns => [RULE_SET_CALL ns]
  | PROCEDURE_CALL _ p => flatCommands p
  | IF_STATEMENT c t e rp rb => [IF_STATEMENT c t e rp rb]
  | TRY_STATEMENT c t e rp rb => [TRY_STATEMENT c t e rp rb]
  | ALAP_STATEMENT b rp rb sr => [ALAP_STATEMENT b rp rb sr]
  | PROGRAM_OR l r => [PROGRAM_OR l r]
  | SKIP_STATEMENT => [SKIP_STATEMENT]
  | FAIL_STATEMENT => [FAIL_STATEMENT]
  | BREAK_STATEMENT => [BREAK_STATEMENT]
  | UNKNOWN k => [UNKNOWN k]
/-- The flattened commands of the commands of a list, in order. -/
def flatCommandsList : List GPStatement → List GPStatement
  | [] => []
  | c :: next => flatCommands c ++ flatCommandsList next
end

/-- Embedding of the debug block of `staticAnalysis` (`analysis.c`, lines 31-38), run when
`debug` is true.  A C string is given by its characters before the terminating NUL, so that
`strlen` is the length of the list.  The block declares `char file_name[length]` with
`length = strlen(prefix) + 2`; `strcpy` and `strcat` then store the characters of the prefix,
the two characters of `"_3"` and a terminating NUL.  The result is the name handed to
`printDotAST`; it is `none` when the bytes stored do not fit into the `length` bytes of the
buffer (the writes run past its end). -/
def debugFileName (pfx : List Char) : Option (List Char) :=
  let length := pfx.length + 2
  let file_name := pfx ++ ['_', '3']
  if file_name.length + 1 ≤ length then some file_name else none

/-! ### Embedding with shared procedures and C `int` restore points -/

/-- Largest value of a C `int` (32 bits). -/
def INT_MAX : Int := 2147483647

/-- Smallest value of a C `int` (32 bits). -/
def INT_MIN : Int := -2147483648

/-- The statement `x++` on a C `int`, as in `if_restore_point++` and `loop_restore_point++` of
`annotate`.  At `INT_MAX` the addition overflows; signed overflow is undefined in C, and the
embedding takes the wrap-around to `INT_MIN` of two's complement arithmetic. -/
def increment (x : Int) : Int :=
  if x = INT_MAX then INT_MIN else x + 1

/-- The procedures of a program: for every `GPProcedure` its name and its field `commands`.
A `GPProcedure` is one heap object, pointed to by its declaration and by every call of the
procedure; the name stands for the pointer. -/
abbrev Procedures := List (String × GPStatement)

/-- The field `procedure->commands` read through a pointer to the procedure `name`; `none` when
there is no such procedure (the pointer is null). -/
def commandsOf : Procedures → String → Option GPStatement
  | [], _ => none
  | (n, body) :: rest, name => if n = name then some body else commandsOf rest name

/-- The procedures after the command tree of the procedure `name` has been replaced by `body`
(the in-place writes made during a traversal of `procedure->commands`). -/
def writeCommands : Procedures → String → GPStatement → Procedures
  | [], _, _ => []
  | (n, old) :: rest, name, body =>
    if n = name then (n, body) :: rest else (n, old) :: writeCommands rest name body

namespace Shared

mutual
/-- Embedding of `getSequenceType` (`analysis.c`, lines 151-164) over shared procedures.  The
first argument is the recursion bound: every call and every pass of the loop takes one unit of
it.  The result is the returned `copyType`, the procedures and the command list after the
call. -/
def getSequenceType : Nat → Procedures → List GPStatement → Bool → Int →
    Option (copyType × Procedures × List GPStatement)
  | 0, _, _, _, _ => none
  | _ + 1, procs, [], _, _ => some (RECORD_CHANGES, procs, [])
  | fuel + 1, procs, c :: next, if_body, com_seq =>
    let new_com_seq : Int := if com_seq = 0 ∨ (com_seq = 1 ∧ next.isEmpty) then 1 else 2
    match getStatementType fuel procs c if_body new_com_seq next.isEmpty with
    | none => none
    | some (type, procs1, c1) =>
      if type = COPY then some (COPY, procs1, c1 :: next)
      else
        match getSequenceType fuel procs1 next if_body com_seq with
        | none => none
        | some (t, procs2, next1) => some (t, procs2, c1 :: next1)
/-- Embedding of `getStatementType` (`analysis.c`, lines 170-245) over shared procedures.  A
call node points to its `GPProcedure` by name (its second component is not read): the
`PROCEDURE_CALL` case classifies `procedure->commands` as found in the procedures, and the
`stop_recording` writes of that classification stay in the procedures, where every other call
of the procedure and its declaration see them.  The result is `none` when the recursion depth
is exhausted (a procedure that calls itself is never left) and when a null pointer is
dereferenced. -/
def getStatementType : Nat → Procedures → GPStatement → Bool → Int → Bool →
    Option (copyType × Procedures × GPStatement)
  | 0, _, _, _, _, _ => none
  | fuel + 1, procs, statement, if_body, com_seq, last_command =>
    match statement with
    | NULL => none
    | COMMAND_SEQUENCE commands =>
      match commands with
      | [] => none
      | [c] =>
        match getStatementType fuel procs c if_body com_seq true with
        | none => none
        | some (t, procs1, c1) => some (t, procs1, COMMAND_SEQUENCE [c1])
      | c :: d :: rest =>
        match getSequenceType fuel procs (c :: d :: rest) if_body com_seq with
        | none => none
        | some (t, procs1, commands1) => some (t, procs1, COMMAND_SEQUENCE commands1)
    | RULE_CALL n => some (NO_COPY, procs, RULE_CALL n)
    | RULE_SET_CALL ns => some (NO_COPY, procs, RULE_SET_CALL ns)
    | PROCEDURE_CALL name p =>
      match commandsOf procs name with
      | none => none
      | some body =>
        match getStatementType fuel procs body if_body com_seq last_command with
        | none => none
        | some (t, procs1, body1) =>
          some (t, writeCommands procs1 name body1, PROCEDURE_CALL name p)
    | IF_STATEMENT c t e rp rb =>
      match getStatementType fuel procs c if_body com_seq last_command with
      | none => none
      | some (cond_type, procs1, c1) =>
        match getStatementType fuel procs1 t if_body com_seq last_command with
        | none => none
        | some (then_type, procs2, t1) =>
          match getStatementType fuel procs2 e if_body com_seq last_command with
          | none => none
          | some (else_type, procs3, e1) =>
            some (if cond_type = COPY ∨ then_type = COPY ∨ else_type = COPY then COPY
                  else RECORD_CHANGES, procs3, IF_STATEMENT c1 t1 e1 rp rb)
    | TRY_STATEMENT c t e rp rb =>
      match getStatementType fuel procs c if_body com_seq last_command with
      | none => none
      | some (cond_type, procs1, c1) =>
        match getStatementType fuel procs1 t if_body com_seq last_command with
        | none => none
        | some (then_type, procs2, t1) =>
          match getStatementType fuel procs2 e if_body com_seq last_command with
          | none => none
          | some (else_type, procs3, e1) =>
            some (if cond_type = COPY ∨ then_type = COPY ∨ else_type = COPY then COPY
                  else RECORD_CHANGES, procs3, TRY_STATEMENT c1 t1 e1 rp rb)
    | ALAP_STATEMENT b rp rb sr =>
      if if_body = true then some (COPY, procs, ALAP_STATEMENT b rp rb sr)
      else if com_seq = 2 then some (COPY, procs, ALAP_STATEMENT b rp rb sr)
      else if com_seq = 1 ∧ last_command = false then
        some (COPY, procs, ALAP_STATEMENT b rp rb sr)
      else if com_seq = 1 ∧ last_command = true then
        some (NO_COPY, procs, ALAP_STATEMENT b rp rb true)
      else some (NO_COPY, procs, ALAP_STATEMENT b rp rb sr)
    | PROGRAM_OR l r =>
      match getStatementType fuel procs l if_body com_seq last_command with
      | none => none
      | some (left_type, procs1, l1) =>
        match getStatementType fuel procs1 r if_body com_seq last_command with
        | none => none
        | some (right_type, procs2, r1) =>
          some (if left_type.toNat > right_type.toNat then left_type else right_type,
            procs2, PROGRAM_OR l1 r1)
    | SKIP_STATEMENT => some (NO_COPY, procs, SKIP_STATEMENT)
    | FAIL_STATEMENT => some (NO_COPY, procs, FAIL_STATEMENT)
    | BREAK_STATEMENT => some (NO_COPY, procs, BREAK_STATEMENT)
    | UNKNOWN k => some (COPY, procs, UNKNOWN k)
end

end Shared

namespace Shared

mutual
/-- Embedding of `annotate` (`analysis.c`, lines 41-149) over shared procedures, with C `int`
restore points.  The `PROCEDURE_CALL` case annotates `procedure->commands` in place: the
annotated command tree replaces the one of the procedure, for every call and for the
declaration.  The calls `getStatementType(..., true, false, 0)` and
`getStatementType(..., false, false, 0)` of the source pass `false` for the `int com_seq` (the
value 0) and `0` for the `bool last_command` (the value false).  The first argument is the
recursion bound: every call and every pass of the loop over a command list takes one unit of
it, and a run that exhausts it has no result. -/
def annotate : Nat → Procedures → GPStatement → Int → Option (Procedures × GPStatement)
  | 0, _, _, _ => none
  | fuel + 1, procs, statement, restore_point =>
    match statement with
    | NULL => none
    | COMMAND_SEQUENCE commands =>
      match annotateCommands fuel procs commands restore_point with
      | none => none
      | some (procs1, commands1) => some (procs1, COMMAND_SEQUENCE commands1)
    | RULE_CALL n => some (procs, RULE_CALL n)
    | RULE_SET_CALL ns => some (procs, RULE_SET_CALL ns)
    | PROCEDURE_CALL name p =>
      match commandsOf procs name with
      | none => none
      | some body =>
        match annotate fuel procs body restore_point with
        | none => none
        | some (procs1, body1) =>
          some (writeCommands procs1 name body1, PROCEDURE_CALL name p)
    | IF_STATEMENT c t e rp rb =>
      match getStatementType fuel procs c true 0 false with
      | none => none
      | some (type, procs1, c1) =>
        let rb1 := if type = RECORD_CHANGES then true else rb
        let rp1 := if type = COPY then some restore_point else rp
        let if_restore_point := if type = COPY then increment restore_point else restore_point
        match annotate fuel procs1 c1 if_restore_point with
        | none => none
        | some (procs2, c2) =>
          match annotate fuel procs2 t restore_point with
          | none => none
          | some (procs3, t2) =>
            match annotate fuel procs3 e restore_point with
            | none => none
            | some (procs4, e2) => some (procs4, IF_STATEMENT c2 t2 e2 rp1 rb1)
    | TRY_STATEMENT c t e rp rb =>
      match getStatementType fuel procs c false 0 false with
      | none => none
      | some (type, procs1, c1) =>
        let rb1 := if type = RECORD_CHANGES then true else rb
        let rp1 := if type = COPY then some restore_point else rp
        let try_restore_point := if type = COPY then increment restore_point else restore_point
        match annotate fuel procs1 c1 try_restore_point with
        | none => none
        | some (procs2, c2) =>
          match annotate fuel procs2 t restore_point with
          | none => none
          | some (procs3, t2) =>
            match annotate fuel procs3 e restore_point with
            | none => none
            | some (procs4, e2) => some (procs4, TRY_STATEMENT c2 t2 e2 rp1 rb1)
    | ALAP_STATEMENT b rp rb sr =>
      match getStatementType fuel procs b false 0 false with
      | none => none
      | some (type, procs1, b1) =>
        let rb1 := if type = RECORD_CHANGES then true else rb
        let rp1 := if type = COPY then some restore_point else rp
        let loop_restore_point := if type = COPY then increment restore_point else restore_point
        match annotate fuel procs1 b1 loop_restore_point with
        | none => none
        | some (procs2, b2) => some (procs2, ALAP_STATEMENT b2 rp1 rb1 sr)
    | PROGRAM_OR l r =>
      match annotate fuel procs l restore_point with
      | none => none
      | some (procs1, l1) =>
        match annotate fuel procs1 r restore_point with
        | none => none
        | some (procs2, r1) => some (procs2, PROGRAM_OR l1 r1)
    | SKIP_STATEMENT => some (procs, SKIP_STATEMENT)
    | FAIL_STATEMENT => some (procs, FAIL_STATEMENT)
    | BREAK_STATEMENT => some (procs, BREAK_STATEMENT)
    | UNKNOWN k => some (procs, UNKNOWN k)
/-- The loop of the `COMMAND_SEQUENCE` case of `annotate`: every command of the list is annotated
with the same restore point, each one with the procedures as its predecessors left them. -/
def annotateCommands : Nat → Procedures → List GPStatement → Int →
    Option (Procedures × List GPStatement)
  | 0, _, _, _ => none
  | _ + 1, procs, [], _ => some (procs, [])
  | fuel + 1, procs, c :: next, restore_point =>
    match annotate fuel procs c restore_point with
    | none => none
    | some (procs1, c1) =>
      match annotateCommands fuel procs1 next restore_point with
      | none => none
      | some (procs2, next1) => some (procs2, c1 :: next1)
end

end Shared

/-- Modelled from the spec: the declaration node type `GPDeclaration` of `ast.h` (not part of
the sources at hand), with the fields `staticAnalysis` reads: the main command of a
`MAIN_DECLARATION` and the local declarations of the procedure of a `PROCEDURE_DECLARATION`.
The declaration of a procedure points to its `GPProcedure` by name; the command tree of the
procedure is the one held in the procedures, shared with the calls.  `UNKNOWN_DECLARATION`
stands for a `decl_type` outside the three known tags. -/
inductive GPDeclaration
  | MAIN_DECLARATION (main_program : GPStatement)
  | PROCEDURE_DECLARATION (procedure : String) (local_decls : List GPDeclaration)
  | RULE_DECLARATION (rule : String)
  | UNKNOWN_DECLARATION (decl_type : Nat)
  deriving Repr

open GPDeclaration

mutual
/-- Embedding of the loop of `staticAnalysis` (`analysis.c`, lines 5-30) over shared
procedures; the first argument is the recursion bound handed to `annotate`.  The debug block
is embedded by `debugFileName`. -/
def staticAnalysis : Nat → Procedures → List GPDeclaration →
    Option (Procedures × List GPDeclaration)
  | _, procs, [] => some (procs, [])
  | fuel, procs, decl :: next =>
    match staticAnalysisDeclaration fuel procs decl with
    | none => none
    | some (procs1, decl1) =>
      match staticAnalysis fuel procs1 next with
      | none => none
      | some (procs2, next1) => some (procs2, decl1 :: next1)
/-- The body of the loop of `staticAnalysis`: the `switch` on `decl->decl_type`. -/
def staticAnalysisDeclaration : Nat → Procedures → GPDeclaration →
    Option (Procedures × GPDeclaration)
  | fuel, procs, MAIN_DECLARATION main_program =>
    match Shared.annotate fuel procs main_program 0 with
    | none => none
    | some (procs1, main1) => some (procs1, MAIN_DECLARATION main1)
  | fuel, procs, PROCEDURE_DECLARATION procedure local_decls =>
    match staticAnalysis fuel procs local_decls with
    | none => none
    | some (procs1, local1) => some (procs1, PROCEDURE_DECLARATION procedure local1)
  | _, procs, RULE_DECLARATION rule => some (procs, RULE_DECLARATION rule)
  | _, procs, UNKNOWN_DECLARATION k => some (procs, UNKNOWN_DECLARATION k)
end

/-- The procedures with all annotation fields reset: what is left of them is their names and
the shape of their command trees. -/
def eraseProcedures (procs : Procedures) : Procedures :=
  procs.map (fun entry => (entry.1, erase entry.2))

/-- A command that can be traversed within nesting depth `depth`: no null pointer, no empty
command list, every call has its procedure, and the commands nested in it, the bodies of the
procedures it calls included, are again such commands within depth `depth - 1`.  A procedure
that calls itself, directly or through other procedures, has no such depth. -/
def closed : Nat → Procedures → GPStatement → Bool
  | 0, _, _ => false
  | depth + 1, procs, statement =>
    match statement with
    | NULL => false
    | COMMAND_SEQUENCE commands => !commands.isEmpty && commands.all (closed depth procs)
    | RULE_CALL _ => true
    | RULE_SET_CALL _ => true
    | PROCEDURE_CALL name _ =>
      match commandsOf procs name with
      | none => false
      | some body => closed depth procs body
    | IF_STATEMENT c t e _ _ => closed depth procs c && closed depth procs t && closed depth procs e
    | TRY_STATEMENT c t e _ _ =>
      closed depth procs c && closed depth procs t && closed depth procs e
    | ALAP_STATEMENT b _ _ _ => closed depth procs b
    | PROGRAM_OR l r => closed depth procs l && closed depth procs r
    | SKIP_STATEMENT => true
    | FAIL_STATEMENT => true
    | BREAK_STATEMENT => true
    | UNKNOWN _ => true

/-- The names of the procedures reached from a command by procedure calls, through the bodies
of the procedures called, down to nesting depth `depth`. -/
def reached : Nat → Procedures → GPStatement → List String
  | 0, _, _ => []
  | depth + 1, procs, statement =>
    match statement with
    | NULL => []
    | COMMAND_SEQUENCE commands => commands.flatMap (reached depth procs)
    | RULE_CALL _ => []
    | RULE_SET_CALL _ => []
    | PROCEDURE_CALL name _ =>
      name ::
        (match commandsOf procs name with
         | none => []
         | some body => reached depth procs body)
    | IF_STATEMENT c t e _ _ =>
      reached depth procs c ++ (reached depth procs t ++ reached depth procs e)
    | TRY_STATEMENT c t e _ _ =>
      reached depth procs c ++ (reached depth procs t ++ reached depth procs e)
    | ALAP_STATEMENT b _ _ _ => reached depth procs b
    | PROGRAM_OR l r => reached depth procs l ++ reached depth procs r
    | SKIP_STATEMENT => []
    | FAIL_STATEMENT => []
    | BREAK_STATEMENT => []
    | UNKNOWN _ => []

mutual
/-- The nodes of a command tree itself, in pre-order: a call node is a leaf, the nodes of the
called procedure belong to the procedure. -/
def ownNodes : GPStatement → List GPStatement
  | NULL => [NULL]
  | COMMAND_SEQUENCE commands => COMMAND_SEQUENCE commands :: ownNodesList commands
  | RULE_CALL n => [RULE_CALL n]
  | RULE_SET_CALL ns => [RULE_SET_CALL ns]
  | PROCEDURE_CALL n p => [PROCEDURE_CALL n p]
  | IF_STATEMENT c t e rp rb =>
    IF_STATEMENT c t e rp rb :: (ownNodes c ++ (ownNodes t ++ ownNodes e))
  | TRY_STATEMENT c t e rp rb =>
    TRY_STATEMENT c t e rp rb :: (ownNodes c ++ (ownNodes t ++ ownNodes e))
  | ALAP_STATEMENT b rp rb sr => ALAP_STATEMENT b rp rb sr :: ownNodes b
  | PROGRAM_OR l r => PROGRAM_OR l r :: (ownNodes l ++ ownNodes r)
  | SKIP_STATEMENT => [SKIP_STATEMENT]
  | FAIL_STATEMENT => [FAIL_STATEMENT]
  | BREAK_STATEMENT => [BREAK_STATEMENT]
  | UNKNOWN k => [UNKNOWN k]
/-- The nodes of the commands of a list. -/
def ownNodesList : List GPStatement → List GPStatement
  | [] => []
  | c :: next => ownNodes c ++ ownNodesList next
end

mutual
/-- The root-to-leaf paths of a command tree itself (a call node is a leaf), each given by the
restore points written on its nodes, read from the root downwards, with the edge by which the
path leaves each of these nodes. -/
def ownPaths : GPStatement → List (List (Int × Bool))
  | NULL => [[]]
  | COMMAND_SEQUENCE commands =>
    match commands with
    | [] => [[]]
    | c :: next => ownPathsList (c :: next)
  | RULE_CALL _ => [[]]
  | RULE_SET_CALL _ => [[]]
  | PROCEDURE_CALL _ _ => [[]]
  | IF_STATEMENT c t e rp _ =>
    (ownPaths c).map (pathEntry rp true) ++
      ((ownPaths t).map (pathEntry rp false) ++ (ownPaths e).map (pathEntry rp false))
  | TRY_STATEMENT c t e rp _ =>
    (ownPaths c).map (pathEntry rp true) ++
      ((ownPaths t).map (pathEntry rp false) ++ (ownPaths e).map (pathEntry rp false))
  | ALAP_STATEMENT b rp _ _ => (ownPaths b).map (pathEntry rp true)
  | PROGRAM_OR l r => ownPaths l ++ ownPaths r
  | SKIP_STATEMENT => [[]]
  | FAIL_STATEMENT => [[]]
  | BREAK_STATEMENT => [[]]
  | UNKNOWN _ => [[]]
/-- The root-to-leaf paths through the commands of a list. -/
def ownPathsList : List GPStatement → List (List (Int × Bool))
  | [] => []
  | c :: next => ownPaths c ++ ownPathsList next
end

mutual
/-- No node of the command tree itself has a restore point written or `roll_back` set (call
nodes are leaves; the `stop_recording` fields are free). -/
def ownUnwritten : GPStatement → Bool
  | NULL => true
  | COMMAND_SEQUENCE commands => ownUnwrittenList commands
  | RULE_CALL _ => true
  | RULE_SET_CALL _ => true
  | PROCEDURE_CALL _ _ => true
  | IF_STATEMENT c t e rp rb =>
    rp.isNone && !rb && ownUnwritten c && ownUnwritten t && ownUnwritten e
  | TRY_STATEMENT c t e rp rb =>
    rp.isNone && !rb && ownUnwritten c && ownUnwritten t && ownUnwritten e
  | ALAP_STATEMENT b rp rb _ => rp.isNone && !rb && ownUnwritten b
  | PROGRAM_OR l r => ownUnwritten l && ownUnwritten r
  | SKIP_STATEMENT => true
  | FAIL_STATEMENT => true
  | BREAK_STATEMENT => true
  | UNKNOWN _ => true
/-- No command of the list has a restore point written or `roll_back` set. -/
def ownUnwrittenList : List GPStatement → Bool
  | [] => true
  | c :: next => ownUnwritten c && ownUnwrittenList next
end

/-- The restore points on a path below a node annotated with `rp` follow the copy depth in C
`int` arithmetic: the first one is `rp`, and the next one is counted from `increment rp` when
the path goes on into the condition or loop body and from `rp` when it goes on into a
branch. -/
def intChain : Int → List (Int × Bool) → Prop
  | _, [] => True
  | rp, (r, inner) :: path =>
    r = rp ∧ intChain (if inner = true then increment rp else rp) path

/-- Agreement of the fields of an `IF`, `TRY` or `ALAP` node with the classification of its
condition or body over the given procedures: some run of `getStatementType` on the condition
(`IF`: `if_body = true`; `TRY`: `if_body = false`) or body (`ALAP`: `if_body = false`) under
`com_seq = 0`, `last_command = false` returns a strategy with which the fields agree. -/
def sharedAgreement (procs : Procedures) : GPStatement → Prop
  | IF_STATEMENT c _ _ rp rb =>
    ∃ fuel r, Shared.getStatementType fuel procs c true 0 false = some r ∧
      fieldsAgree (some r.1) rp rb
  | TRY_STATEMENT c _ _ rp rb =>
    ∃ fuel r, Shared.getStatementType fuel procs c false 0 false = some r ∧
      fieldsAgree (some r.1) rp rb
  | ALAP_STATEMENT b rp rb _ =>
    ∃ fuel r, Shared.getStatementType fuel procs b false 0 false = some r ∧
      fieldsAgree (some r.1) rp rb
  | _ => True

mutual
/-- The declaration list holds no main declaration, at any depth of local declarations. -/
def noMain : List GPDeclaration → Bool
  | [] => true
  | decl :: next => noMainDeclaration decl && noMain next
/-- The declaration is not a main declaration and holds none in its local declarations. -/
def noMainDeclaration : GPDeclaration → Bool
  | MAIN_DECLARATION _ => false
  | PROCEDURE_DECLARATION _ local_decls => noMain local_decls
  | RULE_DECLARATION _ => true
  | UNKNOWN_DECLARATION _ => true
end

mutual
/-- Every main command of the declaration list, at any depth of local declarations, can be
traversed within nesting depth `depth`. -/
def closedDeclarations : Nat → Procedures → List GPDeclaration → Bool
  | _, _, [] => true
  | depth, procs, decl :: next =>
    closedDeclaration depth procs decl && closedDeclarations depth procs next
/-- The main command of a main declaration, and every main command in the local declarations
of a procedure declaration, can be traversed within nesting depth `depth`. -/
def closedDeclaration : Nat → Procedures → GPDeclaration → Bool
  | depth, procs, MAIN_DECLARATION main_program => closed depth procs main_program
  | depth, procs, PROCEDURE_DECLARATION _ local_decls => closedDeclarations depth procs local_decls
  | _, _, RULE_DECLARATION _ => true
  | _, _, UNKNOWN_DECLARATION _ => true
end

mutual
/-- The names of the procedures reached by procedure calls from the main commands of the
declaration list, at any depth of local declarations. -/
def reachedDeclarations : Nat → Procedures → List GPDeclaration → List String
  | _, _, [] => []
  | depth, procs, decl :: next =>
    reachedDeclaration depth procs decl ++ reachedDeclarations depth procs next
/-- The names of the procedures reached from the main commands of one declaration. -/
def reachedDeclaration : Nat → Procedures → GPDeclaration → List String
  | depth, procs, MAIN_DECLARATION main_program => reached depth procs main_program
  | depth, procs, PROCEDURE_DECLARATION _ local_decls =>
    reachedDeclarations depth procs local_decls
  | _, _, RULE_DECLARATION _ => []
  | _, _, UNKNOWN_DECLARATION _ => []
end


/-- The condition of an `IF` (`if_body = true`) or `TRY` (`if_body = false`) node, or the body
of an `ALAP` node (`if_body = false`), is classified `COPY` by the call of `getStatementType`
that `annotate` makes on it, under `com_seq = 0` and `last_command = false`. -/
def copyClassified (procs : Procedures) (c : GPStatement) (if_body : Bool) : Prop :=
  ∃ fuel r, Shared.getStatementType fuel procs c if_body 0 false = some r ∧ r.1 = COPY

mutual
/-- Every `COPY`-classified `IF`, `TRY` or `ALAP` node of the command tree itself (call nodes
are leaves) that has no `COPY`-classified ancestor in the command tree holds the restore
point `rp`. -/
def entryRestorePoint (procs : Procedures) (rp : Int) : GPStatement → Prop
  | NULL => True
  | COMMAND_SEQUENCE commands => entryRestorePointList procs rp commands
  | RULE_CALL _ => True
  | RULE_SET_CALL _ => True
  | PROCEDURE_CALL _ _ => True
  | IF_STATEMENT c t e r _ =>
    (copyClassified procs c true → r = some rp) ∧
      (¬ copyClassified procs c true →
        entryRestorePoint procs rp c ∧ entryRestorePoint procs rp t ∧
          entryRestorePoint procs rp e)
  | TRY_STATEMENT c t e r _ =>
    (copyClassified procs c false → r = some rp) ∧
      (¬ copyClassified procs c false →
        entryRestorePoint procs rp c ∧ entryRestorePoint procs rp t ∧
          entryRestorePoint procs rp e)
  | ALAP_STATEMENT b r _ _ =>
    (copyClassified procs b false → r = some rp) ∧
      (¬ copyClassified procs b false → entryRestorePoint procs rp b)
  | PROGRAM_OR l r => entryRestorePoint procs rp l ∧ entryRestorePoint procs rp r
  | SKIP_STATEMENT => True
  | FAIL_STATEMENT => True
  | BREAK_STATEMENT => True
  | UNKNOWN _ => True
/-- The property `entryRestorePoint` for every command of a list. -/
def entryRestorePointList (procs : Procedures) (rp : Int) : List GPStatement → Prop
  | [] => True
  | c :: next => entryRestorePoint procs rp c ∧ entryRestorePointList procs rp next
end

mutual
/-- The restore points on the `COPY`-classified `IF`, `TRY` and `ALAP` nodes of the command tree
itself (call nodes are leaves) are counted from `rp`: such a node holds the restore point at
which it is reached, and the count goes on with one C `int` increment into its condition or
loop body and unchanged into its branches and below every other node. -/
def copyDepth (procs : Procedures) : Int → GPStatement → Prop
  | _, NULL => True
  | rp, COMMAND_SEQUENCE commands => copyDepthList procs rp commands
  | _, RULE_CALL _ => True
  | _, RULE_SET_CALL _ => True
  | _, PROCEDURE_CALL _ _ => True
  | rp, IF_STATEMENT c t e r _ =>
    (copyClassified procs c true → r = some rp ∧ copyDepth procs (increment rp) c) ∧
      (¬ copyClassified procs c true → copyDepth procs rp c) ∧
      copyDepth procs rp t ∧ copyDepth procs rp e
  | rp, TRY_STATEMENT c t e r _ =>
    (copyClassified procs c false → r = some rp ∧ copyDepth procs (increment rp) c) ∧
      (¬ copyClassified procs c false → copyDepth procs rp c) ∧
      copyDepth procs rp t ∧ copyDepth procs rp e
  | rp, ALAP_STATEMENT b r _ _ =>
    (copyClassified procs b false → r = some rp ∧ copyDepth procs (increment rp) b) ∧
      (¬ copyClassified procs b false → copyDepth procs rp b)
  | rp, PROGRAM_OR l r => copyDepth procs rp l ∧ copyDepth procs rp r
  | _, SKIP_STATEMENT => True
  | _, FAIL_STATEMENT => True
  | _, BREAK_STATEMENT => True
  | _, UNKNOWN _ => True
/-- The property `copyDepth` for every command of a list. -/
def copyDepthList (procs : Procedures) : Int → List GPStatement → Prop
  | _, [] => True
  | rp, c :: next => copyDepth procs rp c ∧ copyDepthList procs rp next
end

/-! ### Totality of the classifier on well-formed trees -/

mutual
theorem getStatementType_total : ∀ (s : GPStatement) (ib : Bool) (cs : Int) (l : Bool),
    wellFormed s = true → ∃ t s1, getStatementType s ib cs l = some (t, s1)
  | NULL, _, _, _, h => by simp [wellFormed] at h
  | COMMAND_SEQUENCE [], _, _, _, h => by simp [wellFormed] at h
  | COMMAND_SEQUENCE [c], ib, cs, l, h => by
    simp [wellFormed, wellFormedList] at h
    obtain ⟨t, c1, hc⟩ := getStatementType_total c ib cs true h
    exact ⟨t, COMMAND_SEQUENCE [c1], by simp [getStatementType, hc]⟩
  | COMMAND_SEQUENCE (c :: d :: r), ib, cs, l, h => by
    simp only [wellFormed, List.isEmpty_cons, Bool.not_false, Bool.true_and] at h
    obtain ⟨t, cs1, hc⟩ := getSequenceType_total (c :: d :: r) ib cs h
    exact ⟨t, COMMAND_SEQUENCE cs1, by simp only [getStatementType, hc]⟩
  | RULE_CALL n, _, _, _, _ => ⟨_, _, by rw [getStatementType]⟩
  | RULE_SET_CALL n, _, _, _, _ => ⟨_, _, by rw [getStatementType]⟩
  | PROCEDURE_CALL n p, ib, cs, l, h => by
    simp only [wellFormed] at h
    obtain ⟨t, p1, hp⟩ := getStatementType_total p ib cs l h
    exact ⟨t, PROCEDURE_CALL n p1, by simp only [getStatementType, hp]⟩
  | IF_STATEMENT c th e rp rb, ib, cs, l, h => by
    simp only [wellFormed, Bool.and_eq_true] at h
    obtain ⟨t1, c1, h1⟩ := getStatementType_total c ib cs l h.1.1
    obtain ⟨t2, c2, h2⟩ := getStatementType_total th ib cs l h.1.2
    obtain ⟨t3, c3, h3⟩ := getStatementType_total e ib cs l h.2
    exact ⟨_, _, by simp only [getStatementType, h1, h2, h3]; rfl⟩
  | TRY_STATEMENT c th e rp rb, ib, cs, l, h => by
    simp only [wellFormed, Bool.and_eq_true] at h
    obtain ⟨t1, c1, h1⟩ := getStatementType_total c ib cs l h.1.1
    obtain ⟨t2, c2, h2⟩ := getStatementType_total th ib cs l h.1.2
    obtain ⟨t3, c3, h3⟩ := getStatementType_total e ib cs l h.2
    exact ⟨_, _, by simp only [getStatementType, h1, h2, h3]; rfl⟩
  | ALAP_STATEMENT b rp rb sr, ib, cs, l, _ => by
    simp only [getStatementType]
    split_ifs <;> exact ⟨_, _, rfl⟩
  | PROGRAM_OR a b, ib, cs, l, h => by
    simp only [wellFormed, Bool.and_eq_true] at h
    obtain ⟨t1, c1, h1⟩ := getStatementType_total a ib cs l h.1
    obtain ⟨t2, c2, h2⟩ := getStatementType_total b ib cs l h.2
    exact ⟨_, _, by simp only [getStatementType, h1, h2]; rfl⟩
  | SKIP_STATEMENT, _, _, _, _ => ⟨_, _, by rw [getStatementType]⟩
  | FAIL_STATEMENT, _, _, _, _ => ⟨_, _, by rw [getStatementType]⟩
  | BREAK_STATEMENT, _, _, _, _ => ⟨_, _, by rw [getStatementType]⟩
  | UNKNOWN k, _, _, _, _ => ⟨_, _, by rw [getStatementType]⟩
theorem getSequenceType_total : ∀ (cmds : List GPStatement) (ib : Bool) (cs : Int),
    wellFormedList cmds = true → ∃ t cmds1, getSequenceType cmds ib cs = some (t, cmds1)
  | [], _, _, _ => ⟨_, _, by rw [getSequenceType]⟩
  | c :: next, ib, cs, h => by
    simp only [wellFormedList, Bool.and_eq_true] at h
    obtain ⟨t1, c1, h1⟩ := getStatementType_total c ib
      (if cs = 0 ∨ (cs = 1 ∧ next.isEmpty) then 1 else 2) next.isEmpty h.1
    obtain ⟨t2, n2, h2⟩ := getSequenceType_total next ib cs h.2
    simp only [getSequenceType, h1, h2]
    split_ifs <;> exact ⟨_, _, rfl⟩
end

theorem wellFormedList_iff (cmds : List GPStatement) :
    wellFormedList cmds = true ↔ ∀ c ∈ cmds, wellFormed c = true := by
  induction cmds with
  | nil => simp [wellFormedList]
  | cons c next ih => simp [wellFormedList, ih]

theorem classify_total (s : GPStatement) (ib : Bool) (cs : Int) (l : Bool)
    (h : wellFormed s = true) : ∃ t, classify s ib cs l = some t := by
  obtain ⟨t, s1, hs⟩ := getStatementType_total s ib cs l h
  exact ⟨t, by simp [classify, hs]⟩

theorem toNat_max (a b : copyType) :
    (if a.toNat > b.toNat then a else b) = max a b := by
  cases a <;> cases b <;> rfl

/-! ### Unfolding of `annotate` -/

theorem annotate_IF_eq (c t e : GPStatement) (rpf : Option Int) (rb : Bool) (rp : Int) :
    annotate (IF_STATEMENT c t e rpf rb) rp =
      match getStatementType c true 0 false with
      | none => none
      | some (type, c1) =>
        match annotate c1 (if type = COPY then rp + 1 else rp) with
        | none => none
        | some c2 =>
          match annotate t rp with
          | none => none
          | some t2 =>
            match annotate e rp with
            | none => none
            | some e2 =>
              some (IF_STATEMENT c2 t2 e2 (if type = COPY then some rp else rpf)
                (if type = RECORD_CHANGES then true else rb)) := by
  rw [annotate]
  split <;> simp_all

theorem annotate_TRY_eq (c t e : GPStatement) (rpf : Option Int) (rb : Bool) (rp : Int) :
    annotate (TRY_STATEMENT c t e rpf rb) rp =
      match getStatementType c false 0 false with
      | none => none
      | some (type, c1) =>
        match annotate c1 (if type = COPY then rp + 1 else rp) with
        | none => none
        | some c2 =>
          match annotate t rp with
          | none => none
          | some t2 =>
            match annotate e rp with
            | none => none
            | some e2 =>
              some (TRY_STATEMENT c2 t2 e2 (if type = COPY then some rp else rpf)
                (if type = RECORD_CHANGES then true else rb)) := by
  rw [annotate]
  split <;> simp_all

theorem annotate_ALAP_eq (b : GPStatement) (rpf : Option Int) (rb sr : Bool) (rp : Int) :
    annotate (ALAP_STATEMENT b rpf rb sr) rp =
      match getStatementType b false 0 false with
      | none => none
      | some (type, b1) =>
        match annotate b1 (if type = COPY then rp + 1 else rp) with
        | none => none
        | some b2 =>
          some (ALAP_STATEMENT b2 (if type = COPY then some rp else rpf)
            (if type = RECORD_CHANGES then true else rb) sr) := by
  rw [annotate]
  split <;> simp_all

/-! ### Classification inside an `if` condition writes nothing -/

mutual
theorem getStatementType_if_body : ∀ (s : GPStatement) (cs : Int) (l : Bool)
    (t : copyType) (s1 : GPStatement),
    getStatementType s true cs l = some (t, s1) → s1 = s
  | NULL, _, _, _, _, h => by simp [getStatementType] at h
  | COMMAND_SEQUENCE [], _, _, _, _, h => by simp [getStatementType] at h
  | COMMAND_SEQUENCE [c], cs, l, t, s1, h => by
    simp only [getStatementType] at h
    split at h
    · simp at h
    · rename_i t1 c1 h1
      have := getStatementType_if_body c _ _ _ _ h1
      simp at h
      rw [← h.2, this]
  | COMMAND_SEQUENCE (c :: d :: r), cs, l, t, s1, h => by
    simp only [getStatementType] at h
    split at h
    · simp at h
    · rename_i t1 c1 h1
      have := getSequenceType_if_body (c :: d :: r) _ _ _ h1
      simp at h
      rw [← h.2, this]
  | RULE_CALL n, _, _, _, _, h => by
    simp [getStatementType] at h; rw [← h.2]
  | RULE_SET_CALL n, _, _, _, _, h => by
    simp [getStatementType] at h; rw [← h.2]
  | PROCEDURE_CALL n b, cs, l, t, s1, h => by
    simp only [getStatementType] at h
    split at h
    · simp at h
    · rename_i t1 c1 h1
      have := getStatementType_if_body b _ _ _ _ h1
      simp at h
      rw [← h.2, this]
  | IF_STATEMENT c th e rp rb, cs, l, t, s1, h => by
    simp only [getStatementType] at h
    split at h
    · simp at h
    · rename_i t1 c1 h1
      split at h
      · simp at h
      · rename_i t2 c2 h2
        split at h
        · simp at h
        · rename_i t3 c3 h3
          have e1 := getStatementType_if_body c _ _ _ _ h1
          have e2 := getStatementType_if_body th _ _ _ _ h2
          have e3 := getStatementType_if_body e _ _ _ _ h3
          simp at h
          rw [← h.2, e1, e2, e3]
  | TRY_STATEMENT c th e rp rb, cs, l, t, s1, h => by
    simp only [getStatementType] at h
    split at h
    · simp at h
    · rename_i t1 c1 h1
      split at h
      · simp at h
      · rename_i t2 c2 h2
        split at h
        · simp at h
        · rename_i t3 c3 h3
          have e1 := getStatementType_if_body c _ _ _ _ h1
          have e2 := getStatementType_if_body th _ _ _ _ h2
          have e3 := getStatementType_if_body e _ _ _ _ h3
          simp at h
          rw [← h.2, e1, e2, e3]
  | ALAP_STATEMENT b rp rb sr, cs, l, t, s1, h => by
    simp [getStatementType] at h
    rw [← h.2]
  | PROGRAM_OR a b, cs, l, t, s1, h => by
    simp only [getStatementType] at h
    split at h
    · simp at h
    · rename_i t1 c1 h1
      split at h
      · simp at h
      · rename_i t2 c2 h2
        have e1 := getStatementType_if_body a _ _ _ _ h1
        have e2 := getStatementType_if_body b _ _ _ _ h2
        simp at h
        rw [← h.2, e1, e2]
  | SKIP_STATEMENT, _, _, _, _, h => by
    simp [getStatementType] at h; rw [← h.2]
  | FAIL_STATEMENT, _, _, _, _, h => by
    simp [getStatementType] at h; rw [← h.2]
  | BREAK_STATEMENT, _, _, _, _, h => by
    simp [getStatementType] at h; rw [← h.2]
  | UNKNOWN k, _, _, _, _, h => by
    simp [getStatementType] at h; rw [← h.2]
theorem getSequenceType_if_body : ∀ (cmds : List GPStatement) (cs : Int)
    (t : copyType) (cmds1 : List GPStatement),
    getSequenceType cmds true cs = some (t, cmds1) → cmds1 = cmds
  | [], _, _, _, h => by simp [getSequenceType] at h; rw [← h.2]
  | c :: next, cs, t, cmds1, h => by
    simp only [getSequenceType] at h
    split at h
    · simp at h
    · rename_i t1 c1 h1
      have e1 := getStatementType_if_body c _ _ _ _ h1
      split_ifs at h
      · simp at h; rw [← h.2, e1]
      · split at h
        · simp at h
        · rename_i t2 n2 h2
          have e2 := getSequenceType_if_body next _ _ _ h2
          simp at h; rw [← h.2, e1, e2]
end

theorem getStatementType_of_classify_if_body {s : GPStatement} {cs : Int} {l : Bool}
    {t : copyType} (h : classify s true cs l = some t) :
    getStatementType s true cs l = some (t, s) := by
  unfold classify at h
  cases hs : getStatementType s true cs l with
  | none => simp [hs] at h
  | some r =>
    obtain ⟨t1, s1⟩ := r
    have := getStatementType_if_body s cs l t1 s1 hs
    simp [hs] at h
    rw [this, h]

/-! ### Equations for the returned strategy -/

theorem classify_SEQ_nil (ib : Bool) (cs : Int) (l : Bool) :
    classify (COMMAND_SEQUENCE []) ib cs l = none := by
  simp [classify, getStatementType]

theorem classify_SEQ_single (c : GPStatement) (ib : Bool) (cs : Int) (l : Bool) :
    classify (COMMAND_SEQUENCE [c]) ib cs l = classify c ib cs true := by
  simp only [classify, getStatementType]
  cases getStatementType c ib cs true <;> rfl

theorem classify_SEQ_cons (c d : GPStatement) (r : List GPStatement) (ib : Bool) (cs : Int)
    (l : Bool) :
    classify (COMMAND_SEQUENCE (c :: d :: r)) ib cs l = classifySequence (c :: d :: r) ib cs := by
  simp only [classify, classifySequence, getStatementType]
  cases getSequenceType (c :: d :: r) ib cs <;> rfl

theorem classifySequence_nil (ib : Bool) (cs : Int) :
    classifySequence [] ib cs = some RECORD_CHANGES := by
  simp [classifySequence, getSequenceType]

theorem classifySequence_cons (c : GPStatement) (next : List GPStatement) (ib : Bool)
    (cs : Int) :
    classifySequence (c :: next) ib cs =
      (classify c ib (if cs = 0 ∨ (cs = 1 ∧ next.isEmpty) then 1 else 2) next.isEmpty).bind
        (fun t => if t = COPY then some COPY else classifySequence next ib cs) := by
  simp only [classify, classifySequence, getSequenceType]
  cases getStatementType c ib (if cs = 0 ∨ (cs = 1 ∧ next.isEmpty) then 1 else 2)
      next.isEmpty with
  | none => rfl
  | some r1 =>
    by_cases h : r1.1 = COPY
    · simp [h]
    · simp only [h, if_false, Option.map_some', Option.some_bind]
      cases getSequenceType next ib cs <;> rfl

theorem classify_CALL (n : String) (p : GPStatement) (ib : Bool) (cs : Int) (l : Bool) :
    classify (PROCEDURE_CALL n p) ib cs l = classify p ib cs l := by
  simp only [classify, getStatementType]
  cases getStatementType p ib cs l <;> rfl

theorem classify_IF (c t e : GPStatement) (rp : Option Int) (rb : Bool) (ib : Bool) (cs : Int)
    (l : Bool) :
    classify (IF_STATEMENT c t e rp rb) ib cs l =
      (classify c ib cs l).bind fun tc => (classify t ib cs l).bind fun tt =>
        (classify e ib cs l).bind fun te =>
          some (if tc = COPY ∨ tt = COPY ∨ te = COPY then COPY else RECORD_CHANGES) := by
  simp only [classify, getStatementType]
  cases getStatementType c ib cs l with
  | none => rfl
  | some r1 =>
    cases getStatementType t ib cs l with
    | none => rfl
    | some r2 => cases getStatementType e ib cs l <;> rfl

theorem classify_TRY (c t e : GPStatement) (rp : Option Int) (rb : Bool) (ib : Bool) (cs : Int)
    (l : Bool) :
    classify (TRY_STATEMENT c t e rp rb) ib cs l =
      (classify c ib cs l).bind fun tc => (classify t ib cs l).bind fun tt =>
        (classify e ib cs l).bind fun te =>
          some (if tc = COPY ∨ tt = COPY ∨ te = COPY then COPY else RECORD_CHANGES) := by
  simp only [classify, getStatementType]
  cases getStatementType c ib cs l with
  | none => rfl
  | some r1 =>
    cases getStatementType t ib cs l with
    | none => rfl
    | some r2 => cases getStatementType e ib cs l <;> rfl

theorem classify_ALAP (b : GPStatement) (rp : Option Int) (rb sr : Bool) (ib : Bool)
    (cs : Int) (l : Bool) :
    classify (ALAP_STATEMENT b rp rb sr) ib cs l =
      some (if ib = true then COPY
            else if cs = 2 ∨ (cs = 1 ∧ l = false) then COPY
            else NO_COPY) := by
  simp only [classify, getStatementType]
  cases ib <;> cases l <;> by_cases h2 : cs = 2 <;> by_cases h1 : cs = 1 <;> simp [h1, h2]

theorem classify_OR (a b : GPStatement) (ib : Bool) (cs : Int) (l : Bool) :
    classify (PROGRAM_OR a b) ib cs l =
      (classify a ib cs l).bind fun ta => (classify b ib cs l).bind fun tb =>
        some (max ta tb) := by
  simp only [classify, getStatementType, toNat_max]
  cases getStatementType a ib cs l with
  | none => rfl
  | some r1 => cases getStatementType b ib cs l <;> rfl

theorem isEmpty_eraseList (cmds : List GPStatement) :
    (eraseList cmds).isEmpty = cmds.isEmpty := by
  cases cmds <;> rfl

mutual
theorem classify_erase : ∀ (s : GPStatement) (ib : Bool) (cs : Int) (l : Bool),
    classify (erase s) ib cs l = classify s ib cs l
  | NULL, _, _, _ => rfl
  | COMMAND_SEQUENCE [], _, _, _ => rfl
  | COMMAND_SEQUENCE [c], ib, cs, l => by
    simp only [erase, eraseList, classify_SEQ_single, classify_erase c]
  | COMMAND_SEQUENCE (c :: d :: r), ib, cs, l => by
    have h := classifySequence_erase (c :: d :: r) ib cs
    simp only [eraseList] at h
    simp only [erase, eraseList, classify_SEQ_cons, h]
  | RULE_CALL _, _, _, _ => rfl
  | RULE_SET_CALL _, _, _, _ => rfl
  | PROCEDURE_CALL n p, ib, cs, l => by
    simp only [erase, classify_CALL, classify_erase p]
  | IF_STATEMENT c t e _ _, ib, cs, l => by
    simp only [erase, classify_IF, classify_erase c, classify_erase t, classify_erase e]
  | TRY_STATEMENT c t e _ _, ib, cs, l => by
    simp only [erase, classify_TRY, classify_erase c, classify_erase t, classify_erase e]
  | ALAP_STATEMENT b _ _ _, ib, cs, l => by
    simp only [erase, classify_ALAP]
  | PROGRAM_OR a b, ib, cs, l => by
    simp only [erase, classify_OR, classify_erase a, classify_erase b]
  | SKIP_STATEMENT, _, _, _ => rfl
  | FAIL_STATEMENT, _, _, _ => rfl
  | BREAK_STATEMENT, _, _, _ => rfl
  | UNKNOWN _, _, _, _ => rfl
theorem classifySequence_erase : ∀ (cmds : List GPStatement) (ib : Bool) (cs : Int),
    classifySequence (eraseList cmds) ib cs = classifySequence cmds ib cs
  | [], _, _ => rfl
  | c :: next, ib, cs => by
    simp only [eraseList, classifySequence_cons, isEmpty_eraseList, classify_erase c,
      classifySequence_erase next]
end

/-- Trees that differ in annotation fields only are classified alike. -/
theorem classify_congr_erase {s s1 : GPStatement} (h : erase s1 = erase s) (ib : Bool)
    (cs : Int) (l : Bool) : classify s1 ib cs l = classify s ib cs l := by
  rw [← classify_erase s1, h, classify_erase]

/-! ### Induction over the successful runs of `annotate` -/

theorem size_pos (s : GPStatement) : 0 < s.size := by
  cases s <;> simp only [GPStatement.size] <;> omega

/-- Induction principle for the runs of `annotate` and of its loop over a command list that
produce a result: `P s rp s1` is established for every run `annotate s rp = some s1` from the
same facts about the recursive calls the source makes. -/
theorem annotate_induction
    {P : GPStatement → Int → GPStatement → Prop}
    {Q : List GPStatement → Int → List GPStatement → Prop}
    (hseq : ∀ cmds rp cmds1, annotateCommands cmds rp = some cmds1 → Q cmds rp cmds1 →
      P (COMMAND_SEQUENCE cmds) rp (COMMAND_SEQUENCE cmds1))
    (hrule : ∀ n rp, P (RULE_CALL n) rp (RULE_CALL n))
    (hset : ∀ ns rp, P (RULE_SET_CALL ns) rp (RULE_SET_CALL ns))
    (hcall : ∀ n p rp p1, annotate p rp = some p1 → P p rp p1 →
      P (PROCEDURE_CALL n p) rp (PROCEDURE_CALL n p1))
    (hif : ∀ c t e rpf rb rp ty c1 c2 t2 e2,
      getStatementType c true 0 false = some (ty, c1) →
      annotate c1 (if ty = COPY then rp + 1 else rp) = some c2 →
      annotate t rp = some t2 → annotate e rp = some e2 →
      P c1 (if ty = COPY then rp + 1 else rp) c2 → P t rp t2 → P e rp e2 →
      P (IF_STATEMENT c t e rpf rb) rp
        (IF_STATEMENT c2 t2 e2 (if ty = COPY then some rp else rpf)
          (if ty = RECORD_CHANGES then true else rb)))
    (htry : ∀ c t e rpf rb rp ty c1 c2 t2 e2,
      getStatementType c false 0 false = some (ty, c1) →
      annotate c1 (if ty = COPY then rp + 1 else rp) = some c2 →
      annotate t rp = some t2 → annotate e rp = some e2 →
      P c1 (if ty = COPY then rp + 1 else rp) c2 → P t rp t2 → P e rp e2 →
      P (TRY_STATEMENT c t e rpf rb) rp
        (TRY_STATEMENT c2 t2 e2 (if ty = COPY then some rp else rpf)
          (if ty = RECORD_CHANGES then true else rb)))
    (halap : ∀ b rpf rb sr rp ty b1 b2,
      getStatementType b false 0 false = some (ty, b1) →
      annotate b1 (if ty = COPY then rp + 1 else rp) = some b2 →
      P b1 (if ty = COPY then rp + 1 else rp) b2 →
      P (ALAP_STATEMENT b rpf rb sr) rp
        (ALAP_STATEMENT b2 (if ty = COPY then some rp else rpf)
          (if ty = RECORD_CHANGES then true else rb) sr))
    (hor : ∀ l r rp l1 r1, annotate l rp = some l1 → annotate r rp = some r1 →
      P l rp l1 → P r rp r1 → P (PROGRAM_OR l r) rp (PROGRAM_OR l1 r1))
    (hskip : ∀ rp, P SKIP_STATEMENT rp SKIP_STATEMENT)
    (hfail : ∀ rp, P FAIL_STATEMENT rp FAIL_STATEMENT)
    (hbreak : ∀ rp, P BREAK_STATEMENT rp BREAK_STATEMENT)
    (hunknown : ∀ k rp, P (UNKNOWN k) rp (UNKNOWN k))
    (hnil : ∀ rp, Q [] rp [])
    (hcons : ∀ c next rp c1 next1, annotate c rp = some c1 →
      annotateCommands next rp = some next1 → P c rp c1 → Q next rp next1 →
      Q (c :: next) rp (c1 :: next1)) :
    (∀ s rp s1, annotate s rp = some s1 → P s rp s1) ∧
    (∀ cmds rp cmds1, annotateCommands cmds rp = some cmds1 → Q cmds rp cmds1) := by
  have main : ∀ n : Nat,
      (∀ s, s.size ≤ n → ∀ rp s1, annotate s rp = some s1 → P s rp s1) ∧
      (∀ cmds, sizeList cmds ≤ n → ∀ rp cmds1,
        annotateCommands cmds rp = some cmds1 → Q cmds rp cmds1) := by
    intro n
    induction n with
    | zero =>
      refine ⟨fun s hs => ?_, fun cmds hc rp cmds1 h => ?_⟩
      · have := size_pos s
        omega
      · cases cmds with
        | nil =>
          simp only [annotateCommands, Option.some.injEq] at h
          subst h
          exact hnil rp
        | cons c next =>
          simp only [sizeList] at hc
          omega
    | succ n ih =>
      obtain ⟨ihS, ihL⟩ := ih
      refine ⟨fun s hs rp s1 h => ?_, fun cmds hc rp cmds1 h => ?_⟩
      · cases s with
        | NULL => simp [annotate] at h
        | COMMAND_SEQUENCE cmds =>
          simp only [GPStatement.size] at hs
          rw [annotate] at h
          cases hl : annotateCommands cmds rp with
          | none => simp [hl] at h
          | some cmds1 =>
            simp only [hl, Option.some.injEq] at h
            subst h
            exact hseq _ _ _ hl (ihL cmds (by omega) rp cmds1 hl)
        | RULE_CALL n =>
          simp only [annotate, Option.some.injEq] at h
          subst h
          exact hrule _ _
        | RULE_SET_CALL ns =>
          simp only [annotate, Option.some.injEq] at h
          subst h
          exact hset _ _
        | PROCEDURE_CALL n p =>
          simp only [GPStatement.size] at hs
          rw [annotate] at h
          cases hp : annotate p rp with
          | none => simp [hp] at h
          | some p1 =>
            simp only [hp, Option.some.injEq] at h
            subst h
            exact hcall _ _ _ _ hp (ihS p (by omega) rp p1 hp)
        | IF_STATEMENT c t e rpf rb =>
          simp only [GPStatement.size] at hs
          rw [annotate_IF_eq] at h
          cases hc : getStatementType c true 0 false with
          | none => simp [hc] at h
          | some r =>
            obtain ⟨ty, c1⟩ := r
            have hsz := getStatementType_size hc
            simp only [hc] at h
            cases h1 : annotate c1 (if ty = COPY then rp + 1 else rp) with
            | none => simp [h1] at h
            | some c2 =>
              cases h2 : annotate t rp with
              | none => simp [h1, h2] at h
              | some t2 =>
                cases h3 : annotate e rp with
                | none => simp [h1, h2, h3] at h
                | some e2 =>
                  simp only [h1, h2, h3, Option.some.injEq] at h
                  subst h
                  exact hif _ _ _ _ _ _ _ _ _ _ _ hc h1 h2 h3
                    (ihS c1 (by omega) _ _ h1) (ihS t (by omega) _ _ h2)
                    (ihS e (by omega) _ _ h3)
        | TRY_STATEMENT c t e rpf rb =>
          simp only [GPStatement.size] at hs
          rw [annotate_TRY_eq] at h
          cases hc : getStatementType c false 0 false with
          | none => simp [hc] at h
          | some r =>
            obtain ⟨ty, c1⟩ := r
            have hsz := getStatementType_size hc
            simp only [hc] at h
            cases h1 : annotate c1 (if ty = COPY then rp + 1 else rp) with
            | none => simp [h1] at h
            | some c2 =>
              cases h2 : annotate t rp with
              | none => simp [h1, h2] at h
              | some t2 =>
                cases h3 : annotate e rp with
                | none => simp [h1, h2, h3] at h
                | some e2 =>
                  simp only [h1, h2, h3, Option.some.injEq] at h
                  subst h
                  exact htry _ _ _ _ _ _ _ _ _ _ _ hc h1 h2 h3
                    (ihS c1 (by omega) _ _ h1) (ihS t (by omega) _ _ h2)
                    (ihS e (by omega) _ _ h3)
        | ALAP_STATEMENT b rpf rb sr =>
          simp only [GPStatement.size] at hs
          rw [annotate_ALAP_eq] at h
          cases hc : getStatementType b false 0 false with
          | none => simp [hc] at h
          | some r =>
            obtain ⟨ty, b1⟩ := r
            have hsz := getStatementType_size hc
            simp only [hc] at h
            cases h1 : annotate b1 (if ty = COPY then rp + 1 else rp) with
            | none => simp [h1] at h
            | some b2 =>
              simp only [h1, Option.some.injEq] at h
              subst h
              exact halap _ _ _ _ _ _ _ _ hc h1 (ihS b1 (by omega) _ _ h1)
        | PROGRAM_OR l r =>
          simp only [GPStatement.size] at hs
          rw [annotate] at h
          cases h1 : annotate l rp with
          | none => simp [h1] at h
          | some l1 =>
            cases h2 : annotate r rp with
            | none => simp [h1, h2] at h
            | some r1 =>
              simp only [h1, h2, Option.some.injEq] at h
              subst h
              exact hor _ _ _ _ _ h1 h2 (ihS l (by omega) _ _ h1) (ihS r (by omega) _ _ h2)
        | SKIP_STATEMENT =>
          simp only [annotate, Option.some.injEq] at h
          subst h
          exact hskip _
        | FAIL_STATEMENT =>
          simp only [annotate, Option.some.injEq] at h
          subst h
          exact hfail _
        | BREAK_STATEMENT =>
          simp only [annotate, Option.some.injEq] at h
          subst h
          exact hbreak _
        | UNKNOWN k =>
          simp only [annotate, Option.some.injEq] at h
          subst h
          exact hunknown _ _
      · cases cmds with
        | nil =>
          simp only [annotateCommands, Option.some.injEq] at h
          subst h
          exact hnil rp
        | cons c next =>
          simp only [sizeList] at hc
          rw [annotateCommands] at h
          cases h1 : annotate c rp with
          | none => simp [h1] at h
          | some c1 =>
            cases h2 : annotateCommands next rp with
            | none => simp [h1, h2] at h
            | some next1 =>
              simp only [h1, h2, Option.some.injEq] at h
              subst h
              exact hcons _ _ _ _ _ h1 h2 (ihS c (by omega) _ _ h1)
                (ihL next (by omega) _ _ h2)
  exact ⟨fun s rp s1 h => (main s.size).1 s (Nat.le_refl _) rp s1 h,
    fun cmds rp cmds1 h => (main (sizeList cmds)).2 cmds (Nat.le_refl _) rp cmds1 h⟩

/-- The annotator keeps the shape of the tree: it changes annotation fields only. -/
theorem annotate_erase {s : GPStatement} {rp : Int} {s1 : GPStatement}
    (h : annotate s rp = some s1) : erase s1 = erase s := by
  refine (annotate_induction
    (P := fun s _ s1 => erase s1 = erase s)
    (Q := fun cmds _ cmds1 => eraseList cmds1 = eraseList cmds)
    ?_ ?_ ?_ ?_ ?_ ?_ ?_ ?_ ?_ ?_ ?_ ?_ ?_ ?_).1 s rp s1 h
  · intro cmds rp cmds1 _ hq; simp only [erase, hq]
  · intro n rp; rfl
  · intro ns rp; rfl
  · intro n p rp p1 _ hp; simp only [erase, hp]
  · intro c t e rpf rb rp ty c1 c2 t2 e2 hc _ _ _ p1 p2 p3
    simp only [erase, p1, p2, p3, getStatementType_erase _ _ _ _ _ _ hc]
  · intro c t e rpf rb rp ty c1 c2 t2 e2 hc _ _ _ p1 p2 p3
    simp only [erase, p1, p2, p3, getStatementType_erase _ _ _ _ _ _ hc]
  · intro b rpf rb sr rp ty b1 b2 hc _ p1
    simp only [erase, p1, getStatementType_erase _ _ _ _ _ _ hc]
  · intro l r rp l1 r1 _ _ p1 p2; simp only [erase, p1, p2]
  · intro rp; rfl
  · intro rp; rfl
  · intro rp; rfl
  · intro k rp; rfl
  · intro rp; rfl
  · intro c next rp c1 next1 _ _ p q; simp only [eraseList, p, q]

/-! ### The classifier writes neither `restore_point` nor `roll_back` -/

mutual
theorem getStatementType_unwritten : ∀ (s : GPStatement) (ib : Bool) (cs : Int) (l : Bool)
    (t : copyType) (s1 : GPStatement),
    getStatementType s ib cs l = some (t, s1) → unwritten s1 = unwritten s
  | NULL, _, _, _, _, _, h => by simp [getStatementType] at h
  | COMMAND_SEQUENCE [], _, _, _, _, _, h => by simp [getStatementType] at h
  | COMMAND_SEQUENCE [c], ib, cs, l, t, s1, h => by
    simp only [getStatementType] at h
    split at h
    · simp at h
    · rename_i t1 c1 h1
      have := getStatementType_unwritten c _ _ _ _ _ h1
      simp at h
      rw [← h.2]
      simp [unwritten, unwrittenList, this]
  | COMMAND_SEQUENCE (c :: d :: r), ib, cs, l, t, s1, h => by
    simp only [getStatementType] at h
    split at h
    · simp at h
    · rename_i t1 c1 h1
      have := getSequenceType_unwritten (c :: d :: r) _ _ _ _ h1
      simp at h
      rw [← h.2]
      simp [unwritten, this]
  | RULE_CALL n, _, _, _, _, _, h => by
    simp [getStatementType] at h; rw [← h.2]
  | RULE_SET_CALL n, _, _, _, _, _, h => by
    simp [getStatementType] at h; rw [← h.2]
  | PROCEDURE_CALL n b, ib, cs, l, t, s1, h => by
    simp only [getStatementType] at h
    split at h
    · simp at h
    · rename_i t1 c1 h1
      have := getStatementType_unwritten b _ _ _ _ _ h1
      simp at h
      rw [← h.2]
      simp [unwritten, this]
  | IF_STATEMENT c th e rp rb, ib, cs, l, t, s1, h => by
    simp only [getStatementType] at h
    split at h
    · simp at h
    · rename_i t1 c1 h1
      split at h
      · simp at h
      · rename_i t2 c2 h2
        split at h
        · simp at h
        · rename_i t3 c3 h3
          have := getStatementType_unwritten c _ _ _ _ _ h1
          have := getStatementType_unwritten th _ _ _ _ _ h2
          have := getStatementType_unwritten e _ _ _ _ _ h3
          simp at h
          rw [← h.2]
          simp [unwritten, *]
  | TRY_STATEMENT c th e rp rb, ib, cs, l, t, s1, h => by
    simp only [getStatementType] at h
    split at h
    · simp at h
    · rename_i t1 c1 h1
      split at h
      · simp at h
      · rename_i t2 c2 h2
        split at h
        · simp at h
        · rename_i t3 c3 h3
          have := getStatementType_unwritten c _ _ _ _ _ h1
          have := getStatementType_unwritten th _ _ _ _ _ h2
          have := getStatementType_unwritten e _ _ _ _ _ h3
          simp at h
          rw [← h.2]
          simp [unwritten, *]
  | ALAP_STATEMENT b rp rb sr, ib, cs, l, t, s1, h => by
    simp only [getStatementType] at h
    split_ifs at h <;> simp at h <;> rw [← h.2] <;> simp [unwritten]
  | PROGRAM_OR a b, ib, cs, l, t, s1, h => by
    simp only [getStatementType] at h
    split at h
    · simp at h
    · rename_i t1 c1 h1
      split at h
      · simp at h
      · rename_i t2 c2 h2
        have := getStatementType_unwritten a _ _ _ _ _ h1
        have := getStatementType_unwritten b _ _ _ _ _ h2
        simp at h
        rw [← h.2]
        simp [unwritten, *]
  | SKIP_STATEMENT, _, _, _, _, _, h => by
    simp [getStatementType] at h; rw [← h.2]
  | FAIL_STATEMENT, _, _, _, _, _, h => by
    simp [getStatementType] at h; rw [← h.2]
  | BREAK_STATEMENT, _, _, _, _, _, h => by
    simp [getStatementType] at h; rw [← h.2]
  | UNKNOWN k, _, _, _, _, _, h => by
    simp [getStatementType] at h; rw [← h.2]
theorem getSequenceType_unwritten : ∀ (cmds : List GPStatement) (ib : Bool) (cs : Int)
    (t : copyType) (cmds1 : List GPStatement),
    getSequenceType cmds ib cs = some (t, cmds1) → unwrittenList cmds1 = unwrittenList cmds
  | [], _, _, _, _, h => by simp [getSequenceType] at h; rw [← h.2]
  | c :: next, ib, cs, t, cmds1, h => by
    simp only [getSequenceType] at h
    split at h
    · simp at h
    · rename_i t1 c1 h1
      have := getStatementType_unwritten c _ _ _ _ _ h1
      split_ifs at h
      · simp at h; rw [← h.2]; simp [unwrittenList, this]
      · split at h
        · simp at h
        · rename_i t2 n2 h2
          have := getSequenceType_unwritten next _ _ _ _ h2
          simp at h; rw [← h.2]; simp [unwrittenList, *]
end

mutual
theorem unwritten_of_defaultFields : ∀ s : GPStatement, defaultFields s = true → unwritten s = true
  | NULL, _ => rfl
  | COMMAND_SEQUENCE cs, h => by
    simp only [defaultFields] at h
    simp only [unwritten, unwrittenList_of_defaultFieldsList cs h]
  | RULE_CALL _, _ => rfl
  | RULE_SET_CALL _, _ => rfl
  | PROCEDURE_CALL _ p, h => by
    simp only [defaultFields] at h
    simp only [unwritten, unwritten_of_defaultFields p h]
  | IF_STATEMENT c t e _ _, h => by
    simp only [defaultFields, Bool.and_eq_true] at h
    simp only [unwritten, Bool.and_eq_true]
    exact ⟨⟨⟨h.1.1.1, unwritten_of_defaultFields c h.1.1.2⟩,
      unwritten_of_defaultFields t h.1.2⟩, unwritten_of_defaultFields e h.2⟩
  | TRY_STATEMENT c t e _ _, h => by
    simp only [defaultFields, Bool.and_eq_true] at h
    simp only [unwritten, Bool.and_eq_true]
    exact ⟨⟨⟨h.1.1.1, unwritten_of_defaultFields c h.1.1.2⟩,
      unwritten_of_defaultFields t h.1.2⟩, unwritten_of_defaultFields e h.2⟩
  | ALAP_STATEMENT b _ _ _, h => by
    simp only [defaultFields, Bool.and_eq_true] at h
    simp only [unwritten, Bool.and_eq_true]
    exact ⟨h.1.1, unwritten_of_defaultFields b h.2⟩
  | PROGRAM_OR l r, h => by
    simp only [defaultFields, Bool.and_eq_true] at h
    simp only [unwritten, Bool.and_eq_true]
    exact ⟨unwritten_of_defaultFields l h.1, unwritten_of_defaultFields r h.2⟩
  | SKIP_STATEMENT, _ => rfl
  | FAIL_STATEMENT, _ => rfl
  | BREAK_STATEMENT, _ => rfl
  | UNKNOWN _, _ => rfl
theorem unwrittenList_of_defaultFieldsList : ∀ cs : List GPStatement,
    defaultFieldsList cs = true → unwrittenList cs = true
  | [], _ => rfl
  | c :: next, h => by
    simp only [defaultFieldsList, Bool.and_eq_true] at h
    simp only [unwrittenList, Bool.and_eq_true]
    exact ⟨unwritten_of_defaultFields c h.1, unwrittenList_of_defaultFieldsList next h.2⟩
end

/-- The fields written by the `IF`, `TRY` and `ALAP` cases of `annotate` on a node whose
fields were unwritten agree with the classification result. -/
theorem fieldsAgree_written (ty : copyType) (rp : Int) :
    fieldsAgree (some ty) (if ty = COPY then some rp else none)
      (if ty = RECORD_CHANGES then true else false) := by
  refine ⟨ty, rfl, ?_⟩
  cases ty <;> simp

/-- Agreement holds at every node of the result of a run of `annotate` that starts from a tree
without written restore points and without `roll_back` flags. -/
theorem agreement_of_unwritten {s : GPStatement} {rp : Int} {s1 : GPStatement}
    (h : annotate s rp = some s1) (hu : unwritten s = true) :
    ∀ n ∈ nodes s1, agreement n := by
  refine (annotate_induction
    (P := fun s _ s1 => unwritten s = true → ∀ n ∈ nodes s1, agreement n)
    (Q := fun cmds _ cmds1 => unwrittenList cmds = true → ∀ n ∈ nodesList cmds1, agreement n)
    ?_ ?_ ?_ ?_ ?_ ?_ ?_ ?_ ?_ ?_ ?_ ?_ ?_ ?_).1 s rp s1 h hu
  · intro cmds rp cmds1 _ hq hu n hn
    simp only [nodes, List.mem_cons] at hn
    rcases hn with rfl | hn
    · trivial
    · exact hq (by simpa only [unwritten] using hu) n hn
  · intro n rp _ m hm
    simp only [nodes, List.mem_singleton] at hm
    subst hm; trivial
  · intro ns rp _ m hm
    simp only [nodes, List.mem_singleton] at hm
    subst hm; trivial
  · intro n p rp p1 _ hp hu m hm
    simp only [nodes, List.mem_cons] at hm
    rcases hm with rfl | hm
    · trivial
    · exact hp (by simpa only [unwritten] using hu) m hm
  · intro c t e rpf rb rp ty c1 c2 t2 e2 hc h1 _ _ p1 p2 p3 hu m hm
    simp only [unwritten, Bool.and_eq_true, Option.isNone_iff_eq_none,
      Bool.not_eq_true'] at hu
    obtain ⟨⟨⟨⟨hrp, hrb⟩, huc⟩, hut⟩, hue⟩ := hu
    subst hrp; subst hrb
    simp only [nodes, List.mem_cons, List.mem_append] at hm
    rcases hm with rfl | hm | hm | hm
    · have hcl : classify c2 true 0 false = some ty := by
        rw [classify_congr_erase (annotate_erase h1),
          classify_congr_erase (getStatementType_erase _ _ _ _ _ _ hc)]
        simp [classify, hc]
      simp only [agreement, hcl]
      exact fieldsAgree_written ty rp
    · exact p1 (by rw [getStatementType_unwritten _ _ _ _ _ _ hc]; exact huc) m hm
    · exact p2 hut m hm
    · exact p3 hue m hm
  · intro c t e rpf rb rp ty c1 c2 t2 e2 hc h1 _ _ p1 p2 p3 hu m hm
    simp only [unwritten, Bool.and_eq_true, Option.isNone_iff_eq_none,
      Bool.not_eq_true'] at hu
    obtain ⟨⟨⟨⟨hrp, hrb⟩, huc⟩, hut⟩, hue⟩ := hu
    subst hrp; subst hrb
    simp only [nodes, List.mem_cons, List.mem_append] at hm
    rcases hm with rfl | hm | hm | hm
    · have hcl : classify c2 false 0 false = some ty := by
        rw [classify_congr_erase (annotate_erase h1),
          classify_congr_erase (getStatementType_erase _ _ _ _ _ _ hc)]
        simp [classify, hc]
      simp only [agreement, hcl]
      exact fieldsAgree_written ty rp
    · exact p1 (by rw [getStatementType_unwritten _ _ _ _ _ _ hc]; exact huc) m hm
    · exact p2 hut m hm
    · exact p3 hue m hm
  · intro b rpf rb sr rp ty b1 b2 hc h1 p1 hu m hm
    simp only [unwritten, Bool.and_eq_true, Option.isNone_iff_eq_none,
      Bool.not_eq_true'] at hu
    obtain ⟨⟨hrp, hrb⟩, hub⟩ := hu
    subst hrp; subst hrb
    simp only [nodes, List.mem_cons] at hm
    rcases hm with rfl | hm
    · have hcl : classify b2 false 0 false = some ty := by
        rw [classify_congr_erase (annotate_erase h1),
          classify_congr_erase (getStatementType_erase _ _ _ _ _ _ hc)]
        simp [classify, hc]
      simp only [agreement, hcl]
      exact fieldsAgree_written ty rp
    · exact p1 (by rw [getStatementType_unwritten _ _ _ _ _ _ hc]; exact hub) m hm
  · intro l r rp l1 r1 _ _ p1 p2 hu m hm
    simp only [unwritten, Bool.and_eq_true] at hu
    simp only [nodes, List.mem_cons, List.mem_append] at hm
    rcases hm with rfl | hm | hm
    · trivial
    · exact p1 hu.1 m hm
    · exact p2 hu.2 m hm
  · intro rp _ m hm
    simp only [nodes, List.mem_singleton] at hm
    subst hm; trivial
  · intro rp _ m hm
    simp only [nodes, List.mem_singleton] at hm
    subst hm; trivial
  · intro rp _ m hm
    simp only [nodes, List.mem_singleton] at hm
    subst hm; trivial
  · intro k rp _ m hm
    simp only [nodes, List.mem_singleton] at hm
    subst hm; trivial
  · intro rp _ m hm
    simp [nodesList] at hm
  · intro c next rp c1 next1 _ _ p q hu m hm
    simp only [unwrittenList, Bool.and_eq_true] at hu
    simp only [nodesList, List.mem_append] at hm
    rcases hm with hm | hm
    · exact p hu.1 m hm
    · exact q hu.2 m hm

/-! ### Totality of the annotator on well-formed trees -/

mutual
theorem wellFormed_erase : ∀ s : GPStatement, wellFormed (erase s) = wellFormed s
  | NULL => rfl
  | COMMAND_SEQUENCE cs => by
    simp only [erase, wellFormed, isEmpty_eraseList, wellFormedList_erase cs]
  | RULE_CALL _ => rfl
  | RULE_SET_CALL _ => rfl
  | PROCEDURE_CALL _ p => by simp only [erase, wellFormed, wellFormed_erase p]
  | IF_STATEMENT c t e _ _ => by
    simp only [erase, wellFormed, wellFormed_erase c, wellFormed_erase t, wellFormed_erase e]
  | TRY_STATEMENT c t e _ _ => by
    simp only [erase, wellFormed, wellFormed_erase c, wellFormed_erase t, wellFormed_erase e]
  | ALAP_STATEMENT b _ _ _ => by simp only [erase, wellFormed, wellFormed_erase b]
  | PROGRAM_OR l r => by simp only [erase, wellFormed, wellFormed_erase l, wellFormed_erase r]
  | SKIP_STATEMENT => rfl
  | FAIL_STATEMENT => rfl
  | BREAK_STATEMENT => rfl
  | UNKNOWN _ => rfl
theorem wellFormedList_erase : ∀ cs : List GPStatement,
    wellFormedList (eraseList cs) = wellFormedList cs
  | [] => rfl
  | c :: next => by
    simp only [eraseList, wellFormedList, wellFormed_erase c, wellFormedList_erase next]
end

theorem getStatementType_wellFormed {s : GPStatement} {ib : Bool} {cs : Int} {l : Bool}
    {t : copyType} {s1 : GPStatement} (h : getStatementType s ib cs l = some (t, s1)) :
    wellFormed s1 = wellFormed s := by
  rw [← wellFormed_erase s1, getStatementType_erase s ib cs l t s1 h, wellFormed_erase]

/-- On a tree without null pointers and empty command lists `annotate` produces a result. -/
theorem annotate_total (s : GPStatement) (rp : Int) (hwf : wellFormed s = true) :
    ∃ s1, annotate s rp = some s1 := by
  have main : ∀ n : Nat,
      (∀ s, s.size ≤ n → wellFormed s = true → ∀ rp, ∃ s1, annotate s rp = some s1) ∧
      (∀ cmds, sizeList cmds ≤ n → wellFormedList cmds = true →
        ∀ rp, ∃ cmds1, annotateCommands cmds rp = some cmds1) := by
    intro n
    induction n with
    | zero =>
      refine ⟨fun s hs => ?_, fun cmds hc _ rp => ?_⟩
      · have := size_pos s
        omega
      · cases cmds with
        | nil => exact ⟨[], by rw [annotateCommands]⟩
        | cons c next =>
          simp only [sizeList] at hc
          omega
    | succ n ih =>
      obtain ⟨ihS, ihL⟩ := ih
      refine ⟨fun s hs hwf rp => ?_, fun cmds hc hwf rp => ?_⟩
      · cases s with
        | NULL => simp [wellFormed] at hwf
        | COMMAND_SEQUENCE cmds =>
          simp only [GPStatement.size] at hs
          simp only [wellFormed, Bool.and_eq_true] at hwf
          obtain ⟨cmds1, h1⟩ := ihL cmds (by omega) hwf.2 rp
          exact ⟨COMMAND_SEQUENCE cmds1, by rw [annotate]; simp only [h1]⟩
        | RULE_CALL n => exact ⟨_, by rw [annotate]⟩
        | RULE_SET_CALL ns => exact ⟨_, by rw [annotate]⟩
        | PROCEDURE_CALL n p =>
          simp only [GPStatement.size] at hs
          simp only [wellFormed] at hwf
          obtain ⟨p1, h1⟩ := ihS p (by omega) hwf rp
          exact ⟨PROCEDURE_CALL n p1, by rw [annotate]; simp only [h1]⟩
        | IF_STATEMENT c t e rpf rb =>
          simp only [GPStatement.size] at hs
          simp only [wellFormed, Bool.and_eq_true] at hwf
          obtain ⟨ty, c1, hc⟩ := getStatementType_total c true 0 false hwf.1.1
          have hsz := getStatementType_size hc
          obtain ⟨c2, h1⟩ := ihS c1 (by omega)
            (by rw [getStatementType_wellFormed hc]; exact hwf.1.1)
            (if ty = COPY then rp + 1 else rp)
          obtain ⟨t2, h2⟩ := ihS t (by omega) hwf.1.2 rp
          obtain ⟨e2, h3⟩ := ihS e (by omega) hwf.2 rp
          exact ⟨_, by rw [annotate_IF_eq]; simp only [hc, h1, h2, h3]; rfl⟩
        | TRY_STATEMENT c t e rpf rb =>
          simp only [GPStatement.size] at hs
          simp only [wellFormed, Bool.and_eq_true] at hwf
          obtain ⟨ty, c1, hc⟩ := getStatementType_total c false 0 false hwf.1.1
          have hsz := getStatementType_size hc
          obtain ⟨c2, h1⟩ := ihS c1 (by omega)
            (by rw [getStatementType_wellFormed hc]; exact hwf.1.1)
            (if ty = COPY then rp + 1 else rp)
          obtain ⟨t2, h2⟩ := ihS t (by omega) hwf.1.2 rp
          obtain ⟨e2, h3⟩ := ihS e (by omega) hwf.2 rp
          exact ⟨_, by rw [annotate_TRY_eq]; simp only [hc, h1, h2, h3]; rfl⟩
        | ALAP_STATEMENT b rpf rb sr =>
          simp only [GPStatement.size] at hs
          simp only [wellFormed] at hwf
          obtain ⟨ty, b1, hc⟩ := getStatementType_total b false 0 false hwf
          have hsz := getStatementType_size hc
          obtain ⟨b2, h1⟩ := ihS b1 (by omega)
            (by rw [getStatementType_wellFormed hc]; exact hwf)
            (if ty = COPY then rp + 1 else rp)
          exact ⟨_, by rw [annotate_ALAP_eq]; simp only [hc, h1]; rfl⟩
        | PROGRAM_OR l r =>
          simp only [GPStatement.size] at hs
          simp only [wellFormed, Bool.and_eq_true] at hwf
          obtain ⟨l1, h1⟩ := ihS l (by omega) hwf.1 rp
          obtain ⟨r1, h2⟩ := ihS r (by omega) hwf.2 rp
          exact ⟨PROGRAM_OR l1 r1, by rw [annotate]; simp only [h1, h2]⟩
        | SKIP_STATEMENT => exact ⟨_, by rw [annotate]⟩
        | FAIL_STATEMENT => exact ⟨_, by rw [annotate]⟩
        | BREAK_STATEMENT => exact ⟨_, by rw [annotate]⟩
        | UNKNOWN k => exact ⟨_, by rw [annotate]⟩
      · cases cmds with
        | nil => exact ⟨[], by rw [annotateCommands]⟩
        | cons c next =>
          simp only [sizeList] at hc
          simp only [wellFormedList, Bool.and_eq_true] at hwf
          obtain ⟨c1, h1⟩ := ihS c (by omega) hwf.1 rp
          obtain ⟨next1, h2⟩ := ihL next (by omega) hwf.2 rp
          exact ⟨c1 :: next1, by rw [annotateCommands]; simp only [h1, h2]⟩
  exact (main s.size).1 s (Nat.le_refl _) hwf rp

/-! ### The annotator on sequences, choices and trees without compound commands -/

theorem annotateCommands_iff (rp : Int) : ∀ (cmds cmds1 : List GPStatement),
    annotateCommands cmds rp = some cmds1 ↔
      List.Forall₂ (fun c c1 => annotate c rp = some c1) cmds cmds1
  | [], cmds1 => by
    rw [annotateCommands]
    constructor
    · intro h
      simp only [Option.some.injEq] at h
      subst h
      exact List.Forall₂.nil
    · intro h
      cases h
      rfl
  | c :: next, cmds1 => by
    rw [annotateCommands]
    constructor
    · intro h
      cases h1 : annotate c rp with
      | none => simp [h1] at h
      | some c1 =>
        cases h2 : annotateCommands next rp with
        | none => simp [h1, h2] at h
        | some next1 =>
          simp only [h1, h2, Option.some.injEq] at h
          subst h
          exact List.Forall₂.cons h1 ((annotateCommands_iff rp next next1).1 h2)
    · intro h
      cases h with
      | cons h1 h2 =>
        rw [h1, (annotateCommands_iff rp next _).2 h2]

theorem annotate_SEQ_iff (cmds : List GPStatement) (rp : Int) (s1 : GPStatement) :
    annotate (COMMAND_SEQUENCE cmds) rp = some s1 ↔
      ∃ cmds1, s1 = COMMAND_SEQUENCE cmds1 ∧ annotateCommands cmds rp = some cmds1 := by
  rw [annotate]
  cases h : annotateCommands cmds rp with
  | none => simp
  | some cmds1 =>
    simp only [Option.some.injEq]
    constructor
    · intro e
      exact ⟨cmds1, e.symm, rfl⟩
    · rintro ⟨c2, e, h2⟩
      rw [e, h2]

theorem annotate_OR_iff (l r : GPStatement) (rp : Int) (s1 : GPStatement) :
    annotate (PROGRAM_OR l r) rp = some s1 ↔
      ∃ l1 r1, s1 = PROGRAM_OR l1 r1 ∧ annotate l rp = some l1 ∧ annotate r rp = some r1 := by
  rw [annotate]
  cases h1 : annotate l rp with
  | none => simp
  | some l1 =>
    cases h2 : annotate r rp with
    | none => simp
    | some r1 =>
      simp only [Option.some.injEq]
      constructor
      · intro e
        exact ⟨l1, r1, e.symm, rfl, rfl⟩
      · rintro ⟨l2, r2, e, e1, e2⟩
        rw [e, e1, e2]

theorem annotate_CALL_eq (n : String) (p : GPStatement) (rp : Int) :
    annotate (PROCEDURE_CALL n p) rp = (annotate p rp).map (PROCEDURE_CALL n) := by
  rw [annotate]
  cases annotate p rp <;> rfl

/-- On a tree without `IF`, `TRY` and `ALAP` nodes a run of `annotate` returns the tree as it
was. -/
theorem annotate_noCompound {s : GPStatement} {rp : Int} {s1 : GPStatement}
    (h : annotate s rp = some s1) (hn : noCompound s = true) : s1 = s := by
  refine (annotate_induction
    (P := fun s _ s1 => noCompound s = true → s1 = s)
    (Q := fun cmds _ cmds1 => noCompoundList cmds = true → cmds1 = cmds)
    ?_ ?_ ?_ ?_ ?_ ?_ ?_ ?_ ?_ ?_ ?_ ?_ ?_ ?_).1 s rp s1 h hn
  · intro cmds rp cmds1 _ hq hn
    rw [hq (by simpa only [noCompound] using hn)]
  · intro n rp _; rfl
  · intro ns rp _; rfl
  · intro n p rp p1 _ hp hn
    rw [hp (by simpa only [noCompound] using hn)]
  · intro c t e rpf rb rp ty c1 c2 t2 e2 _ _ _ _ _ _ _ hn
    simp [noCompound] at hn
  · intro c t e rpf rb rp ty c1 c2 t2 e2 _ _ _ _ _ _ _ hn
    simp [noCompound] at hn
  · intro b rpf rb sr rp ty b1 b2 _ _ _ hn
    simp [noCompound] at hn
  · intro l r rp l1 r1 _ _ p1 p2 hn
    simp only [noCompound, Bool.and_eq_true] at hn
    rw [p1 hn.1, p2 hn.2]
  · intro rp _; rfl
  · intro rp _; rfl
  · intro rp _; rfl
  · intro k rp _; rfl
  · intro rp _; rfl
  · intro c next rp c1 next1 _ _ p q hn
    simp only [noCompoundList, Bool.and_eq_true] at hn
    rw [p hn.1, q hn.2]

/-! ### Equations for `getStatementType` and `getSequenceType` -/

theorem getStatementType_SEQ_single (c : GPStatement) (ib : Bool) (cs : Int) (l : Bool) :
    getStatementType (COMMAND_SEQUENCE [c]) ib cs l =
      (getStatementType c ib cs true).map (fun r => (r.1, COMMAND_SEQUENCE [r.2])) := by
  simp only [getStatementType]
  cases getStatementType c ib cs true <;> rfl

theorem getStatementType_SEQ_cons (c d : GPStatement) (r : List GPStatement) (ib : Bool)
    (cs : Int) (l : Bool) :
    getStatementType (COMMAND_SEQUENCE (c :: d :: r)) ib cs l =
      (getSequenceType (c :: d :: r) ib cs).map (fun x => (x.1, COMMAND_SEQUENCE x.2)) := by
  simp only [getStatementType]
  cases getSequenceType (c :: d :: r) ib cs <;> rfl

theorem getSequenceType_cons (c : GPStatement) (next : List GPStatement) (ib : Bool)
    (cs : Int) :
    getSequenceType (c :: next) ib cs =
      (getStatementType c ib (if cs = 0 ∨ (cs = 1 ∧ next.isEmpty) then 1 else 2)
          next.isEmpty).bind
        (fun rc => if rc.1 = COPY then some (COPY, rc.2 :: next)
          else (getSequenceType next ib cs).map (fun rn => (rn.1, rc.2 :: rn.2))) := by
  simp only [getSequenceType]
  cases getStatementType c ib (if cs = 0 ∨ (cs = 1 ∧ next.isEmpty) then 1 else 2)
      next.isEmpty with
  | none => rfl
  | some rc =>
    by_cases h : rc.1 = COPY
    · simp [h]
    · simp only [h, if_false, Option.some_bind]
      cases getSequenceType next ib cs <;> rfl

theorem getStatementType_CALL (n : String) (p : GPStatement) (ib : Bool) (cs : Int)
    (l : Bool) :
    getStatementType (PROCEDURE_CALL n p) ib cs l =
      (getStatementType p ib cs l).map (fun r => (r.1, PROCEDURE_CALL n r.2)) := by
  simp only [getStatementType]
  cases getStatementType p ib cs l <;> rfl

theorem getStatementType_IF (c t e : GPStatement) (rp : Option Int) (rb : Bool) (ib : Bool)
    (cs : Int) (l : Bool) :
    getStatementType (IF_STATEMENT c t e rp rb) ib cs l =
      (getStatementType c ib cs l).bind fun rc =>
        (getStatementType t ib cs l).bind fun rt =>
          (getStatementType e ib cs l).bind fun re =>
            some (if rc.1 = COPY ∨ rt.1 = COPY ∨ re.1 = COPY then COPY else RECORD_CHANGES,
              IF_STATEMENT rc.2 rt.2 re.2 rp rb) := by
  simp only [getStatementType]
  cases getStatementType c ib cs l with
  | none => rfl
  | some rc =>
    cases getStatementType t ib cs l with
    | none => rfl
    | some rt => cases getStatementType e ib cs l <;> rfl

theorem getStatementType_TRY (c t e : GPStatement) (rp : Option Int) (rb : Bool) (ib : Bool)
    (cs : Int) (l : Bool) :
    getStatementType (TRY_STATEMENT c t e rp rb) ib cs l =
      (getStatementType c ib cs l).bind fun rc =>
        (getStatementType t ib cs l).bind fun rt =>
          (getStatementType e ib cs l).bind fun re =>
            some (if rc.1 = COPY ∨ rt.1 = COPY ∨ re.1 = COPY then COPY else RECORD_CHANGES,
              TRY_STATEMENT rc.2 rt.2 re.2 rp rb) := by
  simp only [getStatementType]
  cases getStatementType c ib cs l with
  | none => rfl
  | some rc =>
    cases getStatementType t ib cs l with
    | none => rfl
    | some rt => cases getStatementType e ib cs l <;> rfl

theorem getStatementType_OR (a b : GPStatement) (ib : Bool) (cs : Int) (l : Bool) :
    getStatementType (PROGRAM_OR a b) ib cs l =
      (getStatementType a ib cs l).bind fun ra =>
        (getStatementType b ib cs l).bind fun rb =>
          some (max ra.1 rb.1, PROGRAM_OR ra.2 rb.2) := by
  simp only [getStatementType, toNat_max]
  cases getStatementType a ib cs l with
  | none => rfl
  | some ra => cases getStatementType b ib cs l <;> rfl

theorem getStatementType_ALAP (b : GPStatement) (rp : Option Int) (rb sr : Bool) (ib : Bool)
    (cs : Int) (l : Bool) :
    getStatementType (ALAP_STATEMENT b rp rb sr) ib cs l =
      some (if ib = true then COPY
            else if cs = 2 ∨ (cs = 1 ∧ l = false) then COPY
            else NO_COPY,
        ALAP_STATEMENT b rp rb (if ib = false ∧ cs = 1 ∧ l = true then true else sr)) := by
  simp only [getStatementType]
  cases ib <;> cases l <;> by_cases h2 : cs = 2 <;> by_cases h1 : cs = 1 <;> simp [h1, h2]

theorem classify_of_getStatementType {s : GPStatement} {ib : Bool} {cs : Int} {l : Bool}
    {t : copyType} {s1 : GPStatement} (h : getStatementType s ib cs l = some (t, s1)) :
    classify s ib cs l = some t := by
  simp [classify, h]

theorem isEmpty_of_getSequenceType {cmds : List GPStatement} {ib : Bool} {cs : Int}
    {t : copyType} {cmds1 : List GPStatement}
    (h : getSequenceType cmds ib cs = some (t, cmds1)) : cmds1.isEmpty = cmds.isEmpty := by
  rw [← isEmpty_eraseList cmds1, getSequenceType_erase cmds ib cs t cmds1 h, isEmpty_eraseList]

/-! ### Frame of the classifier -/

theorem zipWith_or_replicate_false : ∀ xs : List Bool,
    List.zipWith (fun a b => a || b) xs (List.replicate xs.length false) = xs
  | [] => rfl
  | x :: xs => by
    simp only [List.length_cons, List.replicate_succ, List.zipWith_cons_cons, Bool.or_false,
      zipWith_or_replicate_false xs]

mutual
theorem tailReached_length : ∀ (s : GPStatement) (ib : Bool) (cs : Int) (l : Bool),
    (tailReached s ib cs l).length = (loops s).length
  | NULL, _, _, _ => rfl
  | COMMAND_SEQUENCE [], _, _, _ => rfl
  | COMMAND_SEQUENCE [c], ib, cs, l => by
    simp only [tailReached, loops, loopsList, List.append_nil, tailReached_length c]
  | COMMAND_SEQUENCE (c :: d :: r), ib, cs, l => by
    simp only [tailReached, loops, tailReachedSequence_length (c :: d :: r)]
  | RULE_CALL _, _, _, _ => rfl
  | RULE_SET_CALL _, _, _, _ => rfl
  | PROCEDURE_CALL _ p, ib, cs, l => by
    simp only [tailReached, loops, tailReached_length p]
  | IF_STATEMENT c t e _ _, ib, cs, l => by
    simp only [tailReached, loops, List.length_append, tailReached_length c,
      tailReached_length t, tailReached_length e]
  | TRY_STATEMENT c t e _ _, ib, cs, l => by
    simp only [tailReached, loops, List.length_append, tailReached_length c,
      tailReached_length t, tailReached_length e]
  | ALAP_STATEMENT b _ _ _, ib, cs, l => by
    simp only [tailReached, loops, List.length_cons, List.length_replicate]
  | PROGRAM_OR a b, ib, cs, l => by
    simp only [tailReached, loops, List.length_append, tailReached_length a,
      tailReached_length b]
  | SKIP_STATEMENT, _, _, _ => rfl
  | FAIL_STATEMENT, _, _, _ => rfl
  | BREAK_STATEMENT, _, _, _ => rfl
  | UNKNOWN _, _, _, _ => rfl
theorem tailReachedSequence_length : ∀ (cmds : List GPStatement) (ib : Bool) (cs : Int),
    (tailReachedSequence cmds ib cs).length = (loopsList cmds).length
  | [], _, _ => rfl
  | c :: next, ib, cs => by
    simp only [tailReachedSequence, loopsList, List.length_append, tailReached_length c]
    split_ifs <;> simp only [List.length_replicate, tailReachedSequence_length next]
end

theorem stopFlags_eq_zipWith_append {a a1 b b1 : List Bool} {ra rb : List Bool}
    (hlen : a.length = ra.length)
    (ha : a1 = List.zipWith (fun x y => x || y) a ra)
    (hb : b1 = List.zipWith (fun x y => x || y) b rb) :
    a1 ++ b1 = List.zipWith (fun x y => x || y) (a ++ b) (ra ++ rb) := by
  rw [List.zipWith_append _ _ _ _ _ hlen, ha, hb]

mutual
theorem getStatementType_frame : ∀ (s : GPStatement) (ib : Bool) (cs : Int) (l : Bool)
    (t : copyType) (s1 : GPStatement),
    getStatementType s ib cs l = some (t, s1) →
      clearStop s1 = clearStop s ∧
      stopFlags s1 =
        List.zipWith (fun a b => a || b) (stopFlags s) (tailReached s ib cs l)
  | NULL, _, _, _, _, _, h => by simp [getStatementType] at h
  | COMMAND_SEQUENCE [], _, _, _, _, _, h => by simp [getStatementType] at h
  | COMMAND_SEQUENCE [c], ib, cs, l, t, s1, h => by
    rw [getStatementType_SEQ_single] at h
    simp only [Option.map_eq_some'] at h
    obtain ⟨rc, hc, h⟩ := h
    simp only [Prod.mk.injEq] at h
    obtain ⟨_, rfl⟩ := h
    have ih := getStatementType_frame c ib cs true rc.1 rc.2 hc
    simp only [stopFlags] at ih
    simp only [clearStop, clearStopList, ih.1, stopFlags, loops, loopsList, List.append_nil,
      tailReached, ih.2, and_self]
  | COMMAND_SEQUENCE (c :: d :: r), ib, cs, l, t, s1, h => by
    rw [getStatementType_SEQ_cons] at h
    simp only [Option.map_eq_some'] at h
    obtain ⟨rc, hc, h⟩ := h
    simp only [Prod.mk.injEq] at h
    obtain ⟨_, rfl⟩ := h
    have ih := getSequenceType_frame (c :: d :: r) ib cs rc.1 rc.2 hc
    simp only [stopFlagsList] at ih
    simp only [clearStop, ih.1, stopFlags, loops, tailReached, ih.2, and_self]
  | RULE_CALL n, _, _, _, _, _, h => by
    simp only [getStatementType, Option.some.injEq, Prod.mk.injEq] at h
    obtain ⟨_, rfl⟩ := h
    exact ⟨rfl, rfl⟩
  | RULE_SET_CALL n, _, _, _, _, _, h => by
    simp only [getStatementType, Option.some.injEq, Prod.mk.injEq] at h
    obtain ⟨_, rfl⟩ := h
    exact ⟨rfl, rfl⟩
  | PROCEDURE_CALL n p, ib, cs, l, t, s1, h => by
    rw [getStatementType_CALL] at h
    simp only [Option.map_eq_some'] at h
    obtain ⟨rc, hc, h⟩ := h
    simp only [Prod.mk.injEq] at h
    obtain ⟨_, rfl⟩ := h
    have ih := getStatementType_frame p ib cs l rc.1 rc.2 hc
    simp only [stopFlags] at ih
    simp only [clearStop, ih.1, stopFlags, loops, tailReached, ih.2, and_self]
  | IF_STATEMENT c th e rp rb, ib, cs, l, t, s1, h => by
    rw [getStatementType_IF] at h
    simp only [Option.bind_eq_some, Option.some.injEq, Prod.mk.injEq] at h
    obtain ⟨rc, hc, rt, ht, re, he, _, rfl⟩ := h
    have i1 := getStatementType_frame c ib cs l rc.1 rc.2 hc
    have i2 := getStatementType_frame th ib cs l rt.1 rt.2 ht
    have i3 := getStatementType_frame e ib cs l re.1 re.2 he
    simp only [stopFlags] at i1 i2 i3
    refine ⟨by simp only [clearStop, i1.1, i2.1, i3.1], ?_⟩
    simp only [stopFlags, loops, tailReached, List.map_append]
    exact stopFlags_eq_zipWith_append
      (by rw [List.length_map, tailReached_length]) i1.2
      (stopFlags_eq_zipWith_append
        (by rw [List.length_map, tailReached_length]) i2.2 i3.2)
  | TRY_STATEMENT c th e rp rb, ib, cs, l, t, s1, h => by
    rw [getStatementType_TRY] at h
    simp only [Option.bind_eq_some, Option.some.injEq, Prod.mk.injEq] at h
    obtain ⟨rc, hc, rt, ht, re, he, _, rfl⟩ := h
    have i1 := getStatementType_frame c ib cs l rc.1 rc.2 hc
    have i2 := getStatementType_frame th ib cs l rt.1 rt.2 ht
    have i3 := getStatementType_frame e ib cs l re.1 re.2 he
    simp only [stopFlags] at i1 i2 i3
    refine ⟨by simp only [clearStop, i1.1, i2.1, i3.1], ?_⟩
    simp only [stopFlags, loops, tailReached, List.map_append]
    exact stopFlags_eq_zipWith_append
      (by rw [List.length_map, tailReached_length]) i1.2
      (stopFlags_eq_zipWith_append
        (by rw [List.length_map, tailReached_length]) i2.2 i3.2)
  | ALAP_STATEMENT b rp rb sr, ib, cs, l, t, s1, h => by
    rw [getStatementType_ALAP] at h
    simp only [Option.some.injEq, Prod.mk.injEq] at h
    obtain ⟨_, rfl⟩ := h
    refine ⟨by simp only [clearStop], ?_⟩
    simp only [stopFlags, loops, tailReached, List.map_cons, stopRecording,
      List.zipWith_cons_cons]
    have hz := zipWith_or_replicate_false (List.map stopRecording (loops b))
    rw [List.length_map] at hz
    rw [hz]
    congr 1
    by_cases hctx : ib = false ∧ cs = 1 ∧ l = true
    · simp [hctx]
    · simp [hctx]
  | PROGRAM_OR a b, ib, cs, l, t, s1, h => by
    rw [getStatementType_OR] at h
    simp only [Option.bind_eq_some, Option.some.injEq, Prod.mk.injEq] at h
    obtain ⟨ra, ha, rb, hb, _, rfl⟩ := h
    have i1 := getStatementType_frame a ib cs l ra.1 ra.2 ha
    have i2 := getStatementType_frame b ib cs l rb.1 rb.2 hb
    simp only [stopFlags] at i1 i2
    refine ⟨by simp only [clearStop, i1.1, i2.1], ?_⟩
    simp only [stopFlags, loops, tailReached, List.map_append]
    exact stopFlags_eq_zipWith_append
      (by rw [List.length_map, tailReached_length]) i1.2 i2.2
  | SKIP_STATEMENT, _, _, _, _, _, h => by
    simp only [getStatementType, Option.some.injEq, Prod.mk.injEq] at h
    obtain ⟨_, rfl⟩ := h
    exact ⟨rfl, rfl⟩
  | FAIL_STATEMENT, _, _, _, _, _, h => by
    simp only [getStatementType, Option.some.injEq, Prod.mk.injEq] at h
    obtain ⟨_, rfl⟩ := h
    exact ⟨rfl, rfl⟩
  | BREAK_STATEMENT, _, _, _, _, _, h => by
    simp only [getStatementType, Option.some.injEq, Prod.mk.injEq] at h
    obtain ⟨_, rfl⟩ := h
    exact ⟨rfl, rfl⟩
  | UNKNOWN k, _, _, _, _, _, h => by
    simp only [getStatementType, Option.some.injEq, Prod.mk.injEq] at h
    obtain ⟨_, rfl⟩ := h
    exact ⟨rfl, rfl⟩
theorem getSequenceType_frame : ∀ (cmds : List GPStatement) (ib : Bool) (cs : Int)
    (t : copyType) (cmds1 : List GPStatement),
    getSequenceType cmds ib cs = some (t, cmds1) →
      clearStopList cmds1 = clearStopList cmds ∧
      stopFlagsList cmds1 =
        List.zipWith (fun a b => a || b) (stopFlagsList cmds) (tailReachedSequence cmds ib cs)
  | [], _, _, _, _, h => by
    simp only [getSequenceType, Option.some.injEq, Prod.mk.injEq] at h
    obtain ⟨_, rfl⟩ := h
    exact ⟨rfl, rfl⟩
  | c :: next, ib, cs, t, cmds1, h => by
    rw [getSequenceType_cons] at h
    simp only [Option.bind_eq_some] at h
    obtain ⟨rc, hc, h⟩ := h
    have i1 := getStatementType_frame c ib _ _ rc.1 rc.2 hc
    have hcl := classify_of_getStatementType hc
    simp only [stopFlags] at i1
    by_cases hcopy : rc.1 = COPY
    · simp only [hcopy, if_true, Option.some.injEq, Prod.mk.injEq] at h
      obtain ⟨_, rfl⟩ := h
      refine ⟨by simp only [clearStopList, i1.1], ?_⟩
      simp only [stopFlagsList, loopsList, tailReachedSequence, List.map_append, hcl, hcopy,
        if_true]
      refine stopFlags_eq_zipWith_append
        (by rw [List.length_map, tailReached_length]) i1.2 ?_
      have hz := zipWith_or_replicate_false (List.map stopRecording (loopsList next))
      rw [List.length_map] at hz
      exact hz.symm
    · simp only [hcopy, if_false, Option.map_eq_some', Prod.mk.injEq] at h
      obtain ⟨rn, hn, _, rfl⟩ := h
      have i2 := getSequenceType_frame next ib cs rn.1 rn.2 hn
      simp only [stopFlagsList] at i2
      refine ⟨by simp only [clearStopList, i1.1, i2.1], ?_⟩
      have hne : ¬ (some rc.1 = some COPY) := by simpa using hcopy
      simp only [stopFlagsList, loopsList, tailReachedSequence, List.map_append, hcl, hne,
        if_false]
      exact stopFlags_eq_zipWith_append
        (by rw [List.length_map, tailReached_length]) i1.2 i2.2
end

/-! ### Repeated classification -/

theorem length_eraseList : ∀ cmds : List GPStatement, (eraseList cmds).length = cmds.length
  | [] => rfl
  | c :: next => by simp only [eraseList, List.length_cons, length_eraseList next]

theorem length_of_getSequenceType {cmds : List GPStatement} {ib : Bool} {cs : Int}
    {t : copyType} {cmds1 : List GPStatement}
    (h : getSequenceType cmds ib cs = some (t, cmds1)) : cmds1.length = cmds.length := by
  rw [← length_eraseList cmds1, getSequenceType_erase cmds ib cs t cmds1 h, length_eraseList]

theorem getStatementType_SEQ_of_length {cmds : List GPStatement} (hlen : 2 ≤ cmds.length)
    (ib : Bool) (cs : Int) (l : Bool) :
    getStatementType (COMMAND_SEQUENCE cmds) ib cs l =
      (getSequenceType cmds ib cs).map (fun x => (x.1, COMMAND_SEQUENCE x.2)) := by
  match cmds, hlen with
  | c :: d :: r, _ => exact getStatementType_SEQ_cons c d r ib cs l

mutual
/-- A second run of the classifier under the same context returns the same strategy and
changes nothing. -/
theorem getStatementType_idem : ∀ (s : GPStatement) (ib : Bool) (cs : Int) (l : Bool)
    (t : copyType) (s1 : GPStatement),
    getStatementType s ib cs l = some (t, s1) → getStatementType s1 ib cs l = some (t, s1)
  | NULL, _, _, _, _, _, h => by simp [getStatementType] at h
  | COMMAND_SEQUENCE [], _, _, _, _, _, h => by simp [getStatementType] at h
  | COMMAND_SEQUENCE [c], ib, cs, l, t, s1, h => by
    rw [getStatementType_SEQ_single] at h
    simp only [Option.map_eq_some', Prod.mk.injEq] at h
    obtain ⟨rc, hc, rfl, rfl⟩ := h
    rw [getStatementType_SEQ_single, getStatementType_idem c ib cs true rc.1 rc.2 hc]
    rfl
  | COMMAND_SEQUENCE (c :: d :: r), ib, cs, l, t, s1, h => by
    rw [getStatementType_SEQ_cons] at h
    simp only [Option.map_eq_some', Prod.mk.injEq] at h
    obtain ⟨rc, hc, rfl, rfl⟩ := h
    have hlen : 2 ≤ rc.2.length := by
      rw [length_of_getSequenceType hc]; simp
    rw [getStatementType_SEQ_of_length hlen,
      getSequenceType_idem (c :: d :: r) ib cs rc.1 rc.2 hc]
    rfl
  | RULE_CALL n, _, _, _, _, _, h => by
    simp only [getStatementType, Option.some.injEq, Prod.mk.injEq] at h
    obtain ⟨rfl, rfl⟩ := h
    rw [getStatementType]
  | RULE_SET_CALL n, _, _, _, _, _, h => by
    simp only [getStatementType, Option.some.injEq, Prod.mk.injEq] at h
    obtain ⟨rfl, rfl⟩ := h
    rw [getStatementType]
  | PROCEDURE_CALL n p, ib, cs, l, t, s1, h => by
    rw [getStatementType_CALL] at h
    simp only [Option.map_eq_some', Prod.mk.injEq] at h
    obtain ⟨rc, hc, rfl, rfl⟩ := h
    rw [getStatementType_CALL, getStatementType_idem p ib cs l rc.1 rc.2 hc]
    rfl
  | IF_STATEMENT c th e rp rb, ib, cs, l, t, s1, h => by
    rw [getStatementType_IF] at h
    simp only [Option.bind_eq_some, Option.some.injEq, Prod.mk.injEq] at h
    obtain ⟨rc, hc, rt, ht, re, he, rfl, rfl⟩ := h
    rw [getStatementType_IF, getStatementType_idem c ib cs l rc.1 rc.2 hc,
      getStatementType_idem th ib cs l rt.1 rt.2 ht,
      getStatementType_idem e ib cs l re.1 re.2 he]
    rfl
  | TRY_STATEMENT c th e rp rb, ib, cs, l, t, s1, h => by
    rw [getStatementType_TRY] at h
    simp only [Option.bind_eq_some, Option.some.injEq, Prod.mk.injEq] at h
    obtain ⟨rc, hc, rt, ht, re, he, rfl, rfl⟩ := h
    rw [getStatementType_TRY, getStatementType_idem c ib cs l rc.1 rc.2 hc,
      getStatementType_idem th ib cs l rt.1 rt.2 ht,
      getStatementType_idem e ib cs l re.1 re.2 he]
    rfl
  | ALAP_STATEMENT b rp rb sr, ib, cs, l, t, s1, h => by
    rw [getStatementType_ALAP] at h
    simp only [Option.some.injEq, Prod.mk.injEq] at h
    obtain ⟨rfl, rfl⟩ := h
    rw [getStatementType_ALAP]
    by_cases hctx : ib = false ∧ cs = 1 ∧ l = true
    · simp [hctx]
    · simp [hctx]
  | PROGRAM_OR a b, ib, cs, l, t, s1, h => by
    rw [getStatementType_OR] at h
    simp only [Option.bind_eq_some, Option.some.injEq, Prod.mk.injEq] at h
    obtain ⟨ra, ha, rb, hb, rfl, rfl⟩ := h
    rw [getStatementType_OR, getStatementType_idem a ib cs l ra.1 ra.2 ha,
      getStatementType_idem b ib cs l rb.1 rb.2 hb]
    rfl
  | SKIP_STATEMENT, _, _, _, _, _, h => by
    simp only [getStatementType, Option.some.injEq, Prod.mk.injEq] at h
    obtain ⟨rfl, rfl⟩ := h
    rw [getStatementType]
  | FAIL_STATEMENT, _, _, _, _, _, h => by
    simp only [getStatementType, Option.some.injEq, Prod.mk.injEq] at h
    obtain ⟨rfl, rfl⟩ := h
    rw [getStatementType]
  | BREAK_STATEMENT, _, _, _, _, _, h => by
    simp only [getStatementType, Option.some.injEq, Prod.mk.injEq] at h
    obtain ⟨rfl, rfl⟩ := h
    rw [getStatementType]
  | UNKNOWN k, _, _, _, _, _, h => by
    simp only [getStatementType, Option.some.injEq, Prod.mk.injEq] at h
    obtain ⟨rfl, rfl⟩ := h
    rw [getStatementType]
theorem getSequenceType_idem : ∀ (cmds : List GPStatement) (ib : Bool) (cs : Int)
    (t : copyType) (cmds1 : List GPStatement),
    getSequenceType cmds ib cs = some (t, cmds1) →
      getSequenceType cmds1 ib cs = some (t, cmds1)
  | [], _, _, _, _, h => by
    simp only [getSequenceType, Option.some.injEq, Prod.mk.injEq] at h
    obtain ⟨rfl, rfl⟩ := h
    rw [getSequenceType]
  | c :: next, ib, cs, t, cmds1, h => by
    rw [getSequenceType_cons] at h
    simp only [Option.bind_eq_some] at h
    obtain ⟨rc, hc, h⟩ := h
    have i1 := getStatementType_idem c ib _ _ rc.1 rc.2 hc
    by_cases hcopy : rc.1 = COPY
    · simp only [hcopy, if_true, Option.some.injEq, Prod.mk.injEq] at h
      obtain ⟨rfl, rfl⟩ := h
      rw [getSequenceType_cons, i1]
      simp [hcopy]
    · simp only [hcopy, if_false, Option.map_eq_some', Prod.mk.injEq] at h
      obtain ⟨rn, hn, rfl, rfl⟩ := h
      have i2 := getSequenceType_idem next ib cs rn.1 rn.2 hn
      rw [getSequenceType_cons, isEmpty_of_getSequenceType hn, i1]
      simp [hcopy, i2]
end

theorem fix_of_snd {α : Type} {x : Option (copyType × α)} {r : copyType × α} {a : α}
    (h : x = some r) (e : r.2 = a) : x = some (r.1, a) := by
  rw [h]
  exact congrArg some (Prod.ext rfl e)

mutual
/-- A tree on which classification under one context changes nothing stays so after a run of
the classifier under any other context. -/
theorem getStatementType_fix : ∀ (s : GPStatement) (ib : Bool) (cs : Int) (l : Bool)
    (t : copyType) (ib2 : Bool) (cs2 : Int) (l2 : Bool) (t2 : copyType) (s1 : GPStatement),
    getStatementType s ib cs l = some (t, s) →
    getStatementType s ib2 cs2 l2 = some (t2, s1) →
    getStatementType s1 ib cs l = some (t, s1)
  | NULL, _, _, _, _, _, _, _, _, _, h, _ => by simp [getStatementType] at h
  | COMMAND_SEQUENCE [], _, _, _, _, _, _, _, _, _, h, _ => by simp [getStatementType] at h
  | COMMAND_SEQUENCE [c], ib, cs, l, t, ib2, cs2, l2, t2, s1, hf, h => by
    rw [getStatementType_SEQ_single] at hf h
    simp only [Option.map_eq_some', Prod.mk.injEq, COMMAND_SEQUENCE.injEq, List.cons.injEq,
      and_true] at hf h
    obtain ⟨rf, hcf, rfl, ef⟩ := hf
    obtain ⟨rc, hc, rfl, rfl⟩ := h
    rw [getStatementType_SEQ_single,
      getStatementType_fix c ib cs true rf.1 ib2 cs2 true rc.1 rc.2 (fix_of_snd hcf ef) hc]
    rfl
  | COMMAND_SEQUENCE (c :: d :: r), ib, cs, l, t, ib2, cs2, l2, t2, s1, hf, h => by
    rw [getStatementType_SEQ_cons] at hf h
    simp only [Option.map_eq_some', Prod.mk.injEq, COMMAND_SEQUENCE.injEq] at hf h
    obtain ⟨rf, hcf, rfl, ef⟩ := hf
    obtain ⟨rc, hc, rfl, rfl⟩ := h
    have hlen : 2 ≤ rc.2.length := by
      rw [length_of_getSequenceType hc]; simp
    rw [getStatementType_SEQ_of_length hlen,
      getSequenceType_fix (c :: d :: r) ib cs rf.1 ib2 cs2 rc.1 rc.2 (fix_of_snd hcf ef) hc]
    rfl
  | RULE_CALL n, _, _, _, _, _, _, _, _, _, hf, h => by
    simp only [getStatementType, Option.some.injEq, Prod.mk.injEq] at hf h
    obtain ⟨rfl, _⟩ := hf
    obtain ⟨_, rfl⟩ := h
    rw [getStatementType]
  | RULE_SET_CALL n, _, _, _, _, _, _, _, _, _, hf, h => by
    simp only [getStatementType, Option.some.injEq, Prod.mk.injEq] at hf h
    obtain ⟨rfl, _⟩ := hf
    obtain ⟨_, rfl⟩ := h
    rw [getStatementType]
  | PROCEDURE_CALL n p, ib, cs, l, t, ib2, cs2, l2, t2, s1, hf, h => by
    rw [getStatementType_CALL] at hf h
    simp only [Option.map_eq_some', Prod.mk.injEq, PROCEDURE_CALL.injEq, true_and] at hf h
    obtain ⟨rf, hcf, rfl, ef⟩ := hf
    obtain ⟨rc, hc, rfl, rfl⟩ := h
    rw [getStatementType_CALL,
      getStatementType_fix p ib cs l rf.1 ib2 cs2 l2 rc.1 rc.2 (fix_of_snd hcf ef) hc]
    rfl
  | IF_STATEMENT c th e rp rb, ib, cs, l, t, ib2, cs2, l2, t2, s1, hf, h => by
    rw [getStatementType_IF] at hf h
    simp only [Option.bind_eq_some, Option.some.injEq, Prod.mk.injEq, IF_STATEMENT.injEq,
      and_true] at hf h
    obtain ⟨fc, hfc, ft, hft, fe, hfe, rfl, e1, e2, e3⟩ := hf
    obtain ⟨rc, hc, rt, ht, re, he, rfl, rfl⟩ := h
    rw [getStatementType_IF,
      getStatementType_fix c ib cs l fc.1 ib2 cs2 l2 rc.1 rc.2 (fix_of_snd hfc e1) hc,
      getStatementType_fix th ib cs l ft.1 ib2 cs2 l2 rt.1 rt.2 (fix_of_snd hft e2) ht,
      getStatementType_fix e ib cs l fe.1 ib2 cs2 l2 re.1 re.2 (fix_of_snd hfe e3) he]
    rfl
  | TRY_STATEMENT c th e rp rb, ib, cs, l, t, ib2, cs2, l2, t2, s1, hf, h => by
    rw [getStatementType_TRY] at hf h
    simp only [Option.bind_eq_some, Option.some.injEq, Prod.mk.injEq, TRY_STATEMENT.injEq,
      and_true] at hf h
    obtain ⟨fc, hfc, ft, hft, fe, hfe, rfl, e1, e2, e3⟩ := hf
    obtain ⟨rc, hc, rt, ht, re, he, rfl, rfl⟩ := h
    rw [getStatementType_TRY,
      getStatementType_fix c ib cs l fc.1 ib2 cs2 l2 rc.1 rc.2 (fix_of_snd hfc e1) hc,
      getStatementType_fix th ib cs l ft.1 ib2 cs2 l2 rt.1 rt.2 (fix_of_snd hft e2) ht,
      getStatementType_fix e ib cs l fe.1 ib2 cs2 l2 re.1 re.2 (fix_of_snd hfe e3) he]
    rfl
  | ALAP_STATEMENT b rp rb sr, ib, cs, l, t, ib2, cs2, l2, t2, s1, hf, h => by
    rw [getStatementType_ALAP] at hf h
    simp only [Option.some.injEq, Prod.mk.injEq, ALAP_STATEMENT.injEq, true_and] at hf h
    obtain ⟨rfl, ef⟩ := hf
    obtain ⟨_, rfl⟩ := h
    rw [getStatementType_ALAP]
    by_cases hctx : ib = false ∧ cs = 1 ∧ l = true
    · simp only [hctx, and_self, if_true] at ef
      simp [hctx, ← ef]
    · simp only [hctx, if_false] at ef ⊢
  | PROGRAM_OR a b, ib, cs, l, t, ib2, cs2, l2, t2, s1, hf, h => by
    rw [getStatementType_OR] at hf h
    simp only [Option.bind_eq_some, Option.some.injEq, Prod.mk.injEq, PROGRAM_OR.injEq] at hf h
    obtain ⟨fa, hfa, fb, hfb, rfl, e1, e2⟩ := hf
    obtain ⟨ra, ha, rb, hb, rfl, rfl⟩ := h
    rw [getStatementType_OR,
      getStatementType_fix a ib cs l fa.1 ib2 cs2 l2 ra.1 ra.2 (fix_of_snd hfa e1) ha,
      getStatementType_fix b ib cs l fb.1 ib2 cs2 l2 rb.1 rb.2 (fix_of_snd hfb e2) hb]
    rfl
  | SKIP_STATEMENT, _, _, _, _, _, _, _, _, _, hf, h => by
    simp only [getStatementType, Option.some.injEq, Prod.mk.injEq] at hf h
    obtain ⟨rfl, _⟩ := hf
    obtain ⟨_, rfl⟩ := h
    rw [getStatementType]
  | FAIL_STATEMENT, _, _, _, _, _, _, _, _, _, hf, h => by
    simp only [getStatementType, Option.some.injEq, Prod.mk.injEq] at hf h
    obtain ⟨rfl, _⟩ := hf
    obtain ⟨_, rfl⟩ := h
    rw [getStatementType]
  | BREAK_STATEMENT, _, _, _, _, _, _, _, _, _, hf, h => by
    simp only [getStatementType, Option.some.injEq, Prod.mk.injEq] at hf h
    obtain ⟨rfl, _⟩ := hf
    obtain ⟨_, rfl⟩ := h
    rw [getStatementType]
  | UNKNOWN k, _, _, _, _, _, _, _, _, _, hf, h => by
    simp only [getStatementType, Option.some.injEq, Prod.mk.injEq] at hf h
    obtain ⟨rfl, _⟩ := hf
    obtain ⟨_, rfl⟩ := h
    rw [getStatementType]
theorem getSequenceType_fix : ∀ (cmds : List GPStatement) (ib : Bool) (cs : Int)
    (t : copyType) (ib2 : Bool) (cs2 : Int) (t2 : copyType) (cmds1 : List GPStatement),
    getSequenceType cmds ib cs = some (t, cmds) →
    getSequenceType cmds ib2 cs2 = some (t2, cmds1) →
    getSequenceType cmds1 ib cs = some (t, cmds1)
  | [], _, _, _, _, _, _, _, hf, h => by
    simp only [getSequenceType, Option.some.injEq, Prod.mk.injEq] at hf h
    obtain ⟨rfl, _⟩ := hf
    obtain ⟨_, rfl⟩ := h
    rw [getSequenceType]
  | c :: next, ib, cs, t, ib2, cs2, t2, cmds1, hf, h => by
    rw [getSequenceType_cons] at hf h
    simp only [Option.bind_eq_some] at hf h
    obtain ⟨fc, hfc, hf⟩ := hf
    obtain ⟨rc, hc, h⟩ := h
    have key : ∀ (tail : List GPStatement), tail.isEmpty = next.isEmpty →
        (fc.1 ≠ COPY → getSequenceType tail ib cs = some (t, tail)) →
        (fc.1 = COPY → t = COPY) → fc.2 = c →
        getSequenceType (rc.2 :: tail) ib cs = some (t, rc.2 :: tail) := by
      intro tail hemp htail ht e1
      have i1 := getStatementType_fix c ib _ _ fc.1 ib2 _ _ rc.1 rc.2 (fix_of_snd hfc e1) hc
      rw [getSequenceType_cons, hemp, i1]
      by_cases hcopy : fc.1 = COPY
      · simp [hcopy, ht hcopy]
      · simp [hcopy, htail hcopy]
    by_cases hfcopy : fc.1 = COPY
    · simp only [hfcopy, if_true, Option.some.injEq, Prod.mk.injEq, List.cons.injEq,
        and_true] at hf
      obtain ⟨rfl, e1⟩ := hf
      by_cases hcopy : rc.1 = COPY
      · simp only [hcopy, if_true, Option.some.injEq, Prod.mk.injEq] at h
        obtain ⟨_, rfl⟩ := h
        exact key next rfl (fun hne => absurd hfcopy hne) (fun _ => rfl) e1
      · simp only [hcopy, if_false, Option.map_eq_some', Prod.mk.injEq] at h
        obtain ⟨rn, hn, _, rfl⟩ := h
        exact key rn.2 (isEmpty_of_getSequenceType hn) (fun hne => absurd hfcopy hne)
          (fun _ => rfl) e1
    · simp only [hfcopy, if_false, Option.map_eq_some', Prod.mk.injEq, List.cons.injEq] at hf
      obtain ⟨fn, hfn, rfl, e1, e2⟩ := hf
      by_cases hcopy : rc.1 = COPY
      · simp only [hcopy, if_true, Option.some.injEq, Prod.mk.injEq] at h
        obtain ⟨_, rfl⟩ := h
        exact key next rfl (fun _ => fix_of_snd hfn e2) (fun hc2 => absurd hc2 hfcopy) e1
      · simp only [hcopy, if_false, Option.map_eq_some', Prod.mk.injEq] at h
        obtain ⟨rn, hn, _, rfl⟩ := h
        exact key rn.2 (isEmpty_of_getSequenceType hn)
          (fun _ => getSequenceType_fix next ib cs fn.1 ib2 cs2 rn.1 rn.2
            (fix_of_snd hfn e2) hn)
          (fun hc2 => absurd hc2 hfcopy) e1
end

/-- The tree `s1` keeps every classification that changes nothing on `s`. -/
def keepsFixed (s s1 : GPStatement) : Prop :=
  ∀ (ib : Bool) (cs : Int) (l : Bool) (t : copyType),
    getStatementType s ib cs l = some (t, s) → getStatementType s1 ib cs l = some (t, s1)

theorem getSequenceType_keepsFixed (ib : Bool) (cs : Int) :
    ∀ (cmds cmds1 : List GPStatement) (t : copyType),
      List.Forall₂ keepsFixed cmds cmds1 →
      getSequenceType cmds ib cs = some (t, cmds) →
      getSequenceType cmds1 ib cs = some (t, cmds1)
  | [], cmds1, t, hk, hf => by
    cases hk
    exact hf
  | c :: next, cmds1, t, hk, hf => by
    cases hk with
    | cons hc hnext =>
      rename_i c1 next1
      have hemp : next1.isEmpty = next.isEmpty := by
        have := hnext.length_eq
        cases next <;> cases next1 <;> simp_all
      rw [getSequenceType_cons] at hf
      simp only [Option.bind_eq_some] at hf
      obtain ⟨fc, hfc, hf⟩ := hf
      by_cases hcopy : fc.1 = COPY
      · simp only [hcopy, if_true, Option.some.injEq, Prod.mk.injEq, List.cons.injEq,
          and_true] at hf
        obtain ⟨rfl, e1⟩ := hf
        rw [getSequenceType_cons, hemp, hc _ _ _ _ (fix_of_snd hfc e1)]
        simp [hcopy]
      · simp only [hcopy, if_false, Option.map_eq_some', Prod.mk.injEq,
          List.cons.injEq] at hf
        obtain ⟨fn, hfn, rfl, e1, e2⟩ := hf
        rw [getSequenceType_cons, hemp, hc _ _ _ _ (fix_of_snd hfc e1)]
        simp [hcopy, getSequenceType_keepsFixed ib cs next next1 fn.1 hnext
          (fix_of_snd hfn e2)]

/-- A run of `annotate` keeps every classification that changed nothing before the run: the
annotator resets no `stop_recording` field. -/
theorem annotate_keepsFixed {s : GPStatement} {rp : Int} {s1 : GPStatement}
    (h : annotate s rp = some s1) : keepsFixed s s1 := by
  refine (annotate_induction
    (P := fun s _ s1 => keepsFixed s s1)
    (Q := fun cmds _ cmds1 => List.Forall₂ keepsFixed cmds cmds1)
    ?_ ?_ ?_ ?_ ?_ ?_ ?_ ?_ ?_ ?_ ?_ ?_ ?_ ?_).1 s rp s1 h
  · intro cmds rp cmds1 _ hq ib cs l t hf
    cases cmds with
    | nil => simp [getStatementType] at hf
    | cons c next =>
      obtain ⟨c1, next1, hc, hnext, rfl⟩ := List.forall₂_cons_left_iff.1 hq
      cases next with
      | nil =>
        obtain rfl := List.forall₂_nil_left_iff.1 hnext
        rw [getStatementType_SEQ_single] at hf
        simp only [Option.map_eq_some', Prod.mk.injEq, COMMAND_SEQUENCE.injEq,
          List.cons.injEq, and_true] at hf
        obtain ⟨rf, hcf, rfl, ef⟩ := hf
        rw [getStatementType_SEQ_single, hc _ _ _ _ (fix_of_snd hcf ef)]
        rfl
      | cons d rest =>
        obtain ⟨d1, rest1, hd, hrest, rfl⟩ := List.forall₂_cons_left_iff.1 hnext
        rw [getStatementType_SEQ_cons] at hf
        simp only [Option.map_eq_some', Prod.mk.injEq, COMMAND_SEQUENCE.injEq] at hf
        obtain ⟨rf, hcf, rfl, ef⟩ := hf
        rw [getStatementType_SEQ_cons,
          getSequenceType_keepsFixed ib cs (c :: d :: rest) (c1 :: d1 :: rest1) rf.1
            (List.Forall₂.cons hc (List.Forall₂.cons hd hrest)) (fix_of_snd hcf ef)]
        rfl
  · intro n rp ib cs l t hf; exact hf
  · intro ns rp ib cs l t hf; exact hf
  · intro n p rp p1 _ hp ib cs l t hf
    rw [getStatementType_CALL] at hf
    simp only [Option.map_eq_some', Prod.mk.injEq, PROCEDURE_CALL.injEq, true_and] at hf
    obtain ⟨rf, hcf, rfl, ef⟩ := hf
    rw [getStatementType_CALL, hp _ _ _ _ (fix_of_snd hcf ef)]
    rfl
  · intro c t e rpf rb rp ty c1 c2 t2 e2 hc _ _ _ p1 p2 p3 ib cs l t0 hf
    rw [getStatementType_IF] at hf
    simp only [Option.bind_eq_some, Option.some.injEq, Prod.mk.injEq, IF_STATEMENT.injEq,
      and_true] at hf
    obtain ⟨fc, hfc, ft, hft, fe, hfe, rfl, e1, e2, e3⟩ := hf
    rw [getStatementType_IF,
      p1 _ _ _ _ (getStatementType_fix c ib cs l fc.1 _ _ _ ty c1 (fix_of_snd hfc e1) hc),
      p2 _ _ _ _ (fix_of_snd hft e2), p3 _ _ _ _ (fix_of_snd hfe e3)]
    rfl
  · intro c t e rpf rb rp ty c1 c2 t2 e2 hc _ _ _ p1 p2 p3 ib cs l t0 hf
    rw [getStatementType_TRY] at hf
    simp only [Option.bind_eq_some, Option.some.injEq, Prod.mk.injEq, TRY_STATEMENT.injEq,
      and_true] at hf
    obtain ⟨fc, hfc, ft, hft, fe, hfe, rfl, e1, e2, e3⟩ := hf
    rw [getStatementType_TRY,
      p1 _ _ _ _ (getStatementType_fix c ib cs l fc.1 _ _ _ ty c1 (fix_of_snd hfc e1) hc),
      p2 _ _ _ _ (fix_of_snd hft e2), p3 _ _ _ _ (fix_of_snd hfe e3)]
    rfl
  · intro b rpf rb sr rp ty b1 b2 _ _ _ ib cs l t0 hf
    rw [getStatementType_ALAP] at hf
    simp only [Option.some.injEq, Prod.mk.injEq, ALAP_STATEMENT.injEq, true_and] at hf
    obtain ⟨rfl, ef⟩ := hf
    rw [getStatementType_ALAP, ef]
  · intro l r rp l1 r1 _ _ p1 p2 ib cs lc t0 hf
    rw [getStatementType_OR] at hf
    simp only [Option.bind_eq_some, Option.some.injEq, Prod.mk.injEq,
      PROGRAM_OR.injEq] at hf
    obtain ⟨fa, hfa, fb, hfb, rfl, e1, e2⟩ := hf
    rw [getStatementType_OR, p1 _ _ _ _ (fix_of_snd hfa e1), p2 _ _ _ _ (fix_of_snd hfb e2)]
    rfl
  · intro rp ib cs l t hf; exact hf
  · intro rp ib cs l t hf; exact hf
  · intro rp ib cs l t hf; exact hf
  · intro k rp ib cs l t hf; exact hf
  · intro rp; exact List.Forall₂.nil
  · intro c next rp c1 next1 _ _ p q; exact List.Forall₂.cons p q

/-- The classification made by `annotate` at a compound node changes nothing when it is run
again on the annotated condition or body. -/
theorem getStatementType_after_annotate {c : GPStatement} {ib : Bool} {cs : Int} {l : Bool}
    {ty : copyType} {c1 c2 : GPStatement} {rp : Int}
    (hc : getStatementType c ib cs l = some (ty, c1)) (h1 : annotate c1 rp = some c2) :
    getStatementType c2 ib cs l = some (ty, c2) :=
  annotate_keepsFixed h1 ib cs l ty (getStatementType_idem c ib cs l ty c1 hc)

/-- A second run of `annotate` with the same restore point on the result of a first run
returns that result. -/
theorem annotate_idem {s : GPStatement} {rp : Int} {s1 : GPStatement}
    (h : annotate s rp = some s1) : annotate s1 rp = some s1 := by
  refine (annotate_induction
    (P := fun _ rp s1 => annotate s1 rp = some s1)
    (Q := fun _ rp cmds1 => annotateCommands cmds1 rp = some cmds1)
    ?_ ?_ ?_ ?_ ?_ ?_ ?_ ?_ ?_ ?_ ?_ ?_ ?_ ?_).1 s rp s1 h
  · intro cmds rp cmds1 _ hq
    rw [annotate]; simp only [hq]
  · intro n rp; rw [annotate]
  · intro ns rp; rw [annotate]
  · intro n p rp p1 _ hp
    rw [annotate]; simp only [hp]
  · intro c t e rpf rb rp ty c1 c2 t2 e2 hc h1 _ _ p1 p2 p3
    rw [annotate_IF_eq, getStatementType_after_annotate hc h1]
    simp only [p1, p2, p3]
    cases ty <;> simp
  · intro c t e rpf rb rp ty c1 c2 t2 e2 hc h1 _ _ p1 p2 p3
    rw [annotate_TRY_eq, getStatementType_after_annotate hc h1]
    simp only [p1, p2, p3]
    cases ty <;> simp
  · intro b rpf rb sr rp ty b1 b2 hc h1 p1
    rw [annotate_ALAP_eq, getStatementType_after_annotate hc h1]
    simp only [p1]
    cases ty <;> simp
  · intro l r rp l1 r1 _ _ p1 p2
    rw [annotate]; simp only [p1, p2]
  · intro rp; rw [annotate]
  · intro rp; rw [annotate]
  · intro rp; rw [annotate]
  · intro k rp; rw [annotate]
  · intro rp; rw [annotateCommands]
  · intro c next rp c1 next1 _ _ p q
    rw [annotateCommands]; simp only [p, q]

theorem zipWith_or_left_true : ∀ (xs ys : List Bool) (i : Nat),
    xs.length = ys.length → xs[i]? = some true →
      (List.zipWith (fun a b => a || b) xs ys)[i]? = some true
  | [], _, _, _, h => by simp at h
  | x :: xs, [], _, hl, _ => by simp at hl
  | x :: xs, y :: ys, 0, _, h => by
    simp only [List.getElem?_cons_zero, Option.some.injEq] at h
    simp [h]
  | x :: xs, y :: ys, i + 1, hl, h => by
    simp only [List.getElem?_cons_succ] at h
    simp only [List.zipWith_cons_cons, List.getElem?_cons_succ]
    exact zipWith_or_left_true xs ys i (by simpa using hl) h

theorem zipWith_or_fixed : ∀ (xs ys : List Bool) (i : Nat) (x : Bool),
    xs = List.zipWith (fun a b => a || b) xs ys → ys[i]? = some true → xs[i]? = some x →
      x = true
  | [], _, _, _, _, _, h => by simp at h
  | x :: xs, [], _, _, _, h, _ => by simp at h
  | x :: xs, y :: ys, 0, z, he, hy, hx => by
    simp only [List.zipWith_cons_cons, List.cons.injEq] at he
    simp only [List.getElem?_cons_zero, Option.some.injEq] at hy hx
    subst hy; subst hx
    simpa using he.1
  | x :: xs, y :: ys, i + 1, z, he, hy, hx => by
    simp only [List.zipWith_cons_cons, List.cons.injEq] at he
    simp only [List.getElem?_cons_succ] at hy hx
    exact zipWith_or_fixed xs ys i z he.2 hy hx

/-! ### Nodes, loops and the classifications made by the annotator -/

mutual
theorem nodes_trans : ∀ (s n m : GPStatement), n ∈ nodes s → m ∈ nodes n → m ∈ nodes s
  | NULL, n, m, hn, hm => by
    simp only [nodes, List.mem_singleton] at hn
    subst hn; exact hm
  | COMMAND_SEQUENCE cs, n, m, hn, hm => by
    simp only [nodes, List.mem_cons] at hn
    rcases hn with rfl | hn
    · exact hm
    · simp only [nodes, List.mem_cons]
      exact Or.inr (nodesList_trans cs n m hn hm)
  | RULE_CALL _, n, m, hn, hm => by
    simp only [nodes, List.mem_singleton] at hn
    subst hn; exact hm
  | RULE_SET_CALL _, n, m, hn, hm => by
    simp only [nodes, List.mem_singleton] at hn
    subst hn; exact hm
  | PROCEDURE_CALL _ p, n, m, hn, hm => by
    simp only [nodes, List.mem_cons] at hn
    rcases hn with rfl | hn
    · exact hm
    · simp only [nodes, List.mem_cons]
      exact Or.inr (nodes_trans p n m hn hm)
  | IF_STATEMENT c t e _ _, n, m, hn, hm => by
    simp only [nodes, List.mem_cons, List.mem_append] at hn
    rcases hn with rfl | hn | hn | hn
    · exact hm
    · simp only [nodes, List.mem_cons, List.mem_append]
      exact Or.inr (Or.inl (nodes_trans c n m hn hm))
    · simp only [nodes, List.mem_cons, List.mem_append]
      exact Or.inr (Or.inr (Or.inl (nodes_trans t n m hn hm)))
    · simp only [nodes, List.mem_cons, List.mem_append]
      exact Or.inr (Or.inr (Or.inr (nodes_trans e n m hn hm)))
  | TRY_STATEMENT c t e _ _, n, m, hn, hm => by
    simp only [nodes, List.mem_cons, List.mem_append] at hn
    rcases hn with rfl | hn | hn | hn
    · exact hm
    · simp only [nodes, List.mem_cons, List.mem_append]
      exact Or.inr (Or.inl (nodes_trans c n m hn hm))
    · simp only [nodes, List.mem_cons, List.mem_append]
      exact Or.inr (Or.inr (Or.inl (nodes_trans t n m hn hm)))
    · simp only [nodes, List.mem_cons, List.mem_append]
      exact Or.inr (Or.inr (Or.inr (nodes_trans e n m hn hm)))
  | ALAP_STATEMENT b _ _ _, n, m, hn, hm => by
    simp only [nodes, List.mem_cons] at hn
    rcases hn with rfl | hn
    · exact hm
    · simp only [nodes, List.mem_cons]
      exact Or.inr (nodes_trans b n m hn hm)
  | PROGRAM_OR l r, n, m, hn, hm => by
    simp only [nodes, List.mem_cons, List.mem_append] at hn
    rcases hn with rfl | hn | hn
    · exact hm
    · simp only [nodes, List.mem_cons, List.mem_append]
      exact Or.inr (Or.inl (nodes_trans l n m hn hm))
    · simp only [nodes, List.mem_cons, List.mem_append]
      exact Or.inr (Or.inr (nodes_trans r n m hn hm))
  | SKIP_STATEMENT, n, m, hn, hm => by
    simp only [nodes, List.mem_singleton] at hn
    subst hn; exact hm
  | FAIL_STATEMENT, n, m, hn, hm => by
    simp only [nodes, List.mem_singleton] at hn
    subst hn; exact hm
  | BREAK_STATEMENT, n, m, hn, hm => by
    simp only [nodes, List.mem_singleton] at hn
    subst hn; exact hm
  | UNKNOWN _, n, m, hn, hm => by
    simp only [nodes, List.mem_singleton] at hn
    subst hn; exact hm
theorem nodesList_trans : ∀ (cmds : List GPStatement) (n m : GPStatement),
    n ∈ nodesList cmds → m ∈ nodes n → m ∈ nodesList cmds
  | [], n, m, hn, _ => by simp [nodesList] at hn
  | c :: next, n, m, hn, hm => by
    simp only [nodesList, List.mem_append] at hn ⊢
    rcases hn with hn | hn
    · exact Or.inl (nodes_trans c n m hn hm)
    · exact Or.inr (nodesList_trans next n m hn hm)
end

mutual
theorem loops_subset_nodes : ∀ (s a : GPStatement), a ∈ loops s → a ∈ nodes s
  | NULL, a, h => by simp [loops] at h
  | COMMAND_SEQUENCE cs, a, h => by
    simp only [loops] at h
    simp only [nodes, List.mem_cons]
    exact Or.inr (loopsList_subset_nodesList cs a h)
  | RULE_CALL _, a, h => by simp [loops] at h
  | RULE_SET_CALL _, a, h => by simp [loops] at h
  | PROCEDURE_CALL _ p, a, h => by
    simp only [loops] at h
    simp only [nodes, List.mem_cons]
    exact Or.inr (loops_subset_nodes p a h)
  | IF_STATEMENT c t e _ _, a, h => by
    simp only [loops, List.mem_append] at h
    simp only [nodes, List.mem_cons, List.mem_append]
    rcases h with h | h | h
    · exact Or.inr (Or.inl (loops_subset_nodes c a h))
    · exact Or.inr (Or.inr (Or.inl (loops_subset_nodes t a h)))
    · exact Or.inr (Or.inr (Or.inr (loops_subset_nodes e a h)))
  | TRY_STATEMENT c t e _ _, a, h => by
    simp only [loops, List.mem_append] at h
    simp only [nodes, List.mem_cons, List.mem_append]
    rcases h with h | h | h
    · exact Or.inr (Or.inl (loops_subset_nodes c a h))
    · exact Or.inr (Or.inr (Or.inl (loops_subset_nodes t a h)))
    · exact Or.inr (Or.inr (Or.inr (loops_subset_nodes e a h)))
  | ALAP_STATEMENT b _ _ _, a, h => by
    simp only [loops, List.mem_cons] at h
    simp only [nodes, List.mem_cons]
    rcases h with h | h
    · exact Or.inl h
    · exact Or.inr (loops_subset_nodes b a h)
  | PROGRAM_OR l r, a, h => by
    simp only [loops, List.mem_append] at h
    simp only [nodes, List.mem_cons, List.mem_append]
    rcases h with h | h
    · exact Or.inr (Or.inl (loops_subset_nodes l a h))
    · exact Or.inr (Or.inr (loops_subset_nodes r a h))
  | SKIP_STATEMENT, a, h => by simp [loops] at h
  | FAIL_STATEMENT, a, h => by simp [loops] at h
  | BREAK_STATEMENT, a, h => by simp [loops] at h
  | UNKNOWN _, a, h => by simp [loops] at h
theorem loopsList_subset_nodesList : ∀ (cmds : List GPStatement) (a : GPStatement),
    a ∈ loopsList cmds → a ∈ nodesList cmds
  | [], a, h => by simp [loopsList] at h
  | c :: next, a, h => by
    simp only [loopsList, List.mem_append] at h
    simp only [nodesList, List.mem_append]
    rcases h with h | h
    · exact Or.inl (loops_subset_nodes c a h)
    · exact Or.inr (loopsList_subset_nodesList next a h)
end

theorem nodes_classifiedPart {n c : GPStatement} {ib : Bool}
    (h : classifiedPart n = some (c, ib)) : c ∈ nodes n := by
  have hself : ∀ x : GPStatement, x ∈ nodes x := by
    intro x
    cases x <;> simp [nodes]
  cases n with
  | IF_STATEMENT c0 t e rp rb =>
    simp only [classifiedPart, Option.some.injEq, Prod.mk.injEq] at h
    obtain ⟨rfl, _⟩ := h
    simp only [nodes, List.mem_cons, List.mem_append]
    exact Or.inr (Or.inl (hself _))
  | TRY_STATEMENT c0 t e rp rb =>
    simp only [classifiedPart, Option.some.injEq, Prod.mk.injEq] at h
    obtain ⟨rfl, _⟩ := h
    simp only [nodes, List.mem_cons, List.mem_append]
    exact Or.inr (Or.inl (hself _))
  | ALAP_STATEMENT b rp rb sr =>
    simp only [classifiedPart, Option.some.injEq, Prod.mk.injEq] at h
    obtain ⟨rfl, _⟩ := h
    simp only [nodes, List.mem_cons]
    exact Or.inr (hself _)
  | _ => simp [classifiedPart] at h

/-- At every compound node of the result of a run of `annotate`, the classification the run
made at that node changes nothing when it is made again: every field it sets is set. -/
theorem annotate_classification_fixed {s : GPStatement} {rp : Int} {s1 : GPStatement}
    (h : annotate s rp = some s1) :
    ∀ n ∈ nodes s1, ∀ c ib, classifiedPart n = some (c, ib) →
      ∃ ty, getStatementType c ib 0 false = some (ty, c) := by
  refine (annotate_induction
    (P := fun _ _ s1 => ∀ n ∈ nodes s1, ∀ c ib, classifiedPart n = some (c, ib) →
      ∃ ty, getStatementType c ib 0 false = some (ty, c))
    (Q := fun _ _ cmds1 => ∀ n ∈ nodesList cmds1, ∀ c ib, classifiedPart n = some (c, ib) →
      ∃ ty, getStatementType c ib 0 false = some (ty, c))
    ?_ ?_ ?_ ?_ ?_ ?_ ?_ ?_ ?_ ?_ ?_ ?_ ?_ ?_).1 s rp s1 h
  · intro cmds rp cmds1 _ hq n hn c ib hcp
    simp only [nodes, List.mem_cons] at hn
    rcases hn with rfl | hn
    · simp [classifiedPart] at hcp
    · exact hq n hn c ib hcp
  · intro k rp n hn c ib hcp
    simp only [nodes, List.mem_singleton] at hn
    subst hn; simp [classifiedPart] at hcp
  · intro k rp n hn c ib hcp
    simp only [nodes, List.mem_singleton] at hn
    subst hn; simp [classifiedPart] at hcp
  · intro k p rp p1 _ hp n hn c ib hcp
    simp only [nodes, List.mem_cons] at hn
    rcases hn with rfl | hn
    · simp [classifiedPart] at hcp
    · exact hp n hn c ib hcp
  · intro c t e rpf rb rp ty c1 c2 t2 e2 hc h1 _ _ p1 p2 p3 n hn x ib hcp
    simp only [nodes, List.mem_cons, List.mem_append] at hn
    rcases hn with rfl | hn | hn | hn
    · simp only [classifiedPart, Option.some.injEq, Prod.mk.injEq] at hcp
      obtain ⟨rfl, rfl⟩ := hcp
      exact ⟨ty, getStatementType_after_annotate hc h1⟩
    · exact p1 n hn x ib hcp
    · exact p2 n hn x ib hcp
    · exact p3 n hn x ib hcp
  · intro c t e rpf rb rp ty c1 c2 t2 e2 hc h1 _ _ p1 p2 p3 n hn x ib hcp
    simp only [nodes, List.mem_cons, List.mem_append] at hn
    rcases hn with rfl | hn | hn | hn
    · simp only [classifiedPart, Option.some.injEq, Prod.mk.injEq] at hcp
      obtain ⟨rfl, rfl⟩ := hcp
      exact ⟨ty, getStatementType_after_annotate hc h1⟩
    · exact p1 n hn x ib hcp
    · exact p2 n hn x ib hcp
    · exact p3 n hn x ib hcp
  · intro b rpf rb sr rp ty b1 b2 hc h1 p1 n hn x ib hcp
    simp only [nodes, List.mem_cons] at hn
    rcases hn with rfl | hn
    · simp only [classifiedPart, Option.some.injEq, Prod.mk.injEq] at hcp
      obtain ⟨rfl, rfl⟩ := hcp
      exact ⟨ty, getStatementType_after_annotate hc h1⟩
    · exact p1 n hn x ib hcp
  · intro l r rp l1 r1 _ _ p1 p2 n hn x ib hcp
    simp only [nodes, List.mem_cons, List.mem_append] at hn
    rcases hn with rfl | hn | hn
    · simp [classifiedPart] at hcp
    · exact p1 n hn x ib hcp
    · exact p2 n hn x ib hcp
  · intro rp n hn c ib hcp
    simp only [nodes, List.mem_singleton] at hn
    subst hn; simp [classifiedPart] at hcp
  · intro rp n hn c ib hcp
    simp only [nodes, List.mem_singleton] at hn
    subst hn; simp [classifiedPart] at hcp
  · intro rp n hn c ib hcp
    simp only [nodes, List.mem_singleton] at hn
    subst hn; simp [classifiedPart] at hcp
  · intro k rp n hn c ib hcp
    simp only [nodes, List.mem_singleton] at hn
    subst hn; simp [classifiedPart] at hcp
  · intro rp n hn
    simp [nodesList] at hn
  · intro c next rp c1 next1 _ _ p q n hn x ib hcp
    simp only [nodesList, List.mem_append] at hn
    rcases hn with hn | hn
    · exact p n hn x ib hcp
    · exact q n hn x ib hcp

/-- The loops that a classification which changes nothing reaches as the last command of a
first-level sequence have `stop_recording` set. -/
theorem tailReached_stopRecording {c : GPStatement} {ib : Bool} {cs : Int} {l : Bool}
    {ty : copyType} (hfix : getStatementType c ib cs l = some (ty, c)) (i : Nat)
    (a : GPStatement) (ha : (loops c)[i]? = some a)
    (hr : (tailReached c ib cs l)[i]? = some true) : stopRecording a = true := by
  have hz := (getStatementType_frame c ib cs l ty c hfix).2
  refine zipWith_or_fixed _ _ i (stopRecording a) hz hr ?_
  simp only [stopFlags, List.getElem?_map, ha, Option.map_some']

theorem annotateCommands_append_singleton (x : GPStatement) (rp : Int) :
    ∀ (cmds l1 : List GPStatement), annotateCommands (cmds ++ [x]) rp = some l1 →
      ∃ cmds1 x1, annotateCommands cmds rp = some cmds1 ∧ annotate x rp = some x1 ∧
        l1 = cmds1 ++ [x1]
  | [], l1, h => by
    obtain ⟨x1, n1, hx, hn, rfl⟩ :=
      List.forall₂_cons_left_iff.1 ((annotateCommands_iff rp [x] l1).1 h)
    obtain rfl := List.forall₂_nil_left_iff.1 hn
    exact ⟨[], x1, by rw [annotateCommands], hx, rfl⟩
  | c :: next, l1, h => by
    obtain ⟨c1, n1, hc, hn, rfl⟩ :=
      List.forall₂_cons_left_iff.1 ((annotateCommands_iff rp (c :: (next ++ [x])) l1).1 h)
    obtain ⟨cmds1, x1, h1, h2, rfl⟩ :=
      annotateCommands_append_singleton x rp next n1 ((annotateCommands_iff rp _ _).2 hn)
    refine ⟨c1 :: cmds1, x1, ?_, h2, rfl⟩
    rw [annotateCommands, hc, h1]

/-! ### The trace of the classifier depends on the shape of the tree only -/

mutual
theorem loops_length_erase : ∀ s : GPStatement, (loops (erase s)).length = (loops s).length
  | NULL => rfl
  | COMMAND_SEQUENCE cs => by simp only [erase, loops, loopsList_length_erase cs]
  | RULE_CALL _ => rfl
  | RULE_SET_CALL _ => rfl
  | PROCEDURE_CALL _ p => by simp only [erase, loops, loops_length_erase p]
  | IF_STATEMENT c t e _ _ => by
    simp only [erase, loops, List.length_append, loops_length_erase c, loops_length_erase t,
      loops_length_erase e]
  | TRY_STATEMENT c t e _ _ => by
    simp only [erase, loops, List.length_append, loops_length_erase c, loops_length_erase t,
      loops_length_erase e]
  | ALAP_STATEMENT b _ _ _ => by
    simp only [erase, loops, List.length_cons, loops_length_erase b]
  | PROGRAM_OR l r => by
    simp only [erase, loops, List.length_append, loops_length_erase l, loops_length_erase r]
  | SKIP_STATEMENT => rfl
  | FAIL_STATEMENT => rfl
  | BREAK_STATEMENT => rfl
  | UNKNOWN _ => rfl
theorem loopsList_length_erase : ∀ cs : List GPStatement,
    (loopsList (eraseList cs)).length = (loopsList cs).length
  | [] => rfl
  | c :: next => by
    simp only [eraseList, loopsList, List.length_append, loops_length_erase c,
      loopsList_length_erase next]
end

mutual
theorem tailReached_erase : ∀ (s : GPStatement) (ib : Bool) (cs : Int) (l : Bool),
    tailReached (erase s) ib cs l = tailReached s ib cs l
  | NULL, _, _, _ => rfl
  | COMMAND_SEQUENCE [], _, _, _ => rfl
  | COMMAND_SEQUENCE [c], ib, cs, l => by
    simp only [erase, eraseList, tailReached, tailReached_erase c]
  | COMMAND_SEQUENCE (c :: d :: r), ib, cs, l => by
    have h := tailReachedSequence_erase (c :: d :: r) ib cs
    simp only [eraseList] at h
    simp only [erase, eraseList, tailReached, h]
  | RULE_CALL _, _, _, _ => rfl
  | RULE_SET_CALL _, _, _, _ => rfl
  | PROCEDURE_CALL _ p, ib, cs, l => by
    simp only [erase, tailReached, tailReached_erase p]
  | IF_STATEMENT c t e _ _, ib, cs, l => by
    simp only [erase, tailReached, tailReached_erase c, tailReached_erase t,
      tailReached_erase e]
  | TRY_STATEMENT c t e _ _, ib, cs, l => by
    simp only [erase, tailReached, tailReached_erase c, tailReached_erase t,
      tailReached_erase e]
  | ALAP_STATEMENT b _ _ _, ib, cs, l => by
    simp only [erase, tailReached, loops_length_erase b]
  | PROGRAM_OR a b, ib, cs, l => by
    simp only [erase, tailReached, tailReached_erase a, tailReached_erase b]
  | SKIP_STATEMENT, _, _, _ => rfl
  | FAIL_STATEMENT, _, _, _ => rfl
  | BREAK_STATEMENT, _, _, _ => rfl
  | UNKNOWN _, _, _, _ => rfl
theorem tailReachedSequence_erase : ∀ (cmds : List GPStatement) (ib : Bool) (cs : Int),
    tailReachedSequence (eraseList cmds) ib cs = tailReachedSequence cmds ib cs
  | [], _, _ => rfl
  | c :: next, ib, cs => by
    simp only [eraseList, tailReachedSequence, isEmpty_eraseList, tailReached_erase c,
      classify_erase c, loopsList_length_erase next, tailReachedSequence_erase next]
end

/-- Trees that differ in annotation fields only give the same trace of the classifier. -/
theorem tailReached_congr_erase {s s1 : GPStatement} (h : erase s1 = erase s) (ib : Bool)
    (cs : Int) (l : Bool) : tailReached s1 ib cs l = tailReached s ib cs l := by
  rw [← tailReached_erase s1, h, tailReached_erase]

/-! ### Trees without loops -/

theorem max_eq_COPY {a b : copyType} : max a b = COPY ↔ a = COPY ∨ b = COPY := by
  cases a <;> cases b <;> decide

mutual
/-- The classification of a tree without `ALAP` nodes does not depend on the context. -/
theorem classify_loopfree : ∀ (s : GPStatement) (ib : Bool) (cs : Int) (l : Bool)
    (ib2 : Bool) (cs2 : Int) (l2 : Bool),
    loops s = [] → classify s ib cs l = classify s ib2 cs2 l2
  | NULL, _, _, _, _, _, _, _ => rfl
  | COMMAND_SEQUENCE [], _, _, _, _, _, _, _ => rfl
  | COMMAND_SEQUENCE [c], ib, cs, l, ib2, cs2, l2, h => by
    simp only [loops, loopsList, List.append_nil] at h
    simp only [classify_SEQ_single, classify_loopfree c ib cs true ib2 cs2 true h]
  | COMMAND_SEQUENCE (c :: d :: r), ib, cs, l, ib2, cs2, l2, h => by
    simp only [loops] at h
    simp only [classify_SEQ_cons, classifySequence_loopfree (c :: d :: r) ib cs ib2 cs2 h]
  | RULE_CALL _, _, _, _, _, _, _, _ => rfl
  | RULE_SET_CALL _, _, _, _, _, _, _, _ => rfl
  | PROCEDURE_CALL n p, ib, cs, l, ib2, cs2, l2, h => by
    simp only [loops] at h
    simp only [classify_CALL, classify_loopfree p ib cs l ib2 cs2 l2 h]
  | IF_STATEMENT c t e _ _, ib, cs, l, ib2, cs2, l2, h => by
    simp only [loops, List.append_eq_nil] at h
    simp only [classify_IF, classify_loopfree c ib cs l ib2 cs2 l2 h.1,
      classify_loopfree t ib cs l ib2 cs2 l2 h.2.1, classify_loopfree e ib cs l ib2 cs2 l2 h.2.2]
  | TRY_STATEMENT c t e _ _, ib, cs, l, ib2, cs2, l2, h => by
    simp only [loops, List.append_eq_nil] at h
    simp only [classify_TRY, classify_loopfree c ib cs l ib2 cs2 l2 h.1,
      classify_loopfree t ib cs l ib2 cs2 l2 h.2.1, classify_loopfree e ib cs l ib2 cs2 l2 h.2.2]
  | ALAP_STATEMENT _ _ _ _, _, _, _, _, _, _, h => by simp [loops] at h
  | PROGRAM_OR a b, ib, cs, l, ib2, cs2, l2, h => by
    simp only [loops, List.append_eq_nil] at h
    simp only [classify_OR, classify_loopfree a ib cs l ib2 cs2 l2 h.1,
      classify_loopfree b ib cs l ib2 cs2 l2 h.2]
  | SKIP_STATEMENT, _, _, _, _, _, _, _ => rfl
  | FAIL_STATEMENT, _, _, _, _, _, _, _ => rfl
  | BREAK_STATEMENT, _, _, _, _, _, _, _ => rfl
  | UNKNOWN _, _, _, _, _, _, _, _ => rfl
theorem classifySequence_loopfree : ∀ (cmds : List GPStatement) (ib : Bool) (cs : Int)
    (ib2 : Bool) (cs2 : Int),
    loopsList cmds = [] → classifySequence cmds ib cs = classifySequence cmds ib2 cs2
  | [], _, _, _, _, _ => rfl
  | c :: next, ib, cs, ib2, cs2, h => by
    simp only [loopsList, List.append_eq_nil] at h
    simp only [classifySequence_cons, classifySequence_loopfree next ib cs ib2 cs2 h.2,
      classify_loopfree c ib (if cs = 0 ∨ (cs = 1 ∧ next.isEmpty) then 1 else 2) next.isEmpty
        ib2 (if cs2 = 0 ∨ (cs2 = 1 ∧ next.isEmpty) then 1 else 2) next.isEmpty h.1]
end

mutual
/-- A tree without `ALAP` nodes and without nodes of unknown variant is never classified
`COPY`. -/
theorem classify_loopfree_ne_COPY : ∀ (s : GPStatement) (ib : Bool) (cs : Int) (l : Bool),
    loops s = [] → noUnknown s = true → classify s ib cs l ≠ some COPY
  | NULL, _, _, _, _, _ => by simp [classify, getStatementType]
  | COMMAND_SEQUENCE [], _, _, _, _, _ => by simp [classify, getStatementType]
  | COMMAND_SEQUENCE [c], ib, cs, l, h, hk => by
    simp only [loops, loopsList, List.append_nil] at h
    simp only [noUnknown, noUnknownList, Bool.and_true] at hk
    rw [classify_SEQ_single]
    exact classify_loopfree_ne_COPY c ib cs true h hk
  | COMMAND_SEQUENCE (c :: d :: r), ib, cs, l, h, hk => by
    simp only [loops] at h
    simp only [noUnknown] at hk
    rw [classify_SEQ_cons]
    exact classifySequence_loopfree_ne_COPY (c :: d :: r) ib cs h hk
  | RULE_CALL _, _, _, _, _, _ => by simp [classify, getStatementType]
  | RULE_SET_CALL _, _, _, _, _, _ => by simp [classify, getStatementType]
  | PROCEDURE_CALL n p, ib, cs, l, h, hk => by
    simp only [loops] at h
    simp only [noUnknown] at hk
    rw [classify_CALL]
    exact classify_loopfree_ne_COPY p ib cs l h hk
  | IF_STATEMENT c t e _ _, ib, cs, l, h, hk => by
    simp only [loops, List.append_eq_nil] at h
    simp only [noUnknown, Bool.and_eq_true] at hk
    have h1 := classify_loopfree_ne_COPY c ib cs l h.1 hk.1.1
    have h2 := classify_loopfree_ne_COPY t ib cs l h.2.1 hk.1.2
    have h3 := classify_loopfree_ne_COPY e ib cs l h.2.2 hk.2
    rw [classify_IF]
    intro hc
    simp only [Option.bind_eq_some, Option.some.injEq] at hc
    obtain ⟨tc, e1, tt, e2, te, e3, hc⟩ := hc
    rw [e1] at h1; rw [e2] at h2; rw [e3] at h3
    simp only [ne_eq, Option.some.injEq] at h1 h2 h3
    simp [h1, h2, h3] at hc
  | TRY_STATEMENT c t e _ _, ib, cs, l, h, hk => by
    simp only [loops, List.append_eq_nil] at h
    simp only [noUnknown, Bool.and_eq_true] at hk
    have h1 := classify_loopfree_ne_COPY c ib cs l h.1 hk.1.1
    have h2 := classify_loopfree_ne_COPY t ib cs l h.2.1 hk.1.2
    have h3 := classify_loopfree_ne_COPY e ib cs l h.2.2 hk.2
    rw [classify_TRY]
    intro hc
    simp only [Option.bind_eq_some, Option.some.injEq] at hc
    obtain ⟨tc, e1, tt, e2, te, e3, hc⟩ := hc
    rw [e1] at h1; rw [e2] at h2; rw [e3] at h3
    simp only [ne_eq, Option.some.injEq] at h1 h2 h3
    simp [h1, h2, h3] at hc
  | ALAP_STATEMENT _ _ _ _, _, _, _, h, _ => by simp [loops] at h
  | PROGRAM_OR a b, ib, cs, l, h, hk => by
    simp only [loops, List.append_eq_nil] at h
    simp only [noUnknown, Bool.and_eq_true] at hk
    have h1 := classify_loopfree_ne_COPY a ib cs l h.1 hk.1
    have h2 := classify_loopfree_ne_COPY b ib cs l h.2 hk.2
    rw [classify_OR]
    intro hc
    simp only [Option.bind_eq_some, Option.some.injEq] at hc
    obtain ⟨ta, e1, tb, e2, hc⟩ := hc
    rw [e1] at h1; rw [e2] at h2
    simp only [ne_eq, Option.some.injEq] at h1 h2
    rcases max_eq_COPY.1 hc with h | h
    · exact h1 h
    · exact h2 h
  | SKIP_STATEMENT, _, _, _, _, _ => by simp [classify, getStatementType]
  | FAIL_STATEMENT, _, _, _, _, _ => by simp [classify, getStatementType]
  | BREAK_STATEMENT, _, _, _, _, _ => by simp [classify, getStatementType]
  | UNKNOWN _, _, _, _, _, hk => by simp [noUnknown] at hk
theorem classifySequence_loopfree_ne_COPY : ∀ (cmds : List GPStatement) (ib : Bool) (cs : Int),
    loopsList cmds = [] → noUnknownList cmds = true → classifySequence cmds ib cs ≠ some COPY
  | [], _, _, _, _ => by simp [classifySequence_nil]
  | c :: next, ib, cs, h, hk => by
    simp only [loopsList, List.append_eq_nil] at h
    simp only [noUnknownList, Bool.and_eq_true] at hk
    have h1 := classify_loopfree_ne_COPY c ib
      (if cs = 0 ∨ (cs = 1 ∧ next.isEmpty) then 1 else 2) next.isEmpty h.1 hk.1
    have h2 := classifySequence_loopfree_ne_COPY next ib cs h.2 hk.2
    rw [classifySequence_cons]
    intro hc
    simp only [Option.bind_eq_some] at hc
    obtain ⟨t, e1, hc⟩ := hc
    rw [e1] at h1
    simp only [ne_eq, Option.some.injEq] at h1
    simp only [h1, if_false] at hc
    exact h2 hc
end

mutual
/-- Inside an `if` condition a tree of known variants is classified `COPY` exactly when it
holds an `ALAP` node. -/
theorem classify_if_body_COPY_iff : ∀ (s : GPStatement) (cs : Int) (l : Bool),
    wellFormed s = true → noUnknown s = true →
      (classify s true cs l = some COPY ↔ loops s ≠ [])
  | NULL, _, _, hw, _ => by simp [wellFormed] at hw
  | COMMAND_SEQUENCE [], _, _, hw, _ => by simp [wellFormed] at hw
  | COMMAND_SEQUENCE [c], cs, l, hw, hk => by
    simp only [wellFormed, wellFormedList, List.isEmpty_cons, Bool.not_false, Bool.true_and,
      Bool.and_true] at hw
    simp only [noUnknown, noUnknownList, Bool.and_true] at hk
    simp only [classify_SEQ_single, loops, loopsList, List.append_nil]
    exact classify_if_body_COPY_iff c cs true hw hk
  | COMMAND_SEQUENCE (c :: d :: r), cs, l, hw, hk => by
    simp only [wellFormed, List.isEmpty_cons, Bool.not_false, Bool.true_and] at hw
    simp only [noUnknown] at hk
    simp only [classify_SEQ_cons, loops]
    exact classifySequence_if_body_COPY_iff (c :: d :: r) cs hw hk
  | RULE_CALL _, _, _, _, _ => by simp [classify, getStatementType, loops]
  | RULE_SET_CALL _, _, _, _, _ => by simp [classify, getStatementType, loops]
  | PROCEDURE_CALL n p, cs, l, hw, hk => by
    simp only [wellFormed] at hw
    simp only [noUnknown] at hk
    simp only [classify_CALL, loops]
    exact classify_if_body_COPY_iff p cs l hw hk
  | IF_STATEMENT c t e _ _, cs, l, hw, hk => by
    simp only [wellFormed, Bool.and_eq_true] at hw
    simp only [noUnknown, Bool.and_eq_true] at hk
    have i1 := classify_if_body_COPY_iff c cs l hw.1.1 hk.1.1
    have i2 := classify_if_body_COPY_iff t cs l hw.1.2 hk.1.2
    have i3 := classify_if_body_COPY_iff e cs l hw.2 hk.2
    obtain ⟨tc, e1⟩ := classify_total c true cs l hw.1.1
    obtain ⟨tt, e2⟩ := classify_total t true cs l hw.1.2
    obtain ⟨te, e3⟩ := classify_total e true cs l hw.2
    rw [e1] at i1; rw [e2] at i2; rw [e3] at i3
    simp only [Option.some.injEq, ne_eq] at i1 i2 i3
    simp only [classify_IF, e1, e2, e3, Option.some_bind, loops, ne_eq, List.append_eq_nil,
      not_and_or, ← i1, ← i2, ← i3, Option.some.injEq]
    by_cases hd : tc = COPY ∨ tt = COPY ∨ te = COPY <;> simp [hd]
  | TRY_STATEMENT c t e _ _, cs, l, hw, hk => by
    simp only [wellFormed, Bool.and_eq_true] at hw
    simp only [noUnknown, Bool.and_eq_true] at hk
    have i1 := classify_if_body_COPY_iff c cs l hw.1.1 hk.1.1
    have i2 := classify_if_body_COPY_iff t cs l hw.1.2 hk.1.2
    have i3 := classify_if_body_COPY_iff e cs l hw.2 hk.2
    obtain ⟨tc, e1⟩ := classify_total c true cs l hw.1.1
    obtain ⟨tt, e2⟩ := classify_total t true cs l hw.1.2
    obtain ⟨te, e3⟩ := classify_total e true cs l hw.2
    rw [e1] at i1; rw [e2] at i2; rw [e3] at i3
    simp only [Option.some.injEq, ne_eq] at i1 i2 i3
    simp only [classify_TRY, e1, e2, e3, Option.some_bind, loops, ne_eq, List.append_eq_nil,
      not_and_or, ← i1, ← i2, ← i3, Option.some.injEq]
    by_cases hd : tc = COPY ∨ tt = COPY ∨ te = COPY <;> simp [hd]
  | ALAP_STATEMENT _ _ _ _, _, _, _, _ => by simp [classify_ALAP, loops]
  | PROGRAM_OR a b, cs, l, hw, hk => by
    simp only [wellFormed, Bool.and_eq_true] at hw
    simp only [noUnknown, Bool.and_eq_true] at hk
    have i1 := classify_if_body_COPY_iff a cs l hw.1 hk.1
    have i2 := classify_if_body_COPY_iff b cs l hw.2 hk.2
    obtain ⟨ta, e1⟩ := classify_total a true cs l hw.1
    obtain ⟨tb, e2⟩ := classify_total b true cs l hw.2
    rw [e1] at i1; rw [e2] at i2
    simp only [Option.some.injEq, ne_eq] at i1 i2
    simp only [classify_OR, e1, e2, Option.some_bind, loops, ne_eq, List.append_eq_nil,
      not_and_or, ← i1, ← i2, Option.some.injEq, max_eq_COPY]
  | SKIP_STATEMENT, _, _, _, _ => by simp [classify, getStatementType, loops]
  | FAIL_STATEMENT, _, _, _, _ => by simp [classify, getStatementType, loops]
  | BREAK_STATEMENT, _, _, _, _ => by simp [classify, getStatementType, loops]
  | UNKNOWN _, _, _, _, hk => by simp [noUnknown] at hk
theorem classifySequence_if_body_COPY_iff : ∀ (cmds : List GPStatement) (cs : Int),
    wellFormedList cmds = true → noUnknownList cmds = true →
      (classifySequence cmds true cs = some COPY ↔ loopsList cmds ≠ [])
  | [], _, _, _ => by simp [classifySequence_nil, loopsList]
  | c :: next, cs, hw, hk => by
    simp only [wellFormedList, Bool.and_eq_true] at hw
    simp only [noUnknownList, Bool.and_eq_true] at hk
    have i1 := classify_if_body_COPY_iff c
      (if cs = 0 ∨ (cs = 1 ∧ next.isEmpty) then 1 else 2) next.isEmpty hw.1 hk.1
    have i2 := classifySequence_if_body_COPY_iff next cs hw.2 hk.2
    obtain ⟨tc, e1⟩ := classify_total c true
      (if cs = 0 ∨ (cs = 1 ∧ next.isEmpty) then 1 else 2) next.isEmpty hw.1
    rw [e1] at i1
    simp only [Option.some.injEq, ne_eq] at i1 i2
    simp only [classifySequence_cons, e1, Option.some_bind, loopsList, ne_eq,
      List.append_eq_nil, not_and_or, ← i1, ← i2]
    by_cases hd : tc = COPY <;> simp [hd]
end

mutual
/-- On a tree without `ALAP` nodes there is no `stop_recording` field to reset. -/
theorem clearStop_loopfree : ∀ s : GPStatement, loops s = [] → clearStop s = s
  | NULL, _ => rfl
  | COMMAND_SEQUENCE cmds, h => by
    simp only [loops] at h
    simp only [clearStop, clearStopList_loopfree cmds h]
  | RULE_CALL _, _ => rfl
  | RULE_SET_CALL _, _ => rfl
  | PROCEDURE_CALL _ p, h => by
    simp only [loops] at h
    simp only [clearStop, clearStop_loopfree p h]
  | IF_STATEMENT c t e _ _, h => by
    simp only [loops, List.append_eq_nil] at h
    simp only [clearStop, clearStop_loopfree c h.1, clearStop_loopfree t h.2.1,
      clearStop_loopfree e h.2.2]
  | TRY_STATEMENT c t e _ _, h => by
    simp only [loops, List.append_eq_nil] at h
    simp only [clearStop, clearStop_loopfree c h.1, clearStop_loopfree t h.2.1,
      clearStop_loopfree e h.2.2]
  | ALAP_STATEMENT _ _ _ _, h => by simp [loops] at h
  | PROGRAM_OR a b, h => by
    simp only [loops, List.append_eq_nil] at h
    simp only [clearStop, clearStop_loopfree a h.1, clearStop_loopfree b h.2]
  | SKIP_STATEMENT, _ => rfl
  | FAIL_STATEMENT, _ => rfl
  | BREAK_STATEMENT, _ => rfl
  | UNKNOWN _, _ => rfl
theorem clearStopList_loopfree : ∀ cmds : List GPStatement,
    loopsList cmds = [] → clearStopList cmds = cmds
  | [], _ => rfl
  | c :: next, h => by
    simp only [loopsList, List.append_eq_nil] at h
    simp only [clearStopList, clearStop_loopfree c h.1, clearStopList_loopfree next h.2]
end

/-- The classifier returns a tree without `ALAP` nodes as it was. -/
theorem getStatementType_loopfree {s : GPStatement} {ib : Bool} {cs : Int} {l : Bool}
    {t : copyType} {s1 : GPStatement} (h : getStatementType s ib cs l = some (t, s1))
    (hl : loops s = []) : s1 = s := by
  have he := getStatementType_erase s ib cs l t s1 h
  have hlen : (loops s1).length = (loops s).length := by
    rw [← loops_length_erase s1, he, loops_length_erase]
  have hl1 : loops s1 = [] := by
    rw [hl] at hlen
    exact List.length_eq_zero.1 hlen
  have hf := (getStatementType_frame s ib cs l t s1 h).1
  rw [clearStop_loopfree s1 hl1, clearStop_loopfree s hl] at hf
  exact hf

/-- On a tree without `ALAP` nodes and without nodes of unknown variant a run of `annotate`
changes `roll_back` fields only. -/
theorem annotate_loopfree {s : GPStatement} {rp : Int} {s1 : GPStatement}
    (h : annotate s rp = some s1) (hl : loops s = []) (hk : noUnknown s = true) :
    clearRollBack s1 = clearRollBack s := by
  refine (annotate_induction
    (P := fun s _ s1 => loops s = [] → noUnknown s = true → clearRollBack s1 = clearRollBack s)
    (Q := fun cmds _ cmds1 => loopsList cmds = [] → noUnknownList cmds = true →
      clearRollBackList cmds1 = clearRollBackList cmds)
    ?_ ?_ ?_ ?_ ?_ ?_ ?_ ?_ ?_ ?_ ?_ ?_ ?_ ?_).1 s rp s1 h hl hk
  · intro cmds rp cmds1 _ hq hl hk
    simp only [loops] at hl
    simp only [noUnknown] at hk
    simp only [clearRollBack, hq hl hk]
  · intro n rp _ _; rfl
  · intro ns rp _ _; rfl
  · intro n p rp p1 _ hp hl hk
    simp only [loops] at hl
    simp only [noUnknown] at hk
    simp only [clearRollBack, hp hl hk]
  · intro c t e rpf rb rp ty c1 c2 t2 e2 hc _ _ _ h1 h2 h3 hl hk
    simp only [loops, List.append_eq_nil] at hl
    simp only [noUnknown, Bool.and_eq_true] at hk
    have e1 := getStatementType_loopfree hc hl.1
    subst e1
    have hty : ty ≠ COPY := by
      intro e
      exact classify_loopfree_ne_COPY c1 true 0 false hl.1 hk.1.1
        (by rw [classify_of_getStatementType hc, e])
    simp only [clearRollBack, h1 hl.1 hk.1.1, h2 hl.2.1 hk.1.2, h3 hl.2.2 hk.2, hty, if_false]
  · intro c t e rpf rb rp ty c1 c2 t2 e2 hc _ _ _ h1 h2 h3 hl hk
    simp only [loops, List.append_eq_nil] at hl
    simp only [noUnknown, Bool.and_eq_true] at hk
    have e1 := getStatementType_loopfree hc hl.1
    subst e1
    have hty : ty ≠ COPY := by
      intro e
      exact classify_loopfree_ne_COPY c1 false 0 false hl.1 hk.1.1
        (by rw [classify_of_getStatementType hc, e])
    simp only [clearRollBack, h1 hl.1 hk.1.1, h2 hl.2.1 hk.1.2, h3 hl.2.2 hk.2, hty, if_false]
  · intro b rpf rb sr rp ty b1 b2 _ _ _ hl _
    simp [loops] at hl
  · intro l r rp l1 r1 _ _ h1 h2 hl hk
    simp only [loops, List.append_eq_nil] at hl
    simp only [noUnknown, Bool.and_eq_true] at hk
    simp only [clearRollBack, h1 hl.1 hk.1, h2 hl.2 hk.2]
  · intro rp _ _; rfl
  · intro rp _ _; rfl
  · intro rp _ _; rfl
  · intro k rp _ _; rfl
  · intro rp _ _; rfl
  · intro c next rp c1 next1 _ _ h1 h2 hl hk
    simp only [loopsList, List.append_eq_nil] at hl
    simp only [noUnknownList, Bool.and_eq_true] at hk
    simp only [clearRollBackList, h1 hl.1 hk.1, h2 hl.2 hk.2]

/-- On a tree without `ALAP` nodes the classifier gives the same result, tree included, inside
and outside an `if` condition. -/
theorem getStatementType_loopfree_if_body (c : GPStatement) (cs : Int) (l : Bool)
    (hl : loops c = []) : getStatementType c true cs l = getStatementType c false cs l := by
  have hc := classify_loopfree c true cs l false cs l hl
  unfold classify at hc
  cases h1 : getStatementType c true cs l with
  | none =>
    cases h2 : getStatementType c false cs l with
    | none => rfl
    | some r2 => simp [h1, h2] at hc
  | some r1 =>
    cases h2 : getStatementType c false cs l with
    | none => simp [h1, h2] at hc
    | some r2 =>
      obtain ⟨t1, s1⟩ := r1
      obtain ⟨t2, s2⟩ := r2
      simp only [h1, h2, Option.map_some', Option.some.injEq] at hc
      have e1 := getStatementType_loopfree h1 hl
      have e2 := getStatementType_loopfree h2 hl
      subst e1; subst e2
      simp only [hc]

mutual
theorem stopRecording_of_defaultFields : ∀ s : GPStatement, defaultFields s = true →
    ∀ a ∈ loops s, stopRecording a = false
  | NULL, _, a, ha => by simp [loops] at ha
  | COMMAND_SEQUENCE cmds, h, a, ha => by
    simp only [defaultFields] at h
    simp only [loops] at ha
    exact stopRecording_of_defaultFieldsList cmds h a ha
  | RULE_CALL _, _, a, ha => by simp [loops] at ha
  | RULE_SET_CALL _, _, a, ha => by simp [loops] at ha
  | PROCEDURE_CALL _ p, h, a, ha => by
    simp only [defaultFields] at h
    simp only [loops] at ha
    exact stopRecording_of_defaultFields p h a ha
  | IF_STATEMENT c t e _ _, h, a, ha => by
    simp only [defaultFields, Bool.and_eq_true] at h
    simp only [loops, List.mem_append] at ha
    rcases ha with ha | ha | ha
    · exact stopRecording_of_defaultFields c h.1.1.2 a ha
    · exact stopRecording_of_defaultFields t h.1.2 a ha
    · exact stopRecording_of_defaultFields e h.2 a ha
  | TRY_STATEMENT c t e _ _, h, a, ha => by
    simp only [defaultFields, Bool.and_eq_true] at h
    simp only [loops, List.mem_append] at ha
    rcases ha with ha | ha | ha
    · exact stopRecording_of_defaultFields c h.1.1.2 a ha
    · exact stopRecording_of_defaultFields t h.1.2 a ha
    · exact stopRecording_of_defaultFields e h.2 a ha
  | ALAP_STATEMENT b rp rb sr, h, a, ha => by
    simp only [defaultFields, Bool.and_eq_true, Bool.not_eq_true'] at h
    simp only [loops, List.mem_cons] at ha
    rcases ha with ha | ha
    · subst ha
      exact h.1.2
    · exact stopRecording_of_defaultFields b h.2 a ha
  | PROGRAM_OR l r, h, a, ha => by
    simp only [defaultFields, Bool.and_eq_true] at h
    simp only [loops, List.mem_append] at ha
    rcases ha with ha | ha
    · exact stopRecording_of_defaultFields l h.1 a ha
    · exact stopRecording_of_defaultFields r h.2 a ha
  | SKIP_STATEMENT, _, a, ha => by simp [loops] at ha
  | FAIL_STATEMENT, _, a, ha => by simp [loops] at ha
  | BREAK_STATEMENT, _, a, ha => by simp [loops] at ha
  | UNKNOWN _, _, a, ha => by simp [loops] at ha
theorem stopRecording_of_defaultFieldsList : ∀ cmds : List GPStatement,
    defaultFieldsList cmds = true → ∀ a ∈ loopsList cmds, stopRecording a = false
  | [], _, a, ha => by simp [loopsList] at ha
  | c :: next, h, a, ha => by
    simp only [defaultFieldsList, Bool.and_eq_true] at h
    simp only [loopsList, List.mem_append] at ha
    rcases ha with ha | ha
    · exact stopRecording_of_defaultFields c h.1 a ha
    · exact stopRecording_of_defaultFieldsList next h.2 a ha
end

/-- On a tree with default annotation fields every `stop_recording` field is false. -/
theorem stopFlags_of_defaultFields (s : GPStatement) (h : defaultFields s = true) :
    stopFlags s = List.replicate (loops s).length false := by
  rw [List.eq_replicate_iff]
  refine ⟨by simp [stopFlags], fun b hb => ?_⟩
  simp only [stopFlags, List.mem_map] at hb
  obtain ⟨a, ha, rfl⟩ := hb
  exact stopRecording_of_defaultFields s h a ha

theorem zipWith_or_replicate_false_left : ∀ (n : Nat) (ys : List Bool), ys.length = n →
    List.zipWith (fun a b => a || b) (List.replicate n false) ys = ys
  | 0, [], _ => rfl
  | 0, _ :: _, h => by simp at h
  | n + 1, [], h => by simp at h
  | n + 1, y :: ys, h => by
    simp only [List.length_cons, Nat.add_right_cancel_iff] at h
    simp only [List.replicate_succ, List.zipWith_cons_cons, Bool.false_or,
      zipWith_or_replicate_false_left n ys h]

/-- On a tree with default annotation fields the `stop_recording` fields after a run of the
classifier are the trace of that run. -/
theorem stopFlags_of_getStatementType {s : GPStatement} {ib : Bool} {cs : Int} {l : Bool}
    {t : copyType} {s1 : GPStatement} (hdef : defaultFields s = true)
    (h : getStatementType s ib cs l = some (t, s1)) :
    stopFlags s1 = tailReached s ib cs l := by
  rw [(getStatementType_frame s ib cs l t s1 h).2, stopFlags_of_defaultFields s hdef]
  exact zipWith_or_replicate_false_left _ _ (tailReached_length s ib cs l)

/-! ### Strategies inside and outside an `if` condition -/

theorem le_COPY (t : copyType) : t ≤ COPY := by
  cases t <;> decide

theorem eq_COPY_of_le {t u : copyType} (h : t ≤ u) (ht : t = COPY) : u = COPY := by
  subst ht
  cases u
  · exact absurd h (by decide)
  · exact absurd h (by decide)
  · rfl

theorem branch_type_mono {a b c a1 b1 c1 : copyType} (ha : a ≤ a1) (hb : b ≤ b1)
    (hc : c ≤ c1) :
    (if a = COPY ∨ b = COPY ∨ c = COPY then COPY else RECORD_CHANGES) ≤
      (if a1 = COPY ∨ b1 = COPY ∨ c1 = COPY then COPY else RECORD_CHANGES) := by
  by_cases h1 : a1 = COPY ∨ b1 = COPY ∨ c1 = COPY
  · rw [if_pos h1]
    exact le_COPY _
  · have h0 : ¬ (a = COPY ∨ b = COPY ∨ c = COPY) := by
      intro h
      apply h1
      rcases h with h | h | h
      · exact Or.inl (eq_COPY_of_le ha h)
      · exact Or.inr (Or.inl (eq_COPY_of_le hb h))
      · exact Or.inr (Or.inr (eq_COPY_of_le hc h))
    rw [if_neg h1, if_neg h0]

mutual
/-- Where the classifier returns a strategy outside an `if` condition, it returns one inside an
`if` condition too, under the same `com_seq` and `last_command`, and that strategy is at least as
costly. -/
theorem classify_if_body_mono : ∀ (s : GPStatement) (cs : Int) (l : Bool) (t2 : copyType),
    classify s false cs l = some t2 → ∃ t1, classify s true cs l = some t1 ∧ t2 ≤ t1
  | NULL, _, _, _, h => by simp [classify, getStatementType] at h
  | COMMAND_SEQUENCE [], _, _, _, h => by simp [classify_SEQ_nil] at h
  | COMMAND_SEQUENCE [c], cs, l, t2, h => by
    rw [classify_SEQ_single] at h ⊢
    exact classify_if_body_mono c cs true t2 h
  | COMMAND_SEQUENCE (c :: d :: r), cs, l, t2, h => by
    rw [classify_SEQ_cons] at h ⊢
    exact classifySequence_if_body_mono (c :: d :: r) cs t2 h
  | RULE_CALL _, _, _, t2, h => ⟨t2, h, le_refl _⟩
  | RULE_SET_CALL _, _, _, t2, h => ⟨t2, h, le_refl _⟩
  | PROCEDURE_CALL n p, cs, l, t2, h => by
    rw [classify_CALL] at h ⊢
    exact classify_if_body_mono p cs l t2 h
  | IF_STATEMENT c t e _ _, cs, l, t2, h => by
    rw [classify_IF] at h ⊢
    simp only [Option.bind_eq_some, Option.some.injEq] at h
    obtain ⟨tc, e1, tt, e2, te, e3, h⟩ := h
    obtain ⟨uc, f1, g1⟩ := classify_if_body_mono c cs l tc e1
    obtain ⟨ut, f2, g2⟩ := classify_if_body_mono t cs l tt e2
    obtain ⟨ue, f3, g3⟩ := classify_if_body_mono e cs l te e3
    refine ⟨_, by rw [f1, f2, f3]; rfl, ?_⟩
    rw [← h]
    exact branch_type_mono g1 g2 g3
  | TRY_STATEMENT c t e _ _, cs, l, t2, h => by
    rw [classify_TRY] at h ⊢
    simp only [Option.bind_eq_some, Option.some.injEq] at h
    obtain ⟨tc, e1, tt, e2, te, e3, h⟩ := h
    obtain ⟨uc, f1, g1⟩ := classify_if_body_mono c cs l tc e1
    obtain ⟨ut, f2, g2⟩ := classify_if_body_mono t cs l tt e2
    obtain ⟨ue, f3, g3⟩ := classify_if_body_mono e cs l te e3
    refine ⟨_, by rw [f1, f2, f3]; rfl, ?_⟩
    rw [← h]
    exact branch_type_mono g1 g2 g3
  | ALAP_STATEMENT b rp rb sr, cs, l, t2, _ =>
    ⟨COPY, by rw [classify_ALAP]; simp, le_COPY t2⟩
  | PROGRAM_OR a b, cs, l, t2, h => by
    rw [classify_OR] at h ⊢
    simp only [Option.bind_eq_some, Option.some.injEq] at h
    obtain ⟨ta, e1, tb, e2, h⟩ := h
    obtain ⟨ua, f1, g1⟩ := classify_if_body_mono a cs l ta e1
    obtain ⟨ub, f2, g2⟩ := classify_if_body_mono b cs l tb e2
    refine ⟨_, by rw [f1, f2]; rfl, ?_⟩
    rw [← h]
    exact max_le_max g1 g2
  | SKIP_STATEMENT, _, _, t2, h => ⟨t2, h, le_refl _⟩
  | FAIL_STATEMENT, _, _, t2, h => ⟨t2, h, le_refl _⟩
  | BREAK_STATEMENT, _, _, t2, h => ⟨t2, h, le_refl _⟩
  | UNKNOWN _, _, _, t2, h => ⟨t2, h, le_refl _⟩
theorem classifySequence_if_body_mono : ∀ (cmds : List GPStatement) (cs : Int)
    (t2 : copyType),
    classifySequence cmds false cs = some t2 →
      ∃ t1, classifySequence cmds true cs = some t1 ∧ t2 ≤ t1
  | [], _, t2, h => by
    rw [classifySequence_nil] at h ⊢
    exact ⟨t2, h, le_refl _⟩
  | c :: next, cs, t2, h => by
    rw [classifySequence_cons] at h ⊢
    simp only [Option.bind_eq_some] at h
    obtain ⟨tc, e1, h⟩ := h
    obtain ⟨uc, f1, g1⟩ := classify_if_body_mono c
      (if cs = 0 ∨ (cs = 1 ∧ next.isEmpty) then 1 else 2) next.isEmpty tc e1
    simp only [f1, Option.some_bind]
    by_cases hu : uc = COPY
    · exact ⟨COPY, by rw [if_pos hu], le_COPY t2⟩
    · have ht : tc ≠ COPY := fun e => hu (eq_COPY_of_le g1 e)
      rw [if_neg ht] at h
      rw [if_neg hu]
      exact classifySequence_if_body_mono next cs t2 h
end

/-! ### Shared procedures: reading and writing command trees -/

theorem commandsOf_writeCommands : ∀ (procs : Procedures) (n m : String) (b : GPStatement),
    commandsOf (writeCommands procs n b) m =
      if m = n then (commandsOf procs n).map (fun _ => b) else commandsOf procs m
  | [], n, m, b => by simp [writeCommands, commandsOf]
  | (x, old) :: rest, n, m, b => by
    have ih := commandsOf_writeCommands rest n m b
    by_cases hx : x = n
    · subst hx
      by_cases hm : m = x
      · subst hm
        simp [writeCommands, commandsOf]
      · have hm2 : ¬ x = m := fun e => hm e.symm
        simp [writeCommands, commandsOf, hm, hm2]
    · by_cases hm : m = n
      · subst hm
        have hx2 : ¬ x = m := hx
        simp only [writeCommands, hx, if_false, commandsOf, hx2, ih, if_true]
      · by_cases hxm : x = m
        · simp [writeCommands, commandsOf, hx, hm, hxm]
        · simp only [writeCommands, hx, if_false, commandsOf, hxm, ih, hm]

theorem commandsOf_eraseProcedures : ∀ (procs : Procedures) (n : String),
    commandsOf (eraseProcedures procs) n = (commandsOf procs n).map erase
  | [], n => rfl
  | (x, b) :: rest, n => by
    have ih := commandsOf_eraseProcedures rest n
    simp only [eraseProcedures, List.map_cons] at ih ⊢
    by_cases hx : x = n
    · simp [commandsOf, hx]
    · simp only [commandsOf, hx, if_false]
      exact ih

theorem eraseProcedures_writeCommands : ∀ (procs : Procedures) (n : String) (b : GPStatement),
    (∀ old, commandsOf procs n = some old → erase b = erase old) →
      eraseProcedures (writeCommands procs n b) = eraseProcedures procs
  | [], n, b, _ => rfl
  | (x, old) :: rest, n, b, h => by
    by_cases hx : x = n
    · have e := h old (by simp [commandsOf, hx])
      simp [writeCommands, hx, eraseProcedures, e]
    · have ih := eraseProcedures_writeCommands rest n b
        (fun o ho => h o (by simpa [commandsOf, hx] using ho))
      simp only [eraseProcedures] at ih
      simp [writeCommands, hx, eraseProcedures, ih]

theorem writeCommands_self : ∀ (procs : Procedures) (n : String) (b : GPStatement),
    commandsOf procs n = some b → writeCommands procs n b = procs
  | [], n, b, h => rfl
  | (x, old) :: rest, n, b, h => by
    by_cases hx : x = n
    · simp only [commandsOf, hx, if_true, Option.some.injEq] at h
      simp [writeCommands, hx, h]
    · simp only [commandsOf, hx, if_false] at h
      simp [writeCommands, hx, writeCommands_self rest n b h]

theorem commandsOf_isSome_of_eraseProcedures {p q : Procedures}
    (h : eraseProcedures p = eraseProcedures q) (n : String) :
    (commandsOf p n).map erase = (commandsOf q n).map erase := by
  rw [← commandsOf_eraseProcedures, ← commandsOf_eraseProcedures, h]

/-! ### Shared procedures: equations of the classifier and the annotator -/

theorem shared_getStatementType_zero (procs : Procedures) (s : GPStatement) (ib : Bool)
    (cs : Int) (l : Bool) : Shared.getStatementType 0 procs s ib cs l = none := by
  rw [Shared.getStatementType]

theorem shared_getSequenceType_zero (procs : Procedures) (cmds : List GPStatement) (ib : Bool)
    (cs : Int) : Shared.getSequenceType 0 procs cmds ib cs = none := by
  rw [Shared.getSequenceType]

theorem shared_getSequenceType_nil (k : Nat) (procs : Procedures) (ib : Bool) (cs : Int) :
    Shared.getSequenceType (k + 1) procs [] ib cs = some (RECORD_CHANGES, procs, []) := by
  rw [Shared.getSequenceType]

theorem shared_getSequenceType_cons (k : Nat) (procs : Procedures) (c : GPStatement)
    (next : List GPStatement) (ib : Bool) (cs : Int) :
    Shared.getSequenceType (k + 1) procs (c :: next) ib cs =
      (Shared.getStatementType k procs c ib
          (if cs = 0 ∨ (cs = 1 ∧ next.isEmpty) then 1 else 2) next.isEmpty).bind fun rc =>
        if rc.1 = COPY then some (COPY, rc.2.1, rc.2.2 :: next)
        else (Shared.getSequenceType k rc.2.1 next ib cs).map
          fun rn => (rn.1, rn.2.1, rc.2.2 :: rn.2.2) := by
  simp only [Shared.getSequenceType]
  cases Shared.getStatementType k procs c ib
      (if cs = 0 ∨ (cs = 1 ∧ next.isEmpty) then 1 else 2) next.isEmpty with
  | none => rfl
  | some rc =>
    by_cases h : rc.1 = COPY
    · simp [h]
    · simp only [h, if_false, Option.some_bind]
      cases Shared.getSequenceType k rc.2.1 next ib cs <;> rfl

theorem shared_getStatementType_NULL (k : Nat) (procs : Procedures) (ib : Bool) (cs : Int)
    (l : Bool) : Shared.getStatementType (k + 1) procs NULL ib cs l = none := by
  simp only [Shared.getStatementType]

theorem shared_getStatementType_SEQ_nil (k : Nat) (procs : Procedures) (ib : Bool) (cs : Int)
    (l : Bool) : Shared.getStatementType (k + 1) procs (COMMAND_SEQUENCE []) ib cs l = none := by
  simp only [Shared.getStatementType]

theorem shared_getStatementType_SEQ_single (k : Nat) (procs : Procedures) (c : GPStatement)
    (ib : Bool) (cs : Int) (l : Bool) :
    Shared.getStatementType (k + 1) procs (COMMAND_SEQUENCE [c]) ib cs l =
      (Shared.getStatementType k procs c ib cs true).map
        fun r => (r.1, r.2.1, COMMAND_SEQUENCE [r.2.2]) := by
  simp only [Shared.getStatementType]
  cases Shared.getStatementType k procs c ib cs true <;> rfl

theorem shared_getStatementType_SEQ_cons (k : Nat) (procs : Procedures) (c d : GPStatement)
    (r : List GPStatement) (ib : Bool) (cs : Int) (l : Bool) :
    Shared.getStatementType (k + 1) procs (COMMAND_SEQUENCE (c :: d :: r)) ib cs l =
      (Shared.getSequenceType k procs (c :: d :: r) ib cs).map
        fun x => (x.1, x.2.1, COMMAND_SEQUENCE x.2.2) := by
  simp only [Shared.getStatementType]
  cases Shared.getSequenceType k procs (c :: d :: r) ib cs <;> rfl

theorem shared_getStatementType_CALL (k : Nat) (procs : Procedures) (n : String)
    (p : GPStatement) (ib : Bool) (cs : Int) (l : Bool) :
    Shared.getStatementType (k + 1) procs (PROCEDURE_CALL n p) ib cs l =
      (commandsOf procs n).bind fun body =>
        (Shared.getStatementType k procs body ib cs l).map
          fun r => (r.1, writeCommands r.2.1 n r.2.2, PROCEDURE_CALL n p) := by
  simp only [Shared.getStatementType]
  cases commandsOf procs n with
  | none => rfl
  | some body =>
    simp only [Option.some_bind]
    cases Shared.getStatementType k procs body ib cs l <;> rfl

theorem shared_getStatementType_IF (k : Nat) (procs : Procedures) (c t e : GPStatement)
    (rp : Option Int) (rb : Bool) (ib : Bool) (cs : Int) (l : Bool) :
    Shared.getStatementType (k + 1) procs (IF_STATEMENT c t e rp rb) ib cs l =
      (Shared.getStatementType k procs c ib cs l).bind fun rc =>
        (Shared.getStatementType k rc.2.1 t ib cs l).bind fun rt =>
          (Shared.getStatementType k rt.2.1 e ib cs l).bind fun re =>
            some (if rc.1 = COPY ∨ rt.1 = COPY ∨ re.1 = COPY then COPY else RECORD_CHANGES,
              re.2.1, IF_STATEMENT rc.2.2 rt.2.2 re.2.2 rp rb) := by
  simp only [Shared.getStatementType]
  cases Shared.getStatementType k procs c ib cs l with
  | none => rfl
  | some rc =>
    simp only [Option.some_bind]
    cases Shared.getStatementType k rc.2.1 t ib cs l with
    | none => rfl
    | some rt =>
      simp only [Option.some_bind]
      cases Shared.getStatementType k rt.2.1 e ib cs l <;> rfl

theorem shared_getStatementType_TRY (k : Nat) (procs : Procedures) (c t e : GPStatement)
    (rp : Option Int) (rb : Bool) (ib : Bool) (cs : Int) (l : Bool) :
    Shared.getStatementType (k + 1) procs (TRY_STATEMENT c t e rp rb) ib cs l =
      (Shared.getStatementType k procs c ib cs l).bind fun rc =>
        (Shared.getStatementType k rc.2.1 t ib cs l).bind fun rt =>
          (Shared.getStatementType k rt.2.1 e ib cs l).bind fun re =>
            some (if rc.1 = COPY ∨ rt.1 = COPY ∨ re.1 = COPY then COPY else RECORD_CHANGES,
              re.2.1, TRY_STATEMENT rc.2.2 rt.2.2 re.2.2 rp rb) := by
  simp only [Shared.getStatementType]
  cases Shared.getStatementType k procs c ib cs l with
  | none => rfl
  | some rc =>
    simp only [Option.some_bind]
    cases Shared.getStatementType k rc.2.1 t ib cs l with
    | none => rfl
    | some rt =>
      simp only [Option.some_bind]
      cases Shared.getStatementType k rt.2.1 e ib cs l <;> rfl

theorem shared_getStatementType_ALAP (k : Nat) (procs : Procedures) (b : GPStatement)
    (rp : Option Int) (rb sr : Bool) (ib : Bool) (cs : Int) (l : Bool) :
    Shared.getStatementType (k + 1) procs (ALAP_STATEMENT b rp rb sr) ib cs l =
      some (if ib = true then COPY
            else if cs = 2 ∨ (cs = 1 ∧ l = false) then COPY
            else NO_COPY,
        procs,
        ALAP_STATEMENT b rp rb (if ib = false ∧ cs = 1 ∧ l = true then true else sr)) := by
  simp only [Shared.getStatementType]
  cases ib <;> cases l <;> by_cases h2 : cs = 2 <;> by_cases h1 : cs = 1 <;> simp [h1, h2]

theorem shared_getStatementType_OR (k : Nat) (procs : Procedures) (a b : GPStatement)
    (ib : Bool) (cs : Int) (l : Bool) :
    Shared.getStatementType (k + 1) procs (PROGRAM_OR a b) ib cs l =
      (Shared.getStatementType k procs a ib cs l).bind fun ra =>
        (Shared.getStatementType k ra.2.1 b ib cs l).bind fun rb =>
          some (max ra.1 rb.1, rb.2.1, PROGRAM_OR ra.2.2 rb.2.2) := by
  simp only [Shared.getStatementType, toNat_max]
  cases Shared.getStatementType k procs a ib cs l with
  | none => rfl
  | some ra =>
    simp only [Option.some_bind]
    cases Shared.getStatementType k ra.2.1 b ib cs l <;> rfl

theorem shared_getStatementType_leaf (k : Nat) (procs : Procedures) (ib : Bool) (cs : Int)
    (l : Bool) :
    (∀ n, Shared.getStatementType (k + 1) procs (RULE_CALL n) ib cs l =
      some (NO_COPY, procs, RULE_CALL n)) ∧
    (∀ ns, Shared.getStatementType (k + 1) procs (RULE_SET_CALL ns) ib cs l =
      some (NO_COPY, procs, RULE_SET_CALL ns)) ∧
    Shared.getStatementType (k + 1) procs SKIP_STATEMENT ib cs l =
      some (NO_COPY, procs, SKIP_STATEMENT) ∧
    Shared.getStatementType (k + 1) procs FAIL_STATEMENT ib cs l =
      some (NO_COPY, procs, FAIL_STATEMENT) ∧
    Shared.getStatementType (k + 1) procs BREAK_STATEMENT ib cs l =
      some (NO_COPY, procs, BREAK_STATEMENT) ∧
    (∀ u, Shared.getStatementType (k + 1) procs (UNKNOWN u) ib cs l =
      some (COPY, procs, UNKNOWN u)) := by
  refine ⟨fun n => ?_, fun ns => ?_, ?_, ?_, ?_, fun u => ?_⟩ <;>
    simp only [Shared.getStatementType]

theorem shared_annotate_zero (procs : Procedures) (s : GPStatement) (rp : Int) :
    Shared.annotate 0 procs s rp = none := by
  rw [Shared.annotate]

theorem shared_annotateCommands_zero (procs : Procedures) (cmds : List GPStatement) (rp : Int) :
    Shared.annotateCommands 0 procs cmds rp = none := by
  rw [Shared.annotateCommands]

theorem shared_annotateCommands_nil (k : Nat) (procs : Procedures) (rp : Int) :
    Shared.annotateCommands (k + 1) procs [] rp = some (procs, []) := by
  rw [Shared.annotateCommands]

theorem shared_annotateCommands_cons (k : Nat) (procs : Procedures) (c : GPStatement)
    (next : List GPStatement) (rp : Int) :
    Shared.annotateCommands (k + 1) procs (c :: next) rp =
      (Shared.annotate k procs c rp).bind fun rc =>
        (Shared.annotateCommands k rc.1 next rp).map fun rn => (rn.1, rc.2 :: rn.2) := by
  simp only [Shared.annotateCommands]
  cases Shared.annotate k procs c rp with
  | none => rfl
  | some rc =>
    simp only [Option.some_bind]
    cases Shared.annotateCommands k rc.1 next rp <;> rfl

theorem shared_annotate_NULL (k : Nat) (procs : Procedures) (rp : Int) :
    Shared.annotate (k + 1) procs NULL rp = none := by
  simp only [Shared.annotate]

theorem shared_annotate_SEQ (k : Nat) (procs : Procedures) (cmds : List GPStatement)
    (rp : Int) :
    Shared.annotate (k + 1) procs (COMMAND_SEQUENCE cmds) rp =
      (Shared.annotateCommands k procs cmds rp).map fun r => (r.1, COMMAND_SEQUENCE r.2) := by
  simp only [Shared.annotate]
  cases Shared.annotateCommands k procs cmds rp <;> rfl

theorem shared_annotate_CALL (k : Nat) (procs : Procedures) (n : String) (p : GPStatement)
    (rp : Int) :
    Shared.annotate (k + 1) procs (PROCEDURE_CALL n p) rp =
      (commandsOf procs n).bind fun body =>
        (Shared.annotate k procs body rp).map
          fun r => (writeCommands r.1 n r.2, PROCEDURE_CALL n p) := by
  simp only [Shared.annotate]
  cases commandsOf procs n with
  | none => rfl
  | some body =>
    simp only [Option.some_bind]
    cases Shared.annotate k procs body rp <;> rfl

theorem shared_annotate_IF (k : Nat) (procs : Procedures) (c t e : GPStatement)
    (rpf : Option Int) (rb : Bool) (rp : Int) :
    Shared.annotate (k + 1) procs (IF_STATEMENT c t e rpf rb) rp =
      (Shared.getStatementType k procs c true 0 false).bind fun rc =>
        (Shared.annotate k rc.2.1 rc.2.2 (if rc.1 = COPY then increment rp else rp)).bind
          fun r1 =>
          (Shared.annotate k r1.1 t rp).bind fun r2 =>
            (Shared.annotate k r2.1 e rp).bind fun r3 =>
              some (r3.1, IF_STATEMENT r1.2 r2.2 r3.2 (if rc.1 = COPY then some rp else rpf)
                (if rc.1 = RECORD_CHANGES then true else rb)) := by
  simp only [Shared.annotate]
  cases Shared.getStatementType k procs c true 0 false with
  | none => rfl
  | some rc =>
    simp only [Option.some_bind]
    cases Shared.annotate k rc.2.1 rc.2.2 (if rc.1 = COPY then increment rp else rp) with
    | none => rfl
    | some r1 =>
      simp only [Option.some_bind]
      cases Shared.annotate k r1.1 t rp with
      | none => rfl
      | some r2 =>
        simp only [Option.some_bind]
        cases Shared.annotate k r2.1 e rp <;> rfl

theorem shared_annotate_TRY (k : Nat) (procs : Procedures) (c t e : GPStatement)
    (rpf : Option Int) (rb : Bool) (rp : Int) :
    Shared.annotate (k + 1) procs (TRY_STATEMENT c t e rpf rb) rp =
      (Shared.getStatementType k procs c false 0 false).bind fun rc =>
        (Shared.annotate k rc.2.1 rc.2.2 (if rc.1 = COPY then increment rp else rp)).bind
          fun r1 =>
          (Shared.annotate k r1.1 t rp).bind fun r2 =>
            (Shared.annotate k r2.1 e rp).bind fun r3 =>
              some (r3.1, TRY_STATEMENT r1.2 r2.2 r3.2 (if rc.1 = COPY then some rp else rpf)
                (if rc.1 = RECORD_CHANGES then true else rb)) := by
  simp only [Shared.annotate]
  cases Shared.getStatementType k procs c false 0 false with
  | none => rfl
  | some rc =>
    simp only [Option.some_bind]
    cases Shared.annotate k rc.2.1 rc.2.2 (if rc.1 = COPY then increment rp else rp) with
    | none => rfl
    | some r1 =>
      simp only [Option.some_bind]
      cases Shared.annotate k r1.1 t rp with
      | none => rfl
      | some r2 =>
        simp only [Option.some_bind]
        cases Shared.annotate k r2.1 e rp <;> rfl

theorem shared_annotate_ALAP (k : Nat) (procs : Procedures) (b : GPStatement)
    (rpf : Option Int) (rb sr : Bool) (rp : Int) :
    Shared.annotate (k + 1) procs (ALAP_STATEMENT b rpf rb sr) rp =
      (Shared.getStatementType k procs b false 0 false).bind fun rc =>
        (Shared.annotate k rc.2.1 rc.2.2 (if rc.1 = COPY then increment rp else rp)).bind
          fun r1 =>
          some (r1.1, ALAP_STATEMENT r1.2 (if rc.1 = COPY then some rp else rpf)
            (if rc.1 = RECORD_CHANGES then true else rb) sr) := by
  simp only [Shared.annotate]
  cases Shared.getStatementType k procs b false 0 false with
  | none => rfl
  | some rc =>
    simp only [Option.some_bind]
    cases Shared.annotate k rc.2.1 rc.2.2 (if rc.1 = COPY then increment rp else rp) <;> rfl

theorem shared_annotate_OR (k : Nat) (procs : Procedures) (l r : GPStatement) (rp : Int) :
    Shared.annotate (k + 1) procs (PROGRAM_OR l r) rp =
      (Shared.annotate k procs l rp).bind fun r1 =>
        (Shared.annotate k r1.1 r rp).bind fun r2 =>
          some (r2.1, PROGRAM_OR r1.2 r2.2) := by
  simp only [Shared.annotate]
  cases Shared.annotate k procs l rp with
  | none => rfl
  | some r1 =>
    simp only [Option.some_bind]
    cases Shared.annotate k r1.1 r rp <;> rfl

theorem shared_annotate_leaf (k : Nat) (procs : Procedures) (rp : Int) :
    (∀ n, Shared.annotate (k + 1) procs (RULE_CALL n) rp = some (procs, RULE_CALL n)) ∧
    (∀ ns, Shared.annotate (k + 1) procs (RULE_SET_CALL ns) rp =
      some (procs, RULE_SET_CALL ns)) ∧
    Shared.annotate (k + 1) procs SKIP_STATEMENT rp = some (procs, SKIP_STATEMENT) ∧
    Shared.annotate (k + 1) procs FAIL_STATEMENT rp = some (procs, FAIL_STATEMENT) ∧
    Shared.annotate (k + 1) procs BREAK_STATEMENT rp = some (procs, BREAK_STATEMENT) ∧
    (∀ u, Shared.annotate (k + 1) procs (UNKNOWN u) rp = some (procs, UNKNOWN u)) := by
  refine ⟨fun n => ?_, fun ns => ?_, ?_, ?_, ?_, fun u => ?_⟩ <;>
    simp only [Shared.annotate]

/-! ### Shared procedures: induction over the runs that produce a result -/

/-- Induction principle for the runs of `Shared.getStatementType` and `Shared.getSequenceType`
that produce a result: `P` is established for every run of the first and `Q` for every run of
the second from the same facts about the recursive calls the source makes. -/
theorem shared_classifier_induction
    {P : Nat → Procedures → GPStatement → Bool → Int → Bool →
      copyType → Procedures → GPStatement → Prop}
    {Q : Nat → Procedures → List GPStatement → Bool → Int →
      copyType → Procedures → List GPStatement → Prop}
    (hsingle : ∀ k procs c ib cs l t p1 c1,
      Shared.getStatementType k procs c ib cs true = some (t, p1, c1) →
      P k procs c ib cs true t p1 c1 →
      P (k + 1) procs (COMMAND_SEQUENCE [c]) ib cs l t p1 (COMMAND_SEQUENCE [c1]))
    (hseq : ∀ k procs c d r ib cs l t p1 cmds1,
      Shared.getSequenceType k procs (c :: d :: r) ib cs = some (t, p1, cmds1) →
      Q k procs (c :: d :: r) ib cs t p1 cmds1 →
      P (k + 1) procs (COMMAND_SEQUENCE (c :: d :: r)) ib cs l t p1 (COMMAND_SEQUENCE cmds1))
    (hrule : ∀ k procs n ib cs l, P (k + 1) procs (RULE_CALL n) ib cs l NO_COPY procs (RULE_CALL n))
    (hset : ∀ k procs ns ib cs l,
      P (k + 1) procs (RULE_SET_CALL ns) ib cs l NO_COPY procs (RULE_SET_CALL ns))
    (hcall : ∀ k procs n p ib cs l body t p1 body1, commandsOf procs n = some body →
      Shared.getStatementType k procs body ib cs l = some (t, p1, body1) →
      P k procs body ib cs l t p1 body1 →
      P (k + 1) procs (PROCEDURE_CALL n p) ib cs l t (writeCommands p1 n body1)
        (PROCEDURE_CALL n p))
    (hif : ∀ k procs c t e rp rb ib cs l tc p1 c1 tt p2 t1 te p3 e1,
      Shared.getStatementType k procs c ib cs l = some (tc, p1, c1) →
      Shared.getStatementType k p1 t ib cs l = some (tt, p2, t1) →
      Shared.getStatementType k p2 e ib cs l = some (te, p3, e1) →
      P k procs c ib cs l tc p1 c1 → P k p1 t ib cs l tt p2 t1 → P k p2 e ib cs l te p3 e1 →
      P (k + 1) procs (IF_STATEMENT c t e rp rb) ib cs l
        (if tc = COPY ∨ tt = COPY ∨ te = COPY then COPY else RECORD_CHANGES) p3
        (IF_STATEMENT c1 t1 e1 rp rb))
    (htry : ∀ k procs c t e rp rb ib cs l tc p1 c1 tt p2 t1 te p3 e1,
      Shared.getStatementType k procs c ib cs l = some (tc, p1, c1) →
      Shared.getStatementType k p1 t ib cs l = some (tt, p2, t1) →
      Shared.getStatementType k p2 e ib cs l = some (te, p3, e1) →
      P k procs c ib cs l tc p1 c1 → P k p1 t ib cs l tt p2 t1 → P k p2 e ib cs l te p3 e1 →
      P (k + 1) procs (TRY_STATEMENT c t e rp rb) ib cs l
        (if tc = COPY ∨ tt = COPY ∨ te = COPY then COPY else RECORD_CHANGES) p3
        (TRY_STATEMENT c1 t1 e1 rp rb))
    (halap : ∀ k procs b rp rb sr ib cs l,
      P (k + 1) procs (ALAP_STATEMENT b rp rb sr) ib cs l
        (if ib = true then COPY else if cs = 2 ∨ (cs = 1 ∧ l = false) then COPY else NO_COPY)
        procs (ALAP_STATEMENT b rp rb (if ib = false ∧ cs = 1 ∧ l = true then true else sr)))
    (hor : ∀ k procs a b ib cs l ta p1 a1 tb p2 b1,
      Shared.getStatementType k procs a ib cs l = some (ta, p1, a1) →
      Shared.getStatementType k p1 b ib cs l = some (tb, p2, b1) →
      P k procs a ib cs l ta p1 a1 → P k p1 b ib cs l tb p2 b1 →
      P (k + 1) procs (PROGRAM_OR a b) ib cs l (max ta tb) p2 (PROGRAM_OR a1 b1))
    (hskip : ∀ k procs ib cs l, P (k + 1) procs SKIP_STATEMENT ib cs l NO_COPY procs SKIP_STATEMENT)
    (hfail : ∀ k procs ib cs l, P (k + 1) procs FAIL_STATEMENT ib cs l NO_COPY procs FAIL_STATEMENT)
    (hbreak : ∀ k procs ib cs l,
      P (k + 1) procs BREAK_STATEMENT ib cs l NO_COPY procs BREAK_STATEMENT)
    (hunknown : ∀ k procs u ib cs l, P (k + 1) procs (UNKNOWN u) ib cs l COPY procs (UNKNOWN u))
    (hnil : ∀ k procs ib cs, Q (k + 1) procs [] ib cs RECORD_CHANGES procs [])
    (hstop : ∀ k procs c next ib cs p1 c1,
      Shared.getStatementType k procs c ib
        (if cs = 0 ∨ (cs = 1 ∧ next.isEmpty) then 1 else 2) next.isEmpty = some (COPY, p1, c1) →
      P k procs c ib (if cs = 0 ∨ (cs = 1 ∧ next.isEmpty) then 1 else 2) next.isEmpty COPY p1 c1 →
      Q (k + 1) procs (c :: next) ib cs COPY p1 (c1 :: next))
    (hcons : ∀ k procs c next ib cs tc p1 c1 t p2 next1, tc ≠ COPY →
      Shared.getStatementType k procs c ib
        (if cs = 0 ∨ (cs = 1 ∧ next.isEmpty) then 1 else 2) next.isEmpty = some (tc, p1, c1) →
      Shared.getSequenceType k p1 next ib cs = some (t, p2, next1) →
      P k procs c ib (if cs = 0 ∨ (cs = 1 ∧ next.isEmpty) then 1 else 2) next.isEmpty tc p1 c1 →
      Q k p1 next ib cs t p2 next1 →
      Q (k + 1) procs (c :: next) ib cs t p2 (c1 :: next1)) :
    (∀ k procs s ib cs l t p1 s1,
      Shared.getStatementType k procs s ib cs l = some (t, p1, s1) →
        P k procs s ib cs l t p1 s1) ∧
    (∀ k procs cmds ib cs t p1 cmds1,
      Shared.getSequenceType k procs cmds ib cs = some (t, p1, cmds1) →
        Q k procs cmds ib cs t p1 cmds1) := by
  have main : ∀ k : Nat,
      (∀ procs s ib cs l t p1 s1,
        Shared.getStatementType k procs s ib cs l = some (t, p1, s1) →
          P k procs s ib cs l t p1 s1) ∧
      (∀ procs cmds ib cs t p1 cmds1,
        Shared.getSequenceType k procs cmds ib cs = some (t, p1, cmds1) →
          Q k procs cmds ib cs t p1 cmds1) := by
    intro k
    induction k with
    | zero =>
      refine ⟨fun procs s ib cs l t p1 s1 h => ?_, fun procs cmds ib cs t p1 cmds1 h => ?_⟩
      · rw [shared_getStatementType_zero] at h
        exact absurd h (by simp)
      · rw [shared_getSequenceType_zero] at h
        exact absurd h (by simp)
    | succ k ih =>
      obtain ⟨ihP, ihQ⟩ := ih
      refine ⟨fun procs s ib cs l t p1 s1 h => ?_, fun procs cmds ib cs t p1 cmds1 h => ?_⟩
      · obtain ⟨l1, l2, l3, l4, l5, l6⟩ := shared_getStatementType_leaf k procs ib cs l
        cases s with
        | NULL => rw [shared_getStatementType_NULL] at h; exact absurd h (by simp)
        | COMMAND_SEQUENCE cmds =>
          cases cmds with
          | nil => rw [shared_getStatementType_SEQ_nil] at h; exact absurd h (by simp)
          | cons c rest =>
            cases rest with
            | nil =>
              rw [shared_getStatementType_SEQ_single] at h
              simp only [Option.map_eq_some'] at h
              obtain ⟨⟨t0, q1, c1⟩, hc, h⟩ := h
              simp only [Option.some.injEq, Prod.mk.injEq] at h
              obtain ⟨rfl, rfl, rfl⟩ := h
              exact hsingle k procs c ib cs l _ _ _ hc (ihP _ _ _ _ _ _ _ _ hc)
            | cons d r =>
              rw [shared_getStatementType_SEQ_cons] at h
              simp only [Option.map_eq_some'] at h
              obtain ⟨⟨t0, q1, c1⟩, hc, h⟩ := h
              simp only [Option.some.injEq, Prod.mk.injEq] at h
              obtain ⟨rfl, rfl, rfl⟩ := h
              exact hseq k procs c d r ib cs l _ _ _ hc (ihQ _ _ _ _ _ _ _ hc)
        | RULE_CALL n =>
          rw [l1] at h
          simp only [Option.some.injEq, Prod.mk.injEq] at h
          obtain ⟨rfl, rfl, rfl⟩ := h
          exact hrule k procs n ib cs l
        | RULE_SET_CALL ns =>
          rw [l2] at h
          simp only [Option.some.injEq, Prod.mk.injEq] at h
          obtain ⟨rfl, rfl, rfl⟩ := h
          exact hset k procs ns ib cs l
        | PROCEDURE_CALL n p =>
          rw [shared_getStatementType_CALL] at h
          simp only [Option.bind_eq_some, Option.map_eq_some'] at h
          obtain ⟨body, hb, ⟨t0, q1, b1⟩, hr, h⟩ := h
          simp only [Option.some.injEq, Prod.mk.injEq] at h
          obtain ⟨rfl, rfl, rfl⟩ := h
          exact hcall k procs n p ib cs l body _ _ _ hb hr (ihP _ _ _ _ _ _ _ _ hr)
        | IF_STATEMENT c t0 e rp rb =>
          rw [shared_getStatementType_IF] at h
          simp only [Option.bind_eq_some] at h
          obtain ⟨⟨tc, q1, c1⟩, h1, ⟨tt, q2, t1⟩, h2, ⟨te, q3, e1⟩, h3, h⟩ := h
          simp only [Option.some.injEq, Prod.mk.injEq] at h
          obtain ⟨rfl, rfl, rfl⟩ := h
          exact hif k procs c t0 e rp rb ib cs l _ _ _ _ _ _ _ _ _ h1 h2 h3
            (ihP _ _ _ _ _ _ _ _ h1) (ihP _ _ _ _ _ _ _ _ h2) (ihP _ _ _ _ _ _ _ _ h3)
        | TRY_STATEMENT c t0 e rp rb =>
          rw [shared_getStatementType_TRY] at h
          simp only [Option.bind_eq_some] at h
          obtain ⟨⟨tc, q1, c1⟩, h1, ⟨tt, q2, t1⟩, h2, ⟨te, q3, e1⟩, h3, h⟩ := h
          simp only [Option.some.injEq, Prod.mk.injEq] at h
          obtain ⟨rfl, rfl, rfl⟩ := h
          exact htry k procs c t0 e rp rb ib cs l _ _ _ _ _ _ _ _ _ h1 h2 h3
            (ihP _ _ _ _ _ _ _ _ h1) (ihP _ _ _ _ _ _ _ _ h2) (ihP _ _ _ _ _ _ _ _ h3)
        | ALAP_STATEMENT b rp rb sr =>
          rw [shared_getStatementType_ALAP] at h
          simp only [Option.some.injEq, Prod.mk.injEq] at h
          obtain ⟨rfl, rfl, rfl⟩ := h
          exact halap k procs b rp rb sr ib cs l
        | PROGRAM_OR a b =>
          rw [shared_getStatementType_OR] at h
          simp only [Option.bind_eq_some] at h
          obtain ⟨⟨ta, q1, a1⟩, h1, ⟨tb, q2, b1⟩, h2, h⟩ := h
          simp only [Option.some.injEq, Prod.mk.injEq] at h
          obtain ⟨rfl, rfl, rfl⟩ := h
          exact hor k procs a b ib cs l _ _ _ _ _ _ h1 h2
            (ihP _ _ _ _ _ _ _ _ h1) (ihP _ _ _ _ _ _ _ _ h2)
        | SKIP_STATEMENT =>
          rw [l3] at h
          simp only [Option.some.injEq, Prod.mk.injEq] at h
          obtain ⟨rfl, rfl, rfl⟩ := h
          exact hskip k procs ib cs l
        | FAIL_STATEMENT =>
          rw [l4] at h
          simp only [Option.some.injEq, Prod.mk.injEq] at h
          obtain ⟨rfl, rfl, rfl⟩ := h
          exact hfail k procs ib cs l
        | BREAK_STATEMENT =>
          rw [l5] at h
          simp only [Option.some.injEq, Prod.mk.injEq] at h
          obtain ⟨rfl, rfl, rfl⟩ := h
          exact hbreak k procs ib cs l
        | UNKNOWN u =>
          rw [l6] at h
          simp only [Option.some.injEq, Prod.mk.injEq] at h
          obtain ⟨rfl, rfl, rfl⟩ := h
          exact hunknown k procs u ib cs l
      · cases cmds with
        | nil =>
          rw [shared_getSequenceType_nil] at h
          simp only [Option.some.injEq, Prod.mk.injEq] at h
          obtain ⟨rfl, rfl, rfl⟩ := h
          exact hnil k procs ib cs
        | cons c next =>
          rw [shared_getSequenceType_cons] at h
          simp only [Option.bind_eq_some] at h
          obtain ⟨⟨tc, q1, c1⟩, h1, h⟩ := h
          by_cases htc : tc = COPY
          · subst htc
            simp only [if_true, Option.some.injEq, Prod.mk.injEq] at h
            obtain ⟨rfl, rfl, rfl⟩ := h
            exact hstop k procs c next ib cs _ _ h1 (ihP _ _ _ _ _ _ _ _ h1)
          · simp only [htc, if_false, Option.map_eq_some'] at h
            obtain ⟨⟨t2, q2, n1⟩, h2, h⟩ := h
            simp only [Option.some.injEq, Prod.mk.injEq] at h
            obtain ⟨rfl, rfl, rfl⟩ := h
            exact hcons k procs c next ib cs tc _ _ _ _ _ htc h1 h2
              (ihP _ _ _ _ _ _ _ _ h1) (ihQ _ _ _ _ _ _ _ h2)
  exact ⟨fun k => (main k).1, fun k => (main k).2⟩

/-- Induction principle for the runs of `Shared.annotate` and of its loop over a command list
that produce a result. -/
theorem shared_annotate_induction
    {P : Nat → Procedures → GPStatement → Int → Procedures → GPStatement → Prop}
    {Q : Nat → Procedures → List GPStatement → Int → Procedures → List GPStatement → Prop}
    (hseq : ∀ k procs cmds rp p1 cmds1,
      Shared.annotateCommands k procs cmds rp = some (p1, cmds1) → Q k procs cmds rp p1 cmds1 →
      P (k + 1) procs (COMMAND_SEQUENCE cmds) rp p1 (COMMAND_SEQUENCE cmds1))
    (hrule : ∀ k procs n rp, P (k + 1) procs (RULE_CALL n) rp procs (RULE_CALL n))
    (hset : ∀ k procs ns rp, P (k + 1) procs (RULE_SET_CALL ns) rp procs (RULE_SET_CALL ns))
    (hcall : ∀ k procs n p rp body p1 body1, commandsOf procs n = some body →
      Shared.annotate k procs body rp = some (p1, body1) → P k procs body rp p1 body1 →
      P (k + 1) procs (PROCEDURE_CALL n p) rp (writeCommands p1 n body1) (PROCEDURE_CALL n p))
    (hif : ∀ k procs c t e rpf rb rp ty p1 c1 p2 c2 p3 t2 p4 e2,
      Shared.getStatementType k procs c true 0 false = some (ty, p1, c1) →
      Shared.annotate k p1 c1 (if ty = COPY then increment rp else rp) = some (p2, c2) →
      Shared.annotate k p2 t rp = some (p3, t2) → Shared.annotate k p3 e rp = some (p4, e2) →
      P k p1 c1 (if ty = COPY then increment rp else rp) p2 c2 → P k p2 t rp p3 t2 →
      P k p3 e rp p4 e2 →
      P (k + 1) procs (IF_STATEMENT c t e rpf rb) rp p4
        (IF_STATEMENT c2 t2 e2 (if ty = COPY then some rp else rpf)
          (if ty = RECORD_CHANGES then true else rb)))
    (htry : ∀ k procs c t e rpf rb rp ty p1 c1 p2 c2 p3 t2 p4 e2,
      Shared.getStatementType k procs c false 0 false = some (ty, p1, c1) →
      Shared.annotate k p1 c1 (if ty = COPY then increment rp else rp) = some (p2, c2) →
      Shared.annotate k p2 t rp = some (p3, t2) → Shared.annotate k p3 e rp = some (p4, e2) →
      P k p1 c1 (if ty = COPY then increment rp else rp) p2 c2 → P k p2 t rp p3 t2 →
      P k p3 e rp p4 e2 →
      P (k + 1) procs (TRY_STATEMENT c t e rpf rb) rp p4
        (TRY_STATEMENT c2 t2 e2 (if ty = COPY then some rp else rpf)
          (if ty = RECORD_CHANGES then true else rb)))
    (halap : ∀ k procs b rpf rb sr rp ty p1 b1 p2 b2,
      Shared.getStatementType k procs b false 0 false = some (ty, p1, b1) →
      Shared.annotate k p1 b1 (if ty = COPY then increment rp else rp) = some (p2, b2) →
      P k p1 b1 (if ty = COPY then increment rp else rp) p2 b2 →
      P (k + 1) procs (ALAP_STATEMENT b rpf rb sr) rp p2
        (ALAP_STATEMENT b2 (if ty = COPY then some rp else rpf)
          (if ty = RECORD_CHANGES then true else rb) sr))
    (hor : ∀ k procs l r rp p1 l1 p2 r1,
      Shared.annotate k procs l rp = some (p1, l1) → Shared.annotate k p1 r rp = some (p2, r1) →
      P k procs l rp p1 l1 → P k p1 r rp p2 r1 →
      P (k + 1) procs (PROGRAM_OR l r) rp p2 (PROGRAM_OR l1 r1))
    (hskip : ∀ k procs rp, P (k + 1) procs SKIP_STATEMENT rp procs SKIP_STATEMENT)
    (hfail : ∀ k procs rp, P (k + 1) procs FAIL_STATEMENT rp procs FAIL_STATEMENT)
    (hbreak : ∀ k procs rp, P (k + 1) procs BREAK_STATEMENT rp procs BREAK_STATEMENT)
    (hunknown : ∀ k procs u rp, P (k + 1) procs (UNKNOWN u) rp procs (UNKNOWN u))
    (hnil : ∀ k procs rp, Q (k + 1) procs [] rp procs [])
    (hcons : ∀ k procs c next rp p1 c1 p2 next1,
      Shared.annotate k procs c rp = some (p1, c1) →
      Shared.annotateCommands k p1 next rp = some (p2, next1) →
      P k procs c rp p1 c1 → Q k p1 next rp p2 next1 →
      Q (k + 1) procs (c :: next) rp p2 (c1 :: next1)) :
    (∀ k procs s rp p1 s1, Shared.annotate k procs s rp = some (p1, s1) →
      P k procs s rp p1 s1) ∧
    (∀ k procs cmds rp p1 cmds1, Shared.annotateCommands k procs cmds rp = some (p1, cmds1) →
      Q k procs cmds rp p1 cmds1) := by
  have main : ∀ k : Nat,
      (∀ procs s rp p1 s1, Shared.annotate k procs s rp = some (p1, s1) →
        P k procs s rp p1 s1) ∧
      (∀ procs cmds rp p1 cmds1, Shared.annotateCommands k procs cmds rp = some (p1, cmds1) →
        Q k procs cmds rp p1 cmds1) := by
    intro k
    induction k with
    | zero =>
      refine ⟨fun procs s rp p1 s1 h => ?_, fun procs cmds rp p1 cmds1 h => ?_⟩
      · rw [shared_annotate_zero] at h
        exact absurd h (by simp)
      · rw [shared_annotateCommands_zero] at h
        exact absurd h (by simp)
    | succ k ih =>
      obtain ⟨ihP, ihQ⟩ := ih
      refine ⟨fun procs s rp p1 s1 h => ?_, fun procs cmds rp p1 cmds1 h => ?_⟩
      · obtain ⟨l1, l2, l3, l4, l5, l6⟩ := shared_annotate_leaf k procs rp
        cases s with
        | NULL => rw [shared_annotate_NULL] at h; exact absurd h (by simp)
        | COMMAND_SEQUENCE cmds =>
          rw [shared_annotate_SEQ] at h
          simp only [Option.map_eq_some'] at h
          obtain ⟨⟨q1, c1⟩, hc, h⟩ := h
          simp only [Option.some.injEq, Prod.mk.injEq] at h
          obtain ⟨rfl, rfl⟩ := h
          exact hseq k procs cmds rp _ _ hc (ihQ _ _ _ _ _ hc)
        | RULE_CALL n =>
          rw [l1] at h
          simp only [Option.some.injEq, Prod.mk.injEq] at h
          obtain ⟨rfl, rfl⟩ := h
          exact hrule k procs n rp
        | RULE_SET_CALL ns =>
          rw [l2] at h
          simp only [Option.some.injEq, Prod.mk.injEq] at h
          obtain ⟨rfl, rfl⟩ := h
          exact hset k procs ns rp
        | PROCEDURE_CALL n p =>
          rw [shared_annotate_CALL] at h
          simp only [Option.bind_eq_some, Option.map_eq_some'] at h
          obtain ⟨body, hb, ⟨q1, b1⟩, hr, h⟩ := h
          simp only [Option.some.injEq, Prod.mk.injEq] at h
          obtain ⟨rfl, rfl⟩ := h
          exact hcall k procs n p rp body _ _ hb hr (ihP _ _ _ _ _ hr)
        | IF_STATEMENT c t0 e rpf rb =>
          rw [shared_annotate_IF] at h
          simp only [Option.bind_eq_some] at h
          obtain ⟨⟨ty, q1, c1⟩, h1, ⟨q2, c2⟩, h2, ⟨q3, t2⟩, h3, ⟨q4, e2⟩, h4, h⟩ := h
          simp only [Option.some.injEq, Prod.mk.injEq] at h
          obtain ⟨rfl, rfl⟩ := h
          exact hif k procs c t0 e rpf rb rp _ _ _ _ _ _ _ _ _ h1 h2 h3 h4
            (ihP _ _ _ _ _ h2) (ihP _ _ _ _ _ h3) (ihP _ _ _ _ _ h4)
        | TRY_STATEMENT c t0 e rpf rb =>
          rw [shared_annotate_TRY] at h
          simp only [Option.bind_eq_some] at h
          obtain ⟨⟨ty, q1, c1⟩, h1, ⟨q2, c2⟩, h2, ⟨q3, t2⟩, h3, ⟨q4, e2⟩, h4, h⟩ := h
          simp only [Option.some.injEq, Prod.mk.injEq] at h
          obtain ⟨rfl, rfl⟩ := h
          exact htry k procs c t0 e rpf rb rp _ _ _ _ _ _ _ _ _ h1 h2 h3 h4
            (ihP _ _ _ _ _ h2) (ihP _ _ _ _ _ h3) (ihP _ _ _ _ _ h4)
        | ALAP_STATEMENT b rpf rb sr =>
          rw [shared_annotate_ALAP] at h
          simp only [Option.bind_eq_some] at h
          obtain ⟨⟨ty, q1, b1⟩, h1, ⟨q2, b2⟩, h2, h⟩ := h
          simp only [Option.some.injEq, Prod.mk.injEq] at h
          obtain ⟨rfl, rfl⟩ := h
          exact halap k procs b rpf rb sr rp _ _ _ _ _ h1 h2 (ihP _ _ _ _ _ h2)
        | PROGRAM_OR a b =>
          rw [shared_annotate_OR] at h
          simp only [Option.bind_eq_some] at h
          obtain ⟨⟨q1, a1⟩, h1, ⟨q2, b1⟩, h2, h⟩ := h
          simp only [Option.some.injEq, Prod.mk.injEq] at h
          obtain ⟨rfl, rfl⟩ := h
          exact hor k procs a b rp _ _ _ _ h1 h2 (ihP _ _ _ _ _ h1) (ihP _ _ _ _ _ h2)
        | SKIP_STATEMENT =>
          rw [l3] at h
          simp only [Option.some.injEq, Prod.mk.injEq] at h
          obtain ⟨rfl, rfl⟩ := h
          exact hskip k procs rp
        | FAIL_STATEMENT =>
          rw [l4] at h
          simp only [Option.some.injEq, Prod.mk.injEq] at h
          obtain ⟨rfl, rfl⟩ := h
          exact hfail k procs rp
        | BREAK_STATEMENT =>
          rw [l5] at h
          simp only [Option.some.injEq, Prod.mk.injEq] at h
          obtain ⟨rfl, rfl⟩ := h
          exact hbreak k procs rp
        | UNKNOWN u =>
          rw [l6] at h
          simp only [Option.some.injEq, Prod.mk.injEq] at h
          obtain ⟨rfl, rfl⟩ := h
          exact hunknown k procs u rp
      · cases cmds with
        | nil =>
          rw [shared_annotateCommands_nil] at h
          simp only [Option.some.injEq, Prod.mk.injEq] at h
          obtain ⟨rfl, rfl⟩ := h
          exact hnil k procs rp
        | cons c next =>
          rw [shared_annotateCommands_cons] at h
          simp only [Option.bind_eq_some, Option.map_eq_some'] at h
          obtain ⟨⟨q1, c1⟩, h1, ⟨q2, n1⟩, h2, h⟩ := h
          simp only [Option.some.injEq, Prod.mk.injEq] at h
          obtain ⟨rfl, rfl⟩ := h
          exact hcons k procs c next rp _ _ _ _ h1 h2 (ihP _ _ _ _ _ h1) (ihQ _ _ _ _ _ h2)
  exact ⟨fun k => (main k).1, fun k => (main k).2⟩

/-! ### Shared procedures: the runs keep the shape of the program -/

theorem erase_of_commandsOf {p q : Procedures} (h : eraseProcedures p = eraseProcedures q)
    {n : String} {body : GPStatement} (hb : commandsOf q n = some body) :
    ∀ old, commandsOf p n = some old → erase old = erase body := by
  intro old ho
  have e := commandsOf_isSome_of_eraseProcedures h n
  rw [ho, hb] at e
  simpa using e

/-- A run of the classifier over shared procedures changes neither the shape of the command
tree or of a procedure, nor a `restore_point` or `roll_back` field of the command tree. -/
theorem shared_getStatementType_erase :
    (∀ k procs s ib cs l t p1 s1,
      Shared.getStatementType k procs s ib cs l = some (t, p1, s1) →
        erase s1 = erase s ∧ ownUnwritten s1 = ownUnwritten s ∧
          eraseProcedures p1 = eraseProcedures procs) ∧
    (∀ k procs cmds ib cs t p1 cmds1,
      Shared.getSequenceType k procs cmds ib cs = some (t, p1, cmds1) →
        eraseList cmds1 = eraseList cmds ∧ ownUnwrittenList cmds1 = ownUnwrittenList cmds ∧
          eraseProcedures p1 = eraseProcedures procs) := by
  refine shared_classifier_induction
    (P := fun _ procs s _ _ _ _ p1 s1 =>
      erase s1 = erase s ∧ ownUnwritten s1 = ownUnwritten s ∧
        eraseProcedures p1 = eraseProcedures procs)
    (Q := fun _ procs cmds _ _ _ p1 cmds1 =>
      eraseList cmds1 = eraseList cmds ∧ ownUnwrittenList cmds1 = ownUnwrittenList cmds ∧
        eraseProcedures p1 = eraseProcedures procs)
    ?_ ?_ ?_ ?_ ?_ ?_ ?_ ?_ ?_ ?_ ?_ ?_ ?_ ?_ ?_ ?_
  · intro k procs c ib cs l t p1 c1 _ ih
    simp only [erase, eraseList, ownUnwritten, ownUnwrittenList, ih.1, ih.2.1, ih.2.2, and_self]
  · intro k procs c d r ib cs l t p1 cmds1 _ ih
    simp only [erase, ownUnwritten, ih.1, ih.2.1, ih.2.2, and_self]
  · intro k procs n ib cs l; exact ⟨rfl, rfl, rfl⟩
  · intro k procs ns ib cs l; exact ⟨rfl, rfl, rfl⟩
  · intro k procs n p ib cs l body t p1 body1 hb _ ih
    refine ⟨rfl, rfl, ?_⟩
    rw [eraseProcedures_writeCommands p1 n body1
      (fun old ho => by rw [ih.1, erase_of_commandsOf ih.2.2 hb old ho]), ih.2.2]
  · intro k procs c t e rp rb ib cs l tc p1 c1 tt p2 t1 te p3 e1 _ _ _ i1 i2 i3
    simp only [erase, ownUnwritten, i1.1, i2.1, i3.1, i1.2.1, i2.2.1, i3.2.1, i3.2.2, i2.2.2,
      i1.2.2, and_self]
  · intro k procs c t e rp rb ib cs l tc p1 c1 tt p2 t1 te p3 e1 _ _ _ i1 i2 i3
    simp only [erase, ownUnwritten, i1.1, i2.1, i3.1, i1.2.1, i2.2.1, i3.2.1, i3.2.2, i2.2.2,
      i1.2.2, and_self]
  · intro k procs b rp rb sr ib cs l
    simp only [erase, ownUnwritten, and_self]
  · intro k procs a b ib cs l ta p1 a1 tb p2 b1 _ _ i1 i2
    simp only [erase, ownUnwritten, i1.1, i2.1, i1.2.1, i2.2.1, i2.2.2, i1.2.2, and_self]
  · intro k procs ib cs l; exact ⟨rfl, rfl, rfl⟩
  · intro k procs ib cs l; exact ⟨rfl, rfl, rfl⟩
  · intro k procs ib cs l; exact ⟨rfl, rfl, rfl⟩
  · intro k procs u ib cs l; exact ⟨rfl, rfl, rfl⟩
  · intro k procs ib cs; exact ⟨rfl, rfl, rfl⟩
  · intro k procs c next ib cs p1 c1 _ ih
    simp only [eraseList, ownUnwrittenList, ih.1, ih.2.1, ih.2.2, and_self]
  · intro k procs c next ib cs tc p1 c1 t p2 next1 _ _ _ i1 i2
    simp only [eraseList, ownUnwrittenList, i1.1, i2.1, i1.2.1, i2.2.1, i2.2.2, i1.2.2, and_self]

/-- A run of the annotator over shared procedures changes neither the shape of the command
tree nor the shape of a procedure. -/
theorem shared_annotate_erase :
    (∀ k procs s rp p1 s1, Shared.annotate k procs s rp = some (p1, s1) →
      erase s1 = erase s ∧ eraseProcedures p1 = eraseProcedures procs) ∧
    (∀ k procs cmds rp p1 cmds1, Shared.annotateCommands k procs cmds rp = some (p1, cmds1) →
      eraseList cmds1 = eraseList cmds ∧ eraseProcedures p1 = eraseProcedures procs) := by
  refine shared_annotate_induction
    (P := fun _ procs s _ p1 s1 =>
      erase s1 = erase s ∧ eraseProcedures p1 = eraseProcedures procs)
    (Q := fun _ procs cmds _ p1 cmds1 =>
      eraseList cmds1 = eraseList cmds ∧ eraseProcedures p1 = eraseProcedures procs)
    ?_ ?_ ?_ ?_ ?_ ?_ ?_ ?_ ?_ ?_ ?_ ?_ ?_ ?_
  · intro k procs cmds rp p1 cmds1 _ ih
    simp only [erase, ih.1, ih.2, and_self]
  · intro k procs n rp; exact ⟨rfl, rfl⟩
  · intro k procs ns rp; exact ⟨rfl, rfl⟩
  · intro k procs n p rp body p1 body1 hb _ ih
    refine ⟨rfl, ?_⟩
    rw [eraseProcedures_writeCommands p1 n body1
      (fun old ho => by rw [ih.1, erase_of_commandsOf ih.2 hb old ho]), ih.2]
  · intro k procs c t e rpf rb rp ty p1 c1 p2 c2 p3 t2 p4 e2 hc _ _ _ i1 i2 i3
    obtain ⟨ec, _, ep⟩ := shared_getStatementType_erase.1 _ _ _ _ _ _ _ _ _ hc
    simp only [erase, i1.1, i2.1, i3.1, ec, i3.2, i2.2, i1.2, ep, and_self]
  · intro k procs c t e rpf rb rp ty p1 c1 p2 c2 p3 t2 p4 e2 hc _ _ _ i1 i2 i3
    obtain ⟨ec, _, ep⟩ := shared_getStatementType_erase.1 _ _ _ _ _ _ _ _ _ hc
    simp only [erase, i1.1, i2.1, i3.1, ec, i3.2, i2.2, i1.2, ep, and_self]
  · intro k procs b rpf rb sr rp ty p1 b1 p2 b2 hc _ i1
    obtain ⟨ec, _, ep⟩ := shared_getStatementType_erase.1 _ _ _ _ _ _ _ _ _ hc
    simp only [erase, i1.1, ec, i1.2, ep, and_self]
  · intro k procs l r rp p1 l1 p2 r1 _ _ i1 i2
    simp only [erase, i1.1, i2.1, i2.2, i1.2, and_self]
  · intro k procs rp; exact ⟨rfl, rfl⟩
  · intro k procs rp; exact ⟨rfl, rfl⟩
  · intro k procs rp; exact ⟨rfl, rfl⟩
  · intro k procs u rp; exact ⟨rfl, rfl⟩
  · intro k procs rp; exact ⟨rfl, rfl⟩
  · intro k procs c next rp p1 c1 p2 next1 _ _ i1 i2
    simp only [eraseList, i1.1, i2.1, i2.2, i1.2, and_self]

/-! ### Shared procedures: a larger recursion bound gives the same result -/

theorem shared_getStatementType_succ :
    (∀ k procs s ib cs l t p1 s1,
      Shared.getStatementType k procs s ib cs l = some (t, p1, s1) →
        Shared.getStatementType (k + 1) procs s ib cs l = some (t, p1, s1)) ∧
    (∀ k procs cmds ib cs t p1 cmds1,
      Shared.getSequenceType k procs cmds ib cs = some (t, p1, cmds1) →
        Shared.getSequenceType (k + 1) procs cmds ib cs = some (t, p1, cmds1)) := by
  refine shared_classifier_induction
    (P := fun k procs s ib cs l t p1 s1 =>
      Shared.getStatementType (k + 1) procs s ib cs l = some (t, p1, s1))
    (Q := fun k procs cmds ib cs t p1 cmds1 =>
      Shared.getSequenceType (k + 1) procs cmds ib cs = some (t, p1, cmds1))
    ?_ ?_ ?_ ?_ ?_ ?_ ?_ ?_ ?_ ?_ ?_ ?_ ?_ ?_ ?_ ?_
  · intro k procs c ib cs l t p1 c1 _ ih
    rw [shared_getStatementType_SEQ_single, ih]; rfl
  · intro k procs c d r ib cs l t p1 cmds1 _ ih
    rw [shared_getStatementType_SEQ_cons, ih]; rfl
  · intro k procs n ib cs l; exact (shared_getStatementType_leaf _ procs ib cs l).1 n
  · intro k procs ns ib cs l; exact (shared_getStatementType_leaf _ procs ib cs l).2.1 ns
  · intro k procs n p ib cs l body t p1 body1 hb _ ih
    rw [shared_getStatementType_CALL, hb, Option.some_bind, ih]; rfl
  · intro k procs c t e rp rb ib cs l tc p1 c1 tt p2 t1 te p3 e1 _ _ _ i1 i2 i3
    rw [shared_getStatementType_IF, i1, Option.some_bind, i2, Option.some_bind, i3]; rfl
  · intro k procs c t e rp rb ib cs l tc p1 c1 tt p2 t1 te p3 e1 _ _ _ i1 i2 i3
    rw [shared_getStatementType_TRY, i1, Option.some_bind, i2, Option.some_bind, i3]; rfl
  · intro k procs b rp rb sr ib cs l
    rw [shared_getStatementType_ALAP]
  · intro k procs a b ib cs l ta p1 a1 tb p2 b1 _ _ i1 i2
    rw [shared_getStatementType_OR, i1, Option.some_bind, i2]; rfl
  · intro k procs ib cs l; exact (shared_getStatementType_leaf _ procs ib cs l).2.2.1
  · intro k procs ib cs l; exact (shared_getStatementType_leaf _ procs ib cs l).2.2.2.1
  · intro k procs ib cs l; exact (shared_getStatementType_leaf _ procs ib cs l).2.2.2.2.1
  · intro k procs u ib cs l; exact (shared_getStatementType_leaf _ procs ib cs l).2.2.2.2.2 u
  · intro k procs ib cs; rw [shared_getSequenceType_nil]
  · intro k procs c next ib cs p1 c1 _ ih
    rw [shared_getSequenceType_cons, ih]; rfl
  · intro k procs c next ib cs tc p1 c1 t p2 next1 htc _ _ i1 i2
    rw [shared_getSequenceType_cons, i1, Option.some_bind]
    simp only [htc, if_false, i2]; rfl

theorem shared_annotate_succ :
    (∀ k procs s rp p1 s1, Shared.annotate k procs s rp = some (p1, s1) →
      Shared.annotate (k + 1) procs s rp = some (p1, s1)) ∧
    (∀ k procs cmds rp p1 cmds1, Shared.annotateCommands k procs cmds rp = some (p1, cmds1) →
      Shared.annotateCommands (k + 1) procs cmds rp = some (p1, cmds1)) := by
  refine shared_annotate_induction
    (P := fun k procs s rp p1 s1 => Shared.annotate (k + 1) procs s rp = some (p1, s1))
    (Q := fun k procs cmds rp p1 cmds1 =>
      Shared.annotateCommands (k + 1) procs cmds rp = some (p1, cmds1))
    ?_ ?_ ?_ ?_ ?_ ?_ ?_ ?_ ?_ ?_ ?_ ?_ ?_ ?_
  · intro k procs cmds rp p1 cmds1 _ ih
    rw [shared_annotate_SEQ, ih]; rfl
  · intro k procs n rp; exact (shared_annotate_leaf _ procs rp).1 n
  · intro k procs ns rp; exact (shared_annotate_leaf _ procs rp).2.1 ns
  · intro k procs n p rp body p1 body1 hb _ ih
    rw [shared_annotate_CALL, hb, Option.some_bind, ih]; rfl
  · intro k procs c t e rpf rb rp ty p1 c1 p2 c2 p3 t2 p4 e2 hc _ _ _ i1 i2 i3
    rw [shared_annotate_IF, shared_getStatementType_succ.1 _ _ _ _ _ _ _ _ _ hc,
      Option.some_bind]
    simp only [i1, Option.some_bind, i2, i3]
  · intro k procs c t e rpf rb rp ty p1 c1 p2 c2 p3 t2 p4 e2 hc _ _ _ i1 i2 i3
    rw [shared_annotate_TRY, shared_getStatementType_succ.1 _ _ _ _ _ _ _ _ _ hc,
      Option.some_bind]
    simp only [i1, Option.some_bind, i2, i3]
  · intro k procs b rpf rb sr rp ty p1 b1 p2 b2 hc _ i1
    rw [shared_annotate_ALAP, shared_getStatementType_succ.1 _ _ _ _ _ _ _ _ _ hc,
      Option.some_bind]
    simp only [i1, Option.some_bind]
  · intro k procs l r rp p1 l1 p2 r1 _ _ i1 i2
    rw [shared_annotate_OR, i1, Option.some_bind, i2]; rfl
  · intro k procs rp; exact (shared_annotate_leaf _ procs rp).2.2.1
  · intro k procs rp; exact (shared_annotate_leaf _ procs rp).2.2.2.1
  · intro k procs rp; exact (shared_annotate_leaf _ procs rp).2.2.2.2.1
  · intro k procs u rp; exact (shared_annotate_leaf _ procs rp).2.2.2.2.2 u
  · intro k procs rp; rw [shared_annotateCommands_nil]
  · intro k procs c next rp p1 c1 p2 next1 _ _ i1 i2
    rw [shared_annotateCommands_cons, i1, Option.some_bind, i2]; rfl

theorem shared_getStatementType_mono {k : Nat} {procs : Procedures} {s : GPStatement}
    {ib : Bool} {cs : Int} {l : Bool} {r : copyType × Procedures × GPStatement}
    (h : Shared.getStatementType k procs s ib cs l = some r) :
    ∀ j, k ≤ j → Shared.getStatementType j procs s ib cs l = some r := by
  intro j hj
  induction j, hj using Nat.le_induction with
  | base => exact h
  | succ j _ ih => exact shared_getStatementType_succ.1 _ _ _ _ _ _ _ _ _ ih

theorem shared_annotate_mono {k : Nat} {procs : Procedures} {s : GPStatement} {rp : Int}
    {r : Procedures × GPStatement} (h : Shared.annotate k procs s rp = some r) :
    ∀ j, k ≤ j → Shared.annotate j procs s rp = some r := by
  intro j hj
  induction j, hj using Nat.le_induction with
  | base => exact h
  | succ j _ ih => exact shared_annotate_succ.1 _ _ _ _ _ _ ih

theorem shared_annotateCommands_mono {k : Nat} {procs : Procedures} {cmds : List GPStatement}
    {rp : Int} {r : Procedures × List GPStatement}
    (h : Shared.annotateCommands k procs cmds rp = some r) :
    ∀ j, k ≤ j → Shared.annotateCommands j procs cmds rp = some r := by
  intro j hj
  induction j, hj using Nat.le_induction with
  | base => exact h
  | succ j _ ih => exact shared_annotate_succ.2 _ _ _ _ _ _ ih

/-- Two runs of the classifier on the same input that produce a result produce the same one,
whatever their recursion bounds. -/
theorem shared_getStatementType_unique {k j : Nat} {procs : Procedures} {s : GPStatement}
    {ib : Bool} {cs : Int} {l : Bool} {r1 r2 : copyType × Procedures × GPStatement}
    (h1 : Shared.getStatementType k procs s ib cs l = some r1)
    (h2 : Shared.getStatementType j procs s ib cs l = some r2) : r1 = r2 := by
  have e1 := shared_getStatementType_mono h1 (max k j) (le_max_left k j)
  have e2 := shared_getStatementType_mono h2 (max k j) (le_max_right k j)
  rw [e1] at e2
  exact Option.some.inj e2

/-- Two runs of the annotator on the same input that produce a result produce the same one,
whatever their recursion bounds. -/
theorem shared_annotate_unique {k j : Nat} {procs : Procedures} {s : GPStatement} {rp : Int}
    {r1 r2 : Procedures × GPStatement}
    (h1 : Shared.annotate k procs s rp = some r1)
    (h2 : Shared.annotate j procs s rp = some r2) : r1 = r2 := by
  have e1 := shared_annotate_mono h1 (max k j) (le_max_left k j)
  have e2 := shared_annotate_mono h2 (max k j) (le_max_right k j)
  rw [e1] at e2
  exact Option.some.inj e2

/-! ### Shared procedures: programs that can be traversed -/

theorem eraseList_eq_map : ∀ cmds : List GPStatement, eraseList cmds = cmds.map erase
  | [] => rfl
  | c :: next => by simp only [eraseList, List.map_cons, eraseList_eq_map next]

theorem closed_erase : ∀ (d : Nat) (procs : Procedures) (s : GPStatement),
    closed d (eraseProcedures procs) (erase s) = closed d procs s
  | 0, _, _ => rfl
  | d + 1, procs, s => by
    have ih := closed_erase d procs
    cases s with
    | NULL => rfl
    | COMMAND_SEQUENCE cmds =>
      have e : (closed d (eraseProcedures procs) ∘ erase) = closed d procs := funext ih
      have hem : (List.map erase cmds).isEmpty = cmds.isEmpty := by cases cmds <;> rfl
      simp only [erase, closed, eraseList_eq_map, List.all_map, e, hem]
    | RULE_CALL _ => rfl
    | RULE_SET_CALL _ => rfl
    | PROCEDURE_CALL n p =>
      simp only [erase, closed, commandsOf_eraseProcedures]
      cases commandsOf procs n with
      | none => rfl
      | some body => simp only [Option.map_some', ih]
    | IF_STATEMENT c t e _ _ => simp only [erase, closed, ih]
    | TRY_STATEMENT c t e _ _ => simp only [erase, closed, ih]
    | ALAP_STATEMENT b _ _ _ => simp only [erase, closed, ih]
    | PROGRAM_OR l r => simp only [erase, closed, ih]
    | SKIP_STATEMENT => rfl
    | FAIL_STATEMENT => rfl
    | BREAK_STATEMENT => rfl
    | UNKNOWN _ => rfl

theorem reached_erase : ∀ (d : Nat) (procs : Procedures) (s : GPStatement),
    reached d (eraseProcedures procs) (erase s) = reached d procs s
  | 0, _, _ => rfl
  | d + 1, procs, s => by
    have ih := reached_erase d procs
    cases s with
    | NULL => rfl
    | COMMAND_SEQUENCE cmds =>
      have e : (reached d (eraseProcedures procs) ∘ erase) = reached d procs := funext ih
      simp only [erase, reached, eraseList_eq_map, List.flatMap_map]
      exact congrArg (fun f => List.flatMap cmds f) e
    | RULE_CALL _ => rfl
    | RULE_SET_CALL _ => rfl
    | PROCEDURE_CALL n p =>
      simp only [erase, reached, commandsOf_eraseProcedures]
      cases commandsOf procs n with
      | none => rfl
      | some body => simp only [Option.map_some', ih]
    | IF_STATEMENT c t e _ _ => simp only [erase, reached, ih]
    | TRY_STATEMENT c t e _ _ => simp only [erase, reached, ih]
    | ALAP_STATEMENT b _ _ _ => simp only [erase, reached, ih]
    | PROGRAM_OR l r => simp only [erase, reached, ih]
    | SKIP_STATEMENT => rfl
    | FAIL_STATEMENT => rfl
    | BREAK_STATEMENT => rfl
    | UNKNOWN _ => rfl

/-- Whether a command can be traversed depends on the shape of the program only. -/
theorem closed_congr {p q : Procedures} {s u : GPStatement}
    (hp : eraseProcedures p = eraseProcedures q) (hs : erase s = erase u) (d : Nat) :
    closed d p s = closed d q u := by
  rw [← closed_erase d p s, ← closed_erase d q u, hp, hs]

/-- The procedures reached from a command depend on the shape of the program only. -/
theorem reached_congr {p q : Procedures} {s u : GPStatement}
    (hp : eraseProcedures p = eraseProcedures q) (hs : erase s = erase u) (d : Nat) :
    reached d p s = reached d q u := by
  rw [← reached_erase d p s, ← reached_erase d q u, hp, hs]

theorem shared_getSequenceType_mono {k : Nat} {procs : Procedures} {cmds : List GPStatement}
    {ib : Bool} {cs : Int} {r : copyType × Procedures × List GPStatement}
    (h : Shared.getSequenceType k procs cmds ib cs = some r) :
    ∀ j, k ≤ j → Shared.getSequenceType j procs cmds ib cs = some r := by
  intro j hj
  induction j, hj using Nat.le_induction with
  | base => exact h
  | succ j _ ih => exact shared_getStatementType_succ.2 _ _ _ _ _ _ _ _ ih

theorem closed_SEQ {d : Nat} {procs : Procedures} {cmds : List GPStatement}
    (h : closed (d + 1) procs (COMMAND_SEQUENCE cmds) = true) :
    cmds ≠ [] ∧ ∀ c ∈ cmds, closed d procs c = true := by
  simp only [closed, Bool.and_eq_true, Bool.not_eq_true', List.all_eq_true] at h
  refine ⟨?_, h.2⟩
  intro e
  rw [e] at h
  simp at h

/-- The classifier produces a result on every list of commands that can be traversed, given
that it does so on every such command. -/
theorem shared_getSequenceType_total_of (d : Nat)
    (ih : ∀ procs s, closed d procs s = true → ∀ ib cs l,
      ∃ k r, Shared.getStatementType k procs s ib cs l = some r) :
    ∀ (cmds : List GPStatement) (procs : Procedures),
      (∀ c ∈ cmds, closed d procs c = true) → ∀ ib cs,
        ∃ k r, Shared.getSequenceType k procs cmds ib cs = some r
  | [], procs, _, ib, cs => ⟨1, _, shared_getSequenceType_nil 0 procs ib cs⟩
  | c :: next, procs, h, ib, cs => by
    obtain ⟨k1, ⟨tc, p1, c1⟩, h1⟩ := ih procs c (h c (List.mem_cons_self c next)) ib
      (if cs = 0 ∨ (cs = 1 ∧ next.isEmpty) then 1 else 2) next.isEmpty
    by_cases htc : tc = COPY
    · refine ⟨k1 + 1, (COPY, p1, c1 :: next), ?_⟩
      rw [shared_getSequenceType_cons, h1, Option.some_bind]
      simp only [htc, if_true]
    · have hp := (shared_getStatementType_erase.1 _ _ _ _ _ _ _ _ _ h1).2.2
      obtain ⟨k2, ⟨t, p2, n1⟩, h2⟩ := shared_getSequenceType_total_of d ih next p1
        (fun x hx => by
          rw [closed_congr hp rfl d]
          exact h x (List.mem_cons_of_mem c hx)) ib cs
      refine ⟨k1 + k2 + 1, (t, p2, c1 :: n1), ?_⟩
      rw [shared_getSequenceType_cons,
        shared_getStatementType_mono h1 (k1 + k2) (by omega), Option.some_bind]
      simp only [htc, if_false, shared_getSequenceType_mono h2 (k1 + k2) (by omega)]
      rfl

/-- On a command that can be traversed the classifier produces a result, for every context,
once the recursion bound is large enough. -/
theorem shared_getStatementType_total : ∀ (d : Nat) (procs : Procedures) (s : GPStatement),
    closed d procs s = true → ∀ ib cs l,
      ∃ k r, Shared.getStatementType k procs s ib cs l = some r
  | 0, _, _, h, _, _, _ => by simp [closed] at h
  | d + 1, procs, s, h, ib, cs, l => by
    have ih := shared_getStatementType_total d
    obtain ⟨l1, l2, l3, l4, l5, l6⟩ := shared_getStatementType_leaf 0 procs ib cs l
    cases s with
    | NULL => simp [closed] at h
    | COMMAND_SEQUENCE cmds =>
      obtain ⟨hne, hall⟩ := closed_SEQ h
      cases cmds with
      | nil => exact absurd rfl hne
      | cons c rest =>
        cases rest with
        | nil =>
          obtain ⟨k, ⟨t, p1, c1⟩, hk⟩ := ih procs c (hall c (List.mem_singleton.2 rfl)) ib cs true
          exact ⟨k + 1, _, by rw [shared_getStatementType_SEQ_single, hk]; rfl⟩
        | cons d2 r =>
          obtain ⟨k, ⟨t, p1, c1⟩, hk⟩ :=
            shared_getSequenceType_total_of d ih (c :: d2 :: r) procs hall ib cs
          exact ⟨k + 1, _, by rw [shared_getStatementType_SEQ_cons, hk]; rfl⟩
    | RULE_CALL n => exact ⟨1, _, l1 n⟩
    | RULE_SET_CALL ns => exact ⟨1, _, l2 ns⟩
    | PROCEDURE_CALL n p =>
      simp only [closed] at h
      cases hb : commandsOf procs n with
      | none => simp [hb] at h
      | some body =>
        simp only [hb] at h
        obtain ⟨k, ⟨t, p1, b1⟩, hk⟩ := ih procs body h ib cs l
        exact ⟨k + 1, _, by rw [shared_getStatementType_CALL, hb, Option.some_bind, hk]; rfl⟩
    | IF_STATEMENT c t e rp rb =>
      simp only [closed, Bool.and_eq_true] at h
      obtain ⟨k1, ⟨tc, p1, c1⟩, h1⟩ := ih procs c h.1.1 ib cs l
      have e1 := (shared_getStatementType_erase.1 _ _ _ _ _ _ _ _ _ h1).2.2
      obtain ⟨k2, ⟨tt, p2, t1⟩, h2⟩ := ih p1 t (by rw [closed_congr e1 rfl d]; exact h.1.2) ib cs l
      have e2 := (shared_getStatementType_erase.1 _ _ _ _ _ _ _ _ _ h2).2.2
      obtain ⟨k3, ⟨te, p3, e3⟩, h3⟩ :=
        ih p2 e (by rw [closed_congr (e2.trans e1) rfl d]; exact h.2) ib cs l
      exact ⟨k1 + k2 + k3 + 1, _, by
        rw [shared_getStatementType_IF,
          shared_getStatementType_mono h1 (k1 + k2 + k3) (by omega), Option.some_bind,
          shared_getStatementType_mono h2 (k1 + k2 + k3) (by omega), Option.some_bind,
          shared_getStatementType_mono h3 (k1 + k2 + k3) (by omega)]
        rfl⟩
    | TRY_STATEMENT c t e rp rb =>
      simp only [closed, Bool.and_eq_true] at h
      obtain ⟨k1, ⟨tc, p1, c1⟩, h1⟩ := ih procs c h.1.1 ib cs l
      have e1 := (shared_getStatementType_erase.1 _ _ _ _ _ _ _ _ _ h1).2.2
      obtain ⟨k2, ⟨tt, p2, t1⟩, h2⟩ := ih p1 t (by rw [closed_congr e1 rfl d]; exact h.1.2) ib cs l
      have e2 := (shared_getStatementType_erase.1 _ _ _ _ _ _ _ _ _ h2).2.2
      obtain ⟨k3, ⟨te, p3, e3⟩, h3⟩ :=
        ih p2 e (by rw [closed_congr (e2.trans e1) rfl d]; exact h.2) ib cs l
      exact ⟨k1 + k2 + k3 + 1, _, by
        rw [shared_getStatementType_TRY,
          shared_getStatementType_mono h1 (k1 + k2 + k3) (by omega), Option.some_bind,
          shared_getStatementType_mono h2 (k1 + k2 + k3) (by omega), Option.some_bind,
          shared_getStatementType_mono h3 (k1 + k2 + k3) (by omega)]
        rfl⟩
    | ALAP_STATEMENT b rp rb sr => exact ⟨1, _, shared_getStatementType_ALAP 0 procs b rp rb sr ib cs l⟩
    | PROGRAM_OR a b =>
      simp only [closed, Bool.and_eq_true] at h
      obtain ⟨k1, ⟨ta, p1, a1⟩, h1⟩ := ih procs a h.1 ib cs l
      have e1 := (shared_getStatementType_erase.1 _ _ _ _ _ _ _ _ _ h1).2.2
      obtain ⟨k2, ⟨tb, p2, b1⟩, h2⟩ := ih p1 b (by rw [closed_congr e1 rfl d]; exact h.2) ib cs l
      exact ⟨k1 + k2 + 1, _, by
        rw [shared_getStatementType_OR,
          shared_getStatementType_mono h1 (k1 + k2) (by omega), Option.some_bind,
          shared_getStatementType_mono h2 (k1 + k2) (by omega)]
        rfl⟩
    | SKIP_STATEMENT => exact ⟨1, _, l3⟩
    | FAIL_STATEMENT => exact ⟨1, _, l4⟩
    | BREAK_STATEMENT => exact ⟨1, _, l5⟩
    | UNKNOWN u => exact ⟨1, _, l6 u⟩

/-- The loop of the annotator produces a result on every list of commands that can be
traversed, given that the annotator does so on every such command. -/
theorem shared_annotateCommands_total_of (d : Nat)
    (ih : ∀ procs s, closed d procs s = true → ∀ rp,
      ∃ k r, Shared.annotate k procs s rp = some r) :
    ∀ (cmds : List GPStatement) (procs : Procedures),
      (∀ c ∈ cmds, closed d procs c = true) → ∀ rp,
        ∃ k r, Shared.annotateCommands k procs cmds rp = some r
  | [], procs, _, rp => ⟨1, _, shared_annotateCommands_nil 0 procs rp⟩
  | c :: next, procs, h, rp => by
    obtain ⟨k1, ⟨p1, c1⟩, h1⟩ := ih procs c (h c (List.mem_cons_self c next)) rp
    have hp := (shared_annotate_erase.1 _ _ _ _ _ _ h1).2
    obtain ⟨k2, ⟨p2, n1⟩, h2⟩ := shared_annotateCommands_total_of d ih next p1
      (fun x hx => by
        rw [closed_congr hp rfl d]
        exact h x (List.mem_cons_of_mem c hx)) rp
    refine ⟨k1 + k2 + 1, (p2, c1 :: n1), ?_⟩
    rw [shared_annotateCommands_cons, shared_annotate_mono h1 (k1 + k2) (by omega),
      Option.some_bind, shared_annotateCommands_mono h2 (k1 + k2) (by omega)]
    rfl

/-- On a command that can be traversed the annotator produces a result, for every restore
point, once the recursion bound is large enough. -/
theorem shared_annotate_total : ∀ (d : Nat) (procs : Procedures) (s : GPStatement),
    closed d procs s = true → ∀ rp, ∃ k r, Shared.annotate k procs s rp = some r
  | 0, _, _, h, _ => by simp [closed] at h
  | d + 1, procs, s, h, rp => by
    have ih := shared_annotate_total d
    obtain ⟨l1, l2, l3, l4, l5, l6⟩ := shared_annotate_leaf 0 procs rp
    cases s with
    | NULL => simp [closed] at h
    | COMMAND_SEQUENCE cmds =>
      obtain ⟨_, hall⟩ := closed_SEQ h
      obtain ⟨k, ⟨p1, c1⟩, hk⟩ := shared_annotateCommands_total_of d ih cmds procs hall rp
      exact ⟨k + 1, _, by rw [shared_annotate_SEQ, hk]; rfl⟩
    | RULE_CALL n => exact ⟨1, _, l1 n⟩
    | RULE_SET_CALL ns => exact ⟨1, _, l2 ns⟩
    | PROCEDURE_CALL n p =>
      simp only [closed] at h
      cases hb : commandsOf procs n with
      | none => simp [hb] at h
      | some body =>
        simp only [hb] at h
        obtain ⟨k, ⟨p1, b1⟩, hk⟩ := ih procs body h rp
        exact ⟨k + 1, _, by rw [shared_annotate_CALL, hb, Option.some_bind, hk]; rfl⟩
    | IF_STATEMENT c t e rpf rb =>
      simp only [closed, Bool.and_eq_true] at h
      obtain ⟨k0, ⟨ty, p1, c1⟩, h0⟩ := shared_getStatementType_total d procs c h.1.1 true 0 false
      obtain ⟨ec, _, e0⟩ := shared_getStatementType_erase.1 _ _ _ _ _ _ _ _ _ h0
      obtain ⟨k1, ⟨p2, c2⟩, h1⟩ := ih p1 c1 (by rw [closed_congr e0 ec d]; exact h.1.1)
        (if ty = COPY then increment rp else rp)
      have e1 := (shared_annotate_erase.1 _ _ _ _ _ _ h1).2
      obtain ⟨k2, ⟨p3, t2⟩, h2⟩ := ih p2 t
        (by rw [closed_congr (e1.trans e0) rfl d]; exact h.1.2) rp
      have e2 := (shared_annotate_erase.1 _ _ _ _ _ _ h2).2
      obtain ⟨k3, ⟨p4, e3⟩, h3⟩ := ih p3 e
        (by rw [closed_congr (e2.trans (e1.trans e0)) rfl d]; exact h.2) rp
      exact ⟨k0 + k1 + k2 + k3 + 1, _, by
        rw [shared_annotate_IF,
          shared_getStatementType_mono h0 (k0 + k1 + k2 + k3) (by omega), Option.some_bind]
        simp only [shared_annotate_mono h1 (k0 + k1 + k2 + k3) (by omega), Option.some_bind,
          shared_annotate_mono h2 (k0 + k1 + k2 + k3) (by omega),
          shared_annotate_mono h3 (k0 + k1 + k2 + k3) (by omega)]
        rfl⟩
    | TRY_STATEMENT c t e rpf rb =>
      simp only [closed, Bool.and_eq_true] at h
      obtain ⟨k0, ⟨ty, p1, c1⟩, h0⟩ := shared_getStatementType_total d procs c h.1.1 false 0 false
      obtain ⟨ec, _, e0⟩ := shared_getStatementType_erase.1 _ _ _ _ _ _ _ _ _ h0
      obtain ⟨k1, ⟨p2, c2⟩, h1⟩ := ih p1 c1 (by rw [closed_congr e0 ec d]; exact h.1.1)
        (if ty = COPY then increment rp else rp)
      have e1 := (shared_annotate_erase.1 _ _ _ _ _ _ h1).2
      obtain ⟨k2, ⟨p3, t2⟩, h2⟩ := ih p2 t
        (by rw [closed_congr (e1.trans e0) rfl d]; exact h.1.2) rp
      have e2 := (shared_annotate_erase.1 _ _ _ _ _ _ h2).2
      obtain ⟨k3, ⟨p4, e3⟩, h3⟩ := ih p3 e
        (by rw [closed_congr (e2.trans (e1.trans e0)) rfl d]; exact h.2) rp
      exact ⟨k0 + k1 + k2 + k3 + 1, _, by
        rw [shared_annotate_TRY,
          shared_getStatementType_mono h0 (k0 + k1 + k2 + k3) (by omega), Option.some_bind]
        simp only [shared_annotate_mono h1 (k0 + k1 + k2 + k3) (by omega), Option.some_bind,
          shared_annotate_mono h2 (k0 + k1 + k2 + k3) (by omega),
          shared_annotate_mono h3 (k0 + k1 + k2 + k3) (by omega)]
        rfl⟩
    | ALAP_STATEMENT b rpf rb sr =>
      simp only [closed] at h
      obtain ⟨k0, ⟨ty, p1, b1⟩, h0⟩ := shared_getStatementType_total d procs b h false 0 false
      obtain ⟨ec, _, e0⟩ := shared_getStatementType_erase.1 _ _ _ _ _ _ _ _ _ h0
      obtain ⟨k1, ⟨p2, b2⟩, h1⟩ := ih p1 b1 (by rw [closed_congr e0 ec d]; exact h)
        (if ty = COPY then increment rp else rp)
      exact ⟨k0 + k1 + 1, _, by
        rw [shared_annotate_ALAP,
          shared_getStatementType_mono h0 (k0 + k1) (by omega), Option.some_bind]
        simp only [shared_annotate_mono h1 (k0 + k1) (by omega), Option.some_bind]
        rfl⟩
    | PROGRAM_OR a b =>
      simp only [closed, Bool.and_eq_true] at h
      obtain ⟨k1, ⟨p1, a1⟩, h1⟩ := ih procs a h.1 rp
      have e1 := (shared_annotate_erase.1 _ _ _ _ _ _ h1).2
      obtain ⟨k2, ⟨p2, b1⟩, h2⟩ := ih p1 b (by rw [closed_congr e1 rfl d]; exact h.2) rp
      exact ⟨k1 + k2 + 1, _, by
        rw [shared_annotate_OR, shared_annotate_mono h1 (k1 + k2) (by omega), Option.some_bind,
          shared_annotate_mono h2 (k1 + k2) (by omega)]
        rfl⟩
    | SKIP_STATEMENT => exact ⟨1, _, l3⟩
    | FAIL_STATEMENT => exact ⟨1, _, l4⟩
    | BREAK_STATEMENT => exact ⟨1, _, l5⟩
    | UNKNOWN u => exact ⟨1, _, l6 u⟩

/-! ### Shared procedures: procedures that are not reached are not written -/

theorem closed_pos {d : Nat} {procs : Procedures} {s : GPStatement}
    (h : closed d procs s = true) : ∃ d1, d = d1 + 1 := by
  cases d with
  | zero => simp [closed] at h
  | succ d1 => exact ⟨d1, rfl⟩

/-- A run of the classifier changes the command tree of no procedure that is not reached by
calls from the command classified. -/
theorem shared_getStatementType_frame :
    (∀ k procs s ib cs l t p1 s1,
      Shared.getStatementType k procs s ib cs l = some (t, p1, s1) →
        ∀ d, closed d procs s = true → ∀ n, n ∉ reached d procs s →
          commandsOf p1 n = commandsOf procs n) ∧
    (∀ k procs cmds ib cs t p1 cmds1,
      Shared.getSequenceType k procs cmds ib cs = some (t, p1, cmds1) →
        ∀ d, (∀ c ∈ cmds, closed d procs c = true) →
          ∀ n, n ∉ cmds.flatMap (reached d procs) → commandsOf p1 n = commandsOf procs n) := by
  refine shared_classifier_induction
    (P := fun _ procs s _ _ _ _ p1 _ =>
      ∀ d, closed d procs s = true → ∀ n, n ∉ reached d procs s →
        commandsOf p1 n = commandsOf procs n)
    (Q := fun _ procs cmds _ _ _ p1 _ =>
      ∀ d, (∀ c ∈ cmds, closed d procs c = true) →
        ∀ n, n ∉ cmds.flatMap (reached d procs) → commandsOf p1 n = commandsOf procs n)
    ?_ ?_ ?_ ?_ ?_ ?_ ?_ ?_ ?_ ?_ ?_ ?_ ?_ ?_ ?_ ?_
  · intro k procs c ib cs l t p1 c1 _ ih d hd n hn
    obtain ⟨d1, rfl⟩ := closed_pos hd
    obtain ⟨_, hall⟩ := closed_SEQ hd
    simp only [reached, List.flatMap_cons, List.flatMap_nil, List.append_nil] at hn
    exact ih d1 (hall c (List.mem_singleton.2 rfl)) n hn
  · intro k procs c d2 r ib cs l t p1 cmds1 _ ih d hd n hn
    obtain ⟨d1, rfl⟩ := closed_pos hd
    obtain ⟨_, hall⟩ := closed_SEQ hd
    simp only [reached] at hn
    exact ih d1 hall n hn
  · intro k procs n ib cs l d _ m _; rfl
  · intro k procs ns ib cs l d _ m _; rfl
  · intro k procs n p ib cs l body t p1 body1 hb _ ih d hd m hm
    obtain ⟨d1, rfl⟩ := closed_pos hd
    simp only [closed, hb] at hd
    simp only [reached, hb, List.mem_cons, not_or] at hm
    rw [commandsOf_writeCommands, if_neg hm.1]
    exact ih d1 hd m hm.2
  · intro k procs c t e rp rb ib cs l tc p1 c1 tt p2 t1 te p3 e1 h1 h2 _ i1 i2 i3 d hd n hn
    obtain ⟨d1, rfl⟩ := closed_pos hd
    simp only [closed, Bool.and_eq_true] at hd
    simp only [reached, List.mem_append, not_or] at hn
    have e1p := (shared_getStatementType_erase.1 _ _ _ _ _ _ _ _ _ h1).2.2
    have e2p := (shared_getStatementType_erase.1 _ _ _ _ _ _ _ _ _ h2).2.2
    rw [i3 d1 (by rw [closed_congr (e2p.trans e1p) rfl d1]; exact hd.2) n
        (by rw [reached_congr (e2p.trans e1p) rfl d1]; exact hn.2.2),
      i2 d1 (by rw [closed_congr e1p rfl d1]; exact hd.1.2) n
        (by rw [reached_congr e1p rfl d1]; exact hn.2.1),
      i1 d1 hd.1.1 n hn.1]
  · intro k procs c t e rp rb ib cs l tc p1 c1 tt p2 t1 te p3 e1 h1 h2 _ i1 i2 i3 d hd n hn
    obtain ⟨d1, rfl⟩ := closed_pos hd
    simp only [closed, Bool.and_eq_true] at hd
    simp only [reached, List.mem_append, not_or] at hn
    have e1p := (shared_getStatementType_erase.1 _ _ _ _ _ _ _ _ _ h1).2.2
    have e2p := (shared_getStatementType_erase.1 _ _ _ _ _ _ _ _ _ h2).2.2
    rw [i3 d1 (by rw [closed_congr (e2p.trans e1p) rfl d1]; exact hd.2) n
        (by rw [reached_congr (e2p.trans e1p) rfl d1]; exact hn.2.2),
      i2 d1 (by rw [closed_congr e1p rfl d1]; exact hd.1.2) n
        (by rw [reached_congr e1p rfl d1]; exact hn.2.1),
      i1 d1 hd.1.1 n hn.1]
  · intro k procs b rp rb sr ib cs l d _ n _; rfl
  · intro k procs a b ib cs l ta p1 a1 tb p2 b1 h1 _ i1 i2 d hd n hn
    obtain ⟨d1, rfl⟩ := closed_pos hd
    simp only [closed, Bool.and_eq_true] at hd
    simp only [reached, List.mem_append, not_or] at hn
    have e1p := (shared_getStatementType_erase.1 _ _ _ _ _ _ _ _ _ h1).2.2
    rw [i2 d1 (by rw [closed_congr e1p rfl d1]; exact hd.2) n
        (by rw [reached_congr e1p rfl d1]; exact hn.2),
      i1 d1 hd.1 n hn.1]
  · intro k procs ib cs l d _ n _; rfl
  · intro k procs ib cs l d _ n _; rfl
  · intro k procs ib cs l d _ n _; rfl
  · intro k procs u ib cs l d _ n _; rfl
  · intro k procs ib cs d _ n _; rfl
  · intro k procs c next ib cs p1 c1 _ ih d hd n hn
    simp only [List.flatMap_cons, List.mem_append, not_or] at hn
    exact ih d (hd c (List.mem_cons_self c next)) n hn.1
  · intro k procs c next ib cs tc p1 c1 t p2 next1 _ h1 _ i1 i2 d hd n hn
    simp only [List.flatMap_cons, List.mem_append, not_or] at hn
    have e1p := (shared_getStatementType_erase.1 _ _ _ _ _ _ _ _ _ h1).2.2
    have hr : next.flatMap (reached d p1) = next.flatMap (reached d procs) :=
      congrArg (fun f => List.flatMap next f) (funext fun x => reached_congr e1p rfl d)
    rw [i2 d (fun x hx => by
          rw [closed_congr e1p rfl d]; exact hd x (List.mem_cons_of_mem c hx)) n
        (by rw [hr]; exact hn.2),
      i1 d (hd c (List.mem_cons_self c next)) n hn.1]

/-- A run of the annotator changes the command tree of no procedure that is not reached by
calls from the command annotated. -/
theorem shared_annotate_frame :
    (∀ k procs s rp p1 s1, Shared.annotate k procs s rp = some (p1, s1) →
      ∀ d, closed d procs s = true → ∀ n, n ∉ reached d procs s →
        commandsOf p1 n = commandsOf procs n) ∧
    (∀ k procs cmds rp p1 cmds1, Shared.annotateCommands k procs cmds rp = some (p1, cmds1) →
      ∀ d, (∀ c ∈ cmds, closed d procs c = true) →
        ∀ n, n ∉ cmds.flatMap (reached d procs) → commandsOf p1 n = commandsOf procs n) := by
  refine shared_annotate_induction
    (P := fun _ procs s _ p1 _ =>
      ∀ d, closed d procs s = true → ∀ n, n ∉ reached d procs s →
        commandsOf p1 n = commandsOf procs n)
    (Q := fun _ procs cmds _ p1 _ =>
      ∀ d, (∀ c ∈ cmds, closed d procs c = true) →
        ∀ n, n ∉ cmds.flatMap (reached d procs) → commandsOf p1 n = commandsOf procs n)
    ?_ ?_ ?_ ?_ ?_ ?_ ?_ ?_ ?_ ?_ ?_ ?_ ?_ ?_
  · intro k procs cmds rp p1 cmds1 _ ih d hd n hn
    obtain ⟨d1, rfl⟩ := closed_pos hd
    obtain ⟨_, hall⟩ := closed_SEQ hd
    simp only [reached] at hn
    exact ih d1 hall n hn
  · intro k procs n rp d _ m _; rfl
  · intro k procs ns rp d _ m _; rfl
  · intro k procs n p rp body p1 body1 hb _ ih d hd m hm
    obtain ⟨d1, rfl⟩ := closed_pos hd
    simp only [closed, hb] at hd
    simp only [reached, hb, List.mem_cons, not_or] at hm
    rw [commandsOf_writeCommands, if_neg hm.1]
    exact ih d1 hd m hm.2
  · intro k procs c t e rpf rb rp ty p1 c1 p2 c2 p3 t2 p4 e2 h0 h1 h2 _ i1 i2 i3 d hd n hn
    obtain ⟨d1, rfl⟩ := closed_pos hd
    simp only [closed, Bool.and_eq_true] at hd
    simp only [reached, List.mem_append, not_or] at hn
    obtain ⟨ec, _, e0p⟩ := shared_getStatementType_erase.1 _ _ _ _ _ _ _ _ _ h0
    have e1p := (shared_annotate_erase.1 _ _ _ _ _ _ h1).2
    have e2p := (shared_annotate_erase.1 _ _ _ _ _ _ h2).2
    rw [i3 d1 (by rw [closed_congr (e2p.trans (e1p.trans e0p)) rfl d1]; exact hd.2) n
        (by rw [reached_congr (e2p.trans (e1p.trans e0p)) rfl d1]; exact hn.2.2),
      i2 d1 (by rw [closed_congr (e1p.trans e0p) rfl d1]; exact hd.1.2) n
        (by rw [reached_congr (e1p.trans e0p) rfl d1]; exact hn.2.1),
      i1 d1 (by rw [closed_congr e0p ec d1]; exact hd.1.1) n
        (by rw [reached_congr e0p ec d1]; exact hn.1),
      shared_getStatementType_frame.1 _ _ _ _ _ _ _ _ _ h0 d1 hd.1.1 n hn.1]
  · intro k procs c t e rpf rb rp ty p1 c1 p2 c2 p3 t2 p4 e2 h0 h1 h2 _ i1 i2 i3 d hd n hn
    obtain ⟨d1, rfl⟩ := closed_pos hd
    simp only [closed, Bool.and_eq_true] at hd
    simp only [reached, List.mem_append, not_or] at hn
    obtain ⟨ec, _, e0p⟩ := shared_getStatementType_erase.1 _ _ _ _ _ _ _ _ _ h0
    have e1p := (shared_annotate_erase.1 _ _ _ _ _ _ h1).2
    have e2p := (shared_annotate_erase.1 _ _ _ _ _ _ h2).2
    rw [i3 d1 (by rw [closed_congr (e2p.trans (e1p.trans e0p)) rfl d1]; exact hd.2) n
        (by rw [reached_congr (e2p.trans (e1p.trans e0p)) rfl d1]; exact hn.2.2),
      i2 d1 (by rw [closed_congr (e1p.trans e0p) rfl d1]; exact hd.1.2) n
        (by rw [reached_congr (e1p.trans e0p) rfl d1]; exact hn.2.1),
      i1 d1 (by rw [closed_congr e0p ec d1]; exact hd.1.1) n
        (by rw [reached_congr e0p ec d1]; exact hn.1),
      shared_getStatementType_frame.1 _ _ _ _ _ _ _ _ _ h0 d1 hd.1.1 n hn.1]
  · intro k procs b rpf rb sr rp ty p1 b1 p2 b2 h0 _ i1 d hd n hn
    obtain ⟨d1, rfl⟩ := closed_pos hd
    simp only [closed] at hd
    simp only [reached] at hn
    obtain ⟨ec, _, e0p⟩ := shared_getStatementType_erase.1 _ _ _ _ _ _ _ _ _ h0
    rw [i1 d1 (by rw [closed_congr e0p ec d1]; exact hd) n
        (by rw [reached_congr e0p ec d1]; exact hn),
      shared_getStatementType_frame.1 _ _ _ _ _ _ _ _ _ h0 d1 hd n hn]
  · intro k procs l r rp p1 l1 p2 r1 h1 _ i1 i2 d hd n hn
    obtain ⟨d1, rfl⟩ := closed_pos hd
    simp only [closed, Bool.and_eq_true] at hd
    simp only [reached, List.mem_append, not_or] at hn
    have e1p := (shared_annotate_erase.1 _ _ _ _ _ _ h1).2
    rw [i2 d1 (by rw [closed_congr e1p rfl d1]; exact hd.2) n
        (by rw [reached_congr e1p rfl d1]; exact hn.2),
      i1 d1 hd.1 n hn.1]
  · intro k procs rp d _ n _; rfl
  · intro k procs rp d _ n _; rfl
  · intro k procs rp d _ n _; rfl
  · intro k procs u rp d _ n _; rfl
  · intro k procs rp d _ n _; rfl
  · intro k procs c next rp p1 c1 p2 next1 h1 _ i1 i2 d hd n hn
    simp only [List.flatMap_cons, List.mem_append, not_or] at hn
    have e1p := (shared_annotate_erase.1 _ _ _ _ _ _ h1).2
    have hr : next.flatMap (reached d p1) = next.flatMap (reached d procs) :=
      congrArg (fun f => List.flatMap next f) (funext fun x => reached_congr e1p rfl d)
    rw [i2 d (fun x hx => by
          rw [closed_congr e1p rfl d]; exact hd x (List.mem_cons_of_mem c hx)) n
        (by rw [hr]; exact hn.2),
      i1 d (hd c (List.mem_cons_self c next)) n hn.1]

/-! ### Shared procedures: the results depend on the shape of the procedures only -/

theorem erase_inv_SEQ {cmds : List GPStatement} {u : GPStatement}
    (h : erase (COMMAND_SEQUENCE cmds) = erase u) :
    ∃ cmds1, u = COMMAND_SEQUENCE cmds1 ∧ eraseList cmds = eraseList cmds1 := by
  cases u <;> simp [erase] at h
  exact ⟨_, rfl, h⟩

theorem erase_inv_CALL {n : String} {p u : GPStatement}
    (h : erase (PROCEDURE_CALL n p) = erase u) :
    ∃ p1, u = PROCEDURE_CALL n p1 ∧ erase p = erase p1 := by
  cases u <;> simp [erase] at h
  obtain ⟨rfl, h⟩ := h
  exact ⟨_, rfl, h⟩

theorem erase_inv_IF {c t e : GPStatement} {rp : Option Int} {rb : Bool} {u : GPStatement}
    (h : erase (IF_STATEMENT c t e rp rb) = erase u) :
    ∃ c1 t1 e1 rp1 rb1, u = IF_STATEMENT c1 t1 e1 rp1 rb1 ∧
      erase c = erase c1 ∧ erase t = erase t1 ∧ erase e = erase e1 := by
  cases u <;> simp [erase] at h
  exact ⟨_, _, _, _, _, rfl, h⟩

theorem erase_inv_TRY {c t e : GPStatement} {rp : Option Int} {rb : Bool} {u : GPStatement}
    (h : erase (TRY_STATEMENT c t e rp rb) = erase u) :
    ∃ c1 t1 e1 rp1 rb1, u = TRY_STATEMENT c1 t1 e1 rp1 rb1 ∧
      erase c = erase c1 ∧ erase t = erase t1 ∧ erase e = erase e1 := by
  cases u <;> simp [erase] at h
  exact ⟨_, _, _, _, _, rfl, h⟩

theorem erase_inv_ALAP {b : GPStatement} {rp : Option Int} {rb sr : Bool} {u : GPStatement}
    (h : erase (ALAP_STATEMENT b rp rb sr) = erase u) :
    ∃ b1 rp1 rb1 sr1, u = ALAP_STATEMENT b1 rp1 rb1 sr1 ∧ erase b = erase b1 := by
  cases u <;> simp [erase] at h
  exact ⟨_, _, _, _, rfl, h⟩

theorem erase_inv_OR {a b u : GPStatement} (h : erase (PROGRAM_OR a b) = erase u) :
    ∃ a1 b1, u = PROGRAM_OR a1 b1 ∧ erase a = erase a1 ∧ erase b = erase b1 := by
  cases u <;> simp [erase] at h
  exact ⟨_, _, rfl, h⟩

theorem erase_inv_leaf {u : GPStatement} :
    (∀ n, erase (RULE_CALL n) = erase u → u = RULE_CALL n) ∧
    (∀ ns, erase (RULE_SET_CALL ns) = erase u → u = RULE_SET_CALL ns) ∧
    (erase SKIP_STATEMENT = erase u → u = SKIP_STATEMENT) ∧
    (erase FAIL_STATEMENT = erase u → u = FAIL_STATEMENT) ∧
    (erase BREAK_STATEMENT = erase u → u = BREAK_STATEMENT) ∧
    (∀ k, erase (UNKNOWN k) = erase u → u = UNKNOWN k) := by
  refine ⟨fun n h => ?_, fun ns h => ?_, fun h => ?_, fun h => ?_, fun h => ?_, fun k h => ?_⟩ <;>
    cases u <;> simp [erase] at h <;> simp [h]

theorem eraseList_inv_nil {cmds : List GPStatement} (h : eraseList [] = eraseList cmds) :
    cmds = [] := by
  cases cmds <;> simp [eraseList] at h
  rfl

theorem eraseList_inv_cons {c : GPStatement} {next cmds : List GPStatement}
    (h : eraseList (c :: next) = eraseList cmds) :
    ∃ c1 next1, cmds = c1 :: next1 ∧ erase c = erase c1 ∧ eraseList next = eraseList next1 := by
  cases cmds <;> simp [eraseList] at h
  exact ⟨_, _, rfl, h⟩

theorem isEmpty_of_eraseList {a b : List GPStatement} (h : eraseList a = eraseList b) :
    b.isEmpty = a.isEmpty := by
  rw [← isEmpty_eraseList a, ← isEmpty_eraseList b, h]

theorem commandsOf_of_eraseProcedures {p q : Procedures}
    (h : eraseProcedures p = eraseProcedures q) {n : String} {body : GPStatement}
    (hb : commandsOf p n = some body) :
    ∃ body1, commandsOf q n = some body1 ∧ erase body = erase body1 := by
  have e := commandsOf_isSome_of_eraseProcedures h n
  rw [hb] at e
  cases hq : commandsOf q n with
  | none => rw [hq] at e; simp at e
  | some b1 =>
    rw [hq] at e
    exact ⟨b1, rfl, by simpa using e⟩

/-- The classifier over shared procedures reads the shape of the program only: on procedures
and a command tree that differ from the given ones in annotation fields only, the run with the
same recursion bound produces a result with the same strategy, and on the same command tree it
leaves the same command tree. -/
theorem shared_getStatementType_shape :
    (∀ k procs s ib cs l t p1 s1,
      Shared.getStatementType k procs s ib cs l = some (t, p1, s1) →
        ∀ q u, eraseProcedures procs = eraseProcedures q → erase s = erase u →
          ∃ q1 u1, Shared.getStatementType k q u ib cs l = some (t, q1, u1) ∧
            (u = s → u1 = s1)) ∧
    (∀ k procs cmds ib cs t p1 cmds1,
      Shared.getSequenceType k procs cmds ib cs = some (t, p1, cmds1) →
        ∀ q us, eraseProcedures procs = eraseProcedures q → eraseList cmds = eraseList us →
          ∃ q1 us1, Shared.getSequenceType k q us ib cs = some (t, q1, us1) ∧
            (us = cmds → us1 = cmds1)) := by
  refine shared_classifier_induction
    (P := fun k procs s ib cs l t _ s1 =>
      ∀ q u, eraseProcedures procs = eraseProcedures q → erase s = erase u →
        ∃ q1 u1, Shared.getStatementType k q u ib cs l = some (t, q1, u1) ∧
          (u = s → u1 = s1))
    (Q := fun k procs cmds ib cs t _ cmds1 =>
      ∀ q us, eraseProcedures procs = eraseProcedures q → eraseList cmds = eraseList us →
        ∃ q1 us1, Shared.getSequenceType k q us ib cs = some (t, q1, us1) ∧
          (us = cmds → us1 = cmds1))
    ?_ ?_ ?_ ?_ ?_ ?_ ?_ ?_ ?_ ?_ ?_ ?_ ?_ ?_ ?_ ?_
  · intro k procs c ib cs l t p1 c1 _ ih q u hq hu
    obtain ⟨us, rfl, hus⟩ := erase_inv_SEQ hu
    obtain ⟨c2, n2, rfl, hc, hn⟩ := eraseList_inv_cons hus
    have := eraseList_inv_nil hn
    subst this
    obtain ⟨q1, u1, hr, he⟩ := ih q c2 hq hc
    refine ⟨q1, COMMAND_SEQUENCE [u1], ?_, fun e => ?_⟩
    · rw [shared_getStatementType_SEQ_single, hr]; rfl
    · simp only [COMMAND_SEQUENCE.injEq, List.cons.injEq, and_true] at e
      rw [he e]
  · intro k procs c d r ib cs l t p1 cmds1 _ ih q u hq hu
    obtain ⟨us, rfl, hus⟩ := erase_inv_SEQ hu
    obtain ⟨c2, n2, rfl, hc, hn⟩ := eraseList_inv_cons hus
    obtain ⟨d2, r2, rfl, hd, hr2⟩ := eraseList_inv_cons hn
    obtain ⟨q1, us1, hr, he⟩ := ih q (c2 :: d2 :: r2) hq hus
    refine ⟨q1, COMMAND_SEQUENCE us1, ?_, fun e => ?_⟩
    · rw [shared_getStatementType_SEQ_cons, hr]; rfl
    · simp only [COMMAND_SEQUENCE.injEq] at e
      rw [he e]
  · intro k procs n ib cs l q u _ hu
    rw [erase_inv_leaf.1 n hu]
    exact ⟨q, _, (shared_getStatementType_leaf k q ib cs l).1 n, fun _ => rfl⟩
  · intro k procs ns ib cs l q u _ hu
    rw [erase_inv_leaf.2.1 ns hu]
    exact ⟨q, _, (shared_getStatementType_leaf k q ib cs l).2.1 ns, fun _ => rfl⟩
  · intro k procs n p ib cs l body t p1 body1 hb _ ih q u hq hu
    obtain ⟨p2, rfl, _⟩ := erase_inv_CALL hu
    obtain ⟨body2, hb2, heb⟩ := commandsOf_of_eraseProcedures hq hb
    obtain ⟨q1, u1, hr, _⟩ := ih q body2 hq heb
    refine ⟨writeCommands q1 n u1, PROCEDURE_CALL n p2, ?_, fun e => e⟩
    rw [shared_getStatementType_CALL, hb2, Option.some_bind, hr]; rfl
  · intro k procs c t e rp rb ib cs l tc p1 c1 tt p2 t1 te p3 e1 h1 h2 _ i1 i2 i3 q u hq hu
    obtain ⟨c2, t2, e2, rp2, rb2, rfl, hc, ht, he⟩ := erase_inv_IF hu
    obtain ⟨q1, u1, r1, f1⟩ := i1 q c2 hq hc
    have ep1 := (shared_getStatementType_erase.1 _ _ _ _ _ _ _ _ _ h1).2.2
    have eq1 := (shared_getStatementType_erase.1 _ _ _ _ _ _ _ _ _ r1).2.2
    have hq1 : eraseProcedures p1 = eraseProcedures q1 := by rw [ep1, eq1, hq]
    obtain ⟨q2, u2, r2, f2⟩ := i2 q1 t2 hq1 ht
    have ep2 := (shared_getStatementType_erase.1 _ _ _ _ _ _ _ _ _ h2).2.2
    have eq2 := (shared_getStatementType_erase.1 _ _ _ _ _ _ _ _ _ r2).2.2
    have hq2 : eraseProcedures p2 = eraseProcedures q2 := by rw [ep2, eq2, hq1]
    obtain ⟨q3, u3, r3, f3⟩ := i3 q2 e2 hq2 he
    refine ⟨q3, IF_STATEMENT u1 u2 u3 rp2 rb2, ?_, fun e => ?_⟩
    · rw [shared_getStatementType_IF, r1, Option.some_bind, r2, Option.some_bind, r3]; rfl
    · simp only [IF_STATEMENT.injEq] at e
      obtain ⟨a1, a2, a3, a4, a5⟩ := e
      rw [f1 a1, f2 a2, f3 a3, a4, a5]
  · intro k procs c t e rp rb ib cs l tc p1 c1 tt p2 t1 te p3 e1 h1 h2 _ i1 i2 i3 q u hq hu
    obtain ⟨c2, t2, e2, rp2, rb2, rfl, hc, ht, he⟩ := erase_inv_TRY hu
    obtain ⟨q1, u1, r1, f1⟩ := i1 q c2 hq hc
    have ep1 := (shared_getStatementType_erase.1 _ _ _ _ _ _ _ _ _ h1).2.2
    have eq1 := (shared_getStatementType_erase.1 _ _ _ _ _ _ _ _ _ r1).2.2
    have hq1 : eraseProcedures p1 = eraseProcedures q1 := by rw [ep1, eq1, hq]
    obtain ⟨q2, u2, r2, f2⟩ := i2 q1 t2 hq1 ht
    have ep2 := (shared_getStatementType_erase.1 _ _ _ _ _ _ _ _ _ h2).2.2
    have eq2 := (shared_getStatementType_erase.1 _ _ _ _ _ _ _ _ _ r2).2.2
    have hq2 : eraseProcedures p2 = eraseProcedures q2 := by rw [ep2, eq2, hq1]
    obtain ⟨q3, u3, r3, f3⟩ := i3 q2 e2 hq2 he
    refine ⟨q3, TRY_STATEMENT u1 u2 u3 rp2 rb2, ?_, fun e => ?_⟩
    · rw [shared_getStatementType_TRY, r1, Option.some_bind, r2, Option.some_bind, r3]; rfl
    · simp only [TRY_STATEMENT.injEq] at e
      obtain ⟨a1, a2, a3, a4, a5⟩ := e
      rw [f1 a1, f2 a2, f3 a3, a4, a5]
  · intro k procs b rp rb sr ib cs l q u _ hu
    obtain ⟨b2, rp2, rb2, sr2, rfl, _⟩ := erase_inv_ALAP hu
    refine ⟨q, _, shared_getStatementType_ALAP k q b2 rp2 rb2 sr2 ib cs l, fun e => ?_⟩
    simp only [ALAP_STATEMENT.injEq] at e
    obtain ⟨a1, a2, a3, a4⟩ := e
    rw [a1, a2, a3, a4]
  · intro k procs a b ib cs l ta p1 a1 tb p2 b1 h1 _ i1 i2 q u hq hu
    obtain ⟨a2, b2, rfl, ha, hb⟩ := erase_inv_OR hu
    obtain ⟨q1, u1, r1, f1⟩ := i1 q a2 hq ha
    have ep1 := (shared_getStatementType_erase.1 _ _ _ _ _ _ _ _ _ h1).2.2
    have eq1 := (shared_getStatementType_erase.1 _ _ _ _ _ _ _ _ _ r1).2.2
    have hq1 : eraseProcedures p1 = eraseProcedures q1 := by rw [ep1, eq1, hq]
    obtain ⟨q2, u2, r2, f2⟩ := i2 q1 b2 hq1 hb
    refine ⟨q2, PROGRAM_OR u1 u2, ?_, fun e => ?_⟩
    · rw [shared_getStatementType_OR, r1, Option.some_bind, r2]; rfl
    · simp only [PROGRAM_OR.injEq] at e
      rw [f1 e.1, f2 e.2]
  · intro k procs ib cs l q u _ hu
    rw [erase_inv_leaf.2.2.1 hu]
    exact ⟨q, _, (shared_getStatementType_leaf k q ib cs l).2.2.1, fun _ => rfl⟩
  · intro k procs ib cs l q u _ hu
    rw [erase_inv_leaf.2.2.2.1 hu]
    exact ⟨q, _, (shared_getStatementType_leaf k q ib cs l).2.2.2.1, fun _ => rfl⟩
  · intro k procs ib cs l q u _ hu
    rw [erase_inv_leaf.2.2.2.2.1 hu]
    exact ⟨q, _, (shared_getStatementType_leaf k q ib cs l).2.2.2.2.1, fun _ => rfl⟩
  · intro k procs x ib cs l q u _ hu
    rw [erase_inv_leaf.2.2.2.2.2 x hu]
    exact ⟨q, _, (shared_getStatementType_leaf k q ib cs l).2.2.2.2.2 x, fun _ => rfl⟩
  · intro k procs ib cs q us _ hu
    rw [eraseList_inv_nil hu]
    exact ⟨q, [], shared_getSequenceType_nil k q ib cs, fun _ => rfl⟩
  · intro k procs c next ib cs p1 c1 _ ih q us hq hu
    obtain ⟨c2, n2, rfl, hc, hn⟩ := eraseList_inv_cons hu
    have hem := isEmpty_of_eraseList hn
    obtain ⟨q1, u1, hr, he⟩ := ih q c2 hq hc
    refine ⟨q1, u1 :: n2, ?_, fun e => ?_⟩
    · rw [shared_getSequenceType_cons, hem, hr, Option.some_bind]
      simp only [if_true]
    · simp only [List.cons.injEq] at e
      rw [he e.1, e.2]
  · intro k procs c next ib cs tc p1 c1 t p2 next1 htc h1 _ i1 i2 q us hq hu
    obtain ⟨c2, n2, rfl, hc, hn⟩ := eraseList_inv_cons hu
    have hem := isEmpty_of_eraseList hn
    obtain ⟨q1, u1, r1, f1⟩ := i1 q c2 hq hc
    have ep1 := (shared_getStatementType_erase.1 _ _ _ _ _ _ _ _ _ h1).2.2
    have eq1 := (shared_getStatementType_erase.1 _ _ _ _ _ _ _ _ _ r1).2.2
    have hq1 : eraseProcedures p1 = eraseProcedures q1 := by rw [ep1, eq1, hq]
    obtain ⟨q2, us2, r2, f2⟩ := i2 q1 n2 hq1 hn
    refine ⟨q2, u1 :: us2, ?_, fun e => ?_⟩
    · rw [shared_getSequenceType_cons, hem, r1, Option.some_bind]
      simp only [htc, if_false, r2]
      rfl
    · simp only [List.cons.injEq] at e
      rw [f1 e.1, f2 e.2]

/-- The annotator over shared procedures reads the shape of the procedures only: on procedures
and a command tree that differ from the given ones in annotation fields only, the run with the
same recursion bound produces a result, and on the same command tree it leaves the same
command tree. -/
theorem shared_annotate_shape :
    (∀ k procs s rp p1 s1, Shared.annotate k procs s rp = some (p1, s1) →
      ∀ q u, eraseProcedures procs = eraseProcedures q → erase s = erase u →
        ∃ q1 u1, Shared.annotate k q u rp = some (q1, u1) ∧ (u = s → u1 = s1)) ∧
    (∀ k procs cmds rp p1 cmds1, Shared.annotateCommands k procs cmds rp = some (p1, cmds1) →
      ∀ q us, eraseProcedures procs = eraseProcedures q → eraseList cmds = eraseList us →
        ∃ q1 us1, Shared.annotateCommands k q us rp = some (q1, us1) ∧
          (us = cmds → us1 = cmds1)) := by
  refine shared_annotate_induction
    (P := fun k procs s rp _ s1 =>
      ∀ q u, eraseProcedures procs = eraseProcedures q → erase s = erase u →
        ∃ q1 u1, Shared.annotate k q u rp = some (q1, u1) ∧ (u = s → u1 = s1))
    (Q := fun k procs cmds rp _ cmds1 =>
      ∀ q us, eraseProcedures procs = eraseProcedures q → eraseList cmds = eraseList us →
        ∃ q1 us1, Shared.annotateCommands k q us rp = some (q1, us1) ∧
          (us = cmds → us1 = cmds1))
    ?_ ?_ ?_ ?_ ?_ ?_ ?_ ?_ ?_ ?_ ?_ ?_ ?_ ?_
  · intro k procs cmds rp p1 cmds1 _ ih q u hq hu
    obtain ⟨us, rfl, hus⟩ := erase_inv_SEQ hu
    obtain ⟨q1, us1, hr, he⟩ := ih q us hq hus
    refine ⟨q1, COMMAND_SEQUENCE us1, ?_, fun e => ?_⟩
    · rw [shared_annotate_SEQ, hr]; rfl
    · simp only [COMMAND_SEQUENCE.injEq] at e
      rw [he e]
  · intro k procs n rp q u _ hu
    rw [erase_inv_leaf.1 n hu]
    exact ⟨q, _, (shared_annotate_leaf k q rp).1 n, fun _ => rfl⟩
  · intro k procs ns rp q u _ hu
    rw [erase_inv_leaf.2.1 ns hu]
    exact ⟨q, _, (shared_annotate_leaf k q rp).2.1 ns, fun _ => rfl⟩
  · intro k procs n p rp body p1 body1 hb _ ih q u hq hu
    obtain ⟨p2, rfl, _⟩ := erase_inv_CALL hu
    obtain ⟨body2, hb2, heb⟩ := commandsOf_of_eraseProcedures hq hb
    obtain ⟨q1, u1, hr, _⟩ := ih q body2 hq heb
    refine ⟨writeCommands q1 n u1, PROCEDURE_CALL n p2, ?_, fun e => e⟩
    rw [shared_annotate_CALL, hb2, Option.some_bind, hr]; rfl
  · intro k procs c t e rpf rb rp ty p1 c1 p2 c2 p3 t2 p4 e2 h0 h1 h2 _ i1 i2 i3 q u hq hu
    obtain ⟨c3, t3, e3, rpf3, rb3, rfl, hc, ht, he⟩ := erase_inv_IF hu
    obtain ⟨q1, u1, r0, f0⟩ := shared_getStatementType_shape.1 _ _ _ _ _ _ _ _ _ h0 q c3 hq hc
    obtain ⟨ec1, _, ep1⟩ := shared_getStatementType_erase.1 _ _ _ _ _ _ _ _ _ h0
    obtain ⟨eu1, _, eq1⟩ := shared_getStatementType_erase.1 _ _ _ _ _ _ _ _ _ r0
    have hq1 : eraseProcedures p1 = eraseProcedures q1 := by rw [ep1, eq1, hq]
    obtain ⟨q2, u2, r1, f1⟩ := i1 q1 u1 hq1 (by rw [ec1, eu1, hc])
    have ep2 := (shared_annotate_erase.1 _ _ _ _ _ _ h1).2
    have eq2 := (shared_annotate_erase.1 _ _ _ _ _ _ r1).2
    have hq2 : eraseProcedures p2 = eraseProcedures q2 := by rw [ep2, eq2, hq1]
    obtain ⟨q3, u3, r2, f2⟩ := i2 q2 t3 hq2 ht
    have ep3 := (shared_annotate_erase.1 _ _ _ _ _ _ h2).2
    have eq3 := (shared_annotate_erase.1 _ _ _ _ _ _ r2).2
    have hq3 : eraseProcedures p3 = eraseProcedures q3 := by rw [ep3, eq3, hq2]
    obtain ⟨q4, u4, r3, f3⟩ := i3 q3 e3 hq3 he
    refine ⟨q4, IF_STATEMENT u2 u3 u4 (if ty = COPY then some rp else rpf3)
      (if ty = RECORD_CHANGES then true else rb3), ?_, fun e => ?_⟩
    · rw [shared_annotate_IF, r0, Option.some_bind]
      simp only [r1, Option.some_bind, r2, r3]
    · simp only [IF_STATEMENT.injEq] at e
      obtain ⟨a1, a2, a3, a4, a5⟩ := e
      rw [f1 (f0 a1), f2 a2, f3 a3, a4, a5]
  · intro k procs c t e rpf rb rp ty p1 c1 p2 c2 p3 t2 p4 e2 h0 h1 h2 _ i1 i2 i3 q u hq hu
    obtain ⟨c3, t3, e3, rpf3, rb3, rfl, hc, ht, he⟩ := erase_inv_TRY hu
    obtain ⟨q1, u1, r0, f0⟩ := shared_getStatementType_shape.1 _ _ _ _ _ _ _ _ _ h0 q c3 hq hc
    obtain ⟨ec1, _, ep1⟩ := shared_getStatementType_erase.1 _ _ _ _ _ _ _ _ _ h0
    obtain ⟨eu1, _, eq1⟩ := shared_getStatementType_erase.1 _ _ _ _ _ _ _ _ _ r0
    have hq1 : eraseProcedures p1 = eraseProcedures q1 := by rw [ep1, eq1, hq]
    obtain ⟨q2, u2, r1, f1⟩ := i1 q1 u1 hq1 (by rw [ec1, eu1, hc])
    have ep2 := (shared_annotate_erase.1 _ _ _ _ _ _ h1).2
    have eq2 := (shared_annotate_erase.1 _ _ _ _ _ _ r1).2
    have hq2 : eraseProcedures p2 = eraseProcedures q2 := by rw [ep2, eq2, hq1]
    obtain ⟨q3, u3, r2, f2⟩ := i2 q2 t3 hq2 ht
    have ep3 := (shared_annotate_erase.1 _ _ _ _ _ _ h2).2
    have eq3 := (shared_annotate_erase.1 _ _ _ _ _ _ r2).2
    have hq3 : eraseProcedures p3 = eraseProcedures q3 := by rw [ep3, eq3, hq2]
    obtain ⟨q4, u4, r3, f3⟩ := i3 q3 e3 hq3 he
    refine ⟨q4, TRY_STATEMENT u2 u3 u4 (if ty = COPY then some rp else rpf3)
      (if ty = RECORD_CHANGES then true else rb3), ?_, fun e => ?_⟩
    · rw [shared_annotate_TRY, r0, Option.some_bind]
      simp only [r1, Option.some_bind, r2, r3]
    · simp only [TRY_STATEMENT.injEq] at e
      obtain ⟨a1, a2, a3, a4, a5⟩ := e
      rw [f1 (f0 a1), f2 a2, f3 a3, a4, a5]
  · intro k procs b rpf rb sr rp ty p1 b1 p2 b2 h0 _ i1 q u hq hu
    obtain ⟨b3, rpf3, rb3, sr3, rfl, hb⟩ := erase_inv_ALAP hu
    obtain ⟨q1, u1, r0, f0⟩ := shared_getStatementType_shape.1 _ _ _ _ _ _ _ _ _ h0 q b3 hq hb
    obtain ⟨ec1, _, ep1⟩ := shared_getStatementType_erase.1 _ _ _ _ _ _ _ _ _ h0
    obtain ⟨eu1, _, eq1⟩ := shared_getStatementType_erase.1 _ _ _ _ _ _ _ _ _ r0
    have hq1 : eraseProcedures p1 = eraseProcedures q1 := by rw [ep1, eq1, hq]
    obtain ⟨q2, u2, r1, f1⟩ := i1 q1 u1 hq1 (by rw [ec1, eu1, hb])
    refine ⟨q2, ALAP_STATEMENT u2 (if ty = COPY then some rp else rpf3)
      (if ty = RECORD_CHANGES then true else rb3) sr3, ?_, fun e => ?_⟩
    · rw [shared_annotate_ALAP, r0, Option.some_bind]
      simp only [r1, Option.some_bind]
    · simp only [ALAP_STATEMENT.injEq] at e
      obtain ⟨a1, a2, a3, a4⟩ := e
      rw [f1 (f0 a1), a2, a3, a4]
  · intro k procs l r rp p1 l1 p2 r1 h1 _ i1 i2 q u hq hu
    obtain ⟨a2, b2, rfl, ha, hb⟩ := erase_inv_OR hu
    obtain ⟨q1, u1, s1, f1⟩ := i1 q a2 hq ha
    have ep1 := (shared_annotate_erase.1 _ _ _ _ _ _ h1).2
    have eq1 := (shared_annotate_erase.1 _ _ _ _ _ _ s1).2
    have hq1 : eraseProcedures p1 = eraseProcedures q1 := by rw [ep1, eq1, hq]
    obtain ⟨q2, u2, s2, f2⟩ := i2 q1 b2 hq1 hb
    refine ⟨q2, PROGRAM_OR u1 u2, ?_, fun e => ?_⟩
    · rw [shared_annotate_OR, s1, Option.some_bind, s2]; rfl
    · simp only [PROGRAM_OR.injEq] at e
      rw [f1 e.1, f2 e.2]
  · intro k procs rp q u _ hu
    rw [erase_inv_leaf.2.2.1 hu]
    exact ⟨q, _, (shared_annotate_leaf k q rp).2.2.1, fun _ => rfl⟩
  · intro k procs rp q u _ hu
    rw [erase_inv_leaf.2.2.2.1 hu]
    exact ⟨q, _, (shared_annotate_leaf k q rp).2.2.2.1, fun _ => rfl⟩
  · intro k procs rp q u _ hu
    rw [erase_inv_leaf.2.2.2.2.1 hu]
    exact ⟨q, _, (shared_annotate_leaf k q rp).2.2.2.2.1, fun _ => rfl⟩
  · intro k procs x rp q u _ hu
    rw [erase_inv_leaf.2.2.2.2.2 x hu]
    exact ⟨q, _, (shared_annotate_leaf k q rp).2.2.2.2.2 x, fun _ => rfl⟩
  · intro k procs rp q us _ hu
    rw [eraseList_inv_nil hu]
    exact ⟨q, [], shared_annotateCommands_nil k q rp, fun _ => rfl⟩
  · intro k procs c next rp p1 c1 p2 next1 h1 _ i1 i2 q us hq hu
    obtain ⟨c2, n2, rfl, hc, hn⟩ := eraseList_inv_cons hu
    obtain ⟨q1, u1, r1, f1⟩ := i1 q c2 hq hc
    have ep1 := (shared_annotate_erase.1 _ _ _ _ _ _ h1).2
    have eq1 := (shared_annotate_erase.1 _ _ _ _ _ _ r1).2
    have hq1 : eraseProcedures p1 = eraseProcedures q1 := by rw [ep1, eq1, hq]
    obtain ⟨q2, us2, r2, f2⟩ := i2 q1 n2 hq1 hn
    refine ⟨q2, u1 :: us2, ?_, fun e => ?_⟩
    · rw [shared_annotateCommands_cons, r1, Option.some_bind, r2]; rfl
    · simp only [List.cons.injEq] at e
      rw [f1 e.1, f2 e.2]

/-! ### Shared procedures: restore points along the paths of the annotated command tree -/

theorem increment_of_lt {x : Int} (h : x < INT_MAX) : increment x = x + 1 := by
  have hne : x ≠ INT_MAX := by omega
  simp only [increment, hne, if_false]

/-- After a run of the annotator over shared procedures from restore point `rp` on a command
tree without written restore points, the restore points on every path of the resulting command
tree follow the copy depth counted from `rp` in C `int` arithmetic. -/
theorem shared_annotate_intChain :
    (∀ k procs s rp p1 s1, Shared.annotate k procs s rp = some (p1, s1) →
      ownUnwritten s = true → ∀ p ∈ ownPaths s1, intChain rp p) ∧
    (∀ k procs cmds rp p1 cmds1, Shared.annotateCommands k procs cmds rp = some (p1, cmds1) →
      ownUnwrittenList cmds = true → ∀ p ∈ ownPathsList cmds1, intChain rp p) := by
  refine shared_annotate_induction
    (P := fun _ _ s rp _ s1 => ownUnwritten s = true → ∀ p ∈ ownPaths s1, intChain rp p)
    (Q := fun _ _ cmds rp _ cmds1 =>
      ownUnwrittenList cmds = true → ∀ p ∈ ownPathsList cmds1, intChain rp p)
    ?_ ?_ ?_ ?_ ?_ ?_ ?_ ?_ ?_ ?_ ?_ ?_ ?_ ?_
  · intro k procs cmds rp p1 cmds1 _ hq hu p hp
    cases cmds1 with
    | nil =>
      simp only [ownPaths, List.mem_singleton] at hp
      subst hp
      trivial
    | cons c next =>
      simp only [ownPaths] at hp
      exact hq (by simpa only [ownUnwritten] using hu) p hp
  · intro k procs n rp _ p hp
    simp only [ownPaths, List.mem_singleton] at hp
    subst hp; trivial
  · intro k procs ns rp _ p hp
    simp only [ownPaths, List.mem_singleton] at hp
    subst hp; trivial
  · intro k procs n q rp body p1 body1 _ _ _ _ p hp
    simp only [ownPaths, List.mem_singleton] at hp
    subst hp; trivial
  · intro k procs c t e rpf rb rp ty q1 c1 q2 c2 q3 t2 q4 e2 hc _ _ _ p1 p2 p3 hu p hp
    simp only [ownUnwritten, Bool.and_eq_true, Option.isNone_iff_eq_none,
      Bool.not_eq_true'] at hu
    obtain ⟨⟨⟨⟨hrp, _⟩, huc⟩, hut⟩, hue⟩ := hu
    subst hrp
    have huc1 : ownUnwritten c1 = true := by
      rw [(shared_getStatementType_erase.1 _ _ _ _ _ _ _ _ _ hc).2.1]; exact huc
    simp only [ownPaths, List.mem_append, List.mem_map] at hp
    by_cases hty : ty = COPY
    · simp only [hty, if_true] at hp p1
      rcases hp with ⟨q, hq, rfl⟩ | ⟨q, hq, rfl⟩ | ⟨q, hq, rfl⟩
      · exact ⟨rfl, by simpa using p1 huc1 q hq⟩
      · exact ⟨rfl, by simpa using p2 hut q hq⟩
      · exact ⟨rfl, by simpa using p3 hue q hq⟩
    · simp only [hty, if_false, pathEntry] at hp p1
      rcases hp with ⟨q, hq, rfl⟩ | ⟨q, hq, rfl⟩ | ⟨q, hq, rfl⟩
      · exact p1 huc1 q hq
      · exact p2 hut q hq
      · exact p3 hue q hq
  · intro k procs c t e rpf rb rp ty q1 c1 q2 c2 q3 t2 q4 e2 hc _ _ _ p1 p2 p3 hu p hp
    simp only [ownUnwritten, Bool.and_eq_true, Option.isNone_iff_eq_none,
      Bool.not_eq_true'] at hu
    obtain ⟨⟨⟨⟨hrp, _⟩, huc⟩, hut⟩, hue⟩ := hu
    subst hrp
    have huc1 : ownUnwritten c1 = true := by
      rw [(shared_getStatementType_erase.1 _ _ _ _ _ _ _ _ _ hc).2.1]; exact huc
    simp only [ownPaths, List.mem_append, List.mem_map] at hp
    by_cases hty : ty = COPY
    · simp only [hty, if_true] at hp p1
      rcases hp with ⟨q, hq, rfl⟩ | ⟨q, hq, rfl⟩ | ⟨q, hq, rfl⟩
      · exact ⟨rfl, by simpa using p1 huc1 q hq⟩
      · exact ⟨rfl, by simpa using p2 hut q hq⟩
      · exact ⟨rfl, by simpa using p3 hue q hq⟩
    · simp only [hty, if_false, pathEntry] at hp p1
      rcases hp with ⟨q, hq, rfl⟩ | ⟨q, hq, rfl⟩ | ⟨q, hq, rfl⟩
      · exact p1 huc1 q hq
      · exact p2 hut q hq
      · exact p3 hue q hq
  · intro k procs b rpf rb sr rp ty q1 b1 q2 b2 hc _ p1 hu p hp
    simp only [ownUnwritten, Bool.and_eq_true, Option.isNone_iff_eq_none,
      Bool.not_eq_true'] at hu
    obtain ⟨⟨hrp, _⟩, hub⟩ := hu
    subst hrp
    have hub1 : ownUnwritten b1 = true := by
      rw [(shared_getStatementType_erase.1 _ _ _ _ _ _ _ _ _ hc).2.1]; exact hub
    simp only [ownPaths, List.mem_map] at hp
    by_cases hty : ty = COPY
    · simp only [hty, if_true] at hp p1
      obtain ⟨q, hq, rfl⟩ := hp
      exact ⟨rfl, by simpa using p1 hub1 q hq⟩
    · simp only [hty, if_false, pathEntry] at hp p1
      obtain ⟨q, hq, rfl⟩ := hp
      exact p1 hub1 q hq
  · intro k procs l r rp q1 l1 q2 r1 _ _ p1 p2 hu p hp
    simp only [ownUnwritten, Bool.and_eq_true] at hu
    simp only [ownPaths, List.mem_append] at hp
    rcases hp with hp | hp
    · exact p1 hu.1 p hp
    · exact p2 hu.2 p hp
  · intro k procs rp _ p hp
    simp only [ownPaths, List.mem_singleton] at hp
    subst hp; trivial
  · intro k procs rp _ p hp
    simp only [ownPaths, List.mem_singleton] at hp
    subst hp; trivial
  · intro k procs rp _ p hp
    simp only [ownPaths, List.mem_singleton] at hp
    subst hp; trivial
  · intro k procs u rp _ p hp
    simp only [ownPaths, List.mem_singleton] at hp
    subst hp; trivial
  · intro k procs rp _ p hp
    simp [ownPathsList] at hp
  · intro k procs c next rp q1 c1 q2 next1 _ _ p q hu x hx
    simp only [ownUnwrittenList, Bool.and_eq_true] at hu
    simp only [ownPathsList, List.mem_append] at hx
    rcases hx with hx | hx
    · exact p hu.1 x hx
    · exact q hu.2 x hx

theorem intChain_head (p : List (Int × Bool)) (rp : Int) (h : intChain rp p) :
    ∀ x, p.head? = some x → x.1 = rp := by
  cases p with
  | nil => simp
  | cons a q =>
    obtain ⟨r, inner⟩ := a
    simp only [intChain] at h
    intro x hx
    simp only [List.head?_cons, Option.some.injEq] at hx
    subst hx
    exact h.1

/-- Along a path that follows the copy depth from `rp`, the restore point at position `k` is
`rp` plus the number of earlier entries that the path leaves into a condition or loop body, as
long as that sum does not exceed `INT_MAX`. -/
theorem intChain_count : ∀ (p : List (Int × Bool)) (rp : Int), intChain rp p →
    ∀ (k : Nat) (x : Int × Bool), p[k]? = some x →
      rp + ((p.take k).countP (fun y => y.2) : Nat) ≤ INT_MAX →
      x.1 = rp + ((p.take k).countP (fun y => y.2) : Nat)
  | [], _, _, k, x, hx, _ => by simp at hx
  | (r, inner) :: q, rp, h, 0, x, hx, _ => by
    simp only [intChain] at h
    simp only [List.getElem?_cons_zero, Option.some.injEq] at hx
    subst hx
    simp [h.1]
  | (r, inner) :: q, rp, h, k + 1, x, hx, hb => by
    simp only [intChain] at h
    simp only [List.getElem?_cons_succ] at hx
    cases inner with
    | false =>
      simp only [Bool.false_eq_true, if_false] at h
      have hb2 : rp + ((q.take k).countP (fun y => y.2) : Nat) ≤ INT_MAX := by
        simpa [List.countP_cons] using hb
      have ih := intChain_count q rp h.2 k x hx hb2
      rw [ih]
      simp [List.countP_cons]
    | true =>
      simp only [if_true] at h
      have hb1 : rp + (((q.take k).countP (fun y => y.2) : Nat) + 1 : Int) ≤ INT_MAX := by
        simpa [List.countP_cons] using hb
      have hlt : rp < INT_MAX := by omega
      rw [increment_of_lt hlt] at h
      have ih := intChain_count q (rp + 1) h.2 k x hx (by omega)
      rw [ih]
      simp [List.countP_cons]
      omega

theorem intChain_lower_bound : ∀ (p : List (Int × Bool)) (rp : Int), intChain rp p →
    rp + (p.countP (fun y => y.2) : Nat) ≤ INT_MAX → ∀ x ∈ p, rp ≤ x.1
  | [], _, _, _ => by simp
  | (r, inner) :: q, rp, h, hb => by
    simp only [intChain] at h
    obtain ⟨hr, hq⟩ := h
    intro x hx
    simp only [List.mem_cons] at hx
    rcases hx with rfl | hx
    · simp [hr]
    · cases inner with
      | false =>
        simp only [Bool.false_eq_true, if_false] at hq
        exact intChain_lower_bound q rp hq (by simpa [List.countP_cons] using hb) x hx
      | true =>
        simp only [if_true] at hq
        have hb1 : rp + ((q.countP (fun y => y.2) : Nat) + 1 : Int) ≤ INT_MAX := by
          simpa [List.countP_cons] using hb
        have hlt : rp < INT_MAX := by omega
        rw [increment_of_lt hlt] at hq
        have := intChain_lower_bound q (rp + 1) hq (by omega) x hx
        omega

theorem intChain_pairwise : ∀ (p : List (Int × Bool)) (rp : Int), intChain rp p →
    rp + (p.countP (fun y => y.2) : Nat) ≤ INT_MAX →
      List.Pairwise (fun a b => (a.2 = true → a.1 < b.1) ∧ (a.2 = false → a.1 ≤ b.1)) p
  | [], _, _, _ => List.Pairwise.nil
  | (r, inner) :: q, rp, h, hb => by
    simp only [intChain] at h
    obtain ⟨hr, hq⟩ := h
    subst hr
    cases inner with
    | false =>
      simp only [Bool.false_eq_true, if_false] at hq
      have hb2 : r + (q.countP (fun y => y.2) : Nat) ≤ INT_MAX := by
        simpa [List.countP_cons] using hb
      refine List.Pairwise.cons ?_ (intChain_pairwise q r hq hb2)
      intro b hbm
      have := intChain_lower_bound q r hq hb2 b hbm
      simp [this]
    | true =>
      simp only [if_true] at hq
      have hb1 : r + ((q.countP (fun y => y.2) : Nat) + 1 : Int) ≤ INT_MAX := by
        simpa [List.countP_cons] using hb
      have hlt : r < INT_MAX := by omega
      rw [increment_of_lt hlt] at hq
      refine List.Pairwise.cons ?_ (intChain_pairwise q (r + 1) hq (by omega))
      intro b hbm
      have := intChain_lower_bound q (r + 1) hq (by omega) b hbm
      simp only [true_implies, Bool.true_eq_false, false_implies, and_true]
      omega

/-! ### Shared procedures: agreement of the fields with the classification -/

/-- Agreement at a node does not depend on the annotation fields held in the procedures. -/
theorem sharedAgreement_congr {p q : Procedures} (h : eraseProcedures p = eraseProcedures q)
    (n : GPStatement) (ha : sharedAgreement p n) : sharedAgreement q n := by
  cases n with
  | IF_STATEMENT c t e rp rb =>
    obtain ⟨fuel, ⟨ty, p1, c1⟩, hr, hf⟩ := ha
    obtain ⟨q1, u1, hr2, _⟩ := shared_getStatementType_shape.1 _ _ _ _ _ _ _ _ _ hr q c h rfl
    exact ⟨fuel, _, hr2, hf⟩
  | TRY_STATEMENT c t e rp rb =>
    obtain ⟨fuel, ⟨ty, p1, c1⟩, hr, hf⟩ := ha
    obtain ⟨q1, u1, hr2, _⟩ := shared_getStatementType_shape.1 _ _ _ _ _ _ _ _ _ hr q c h rfl
    exact ⟨fuel, _, hr2, hf⟩
  | ALAP_STATEMENT b rp rb sr =>
    obtain ⟨fuel, ⟨ty, p1, c1⟩, hr, hf⟩ := ha
    obtain ⟨q1, u1, hr2, _⟩ := shared_getStatementType_shape.1 _ _ _ _ _ _ _ _ _ hr q b h rfl
    exact ⟨fuel, _, hr2, hf⟩
  | _ => trivial

/-- Agreement holds at every node of the command tree produced by a run of the annotator over
shared procedures that starts from a command tree without written restore points and without
`roll_back` flags. -/
theorem shared_annotate_agreement :
    (∀ k procs s rp p1 s1, Shared.annotate k procs s rp = some (p1, s1) →
      ownUnwritten s = true → ∀ n ∈ ownNodes s1, sharedAgreement p1 n) ∧
    (∀ k procs cmds rp p1 cmds1, Shared.annotateCommands k procs cmds rp = some (p1, cmds1) →
      ownUnwrittenList cmds = true → ∀ n ∈ ownNodesList cmds1, sharedAgreement p1 n) := by
  refine shared_annotate_induction
    (P := fun _ _ s _ p1 s1 =>
      ownUnwritten s = true → ∀ n ∈ ownNodes s1, sharedAgreement p1 n)
    (Q := fun _ _ cmds _ p1 cmds1 =>
      ownUnwrittenList cmds = true → ∀ n ∈ ownNodesList cmds1, sharedAgreement p1 n)
    ?_ ?_ ?_ ?_ ?_ ?_ ?_ ?_ ?_ ?_ ?_ ?_ ?_ ?_
  · intro k procs cmds rp p1 cmds1 _ hq hu n hn
    simp only [ownNodes, List.mem_cons] at hn
    rcases hn with rfl | hn
    · trivial
    · exact hq (by simpa only [ownUnwritten] using hu) n hn
  · intro k procs x rp _ n hn
    simp only [ownNodes, List.mem_singleton] at hn
    subst hn; trivial
  · intro k procs x rp _ n hn
    simp only [ownNodes, List.mem_singleton] at hn
    subst hn; trivial
  · intro k procs x q rp body p1 body1 _ _ _ _ n hn
    simp only [ownNodes, List.mem_singleton] at hn
    subst hn; trivial
  · intro k procs c t e rpf rb rp ty q1 c1 q2 c2 q3 t2 q4 e2 h0 h1 h2 h3 i1 i2 i3 hu n hn
    simp only [ownUnwritten, Bool.and_eq_true, Option.isNone_iff_eq_none,
      Bool.not_eq_true'] at hu
    obtain ⟨⟨⟨⟨hrp, hrb⟩, huc⟩, hut⟩, hue⟩ := hu
    subst hrp; subst hrb
    obtain ⟨ec1, eu1, ep1⟩ := shared_getStatementType_erase.1 _ _ _ _ _ _ _ _ _ h0
    obtain ⟨ec2, ep2⟩ := shared_annotate_erase.1 _ _ _ _ _ _ h1
    obtain ⟨_, ep3⟩ := shared_annotate_erase.1 _ _ _ _ _ _ h2
    obtain ⟨_, ep4⟩ := shared_annotate_erase.1 _ _ _ _ _ _ h3
    simp only [ownNodes, List.mem_cons, List.mem_append] at hn
    rcases hn with rfl | hn | hn | hn
    · obtain ⟨q5, u5, hr, _⟩ := shared_getStatementType_shape.1 _ _ _ _ _ _ _ _ _ h0 q4 c2
        (by rw [ep4, ep3, ep2, ep1]) (by rw [ec2, ec1])
      exact ⟨k, _, hr, fieldsAgree_written ty rp⟩
    · exact sharedAgreement_congr (by rw [ep4, ep3]) n (i1 (by rw [eu1]; exact huc) n hn)
    · exact sharedAgreement_congr (by rw [ep4]) n (i2 hut n hn)
    · exact i3 hue n hn
  · intro k procs c t e rpf rb rp ty q1 c1 q2 c2 q3 t2 q4 e2 h0 h1 h2 h3 i1 i2 i3 hu n hn
    simp only [ownUnwritten, Bool.and_eq_true, Option.isNone_iff_eq_none,
      Bool.not_eq_true'] at hu
    obtain ⟨⟨⟨⟨hrp, hrb⟩, huc⟩, hut⟩, hue⟩ := hu
    subst hrp; subst hrb
    obtain ⟨ec1, eu1, ep1⟩ := shared_getStatementType_erase.1 _ _ _ _ _ _ _ _ _ h0
    obtain ⟨ec2, ep2⟩ := shared_annotate_erase.1 _ _ _ _ _ _ h1
    obtain ⟨_, ep3⟩ := shared_annotate_erase.1 _ _ _ _ _ _ h2
    obtain ⟨_, ep4⟩ := shared_annotate_erase.1 _ _ _ _ _ _ h3
    simp only [ownNodes, List.mem_cons, List.mem_append] at hn
    rcases hn with rfl | hn | hn | hn
    · obtain ⟨q5, u5, hr, _⟩ := shared_getStatementType_shape.1 _ _ _ _ _ _ _ _ _ h0 q4 c2
        (by rw [ep4, ep3, ep2, ep1]) (by rw [ec2, ec1])
      exact ⟨k, _, hr, fieldsAgree_written ty rp⟩
    · exact sharedAgreement_congr (by rw [ep4, ep3]) n (i1 (by rw [eu1]; exact huc) n hn)
    · exact sharedAgreement_congr (by rw [ep4]) n (i2 hut n hn)
    · exact i3 hue n hn
  · intro k procs b rpf rb sr rp ty q1 b1 q2 b2 h0 h1 i1 hu n hn
    simp only [ownUnwritten, Bool.and_eq_true, Option.isNone_iff_eq_none,
      Bool.not_eq_true'] at hu
    obtain ⟨⟨hrp, hrb⟩, hub⟩ := hu
    subst hrp; subst hrb
    obtain ⟨ec1, eu1, ep1⟩ := shared_getStatementType_erase.1 _ _ _ _ _ _ _ _ _ h0
    obtain ⟨ec2, ep2⟩ := shared_annotate_erase.1 _ _ _ _ _ _ h1
    simp only [ownNodes, List.mem_cons] at hn
    rcases hn with rfl | hn
    · obtain ⟨q5, u5, hr, _⟩ := shared_getStatementType_shape.1 _ _ _ _ _ _ _ _ _ h0 q2 b2
        (by rw [ep2, ep1]) (by rw [ec2, ec1])
      exact ⟨k, _, hr, fieldsAgree_written ty rp⟩
    · exact i1 (by rw [eu1]; exact hub) n hn
  · intro k procs l r rp q1 l1 q2 r1 _ h2 i1 i2 hu n hn
    simp only [ownUnwritten, Bool.and_eq_true] at hu
    obtain ⟨_, ep2⟩ := shared_annotate_erase.1 _ _ _ _ _ _ h2
    simp only [ownNodes, List.mem_cons, List.mem_append] at hn
    rcases hn with rfl | hn | hn
    · trivial
    · exact sharedAgreement_congr (by rw [ep2]) n (i1 hu.1 n hn)
    · exact i2 hu.2 n hn
  · intro k procs rp _ n hn
    simp only [ownNodes, List.mem_singleton] at hn
    subst hn; trivial
  · intro k procs rp _ n hn
    simp only [ownNodes, List.mem_singleton] at hn
    subst hn; trivial
  · intro k procs rp _ n hn
    simp only [ownNodes, List.mem_singleton] at hn
    subst hn; trivial
  · intro k procs u rp _ n hn
    simp only [ownNodes, List.mem_singleton] at hn
    subst hn; trivial
  · intro k procs rp _ n hn
    simp [ownNodesList] at hn
  · intro k procs c next rp q1 c1 q2 next1 _ h2 i1 i2 hu n hn
    simp only [ownUnwrittenList, Bool.and_eq_true] at hu
    obtain ⟨_, ep2⟩ := shared_annotate_erase.2 _ _ _ _ _ _ h2
    simp only [ownNodesList, List.mem_append] at hn
    rcases hn with hn | hn
    · exact sharedAgreement_congr (by rw [ep2]) n (i1 hu.1 n hn)
    · exact i2 hu.2 n hn

/-! ### The driver over shared procedures -/

theorem staticAnalysis_nil (fuel : Nat) (procs : Procedures) :
    staticAnalysis fuel procs [] = some (procs, []) := by
  rw [staticAnalysis]

theorem staticAnalysis_cons (fuel : Nat) (procs : Procedures) (decl : GPDeclaration)
    (next : List GPDeclaration) :
    staticAnalysis fuel procs (decl :: next) =
      (staticAnalysisDeclaration fuel procs decl).bind fun r =>
        (staticAnalysis fuel r.1 next).map fun q => (q.1, r.2 :: q.2) := by
  rw [staticAnalysis]
  cases staticAnalysisDeclaration fuel procs decl with
  | none => rfl
  | some r =>
    simp only [Option.some_bind]
    cases staticAnalysis fuel r.1 next <;> rfl

theorem staticAnalysisDeclaration_MAIN (fuel : Nat) (procs : Procedures) (m : GPStatement) :
    staticAnalysisDeclaration fuel procs (MAIN_DECLARATION m) =
      (Shared.annotate fuel procs m 0).map fun r => (r.1, MAIN_DECLARATION r.2) := by
  rw [staticAnalysisDeclaration]
  cases Shared.annotate fuel procs m 0 <;> rfl

theorem staticAnalysisDeclaration_PROCEDURE (fuel : Nat) (procs : Procedures) (n : String)
    (local_decls : List GPDeclaration) :
    staticAnalysisDeclaration fuel procs (PROCEDURE_DECLARATION n local_decls) =
      (staticAnalysis fuel procs local_decls).map
        fun r => (r.1, PROCEDURE_DECLARATION n r.2) := by
  rw [staticAnalysisDeclaration]
  cases staticAnalysis fuel procs local_decls <;> rfl

theorem staticAnalysisDeclaration_RULE (fuel : Nat) (procs : Procedures) (r : String) :
    staticAnalysisDeclaration fuel procs (RULE_DECLARATION r) =
      some (procs, RULE_DECLARATION r) := by
  rw [staticAnalysisDeclaration]

theorem staticAnalysisDeclaration_UNKNOWN (fuel : Nat) (procs : Procedures) (k : Nat) :
    staticAnalysisDeclaration fuel procs (UNKNOWN_DECLARATION k) =
      some (procs, UNKNOWN_DECLARATION k) := by
  rw [staticAnalysisDeclaration]

mutual
/-- A run of the driver changes the shape of no procedure. -/
theorem staticAnalysis_erase : ∀ (decls : List GPDeclaration) (fuel : Nat)
    (procs p1 : Procedures) (decls1 : List GPDeclaration),
    staticAnalysis fuel procs decls = some (p1, decls1) →
      eraseProcedures p1 = eraseProcedures procs
  | [], fuel, procs, p1, decls1, h => by
    rw [staticAnalysis_nil] at h
    simp only [Option.some.injEq, Prod.mk.injEq] at h
    rw [← h.1]
  | decl :: next, fuel, procs, p1, decls1, h => by
    rw [staticAnalysis_cons] at h
    simp only [Option.bind_eq_some, Option.map_eq_some'] at h
    obtain ⟨⟨q1, d1⟩, h1, ⟨q2, n1⟩, h2, h⟩ := h
    simp only [Option.some.injEq, Prod.mk.injEq] at h
    obtain ⟨rfl, _⟩ := h
    rw [staticAnalysis_erase next fuel q1 q2 n1 h2,
      staticAnalysisDeclaration_erase decl fuel procs q1 d1 h1]
theorem staticAnalysisDeclaration_erase : ∀ (decl : GPDeclaration) (fuel : Nat)
    (procs p1 : Procedures) (decl1 : GPDeclaration),
    staticAnalysisDeclaration fuel procs decl = some (p1, decl1) →
      eraseProcedures p1 = eraseProcedures procs
  | MAIN_DECLARATION m, fuel, procs, p1, decl1, h => by
    rw [staticAnalysisDeclaration_MAIN] at h
    simp only [Option.map_eq_some'] at h
    obtain ⟨⟨q1, m1⟩, h1, h⟩ := h
    simp only [Option.some.injEq, Prod.mk.injEq] at h
    obtain ⟨rfl, _⟩ := h
    exact (shared_annotate_erase.1 _ _ _ _ _ _ h1).2
  | PROCEDURE_DECLARATION n l, fuel, procs, p1, decl1, h => by
    rw [staticAnalysisDeclaration_PROCEDURE] at h
    simp only [Option.map_eq_some'] at h
    obtain ⟨⟨q1, l1⟩, h1, h⟩ := h
    simp only [Option.some.injEq, Prod.mk.injEq] at h
    obtain ⟨rfl, _⟩ := h
    exact staticAnalysis_erase l fuel procs q1 l1 h1
  | RULE_DECLARATION r, fuel, procs, p1, decl1, h => by
    rw [staticAnalysisDeclaration_RULE] at h
    simp only [Option.some.injEq, Prod.mk.injEq] at h
    rw [← h.1]
  | UNKNOWN_DECLARATION k, fuel, procs, p1, decl1, h => by
    rw [staticAnalysisDeclaration_UNKNOWN] at h
    simp only [Option.some.injEq, Prod.mk.injEq] at h
    rw [← h.1]
end

mutual
theorem staticAnalysis_mono : ∀ (decls : List GPDeclaration) (fuel j : Nat)
    (procs : Procedures) (r : Procedures × List GPDeclaration),
    staticAnalysis fuel procs decls = some r → fuel ≤ j → staticAnalysis j procs decls = some r
  | [], fuel, j, procs, r, h, _ => by
    rw [staticAnalysis_nil] at h ⊢
    exact h
  | decl :: next, fuel, j, procs, r, h, hj => by
    rw [staticAnalysis_cons] at h ⊢
    simp only [Option.bind_eq_some, Option.map_eq_some'] at h
    obtain ⟨r1, h1, r2, h2, h⟩ := h
    rw [staticAnalysisDeclaration_mono decl fuel j procs r1 h1 hj, Option.some_bind,
      staticAnalysis_mono next fuel j r1.1 r2 h2 hj]
    exact congrArg some h
theorem staticAnalysisDeclaration_mono : ∀ (decl : GPDeclaration) (fuel j : Nat)
    (procs : Procedures) (r : Procedures × GPDeclaration),
    staticAnalysisDeclaration fuel procs decl = some r → fuel ≤ j →
      staticAnalysisDeclaration j procs decl = some r
  | MAIN_DECLARATION m, fuel, j, procs, r, h, hj => by
    rw [staticAnalysisDeclaration_MAIN] at h ⊢
    simp only [Option.map_eq_some'] at h
    obtain ⟨r1, h1, h⟩ := h
    rw [shared_annotate_mono h1 j hj]
    exact congrArg some h
  | PROCEDURE_DECLARATION n l, fuel, j, procs, r, h, hj => by
    rw [staticAnalysisDeclaration_PROCEDURE] at h ⊢
    simp only [Option.map_eq_some'] at h
    obtain ⟨r1, h1, h⟩ := h
    rw [staticAnalysis_mono l fuel j procs r1 h1 hj]
    exact congrArg some h
  | RULE_DECLARATION x, fuel, j, procs, r, h, _ => by
    rw [staticAnalysisDeclaration_RULE] at h ⊢
    exact h
  | UNKNOWN_DECLARATION k, fuel, j, procs, r, h, _ => by
    rw [staticAnalysisDeclaration_UNKNOWN] at h ⊢
    exact h
end

mutual
theorem closedDeclarations_congr : ∀ (decls : List GPDeclaration) (d : Nat)
    (p q : Procedures), eraseProcedures p = eraseProcedures q →
      closedDeclarations d p decls = closedDeclarations d q decls
  | [], _, _, _, _ => rfl
  | decl :: next, d, p, q, h => by
    simp only [closedDeclarations, closedDeclaration_congr decl d p q h,
      closedDeclarations_congr next d p q h]
theorem closedDeclaration_congr : ∀ (decl : GPDeclaration) (d : Nat) (p q : Procedures),
    eraseProcedures p = eraseProcedures q →
      closedDeclaration d p decl = closedDeclaration d q decl
  | MAIN_DECLARATION m, d, p, q, h => by
    simp only [closedDeclaration, closed_congr h rfl d]
  | PROCEDURE_DECLARATION n l, d, p, q, h => by
    simp only [closedDeclaration, closedDeclarations_congr l d p q h]
  | RULE_DECLARATION _, _, _, _, _ => rfl
  | UNKNOWN_DECLARATION _, _, _, _, _ => rfl
end

mutual
theorem reachedDeclarations_congr : ∀ (decls : List GPDeclaration) (d : Nat)
    (p q : Procedures), eraseProcedures p = eraseProcedures q →
      reachedDeclarations d p decls = reachedDeclarations d q decls
  | [], _, _, _, _ => rfl
  | decl :: next, d, p, q, h => by
    simp only [reachedDeclarations, reachedDeclaration_congr decl d p q h,
      reachedDeclarations_congr next d p q h]
theorem reachedDeclaration_congr : ∀ (decl : GPDeclaration) (d : Nat) (p q : Procedures),
    eraseProcedures p = eraseProcedures q →
      reachedDeclaration d p decl = reachedDeclaration d q decl
  | MAIN_DECLARATION m, d, p, q, h => by
    simp only [reachedDeclaration, reached_congr h rfl d]
  | PROCEDURE_DECLARATION n l, d, p, q, h => by
    simp only [reachedDeclaration, reachedDeclarations_congr l d p q h]
  | RULE_DECLARATION _, _, _, _, _ => rfl
  | UNKNOWN_DECLARATION _, _, _, _, _ => rfl
end

mutual
/-- The driver produces a result on every declaration list whose main commands can be
traversed, once the recursion bound is large enough. -/
theorem staticAnalysis_total : ∀ (decls : List GPDeclaration) (d : Nat) (procs : Procedures),
    closedDeclarations d procs decls = true → ∃ fuel r, staticAnalysis fuel procs decls = some r
  | [], _, procs, _ => ⟨0, _, staticAnalysis_nil 0 procs⟩
  | decl :: next, d, procs, h => by
    simp only [closedDeclarations, Bool.and_eq_true] at h
    obtain ⟨f1, ⟨p1, d1⟩, h1⟩ := staticAnalysisDeclaration_total decl d procs h.1
    have e1 := staticAnalysisDeclaration_erase decl f1 procs p1 d1 h1
    obtain ⟨f2, ⟨p2, n1⟩, h2⟩ := staticAnalysis_total next d p1
      (by rw [closedDeclarations_congr next d p1 procs e1]; exact h.2)
    exact ⟨f1 + f2, _, by
      rw [staticAnalysis_cons,
        staticAnalysisDeclaration_mono decl f1 (f1 + f2) procs _ h1 (by omega),
        Option.some_bind, staticAnalysis_mono next f2 (f1 + f2) p1 _ h2 (by omega)]
      rfl⟩
theorem staticAnalysisDeclaration_total : ∀ (decl : GPDeclaration) (d : Nat)
    (procs : Procedures), closedDeclaration d procs decl = true →
      ∃ fuel r, staticAnalysisDeclaration fuel procs decl = some r
  | MAIN_DECLARATION m, d, procs, h => by
    simp only [closedDeclaration] at h
    obtain ⟨k, r, hk⟩ := shared_annotate_total d procs m h 0
    exact ⟨k, _, by rw [staticAnalysisDeclaration_MAIN, hk]; rfl⟩
  | PROCEDURE_DECLARATION n l, d, procs, h => by
    simp only [closedDeclaration] at h
    obtain ⟨k, r, hk⟩ := staticAnalysis_total l d procs h
    exact ⟨k, _, by rw [staticAnalysisDeclaration_PROCEDURE, hk]; rfl⟩
  | RULE_DECLARATION x, _, procs, _ => ⟨0, _, staticAnalysisDeclaration_RULE 0 procs x⟩
  | UNKNOWN_DECLARATION k, _, procs, _ => ⟨0, _, staticAnalysisDeclaration_UNKNOWN 0 procs k⟩
end

mutual
/-- A run of the driver changes the command tree of no procedure that is not reached by calls
from a main command. -/
theorem staticAnalysis_frame : ∀ (decls : List GPDeclaration) (fuel d : Nat)
    (procs p1 : Procedures) (decls1 : List GPDeclaration),
    staticAnalysis fuel procs decls = some (p1, decls1) →
    closedDeclarations d procs decls = true →
      ∀ n, n ∉ reachedDeclarations d procs decls → commandsOf p1 n = commandsOf procs n
  | [], fuel, d, procs, p1, decls1, h, _, n, _ => by
    rw [staticAnalysis_nil] at h
    simp only [Option.some.injEq, Prod.mk.injEq] at h
    rw [← h.1]
  | decl :: next, fuel, d, procs, p1, decls1, h, hc, n, hn => by
    rw [staticAnalysis_cons] at h
    simp only [Option.bind_eq_some, Option.map_eq_some'] at h
    obtain ⟨⟨q1, d1⟩, h1, ⟨q2, n1⟩, h2, h⟩ := h
    simp only [Option.some.injEq, Prod.mk.injEq] at h
    obtain ⟨rfl, _⟩ := h
    simp only [closedDeclarations, Bool.and_eq_true] at hc
    simp only [reachedDeclarations, List.mem_append, not_or] at hn
    have e1 := staticAnalysisDeclaration_erase decl fuel procs q1 d1 h1
    rw [staticAnalysis_frame next fuel d q1 q2 n1 h2
        (by rw [closedDeclarations_congr next d q1 procs e1]; exact hc.2) n
        (by rw [reachedDeclarations_congr next d q1 procs e1]; exact hn.2),
      staticAnalysisDeclaration_frame decl fuel d procs q1 d1 h1 hc.1 n hn.1]
theorem staticAnalysisDeclaration_frame : ∀ (decl : GPDeclaration) (fuel d : Nat)
    (procs p1 : Procedures) (decl1 : GPDeclaration),
    staticAnalysisDeclaration fuel procs decl = some (p1, decl1) →
    closedDeclaration d procs decl = true →
      ∀ n, n ∉ reachedDeclaration d procs decl → commandsOf p1 n = commandsOf procs n
  | MAIN_DECLARATION m, fuel, d, procs, p1, decl1, h, hc, n, hn => by
    rw [staticAnalysisDeclaration_MAIN] at h
    simp only [Option.map_eq_some'] at h
    obtain ⟨⟨q1, m1⟩, h1, h⟩ := h
    simp only [Option.some.injEq, Prod.mk.injEq] at h
    obtain ⟨rfl, _⟩ := h
    exact shared_annotate_frame.1 _ _ _ _ _ _ h1 d hc n hn
  | PROCEDURE_DECLARATION x l, fuel, d, procs, p1, decl1, h, hc, n, hn => by
    rw [staticAnalysisDeclaration_PROCEDURE] at h
    simp only [Option.map_eq_some'] at h
    obtain ⟨⟨q1, l1⟩, h1, h⟩ := h
    simp only [Option.some.injEq, Prod.mk.injEq] at h
    obtain ⟨rfl, _⟩ := h
    exact staticAnalysis_frame l fuel d procs q1 l1 h1 hc n hn
  | RULE_DECLARATION r, fuel, d, procs, p1, decl1, h, _, n, _ => by
    rw [staticAnalysisDeclaration_RULE] at h
    simp only [Option.some.injEq, Prod.mk.injEq] at h
    rw [← h.1]
  | UNKNOWN_DECLARATION k, fuel, d, procs, p1, decl1, h, _, n, _ => by
    rw [staticAnalysisDeclaration_UNKNOWN] at h
    simp only [Option.some.injEq, Prod.mk.injEq] at h
    rw [← h.1]
end

mutual
/-- A declaration list without main declaration is returned as it was, with the procedures as
they were. -/
theorem staticAnalysis_noMain : ∀ (decls : List GPDeclaration) (fuel : Nat)
    (procs : Procedures), noMain decls = true →
      staticAnalysis fuel procs decls = some (procs, decls)
  | [], fuel, procs, _ => staticAnalysis_nil fuel procs
  | decl :: next, fuel, procs, h => by
    simp only [noMain, Bool.and_eq_true] at h
    rw [staticAnalysis_cons, staticAnalysisDeclaration_noMain decl fuel procs h.1,
      Option.some_bind, staticAnalysis_noMain next fuel procs h.2]
    rfl
theorem staticAnalysisDeclaration_noMain : ∀ (decl : GPDeclaration) (fuel : Nat)
    (procs : Procedures), noMainDeclaration decl = true →
      staticAnalysisDeclaration fuel procs decl = some (procs, decl)
  | MAIN_DECLARATION _, _, _, h => by simp [noMainDeclaration] at h
  | PROCEDURE_DECLARATION n l, fuel, procs, h => by
    simp only [noMainDeclaration] at h
    rw [staticAnalysisDeclaration_PROCEDURE, staticAnalysis_noMain l fuel procs h]
    rfl
  | RULE_DECLARATION r, fuel, procs, _ => staticAnalysisDeclaration_RULE fuel procs r
  | UNKNOWN_DECLARATION k, fuel, procs, _ => staticAnalysisDeclaration_UNKNOWN fuel procs k
end

/-- Two runs of the driver on the same input that produce a result produce the same one,
whatever their recursion bounds. -/
theorem staticAnalysis_unique {k j : Nat} {procs : Procedures} {decls : List GPDeclaration}
    {r1 r2 : Procedures × List GPDeclaration}
    (h1 : staticAnalysis k procs decls = some r1)
    (h2 : staticAnalysis j procs decls = some r2) : r1 = r2 := by
  have e1 := staticAnalysis_mono decls k (max k j) procs r1 h1 (le_max_left k j)
  have e2 := staticAnalysis_mono decls j (max k j) procs r2 h2 (le_max_right k j)
  rw [e1] at e2
  exact Option.some.inj e2

/-! ### Shared procedures: classification inside an `if` condition, entry restore points -/

/-- A run of the classifier with `if_body = true` writes nothing: the command tree and the
procedures are returned as they were. -/
theorem shared_getStatementType_if_body :
    (∀ k procs s ib cs l t p1 s1,
      Shared.getStatementType k procs s ib cs l = some (t, p1, s1) →
        ib = true → p1 = procs ∧ s1 = s) ∧
    (∀ k procs cmds ib cs t p1 cmds1,
      Shared.getSequenceType k procs cmds ib cs = some (t, p1, cmds1) →
        ib = true → p1 = procs ∧ cmds1 = cmds) := by
  refine shared_classifier_induction
    (P := fun _ procs s ib _ _ _ p1 s1 => ib = true → p1 = procs ∧ s1 = s)
    (Q := fun _ procs cmds ib _ _ p1 cmds1 => ib = true → p1 = procs ∧ cmds1 = cmds)
    ?_ ?_ ?_ ?_ ?_ ?_ ?_ ?_ ?_ ?_ ?_ ?_ ?_ ?_ ?_ ?_
  · intro k procs c ib cs l t p1 c1 _ ih hib
    obtain ⟨rfl, rfl⟩ := ih hib
    exact ⟨rfl, rfl⟩
  · intro k procs c d r ib cs l t p1 cmds1 _ ih hib
    obtain ⟨rfl, rfl⟩ := ih hib
    exact ⟨rfl, rfl⟩
  · intro k procs n ib cs l _; exact ⟨rfl, rfl⟩
  · intro k procs ns ib cs l _; exact ⟨rfl, rfl⟩
  · intro k procs n p ib cs l body t p1 body1 hb _ ih hib
    obtain ⟨rfl, rfl⟩ := ih hib
    exact ⟨writeCommands_self _ n _ hb, rfl⟩
  · intro k procs c t e rp rb ib cs l tc p1 c1 tt p2 t1 te p3 e1 _ _ _ i1 i2 i3 hib
    obtain ⟨rfl, rfl⟩ := i1 hib
    obtain ⟨rfl, rfl⟩ := i2 hib
    obtain ⟨rfl, rfl⟩ := i3 hib
    exact ⟨rfl, rfl⟩
  · intro k procs c t e rp rb ib cs l tc p1 c1 tt p2 t1 te p3 e1 _ _ _ i1 i2 i3 hib
    obtain ⟨rfl, rfl⟩ := i1 hib
    obtain ⟨rfl, rfl⟩ := i2 hib
    obtain ⟨rfl, rfl⟩ := i3 hib
    exact ⟨rfl, rfl⟩
  · intro k procs b rp rb sr ib cs l hib
    subst hib
    simp
  · intro k procs a b ib cs l ta p1 a1 tb p2 b1 _ _ i1 i2 hib
    obtain ⟨rfl, rfl⟩ := i1 hib
    obtain ⟨rfl, rfl⟩ := i2 hib
    exact ⟨rfl, rfl⟩
  · intro k procs ib cs l _; exact ⟨rfl, rfl⟩
  · intro k procs ib cs l _; exact ⟨rfl, rfl⟩
  · intro k procs ib cs l _; exact ⟨rfl, rfl⟩
  · intro k procs u ib cs l _; exact ⟨rfl, rfl⟩
  · intro k procs ib cs _; exact ⟨rfl, rfl⟩
  · intro k procs c next ib cs p1 c1 _ ih hib
    obtain ⟨rfl, rfl⟩ := ih hib
    exact ⟨rfl, rfl⟩
  · intro k procs c next ib cs tc p1 c1 t p2 next1 _ _ _ i1 i2 hib
    obtain ⟨rfl, rfl⟩ := i1 hib
    obtain ⟨rfl, rfl⟩ := i2 hib
    exact ⟨rfl, rfl⟩

/-- Whether a command is classified `COPY` depends on the shape of the command and of the
procedures only. -/
theorem copyClassified_congr {p q : Procedures} {c u : GPStatement} {ib : Bool}
    (hp : eraseProcedures p = eraseProcedures q) (hc : erase c = erase u)
    (h : copyClassified p c ib) : copyClassified q u ib := by
  obtain ⟨fuel, ⟨ty, p1, c1⟩, hr, hty⟩ := h
  obtain ⟨q1, u1, hr2, _⟩ := shared_getStatementType_shape.1 _ _ _ _ _ _ _ _ _ hr q u hp hc
  exact ⟨fuel, _, hr2, hty⟩

/-- The strategy found by a run of the classifier decides whether the command is classified
`COPY`. -/
theorem copyClassified_iff_of_run {k : Nat} {procs p1 : Procedures} {c c1 : GPStatement}
    {ib : Bool} {ty : copyType}
    (h : Shared.getStatementType k procs c ib 0 false = some (ty, p1, c1)) :
    copyClassified procs c ib ↔ ty = COPY := by
  constructor
  · rintro ⟨fuel, ⟨ty2, p2, c2⟩, hr, hty⟩
    have e := shared_getStatementType_unique h hr
    simp only [Prod.mk.injEq] at e
    rw [e.1]; exact hty
  · intro hty
    exact ⟨k, _, h, hty⟩

/-- After a run of the annotator over shared procedures from restore point `rp`, every
`COPY`-classified node of the resulting command tree without `COPY`-classified ancestor in it
holds `rp`, whatever the fields of the command tree held before. -/
theorem shared_annotate_entry :
    (∀ k procs s rp p1 s1, Shared.annotate k procs s rp = some (p1, s1) →
      ∀ q, eraseProcedures q = eraseProcedures procs → entryRestorePoint q rp s1) ∧
    (∀ k procs cmds rp p1 cmds1, Shared.annotateCommands k procs cmds rp = some (p1, cmds1) →
      ∀ q, eraseProcedures q = eraseProcedures procs → entryRestorePointList q rp cmds1) := by
  refine shared_annotate_induction
    (P := fun _ procs _ rp _ s1 =>
      ∀ q, eraseProcedures q = eraseProcedures procs → entryRestorePoint q rp s1)
    (Q := fun _ procs _ rp _ cmds1 =>
      ∀ q, eraseProcedures q = eraseProcedures procs → entryRestorePointList q rp cmds1)
    ?_ ?_ ?_ ?_ ?_ ?_ ?_ ?_ ?_ ?_ ?_ ?_ ?_ ?_
  · intro k procs cmds rp p1 cmds1 _ hq q hqe
    simp only [entryRestorePoint]
    exact hq q hqe
  · intro k procs n rp q _; trivial
  · intro k procs ns rp q _; trivial
  · intro k procs n p rp body p1 body1 _ _ _ q _; trivial
  · intro k procs c t e rpf rb rp ty q1 c1 q2 c2 q3 t2 q4 e2 h0 h1 h2 h3 i1 i2 i3 q hqe
    obtain ⟨ec1, _, ep1⟩ := shared_getStatementType_erase.1 _ _ _ _ _ _ _ _ _ h0
    obtain ⟨ec2, ep2⟩ := shared_annotate_erase.1 _ _ _ _ _ _ h1
    obtain ⟨_, ep3⟩ := shared_annotate_erase.1 _ _ _ _ _ _ h2
    have hiff : copyClassified q c2 true ↔ ty = COPY := by
      rw [← copyClassified_iff_of_run h0]
      exact ⟨copyClassified_congr hqe (by rw [ec2, ec1]),
        copyClassified_congr hqe.symm (by rw [ec2, ec1])⟩
    simp only [entryRestorePoint, hiff]
    by_cases hty : ty = COPY
    · simp [hty]
    · simp only [hty, if_false] at i1 ⊢
      refine ⟨fun hf => absurd hf (fun x => x), fun _ => ⟨i1 q (by rw [hqe, ep1]), i2 q (by rw [hqe, ep2, ep1]),
        i3 q (by rw [hqe, ep3, ep2, ep1])⟩⟩
  · intro k procs c t e rpf rb rp ty q1 c1 q2 c2 q3 t2 q4 e2 h0 h1 h2 h3 i1 i2 i3 q hqe
    obtain ⟨ec1, _, ep1⟩ := shared_getStatementType_erase.1 _ _ _ _ _ _ _ _ _ h0
    obtain ⟨ec2, ep2⟩ := shared_annotate_erase.1 _ _ _ _ _ _ h1
    obtain ⟨_, ep3⟩ := shared_annotate_erase.1 _ _ _ _ _ _ h2
    have hiff : copyClassified q c2 false ↔ ty = COPY := by
      rw [← copyClassified_iff_of_run h0]
      exact ⟨copyClassified_congr hqe (by rw [ec2, ec1]),
        copyClassified_congr hqe.symm (by rw [ec2, ec1])⟩
    simp only [entryRestorePoint, hiff]
    by_cases hty : ty = COPY
    · simp [hty]
    · simp only [hty, if_false] at i1 ⊢
      refine ⟨fun hf => absurd hf (fun x => x), fun _ => ⟨i1 q (by rw [hqe, ep1]), i2 q (by rw [hqe, ep2, ep1]),
        i3 q (by rw [hqe, ep3, ep2, ep1])⟩⟩
  · intro k procs b rpf rb sr rp ty q1 b1 q2 b2 h0 h1 i1 q hqe
    obtain ⟨ec1, _, ep1⟩ := shared_getStatementType_erase.1 _ _ _ _ _ _ _ _ _ h0
    obtain ⟨ec2, ep2⟩ := shared_annotate_erase.1 _ _ _ _ _ _ h1
    have hiff : copyClassified q b2 false ↔ ty = COPY := by
      rw [← copyClassified_iff_of_run h0]
      exact ⟨copyClassified_congr hqe (by rw [ec2, ec1]),
        copyClassified_congr hqe.symm (by rw [ec2, ec1])⟩
    simp only [entryRestorePoint, hiff]
    by_cases hty : ty = COPY
    · simp [hty]
    · simp only [hty, if_false] at i1 ⊢
      exact ⟨fun hf => absurd hf (fun x => x), fun _ => i1 q (by rw [hqe, ep1])⟩
  · intro k procs l r rp q1 l1 q2 r1 h1 _ i1 i2 q hqe
    obtain ⟨_, ep1⟩ := shared_annotate_erase.1 _ _ _ _ _ _ h1
    simp only [entryRestorePoint]
    exact ⟨i1 q hqe, i2 q (by rw [hqe, ep1])⟩
  · intro k procs rp q _; trivial
  · intro k procs rp q _; trivial
  · intro k procs rp q _; trivial
  · intro k procs u rp q _; trivial
  · intro k procs rp q _; trivial
  · intro k procs c next rp q1 c1 q2 next1 h1 _ i1 i2 q hqe
    obtain ⟨_, ep1⟩ := shared_annotate_erase.1 _ _ _ _ _ _ h1
    simp only [entryRestorePointList]
    exact ⟨i1 q hqe, i2 q (by rw [hqe, ep1])⟩

/-! ### Shared procedures: the commands of a sequence, each one alone -/

/-- The command tree a command of a sequence is left with is the one a run on that command
alone leaves, over any procedures of the same shape. -/
theorem shared_annotateCommands_alone : ∀ (cmds : List GPStatement) (k : Nat)
    (procs p1 : Procedures) (rp : Int) (cmds1 : List GPStatement),
    Shared.annotateCommands k procs cmds rp = some (p1, cmds1) →
    ∀ q, eraseProcedures procs = eraseProcedures q →
      List.Forall₂ (fun c c1 => ∃ q1, Shared.annotate k q c rp = some (q1, c1)) cmds cmds1
  | cmds, 0, procs, p1, rp, cmds1, h, q, _ => by
    rw [shared_annotateCommands_zero] at h
    exact absurd h (by simp)
  | [], k + 1, procs, p1, rp, cmds1, h, q, _ => by
    rw [shared_annotateCommands_nil] at h
    simp only [Option.some.injEq, Prod.mk.injEq] at h
    rw [← h.2]
    exact List.Forall₂.nil
  | c :: next, k + 1, procs, p1, rp, cmds1, h, q, hq => by
    rw [shared_annotateCommands_cons] at h
    simp only [Option.bind_eq_some, Option.map_eq_some'] at h
    obtain ⟨⟨pa, c1⟩, ha, ⟨pb, next1⟩, hb, h⟩ := h
    simp only [Option.some.injEq, Prod.mk.injEq] at h
    obtain ⟨_, rfl⟩ := h
    obtain ⟨q1, u1, hr, he⟩ := shared_annotate_shape.1 _ _ _ _ _ _ ha q c hq rfl
    obtain ⟨_, epa⟩ := shared_annotate_erase.1 _ _ _ _ _ _ ha
    have ih := shared_annotateCommands_alone next k pa pb rp next1 hb q (by rw [epa, hq])
    refine List.Forall₂.cons ⟨q1, ?_⟩ (ih.imp ?_)
    · rw [← he rfl]
      exact shared_annotate_mono hr (k + 1) (Nat.le_succ k)
    · rintro a b ⟨q2, h2⟩
      exact ⟨q2, shared_annotate_mono h2 (k + 1) (Nat.le_succ k)⟩

/-- A sequence all of whose commands can be annotated alone can be annotated. -/
theorem shared_annotateCommands_of_alone : ∀ (cmds : List GPStatement) (q : Procedures)
    (rp : Int), (∀ c ∈ cmds, ∃ k r, Shared.annotate k q c rp = some r) →
    ∀ procs, eraseProcedures q = eraseProcedures procs →
      ∃ k r, Shared.annotateCommands k procs cmds rp = some r
  | [], q, rp, _, procs, _ => ⟨1, _, shared_annotateCommands_nil 0 procs rp⟩
  | c :: next, q, rp, h, procs, hq => by
    obtain ⟨k1, ⟨qa, c1⟩, h1⟩ := h c (List.mem_cons_self c next)
    obtain ⟨pa, u1, ha, _⟩ := shared_annotate_shape.1 _ _ _ _ _ _ h1 procs c hq rfl
    obtain ⟨_, epa⟩ := shared_annotate_erase.1 _ _ _ _ _ _ ha
    obtain ⟨k2, ⟨pb, next1⟩, hb⟩ := shared_annotateCommands_of_alone next q rp
      (fun x hx => h x (List.mem_cons_of_mem c hx)) pa (by rw [epa, hq])
    exact ⟨k1 + k2 + 1, _, by
      rw [shared_annotateCommands_cons,
        shared_annotate_mono ha (k1 + k2) (by omega), Option.some_bind,
        shared_annotateCommands_mono hb (k1 + k2) (by omega)]
      rfl⟩

/-- After a run of the annotator over shared procedures from restore point `rp`, the restore
points on the `COPY`-classified nodes of the resulting command tree are counted from `rp`,
whatever the fields of the command tree held before. -/
theorem shared_annotate_copyDepth :
    (∀ k procs s rp p1 s1, Shared.annotate k procs s rp = some (p1, s1) →
      ∀ q, eraseProcedures q = eraseProcedures procs → copyDepth q rp s1) ∧
    (∀ k procs cmds rp p1 cmds1, Shared.annotateCommands k procs cmds rp = some (p1, cmds1) →
      ∀ q, eraseProcedures q = eraseProcedures procs → copyDepthList q rp cmds1) := by
  refine shared_annotate_induction
    (P := fun _ procs _ rp _ s1 =>
      ∀ q, eraseProcedures q = eraseProcedures procs → copyDepth q rp s1)
    (Q := fun _ procs _ rp _ cmds1 =>
      ∀ q, eraseProcedures q = eraseProcedures procs → copyDepthList q rp cmds1)
    ?_ ?_ ?_ ?_ ?_ ?_ ?_ ?_ ?_ ?_ ?_ ?_ ?_ ?_
  · intro k procs cmds rp p1 cmds1 _ hq q hqe
    simp only [copyDepth]
    exact hq q hqe
  · intro k procs n rp q _; trivial
  · intro k procs ns rp q _; trivial
  · intro k procs n p rp body p1 body1 _ _ _ q _; trivial
  · intro k procs c t e rpf rb rp ty q1 c1 q2 c2 q3 t2 q4 e2 h0 h1 h2 h3 i1 i2 i3 q hqe
    obtain ⟨ec1, _, ep1⟩ := shared_getStatementType_erase.1 _ _ _ _ _ _ _ _ _ h0
    obtain ⟨ec2, ep2⟩ := shared_annotate_erase.1 _ _ _ _ _ _ h1
    obtain ⟨_, ep3⟩ := shared_annotate_erase.1 _ _ _ _ _ _ h2
    have hiff : copyClassified q c2 true ↔ ty = COPY := by
      rw [← copyClassified_iff_of_run h0]
      exact ⟨copyClassified_congr hqe (by rw [ec2, ec1]),
        copyClassified_congr hqe.symm (by rw [ec2, ec1])⟩
    have j1 := i1 q (by rw [hqe, ep1])
    have j2 := i2 q (by rw [hqe, ep2, ep1])
    have j3 := i3 q (by rw [hqe, ep3, ep2, ep1])
    simp only [copyDepth, hiff]
    by_cases hty : ty = COPY
    · simp only [hty, if_true] at j1 ⊢
      exact ⟨fun _ => ⟨trivial, j1⟩, fun hf => absurd trivial hf, j2, j3⟩
    · simp only [hty, if_false] at j1 ⊢
      exact ⟨fun hf => absurd hf (fun x => x), fun _ => j1, j2, j3⟩
  · intro k procs c t e rpf rb rp ty q1 c1 q2 c2 q3 t2 q4 e2 h0 h1 h2 h3 i1 i2 i3 q hqe
    obtain ⟨ec1, _, ep1⟩ := shared_getStatementType_erase.1 _ _ _ _ _ _ _ _ _ h0
    obtain ⟨ec2, ep2⟩ := shared_annotate_erase.1 _ _ _ _ _ _ h1
    obtain ⟨_, ep3⟩ := shared_annotate_erase.1 _ _ _ _ _ _ h2
    have hiff : copyClassified q c2 false ↔ ty = COPY := by
      rw [← copyClassified_iff_of_run h0]
      exact ⟨copyClassified_congr hqe (by rw [ec2, ec1]),
        copyClassified_congr hqe.symm (by rw [ec2, ec1])⟩
    have j1 := i1 q (by rw [hqe, ep1])
    have j2 := i2 q (by rw [hqe, ep2, ep1])
    have j3 := i3 q (by rw [hqe, ep3, ep2, ep1])
    simp only [copyDepth, hiff]
    by_cases hty : ty = COPY
    · simp only [hty, if_true] at j1 ⊢
      exact ⟨fun _ => ⟨trivial, j1⟩, fun hf => absurd trivial hf, j2, j3⟩
    · simp only [hty, if_false] at j1 ⊢
      exact ⟨fun hf => absurd hf (fun x => x), fun _ => j1, j2, j3⟩
  · intro k procs b rpf rb sr rp ty q1 b1 q2 b2 h0 h1 i1 q hqe
    obtain ⟨ec1, _, ep1⟩ := shared_getStatementType_erase.1 _ _ _ _ _ _ _ _ _ h0
    obtain ⟨ec2, ep2⟩ := shared_annotate_erase.1 _ _ _ _ _ _ h1
    have hiff : copyClassified q b2 false ↔ ty = COPY := by
      rw [← copyClassified_iff_of_run h0]
      exact ⟨copyClassified_congr hqe (by rw [ec2, ec1]),
        copyClassified_congr hqe.symm (by rw [ec2, ec1])⟩
    have j1 := i1 q (by rw [hqe, ep1])
    simp only [copyDepth, hiff]
    by_cases hty : ty = COPY
    · simp only [hty, if_true] at j1 ⊢
      exact ⟨fun _ => ⟨trivial, j1⟩, fun hf => absurd trivial hf⟩
    · simp only [hty, if_false] at j1 ⊢
      exact ⟨fun hf => absurd hf (fun x => x), fun _ => j1⟩
  · intro k procs l r rp q1 l1 q2 r1 h1 _ i1 i2 q hqe
    obtain ⟨_, ep1⟩ := shared_annotate_erase.1 _ _ _ _ _ _ h1
    simp only [copyDepth]
    exact ⟨i1 q hqe, i2 q (by rw [hqe, ep1])⟩
  · intro k procs rp q _; trivial
  · intro k procs rp q _; trivial
  · intro k procs rp q _; trivial
  · intro k procs u rp q _; trivial
  · intro k procs rp q _; trivial
  · intro k procs c next rp q1 c1 q2 next1 h1 _ i1 i2 q hqe
    obtain ⟨_, ep1⟩ := shared_annotate_erase.1 _ _ _ _ _ _ h1
    simp only [copyDepthList]
    exact ⟨i1 q hqe, i2 q (by rw [hqe, ep1])⟩

/-- After the annotation of a call the procedures hold, for the called procedure, the command
tree that the annotation of its body produced. -/
theorem shared_annotate_CALL_body {fuel : Nat} {q q1 : Procedures} {n : String}
    {p s1 : GPStatement} {rp : Int}
    (h : Shared.annotate fuel q (PROCEDURE_CALL n p) rp = some (q1, s1)) :
    ∃ k body qa body1, fuel = k + 1 ∧ commandsOf q n = some body ∧
      Shared.annotate k q body rp = some (qa, body1) ∧ q1 = writeCommands qa n body1 ∧
      commandsOf q1 n = some body1 := by
  cases fuel with
  | zero => rw [shared_annotate_zero] at h; exact absurd h (by simp)
  | succ k =>
    rw [shared_annotate_CALL] at h
    simp only [Option.bind_eq_some, Option.map_eq_some'] at h
    obtain ⟨body, hb, ⟨qa, body1⟩, ha, h⟩ := h
    simp only [Prod.mk.injEq] at h
    obtain ⟨rfl, _⟩ := h
    have hqa : eraseProcedures qa = eraseProcedures q :=
      (shared_annotate_erase.1 _ _ _ _ _ _ ha).2
    have hsome := commandsOf_isSome_of_eraseProcedures hqa n
    rw [hb] at hsome
    refine ⟨k, body, qa, body1, rfl, hb, ha, rfl, ?_⟩
    rw [commandsOf_writeCommands, if_pos rfl]
    cases hq : commandsOf qa n with
    | none => rw [hq] at hsome; simp at hsome
    | some old => rfl

/-! ### The classifier: loop, sequence, branch, choice and leaf rules -/

/-- Position-wise description of `getSequenceType` on a list of well-formed commands: a result
exists, it is `COPY` or `RECORD_CHANGES`, and it is `COPY` exactly when some command is
classified `COPY` in the context the loop gives it. -/
theorem getSequenceType_spec (ib : Bool) (cs : Int) : ∀ cmds : List GPStatement,
    wellFormedList cmds = true →
    ∃ t, classifySequence cmds ib cs = some t ∧ (t = COPY ∨ t = RECORD_CHANGES) ∧
      (t = COPY ↔ ∃ i c, cmds[i]? = some c ∧
        classify c ib (if cs = 0 ∨ (cs = 1 ∧ i + 1 = cmds.length) then 1 else 2)
          (decide (i + 1 = cmds.length)) = some COPY)
  | [], _ => by
    refine ⟨RECORD_CHANGES, by simp [classifySequence, getSequenceType], Or.inr rfl, ?_⟩
    simp
  | c :: next, h => by
    simp only [wellFormedList, Bool.and_eq_true] at h
    obtain ⟨t2, ht2, hcases, hiff⟩ := getSequenceType_spec ib cs next h.2
    have hempty : (next.isEmpty = true) ↔ (0 + 1 = (c :: next).length) := by
      cases next <;> simp
    have hdec : next.isEmpty = decide (0 + 1 = (c :: next).length) := by
      cases next <;> simp
    obtain ⟨t1, c1, h1⟩ := getStatementType_total c ib
      (if cs = 0 ∨ (cs = 1 ∧ next.isEmpty) then 1 else 2) next.isEmpty h.1
    have hshift : ∀ i : Nat, (i + 1 + 1 = (c :: next).length) ↔ (i + 1 = next.length) := by
      intro i; simp
    by_cases hcopy : t1 = COPY
    · refine ⟨COPY, by simp [classifySequence, getSequenceType, h1, hcopy], Or.inl rfl, ?_⟩
      refine ⟨fun _ => ⟨0, c, by simp, ?_⟩, fun _ => rfl⟩
      simp only [classify, ← hdec, ← hempty, Bool.decide_eq_true, h1, hcopy, Option.map_some']
    · have hseq : classifySequence (c :: next) ib cs = some t2 := by
        simp only [classifySequence, getSequenceType, h1, hcopy, if_false] at ht2 ⊢
        cases hn : getSequenceType next ib cs with
        | none => simp [hn] at ht2
        | some r => simpa [hn] using ht2
      refine ⟨t2, hseq, hcases, hiff.trans ⟨?_, ?_⟩⟩
      · rintro ⟨i, d, hd, hcl⟩
        refine ⟨i + 1, d, by simpa using hd, ?_⟩
        simpa only [hshift] using hcl
      · rintro ⟨i, d, hd, hcl⟩
        cases i with
        | zero =>
          exfalso
          simp only [List.getElem?_cons_zero, Option.some.injEq] at hd
          subst hd
          simp only [classify, ← hdec, ← hempty, Bool.decide_eq_true, h1, Option.map_some',
            Option.some.injEq] at hcl
          exact hcopy hcl
        | succ j =>
          refine ⟨j, d, by simpa using hd, ?_⟩
          simpa only [hshift] using hcl

/-- C1 (loop rule): on every `ALAP` node, whatever its body and annotation fields,
`getStatementType` returns `COPY` when `if_body` is true; otherwise `COPY` when `com_seq = 2` or
when `com_seq = 1` and `last_command` is false; otherwise `NO_COPY`.  The result is never
`RECORD_CHANGES` and is the same for every loop body. -/
theorem alap_loop_rule (body : GPStatement) (rp : Option Int) (rb sr : Bool)
    (if_body : Bool) (com_seq : Int) (last_command : Bool) :
    classify (ALAP_STATEMENT body rp rb sr) if_body com_seq last_command =
        some (if if_body = true then COPY
              else if com_seq = 2 ∨ (com_seq = 1 ∧ last_command = false) then COPY
              else NO_COPY) ∧
      classify (ALAP_STATEMENT body rp rb sr) if_body com_seq last_command ≠
        some RECORD_CHANGES ∧
      ∀ (body2 : GPStatement) (rp2 : Option Int) (rb2 sr2 : Bool),
        classify (ALAP_STATEMENT body2 rp2 rb2 sr2) if_body com_seq last_command =
          classify (ALAP_STATEMENT body rp rb sr) if_body com_seq last_command := by
  refine ⟨classify_ALAP _ _ _ _ _ _ _, ?_, fun b p x y => by rw [classify_ALAP, classify_ALAP]⟩
  rw [classify_ALAP]
  split_ifs <;> simp

/-- C2 (sequence rule): for every list `cmds` of well-formed commands (in particular of length
at least 2) and every `if_body` and `com_seq` (in particular 0, 1, 2), `getSequenceType` returns
`COPY` if and only if for some position `i` the call
`getStatementType(cmds[i], if_body, new_com_seq(i), i = n-1)` returns `COPY`, where
`new_com_seq(i)` is 1 when `com_seq = 0` or (`com_seq = 1` and `i = n-1`) and 2 otherwise; in
every other case it returns `RECORD_CHANGES`. -/
theorem sequence_rule (cmds : List GPStatement) (if_body : Bool) (com_seq : Int)
    (hwf : ∀ c ∈ cmds, wellFormed c = true) :
    (classifySequence cmds if_body com_seq = some COPY ↔
      ∃ i c, cmds[i]? = some c ∧
        classify c if_body (if com_seq = 0 ∨ (com_seq = 1 ∧ i + 1 = cmds.length) then 1 else 2)
          (decide (i + 1 = cmds.length)) = some COPY) ∧
    (classifySequence cmds if_body com_seq ≠ some COPY →
      classifySequence cmds if_body com_seq = some RECORD_CHANGES) := by
  obtain ⟨t, ht, hcases, hiff⟩ :=
    getSequenceType_spec if_body com_seq cmds ((wellFormedList_iff cmds).2 hwf)
  rw [ht]
  refine ⟨?_, ?_⟩
  · rw [← hiff]; simp
  · intro hne
    rcases hcases with h | h
    · exact absurd (by rw [h]) hne
    · rw [h]

/-- Witness for C2 on the two-element list `[r!, s]` classified with `com_seq = 0`. -/
theorem sequence_rule_witness :
    (classifySequence
        [ALAP_STATEMENT (RULE_CALL "r") none false false, RULE_CALL "s"] false 0 = some COPY ↔
      ∃ i c, [ALAP_STATEMENT (RULE_CALL "r") none false false, RULE_CALL "s"][i]? = some c ∧
        classify c false
          (if (0 : Int) = 0 ∨ ((0 : Int) = 1 ∧ i + 1 =
              [ALAP_STATEMENT (RULE_CALL "r") none false false, RULE_CALL "s"].length)
            then 1 else 2)
          (decide (i + 1 =
              [ALAP_STATEMENT (RULE_CALL "r") none false false, RULE_CALL "s"].length)) =
          some COPY) ∧
    (classifySequence
        [ALAP_STATEMENT (RULE_CALL "r") none false false, RULE_CALL "s"] false 0 ≠ some COPY →
      classifySequence
        [ALAP_STATEMENT (RULE_CALL "r") none false false, RULE_CALL "s"] false 0 =
        some RECORD_CHANGES) :=
  sequence_rule [ALAP_STATEMENT (RULE_CALL "r") none false false, RULE_CALL "s"] false 0
    (by simp [wellFormed])

/-- C3 (singleton sequence): the special case for one-command sequences classifies the only
command with the literal `true` as `last_command` (analysis.c:179-181), not with the context
of the sequence: `SEQ[x]` under `(if_body, com_seq, last_command)` is classified as `x` under
`(if_body, com_seq, true)`.  So `SEQ[r!]` under `(false, 1, false)` is `NO_COPY` with
`stop_recording` set on the loop while `r!` under the same context is `COPY`, and in the body
`(r!); s` classified under `(false, 0, false)` the loop, which is followed by `s`, is not given
a copy and stops the recording, against the comment at analysis.c:208-210. -/
theorem singleton_sequence_evaluation :
    (∀ x if_body com_seq last_command,
      getStatementType (COMMAND_SEQUENCE [x]) if_body com_seq last_command =
        (getStatementType x if_body com_seq true).map
          (fun r => (r.1, COMMAND_SEQUENCE [r.2]))) ∧
    getStatementType
        (COMMAND_SEQUENCE [ALAP_STATEMENT (RULE_CALL "r") none false false]) false 1 false =
      some (NO_COPY, COMMAND_SEQUENCE [ALAP_STATEMENT (RULE_CALL "r") none false true]) ∧
    getStatementType (ALAP_STATEMENT (RULE_CALL "r") none false false) false 1 false =
      some (COPY, ALAP_STATEMENT (RULE_CALL "r") none false false) ∧
    getStatementType
        (COMMAND_SEQUENCE
          [COMMAND_SEQUENCE [ALAP_STATEMENT (RULE_CALL "r") none false false], RULE_CALL "s"])
        false 0 false =
      some (RECORD_CHANGES,
        COMMAND_SEQUENCE
          [COMMAND_SEQUENCE [ALAP_STATEMENT (RULE_CALL "r") none false true], RULE_CALL "s"]) ∧
    getStatementType
        (COMMAND_SEQUENCE [ALAP_STATEMENT (RULE_CALL "r") none false false, RULE_CALL "s"])
        false 0 false =
      some (COPY,
        COMMAND_SEQUENCE [ALAP_STATEMENT (RULE_CALL "r") none false false, RULE_CALL "s"]) := by
  refine ⟨fun x if_body com_seq last_command => ?_, rfl, rfl, rfl, rfl⟩
  simp only [getStatementType]
  cases getStatementType x if_body com_seq true with
  | none => rfl
  | some r => rfl

/-- C4 (conditional branches): for an `IF` or `TRY` node whose three children are classified
under the context `(if_body, com_seq, last_command)` with results `tc`, `tt`, `te`,
`getStatementType` under that same context returns `COPY` if at least one of the three is `COPY`
and `RECORD_CHANGES` otherwise, the children carrying the writes of their own classification;
and no `IF` or `TRY` node is ever classified `NO_COPY`. -/
theorem cond_branch_rule (cond th el : GPStatement) (rp : Option Int) (rb : Bool)
    (if_body : Bool) (com_seq : Int) (last_command : Bool)
    (tc tt te : copyType) (cond1 th1 el1 : GPStatement)
    (hc : getStatementType cond if_body com_seq last_command = some (tc, cond1))
    (ht : getStatementType th if_body com_seq last_command = some (tt, th1))
    (he : getStatementType el if_body com_seq last_command = some (te, el1)) :
    getStatementType (IF_STATEMENT cond th el rp rb) if_body com_seq last_command =
        some (if tc = COPY ∨ tt = COPY ∨ te = COPY then COPY else RECORD_CHANGES,
              IF_STATEMENT cond1 th1 el1 rp rb) ∧
      getStatementType (TRY_STATEMENT cond th el rp rb) if_body com_seq last_command =
        some (if tc = COPY ∨ tt = COPY ∨ te = COPY then COPY else RECORD_CHANGES,
              TRY_STATEMENT cond1 th1 el1 rp rb) ∧
      (∀ (c t e : GPStatement) (p : Option Int) (b ib : Bool) (cs : Int) (l : Bool),
        classify (IF_STATEMENT c t e p b) ib cs l ≠ some NO_COPY ∧
        classify (TRY_STATEMENT c t e p b) ib cs l ≠ some NO_COPY) := by
  refine ⟨by simp only [getStatementType, hc, ht, he],
    by simp only [getStatementType, hc, ht, he], ?_⟩
  intro c t e p b ib cs l
  simp only [classify, getStatementType]
  constructor <;>
  · cases getStatementType c ib cs l with
    | none => simp
    | some r1 =>
      cases getStatementType t ib cs l with
      | none => simp
      | some r2 =>
        cases getStatementType e ib cs l with
        | none => simp
        | some r3 =>
          simp only [Option.map_some', ne_eq, Option.some.injEq]
          split_ifs <;> simp

/-- Witness for C4: `if r! then s else t` inside a nested sequence (`com_seq = 2`). -/
theorem cond_branch_rule_witness :
    getStatementType
        (IF_STATEMENT (ALAP_STATEMENT (RULE_CALL "r") none false false) (RULE_CALL "s")
          (RULE_CALL "t") none false) false 2 false =
        some (if COPY = COPY ∨ NO_COPY = COPY ∨ NO_COPY = COPY then COPY else RECORD_CHANGES,
              IF_STATEMENT (ALAP_STATEMENT (RULE_CALL "r") none false false) (RULE_CALL "s")
                (RULE_CALL "t") none false) ∧
      getStatementType
        (TRY_STATEMENT (ALAP_STATEMENT (RULE_CALL "r") none false false) (RULE_CALL "s")
          (RULE_CALL "t") none false) false 2 false =
        some (if COPY = COPY ∨ NO_COPY = COPY ∨ NO_COPY = COPY then COPY else RECORD_CHANGES,
              TRY_STATEMENT (ALAP_STATEMENT (RULE_CALL "r") none false false) (RULE_CALL "s")
                (RULE_CALL "t") none false) ∧
      (∀ (c t e : GPStatement) (p : Option Int) (b ib : Bool) (cs : Int) (l : Bool),
        classify (IF_STATEMENT c t e p b) ib cs l ≠ some NO_COPY ∧
        classify (TRY_STATEMENT c t e p b) ib cs l ≠ some NO_COPY) :=
  cond_branch_rule (ALAP_STATEMENT (RULE_CALL "r") none false false) (RULE_CALL "s")
    (RULE_CALL "t") none false false 2 false COPY NO_COPY NO_COPY
    (ALAP_STATEMENT (RULE_CALL "r") none false false) (RULE_CALL "s") (RULE_CALL "t")
    rfl rfl rfl

/-- C5 (OR-monotonicity, P5): when `a` and `b` are classified `ta` and `tb` under a context,
`getStatementType(OR(a, b))` under the same context returns the maximum of `ta` and `tb` in the
order `NO_COPY < RECORD_CHANGES < COPY` (and both branches carry the writes of their own
classification). -/
theorem or_monotonicity (a b : GPStatement) (if_body : Bool) (com_seq : Int)
    (last_command : Bool) (ta tb : copyType) (a1 b1 : GPStatement)
    (ha : getStatementType a if_body com_seq last_command = some (ta, a1))
    (hb : getStatementType b if_body com_seq last_command = some (tb, b1)) :
    getStatementType (PROGRAM_OR a b) if_body com_seq last_command =
        some (max ta tb, PROGRAM_OR a1 b1) ∧
      NO_COPY < RECORD_CHANGES ∧ RECORD_CHANGES < COPY := by
  refine ⟨?_, by decide, by decide⟩
  simp only [getStatementType, ha, hb, toNat_max]

/-- Witness for C5: `(if r then s else t) or u!` as a non-final command of a first-level
sequence. -/
theorem or_monotonicity_witness :
    getStatementType
        (PROGRAM_OR (IF_STATEMENT (RULE_CALL "r") (RULE_CALL "s") (RULE_CALL "t") none false)
          (ALAP_STATEMENT (RULE_CALL "u") none false false)) false 1 false =
        some (max RECORD_CHANGES COPY,
          PROGRAM_OR (IF_STATEMENT (RULE_CALL "r") (RULE_CALL "s") (RULE_CALL "t") none false)
            (ALAP_STATEMENT (RULE_CALL "u") none false false)) ∧
      NO_COPY < RECORD_CHANGES ∧ RECORD_CHANGES < COPY :=
  or_monotonicity (IF_STATEMENT (RULE_CALL "r") (RULE_CALL "s") (RULE_CALL "t") none false)
    (ALAP_STATEMENT (RULE_CALL "u") none false false) false 1 false RECORD_CHANGES COPY
    (IF_STATEMENT (RULE_CALL "r") (RULE_CALL "s") (RULE_CALL "t") none false)
    (ALAP_STATEMENT (RULE_CALL "u") none false false) rfl rfl

/-- C6 (leaves and procedure calls): under every context `getStatementType` returns `NO_COPY`
on `RULE_CALL`, `RULE_SET_CALL`, `SKIP`, `FAIL` and `BREAK`, leaving the node as it is, and on a
`PROCEDURE_CALL` it returns exactly what it returns on the body of the called procedure under
the same context, with the same writes in that body. -/
theorem leaf_and_procedure_rule (if_body : Bool) (com_seq : Int) (last_command : Bool) :
    (∀ n, getStatementType (RULE_CALL n) if_body com_seq last_command =
        some (NO_COPY, RULE_CALL n)) ∧
    (∀ ns, getStatementType (RULE_SET_CALL ns) if_body com_seq last_command =
        some (NO_COPY, RULE_SET_CALL ns)) ∧
    getStatementType SKIP_STATEMENT if_body com_seq last_command =
        some (NO_COPY, SKIP_STATEMENT) ∧
    getStatementType FAIL_STATEMENT if_body com_seq last_command =
        some (NO_COPY, FAIL_STATEMENT) ∧
    getStatementType BREAK_STATEMENT if_body com_seq last_command =
        some (NO_COPY, BREAK_STATEMENT) ∧
    (∀ n body, getStatementType (PROCEDURE_CALL n body) if_body com_seq last_command =
        (getStatementType body if_body com_seq last_command).map
          (fun r => (r.1, PROCEDURE_CALL n r.2))) := by
  refine ⟨fun n => by rw [getStatementType], fun ns => by rw [getStatementType],
    by rw [getStatementType], by rw [getStatementType], by rw [getStatementType], ?_⟩
  intro n body
  simp only [getStatementType]
  cases getStatementType body if_body com_seq last_command with
  | none => rfl
  | some r => rfl

/-! ### The annotator: `IF`, `TRY` and `ALAP` rules, agreement with the classifier -/

/-- C7 (annotator, `IF`): for an `IF(cond, then, else)` node with default annotation fields and
a restore point `rp` that is a C `int` below `INT_MAX` (so that `rp + 1` does not overflow), let
`t` be the classification of `cond` under `(if_body = true, com_seq = 0, last_command = false)`;
this classification writes nothing, neither in `cond` nor in the procedures.  Then `annotate`
sets `roll_back` exactly when `t = RECORD_CHANGES`, writes `restore_point = rp` exactly when
`t = COPY`, annotates `cond` with `rp + 1` when `t = COPY` and with `rp` otherwise, and then
annotates `then` and `else` with `rp`.  In particular a condition that is a single rule call
gives `roll_back = false` and no restore point, and a condition that is a loop gives
`restore_point = rp` with the loop annotated at `rp + 1`. -/
theorem annotate_if_rule (fuel : Nat) (procs procs1 procs2 procs3 procs4 : Procedures)
    (cond th el : GPStatement) (rp : Int) (t : copyType) (cond1 cond2 th2 el2 : GPStatement)
    (hrp : INT_MIN ≤ rp ∧ rp < INT_MAX)
    (hc : Shared.getStatementType fuel procs cond true 0 false = some (t, procs1, cond1))
    (h1 : Shared.annotate fuel procs1 cond1 (if t = COPY then rp + 1 else rp) =
      some (procs2, cond2))
    (h2 : Shared.annotate fuel procs2 th rp = some (procs3, th2))
    (h3 : Shared.annotate fuel procs3 el rp = some (procs4, el2)) :
    (procs1 = procs ∧ cond1 = cond) ∧
    Shared.annotate (fuel + 1) procs (IF_STATEMENT cond th el none false) rp =
        some (procs4, IF_STATEMENT cond2 th2 el2 (if t = COPY then some rp else none)
          (decide (t = RECORD_CHANGES))) ∧
      (∀ n q3 q4 a2 b2, Shared.annotate fuel procs th rp = some (q3, a2) →
        Shared.annotate fuel q3 el rp = some (q4, b2) →
        Shared.annotate (fuel + 1) procs (IF_STATEMENT (RULE_CALL n) th el none false) rp =
          some (q4, IF_STATEMENT (RULE_CALL n) a2 b2 none false)) ∧
      (∀ body p b sr q2 loop2 q3 q4 a2 b2,
        Shared.annotate fuel procs (ALAP_STATEMENT body p b sr) (rp + 1) = some (q2, loop2) →
        Shared.annotate fuel q2 th rp = some (q3, a2) →
        Shared.annotate fuel q3 el rp = some (q4, b2) →
        Shared.annotate (fuel + 1) procs
            (IF_STATEMENT (ALAP_STATEMENT body p b sr) th el none false) rp =
          some (q4, IF_STATEMENT loop2 a2 b2 (some rp) false)) := by
  have hinc : increment rp = rp + 1 := increment_of_lt hrp.2
  refine ⟨shared_getStatementType_if_body.1 _ _ _ _ _ _ _ _ _ hc rfl, ?_, ?_, ?_⟩
  · rw [shared_annotate_IF, hc]
    simp only [Option.some_bind, hinc, h1, h2, h3]
    cases t <;> simp
  · intro n q3 q4 a2 b2 ha hb
    cases fuel with
    | zero => rw [shared_annotate_zero] at ha; exact absurd ha (by simp)
    | succ k =>
      obtain ⟨l1, _⟩ := shared_getStatementType_leaf k procs true 0 false
      obtain ⟨m1, _⟩ := shared_annotate_leaf k procs rp
      rw [shared_annotate_IF, l1]
      simp [m1, ha, hb]
  · intro body p b sr q2 loop2 q3 q4 a2 b2 hl ha hb
    cases fuel with
    | zero => rw [shared_annotate_zero] at ha; exact absurd ha (by simp)
    | succ k =>
      rw [shared_annotate_IF, shared_getStatementType_ALAP]
      simp [hinc, hl, ha, hb]

/-- Witness for C7: `if P then u else v` at restore point 3, where the procedure `P` has the
body `a!`; the condition is classified `COPY` and annotated at restore point 4. -/
theorem annotate_if_rule_witness :
    ([("P", ALAP_STATEMENT (RULE_CALL "a") none false false)] =
        [("P", ALAP_STATEMENT (RULE_CALL "a") none false false)] ∧
      PROCEDURE_CALL "P" NULL = PROCEDURE_CALL "P" NULL) ∧
    Shared.annotate (4 + 1) [("P", ALAP_STATEMENT (RULE_CALL "a") none false false)]
        (IF_STATEMENT (PROCEDURE_CALL "P" NULL) (RULE_CALL "u") (RULE_CALL "v") none false) 3 =
        some ([("P", ALAP_STATEMENT (RULE_CALL "a") none false false)],
          IF_STATEMENT (PROCEDURE_CALL "P" NULL) (RULE_CALL "u") (RULE_CALL "v")
            (if COPY = COPY then some 3 else none) (decide (COPY = RECORD_CHANGES))) ∧
      (∀ n q3 q4 a2 b2,
        Shared.annotate 4 [("P", ALAP_STATEMENT (RULE_CALL "a") none false false)]
          (RULE_CALL "u") 3 = some (q3, a2) →
        Shared.annotate 4 q3 (RULE_CALL "v") 3 = some (q4, b2) →
        Shared.annotate (4 + 1) [("P", ALAP_STATEMENT (RULE_CALL "a") none false false)]
            (IF_STATEMENT (RULE_CALL n) (RULE_CALL "u") (RULE_CALL "v") none false) 3 =
          some (q4, IF_STATEMENT (RULE_CALL n) a2 b2 none false)) ∧
      (∀ body p b sr q2 loop2 q3 q4 a2 b2,
        Shared.annotate 4 [("P", ALAP_STATEMENT (RULE_CALL "a") none false false)]
          (ALAP_STATEMENT body p b sr) (3 + 1) = some (q2, loop2) →
        Shared.annotate 4 q2 (RULE_CALL "u") 3 = some (q3, a2) →
        Shared.annotate 4 q3 (RULE_CALL "v") 3 = some (q4, b2) →
        Shared.annotate (4 + 1) [("P", ALAP_STATEMENT (RULE_CALL "a") none false false)]
            (IF_STATEMENT (ALAP_STATEMENT body p b sr) (RULE_CALL "u") (RULE_CALL "v")
              none false) 3 =
          some (q4, IF_STATEMENT loop2 a2 b2 (some 3) false)) :=
  annotate_if_rule 4 [("P", ALAP_STATEMENT (RULE_CALL "a") none false false)]
    [("P", ALAP_STATEMENT (RULE_CALL "a") none false false)]
    [("P", ALAP_STATEMENT (RULE_CALL "a") none false false)]
    [("P", ALAP_STATEMENT (RULE_CALL "a") none false false)]
    [("P", ALAP_STATEMENT (RULE_CALL "a") none false false)]
    (PROCEDURE_CALL "P" NULL) (RULE_CALL "u") (RULE_CALL "v") 3 COPY
    (PROCEDURE_CALL "P" NULL) (PROCEDURE_CALL "P" NULL) (RULE_CALL "u") (RULE_CALL "v")
    (by decide) (by rfl) (by rfl) (by rfl) (by rfl)

/-- C9 (annotator, `ALAP`): for an `ALAP(body)` node with default annotation fields and a
restore point `rp` that is a C `int` below `INT_MAX` (so that `rp + 1` does not overflow), with
`t` the classification of `body` under `(if_body = false, com_seq = 0, last_command = false)`
and `body1` the body as that classification leaves it: `t = RECORD_CHANGES` sets `roll_back` to
true, `t = COPY` writes `restore_point = rp`, `t = NO_COPY` writes neither, and `body1` is
annotated with `rp + 1` when `t = COPY` and with `rp` otherwise. -/
theorem annotate_alap_rule (fuel : Nat) (procs procs1 procs2 : Procedures)
    (body : GPStatement) (rp : Int) (t : copyType) (body1 body2 : GPStatement)
    (hrp : INT_MIN ≤ rp ∧ rp < INT_MAX)
    (hc : Shared.getStatementType fuel procs body false 0 false = some (t, procs1, body1))
    (h1 : Shared.annotate fuel procs1 body1 (if t = COPY then rp + 1 else rp) =
      some (procs2, body2)) :
    Shared.annotate (fuel + 1) procs (ALAP_STATEMENT body none false false) rp =
      some (procs2, ALAP_STATEMENT body2 (if t = COPY then some rp else none)
        (decide (t = RECORD_CHANGES)) false) := by
  have hinc : increment rp = rp + 1 := increment_of_lt hrp.2
  rw [shared_annotate_ALAP, hc]
  simp only [Option.some_bind, hinc, h1]
  cases t <;> simp

/-- Witness for C9: the loop `(P; s)!` at restore point 0, where the procedure `P` has the body
`(if r! then skip else fail)!`; the body of the loop is classified `COPY`, so the loop gets
restore point 0 and its body is annotated at restore point 1, the body of `P` included. -/
theorem annotate_alap_rule_witness :
    Shared.annotate (7 + 1)
        [("P", ALAP_STATEMENT (IF_STATEMENT (ALAP_STATEMENT (RULE_CALL "r") none false false)
            SKIP_STATEMENT FAIL_STATEMENT none false) none false false)]
        (ALAP_STATEMENT (COMMAND_SEQUENCE [PROCEDURE_CALL "P" NULL, RULE_CALL "s"])
          none false false) 0 =
      some
        ([("P", ALAP_STATEMENT (IF_STATEMENT (ALAP_STATEMENT (RULE_CALL "r") none false false)
            SKIP_STATEMENT FAIL_STATEMENT (some 1) false) none true false)],
         ALAP_STATEMENT (COMMAND_SEQUENCE [PROCEDURE_CALL "P" NULL, RULE_CALL "s"])
          (if COPY = COPY then some 0 else none) (decide (COPY = RECORD_CHANGES)) false) :=
  annotate_alap_rule 7
    [("P", ALAP_STATEMENT (IF_STATEMENT (ALAP_STATEMENT (RULE_CALL "r") none false false)
        SKIP_STATEMENT FAIL_STATEMENT none false) none false false)]
    [("P", ALAP_STATEMENT (IF_STATEMENT (ALAP_STATEMENT (RULE_CALL "r") none false false)
        SKIP_STATEMENT FAIL_STATEMENT none false) none false false)]
    [("P", ALAP_STATEMENT (IF_STATEMENT (ALAP_STATEMENT (RULE_CALL "r") none false false)
        SKIP_STATEMENT FAIL_STATEMENT (some 1) false) none true false)]
    (COMMAND_SEQUENCE [PROCEDURE_CALL "P" NULL, RULE_CALL "s"]) 0 COPY
    (COMMAND_SEQUENCE [PROCEDURE_CALL "P" NULL, RULE_CALL "s"])
    (COMMAND_SEQUENCE [PROCEDURE_CALL "P" NULL, RULE_CALL "s"])
    (by decide) (by rfl) (by rfl)

/-- C10 (classifier-annotator agreement, P2): after `annotate` has run on a tree whose
annotation fields are all default, every `IF`, `TRY` and `ALAP` node `n` of the resulting tree
agrees with the classification `c` of its condition (`IF`: `if_body = true`; `TRY`:
`if_body = false`) or body (`ALAP`: `if_body = false`) under `com_seq = 0`,
`last_command = false`: a restore point was written on `n` if and only if `c = COPY`,
`roll_back` is true if and only if `c = RECORD_CHANGES`, neither holds if and only if
`c = NO_COPY`, and no node has both `roll_back` set and a restore point written. -/
theorem classifier_annotator_agreement (s : GPStatement) (rp : Int) (s1 : GPStatement)
    (hdef : defaultFields s = true) (hann : annotate s rp = some s1) :
    ∀ n ∈ nodes s1,
      (∀ c t e p b, n = IF_STATEMENT c t e p b → fieldsAgree (classify c true 0 false) p b) ∧
      (∀ c t e p b, n = TRY_STATEMENT c t e p b → fieldsAgree (classify c false 0 false) p b) ∧
      (∀ body p b sr, n = ALAP_STATEMENT body p b sr →
        fieldsAgree (classify body false 0 false) p b) := by
  intro n hn
  have hag := agreement_of_unwritten hann (unwritten_of_defaultFields s hdef) n hn
  refine ⟨?_, ?_, ?_⟩
  · intro c t e p b hnode
    subst hnode
    exact hag
  · intro c t e p b hnode
    subst hnode
    exact hag
  · intro body p b sr hnode
    subst hnode
    exact hag

/-- Witness for C10: the main body
`(if r! then (try (a; b!) then skip else fail) else w); P` at restore point 0, where the
procedure `P` has the body `(c!; d)!`. -/
theorem classifier_annotator_agreement_witness :
    defaultFields
    (COMMAND_SEQUENCE
      [IF_STATEMENT (ALAP_STATEMENT (RULE_CALL "r") none false false)
         (TRY_STATEMENT
           (COMMAND_SEQUENCE
             [RULE_CALL "a", ALAP_STATEMENT (RULE_CALL "b") none false false])
           SKIP_STATEMENT FAIL_STATEMENT none false)
         (RULE_CALL "w") none false,
       PROCEDURE_CALL "P"
         (ALAP_STATEMENT
           (COMMAND_SEQUENCE
             [ALAP_STATEMENT (RULE_CALL "c") none false false, RULE_CALL "d"])
           none false false)]) = true ∧
    ∀ n ∈ nodes (COMMAND_SEQUENCE
        [IF_STATEMENT (ALAP_STATEMENT (RULE_CALL "r") none false false)
           (TRY_STATEMENT
             (COMMAND_SEQUENCE
               [RULE_CALL "a", ALAP_STATEMENT (RULE_CALL "b") none false true])
             SKIP_STATEMENT FAIL_STATEMENT none true)
           (RULE_CALL "w") (some 0) false,
         PROCEDURE_CALL "P"
           (ALAP_STATEMENT
             (COMMAND_SEQUENCE
               [ALAP_STATEMENT (RULE_CALL "c") none false false, RULE_CALL "d"])
             (some 0) false false)]),
      (∀ c t e p b, n = IF_STATEMENT c t e p b → fieldsAgree (classify c true 0 false) p b) ∧
      (∀ c t e p b, n = TRY_STATEMENT c t e p b → fieldsAgree (classify c false 0 false) p b) ∧
      (∀ body p b sr, n = ALAP_STATEMENT body p b sr →
        fieldsAgree (classify body false 0 false) p b) :=
  ⟨by rfl, classifier_annotator_agreement
    (COMMAND_SEQUENCE
      [IF_STATEMENT (ALAP_STATEMENT (RULE_CALL "r") none false false)
         (TRY_STATEMENT
           (COMMAND_SEQUENCE
             [RULE_CALL "a", ALAP_STATEMENT (RULE_CALL "b") none false false])
           SKIP_STATEMENT FAIL_STATEMENT none false)
         (RULE_CALL "w") none false,
       PROCEDURE_CALL "P"
         (ALAP_STATEMENT
           (COMMAND_SEQUENCE
             [ALAP_STATEMENT (RULE_CALL "c") none false false, RULE_CALL "d"])
           none false false)])
    0 _ (by rfl) (by simp [annotate, annotateCommands, getStatementType, getSequenceType])⟩

/-! ### Frame, independence and determinism properties -/

/-- C15 as stated fails: with the procedure `P` of body `if x! then skip else skip`, the
sequence `(if P then s else t); P` annotated from restore point 0 leaves the conditional of
`P` with restore point 0 (the second command calls `P` again and overwrites the shared body),
while the first command annotated alone leaves it with restore point 1: the annotation that
the first command puts on the procedure it calls depends on the command that follows it. -/
theorem sibling_independence_counterexample :
    Shared.annotate 8
        [("P", IF_STATEMENT (ALAP_STATEMENT (RULE_CALL "x") none false false)
          SKIP_STATEMENT SKIP_STATEMENT none false)]
        (COMMAND_SEQUENCE
          [IF_STATEMENT (PROCEDURE_CALL "P" NULL) (RULE_CALL "s") (RULE_CALL "t") none false,
           PROCEDURE_CALL "P" NULL]) 0 =
      some
        ([("P", IF_STATEMENT (ALAP_STATEMENT (RULE_CALL "x") none false false)
          SKIP_STATEMENT SKIP_STATEMENT (some 0) false)],
         COMMAND_SEQUENCE
          [IF_STATEMENT (PROCEDURE_CALL "P" NULL) (RULE_CALL "s") (RULE_CALL "t")
             (some 0) false,
           PROCEDURE_CALL "P" NULL]) ∧
    Shared.annotate 8
        [("P", IF_STATEMENT (ALAP_STATEMENT (RULE_CALL "x") none false false)
          SKIP_STATEMENT SKIP_STATEMENT none false)]
        (IF_STATEMENT (PROCEDURE_CALL "P" NULL) (RULE_CALL "s") (RULE_CALL "t") none false) 0 =
      some
        ([("P", IF_STATEMENT (ALAP_STATEMENT (RULE_CALL "x") none false false)
          SKIP_STATEMENT SKIP_STATEMENT (some 1) false)],
         IF_STATEMENT (PROCEDURE_CALL "P" NULL) (RULE_CALL "s") (RULE_CALL "t")
           (some 0) false) :=
  ⟨rfl, rfl⟩

/-- C15 (amended): `annotate` passes the same `rp` to each command of a sequence and to both
sides of a choice, each one annotated over the procedures as its predecessors left them; the
command tree of each child itself (the bodies of called procedures apart) comes out as from
`annotate(child, rp)` on that child alone, and the sequence or choice can be annotated
whenever each child alone can.  Nothing of the kind holds for the bodies of called
procedures, which the children share. -/
theorem sibling_independence (procs : Procedures) (rp : Int) :
    (∀ fuel cmds procs1 s1,
      Shared.annotate fuel procs (COMMAND_SEQUENCE cmds) rp = some (procs1, s1) →
      ∃ cmds1, s1 = COMMAND_SEQUENCE cmds1 ∧
        List.Forall₂ (fun c c1 => ∃ q, Shared.annotate fuel procs c rp = some (q, c1))
          cmds cmds1) ∧
    (∀ fuel l r procs1 s1,
      Shared.annotate fuel procs (PROGRAM_OR l r) rp = some (procs1, s1) →
      ∃ l1 r1, s1 = PROGRAM_OR l1 r1 ∧
        (∃ q, Shared.annotate fuel procs l rp = some (q, l1)) ∧
        (∃ q, Shared.annotate fuel procs r rp = some (q, r1))) ∧
    (∀ cmds, (∀ c ∈ cmds, ∃ fuel r, Shared.annotate fuel procs c rp = some r) →
      ∃ fuel r, Shared.annotate fuel procs (COMMAND_SEQUENCE cmds) rp = some r) ∧
    (∀ l r, (∃ fuel x, Shared.annotate fuel procs l rp = some x) →
      (∃ fuel x, Shared.annotate fuel procs r rp = some x) →
      ∃ fuel x, Shared.annotate fuel procs (PROGRAM_OR l r) rp = some x) ∧
    (∀ fuel c next,
      Shared.annotateCommands (fuel + 1) procs (c :: next) rp =
        (Shared.annotate fuel procs c rp).bind fun rc =>
          (Shared.annotateCommands fuel rc.1 next rp).map fun rn => (rn.1, rc.2 :: rn.2)) ∧
    (∀ fuel l r,
      Shared.annotate (fuel + 1) procs (PROGRAM_OR l r) rp =
        (Shared.annotate fuel procs l rp).bind fun r1 =>
          (Shared.annotate fuel r1.1 r rp).bind fun r2 =>
            some (r2.1, PROGRAM_OR r1.2 r2.2)) := by
  refine ⟨?_, ?_, ?_, ?_, fun fuel c next => shared_annotateCommands_cons fuel procs c next rp,
    fun fuel l r => shared_annotate_OR fuel procs l r rp⟩
  · intro fuel cmds procs1 s1 h
    cases fuel with
    | zero => rw [shared_annotate_zero] at h; exact absurd h (by simp)
    | succ k =>
      rw [shared_annotate_SEQ] at h
      simp only [Option.map_eq_some'] at h
      obtain ⟨⟨pa, cmds1⟩, ha, h⟩ := h
      simp only [Prod.mk.injEq] at h
      refine ⟨cmds1, h.2.symm, ?_⟩
      refine (shared_annotateCommands_alone cmds k procs pa rp cmds1 ha procs rfl).imp ?_
      rintro a b ⟨q, hq⟩
      exact ⟨q, shared_annotate_mono hq (k + 1) (Nat.le_succ k)⟩
  · intro fuel l r procs1 s1 h
    cases fuel with
    | zero => rw [shared_annotate_zero] at h; exact absurd h (by simp)
    | succ k =>
      rw [shared_annotate_OR] at h
      simp only [Option.bind_eq_some] at h
      obtain ⟨⟨pa, l1⟩, ha, ⟨pb, r1⟩, hb, h⟩ := h
      simp only [Option.some.injEq, Prod.mk.injEq] at h
      obtain ⟨_, epa⟩ := shared_annotate_erase.1 _ _ _ _ _ _ ha
      obtain ⟨q1, u1, hr, he⟩ := shared_annotate_shape.1 _ _ _ _ _ _ hb procs r epa rfl
      refine ⟨l1, r1, h.2.symm, ⟨pa, shared_annotate_mono ha (k + 1) (Nat.le_succ k)⟩, q1, ?_⟩
      rw [← he rfl]
      exact shared_annotate_mono hr (k + 1) (Nat.le_succ k)
  · intro cmds h
    obtain ⟨k, r, hk⟩ := shared_annotateCommands_of_alone cmds procs rp h procs rfl
    exact ⟨k + 1, _, by rw [shared_annotate_SEQ, hk]; rfl⟩
  · rintro l r ⟨k1, ⟨pa, l1⟩, h1⟩ ⟨k2, ⟨qb, r1⟩, h2⟩
    obtain ⟨_, epa⟩ := shared_annotate_erase.1 _ _ _ _ _ _ h1
    obtain ⟨pb, u1, hr, _⟩ := shared_annotate_shape.1 _ _ _ _ _ _ h2 pa r epa.symm rfl
    exact ⟨k1 + k2 + 1, _, by
      rw [shared_annotate_OR, shared_annotate_mono h1 (k1 + k2) (by omega), Option.some_bind,
        shared_annotate_mono hr (k1 + k2) (by omega)]
      rfl⟩

/-- C16 (frame of the annotator): the tree produced by `annotate(s, rp)` is identical to `s`
once the three annotation fields of `IF`, `TRY` and `ALAP` nodes are erased (no node is added,
removed, reordered or retagged), and when `s` holds no `IF`, `TRY` or `ALAP` node, also through
called procedure bodies, the tree produced is `s` itself. -/
theorem annotate_frame (s : GPStatement) (rp : Int) (s1 : GPStatement)
    (h : annotate s rp = some s1) :
    erase s1 = erase s ∧ (noCompound s = true → s1 = s) :=
  ⟨annotate_erase h, annotate_noCompound h⟩

/-- Witness for C16: the loop `(try (a; b!) then P else fail)!` at restore point 2, where the
procedure `P` has the body `c or d`. -/
theorem annotate_frame_witness :
    erase (ALAP_STATEMENT
        (TRY_STATEMENT
          (COMMAND_SEQUENCE [RULE_CALL "a", ALAP_STATEMENT (RULE_CALL "b") none false true])
          (PROCEDURE_CALL "P" (PROGRAM_OR (RULE_CALL "c") (RULE_CALL "d")))
          FAIL_STATEMENT none true)
        none true false) =
      erase (ALAP_STATEMENT
        (TRY_STATEMENT
          (COMMAND_SEQUENCE [RULE_CALL "a", ALAP_STATEMENT (RULE_CALL "b") none false false])
          (PROCEDURE_CALL "P" (PROGRAM_OR (RULE_CALL "c") (RULE_CALL "d")))
          FAIL_STATEMENT none false)
        none false false) ∧
    (noCompound (ALAP_STATEMENT
        (TRY_STATEMENT
          (COMMAND_SEQUENCE [RULE_CALL "a", ALAP_STATEMENT (RULE_CALL "b") none false false])
          (PROCEDURE_CALL "P" (PROGRAM_OR (RULE_CALL "c") (RULE_CALL "d")))
          FAIL_STATEMENT none false)
        none false false) = true →
      ALAP_STATEMENT
        (TRY_STATEMENT
          (COMMAND_SEQUENCE [RULE_CALL "a", ALAP_STATEMENT (RULE_CALL "b") none false true])
          (PROCEDURE_CALL "P" (PROGRAM_OR (RULE_CALL "c") (RULE_CALL "d")))
          FAIL_STATEMENT none true)
        none true false =
      ALAP_STATEMENT
        (TRY_STATEMENT
          (COMMAND_SEQUENCE [RULE_CALL "a", ALAP_STATEMENT (RULE_CALL "b") none false false])
          (PROCEDURE_CALL "P" (PROGRAM_OR (RULE_CALL "c") (RULE_CALL "d")))
          FAIL_STATEMENT none false)
        none false false) :=
  annotate_frame
    (ALAP_STATEMENT
      (TRY_STATEMENT
        (COMMAND_SEQUENCE [RULE_CALL "a", ALAP_STATEMENT (RULE_CALL "b") none false false])
        (PROCEDURE_CALL "P" (PROGRAM_OR (RULE_CALL "c") (RULE_CALL "d")))
        FAIL_STATEMENT none false)
      none false false)
    2 _ (by simp [annotate, annotateCommands, getStatementType, getSequenceType])

/-- C17 (the classification depends on the shape and the context only): two trees that differ
only in the values of annotation fields (`restore_point`, `roll_back`, `stop_recording`) get
the same strategy from `getStatementType` under every context. -/
theorem classification_depends_on_shape (s s2 : GPStatement) (if_body : Bool) (com_seq : Int)
    (last_command : Bool) (h : erase s = erase s2) :
    classify s if_body com_seq last_command = classify s2 if_body com_seq last_command :=
  classify_congr_erase h if_body com_seq last_command

/-- Witness for C17: the sequence `a; (if b then c! else skip)` with default fields and with
all three kinds of annotation written, classified as the last command of a first-level
sequence. -/
theorem classification_depends_on_shape_witness :
    classify
        (COMMAND_SEQUENCE [RULE_CALL "a",
          IF_STATEMENT (RULE_CALL "b") (ALAP_STATEMENT (RULE_CALL "c") none false false)
            SKIP_STATEMENT none false]) false 1 true =
      classify
        (COMMAND_SEQUENCE [RULE_CALL "a",
          IF_STATEMENT (RULE_CALL "b") (ALAP_STATEMENT (RULE_CALL "c") (some 4) true true)
            SKIP_STATEMENT (some 7) true]) false 1 true :=
  classification_depends_on_shape _ _ false 1 true (by rfl)

/-! ### The driver and the restore points -/

/-- C19 (driver): on every declaration list whose main commands can be traversed,
`staticAnalysis` produces a result (one result, whatever the recursion bound); it annotates
the main command of each `MAIN_DECLARATION` exactly as `annotate(mainBody, 0)` does, over the
procedures as the declarations before it left them; for a procedure declaration it only
analyses the local declarations; it keeps rule declarations as they are; it changes the shape
of no procedure and leaves the command tree of every procedure that is not reached by
procedure calls from a main command as it was; and a declaration list with no main
declaration, at any depth of local declarations, is returned unchanged together with all
procedures. -/
theorem driver_rule (depth : Nat) (procs : Procedures) (decls : List GPDeclaration)
    (hc : closedDeclarations depth procs decls = true) :
    (∃ fuel r, staticAnalysis fuel procs decls = some r) ∧
    (∀ fuel procs1 decls1, staticAnalysis fuel procs decls = some (procs1, decls1) →
      eraseProcedures procs1 = eraseProcedures procs ∧
      (∀ n, n ∉ reachedDeclarations depth procs decls →
        commandsOf procs1 n = commandsOf procs n) ∧
      ∀ fuel2 r, staticAnalysis fuel2 procs decls = some r → r = (procs1, decls1)) ∧
    (∀ fuel q m, staticAnalysisDeclaration fuel q (MAIN_DECLARATION m) =
      (Shared.annotate fuel q m 0).map fun r => (r.1, MAIN_DECLARATION r.2)) ∧
    (∀ fuel q n l, staticAnalysisDeclaration fuel q (PROCEDURE_DECLARATION n l) =
      (staticAnalysis fuel q l).map fun r => (r.1, PROCEDURE_DECLARATION n r.2)) ∧
    (∀ fuel q r, staticAnalysisDeclaration fuel q (RULE_DECLARATION r) =
      some (q, RULE_DECLARATION r)) ∧
    (∀ fuel q decl next, staticAnalysis fuel q (decl :: next) =
      (staticAnalysisDeclaration fuel q decl).bind fun r =>
        (staticAnalysis fuel r.1 next).map fun x => (x.1, r.2 :: x.2)) ∧
    (noMain decls = true → ∀ fuel, staticAnalysis fuel procs decls = some (procs, decls)) :=
  ⟨staticAnalysis_total decls depth procs hc,
    fun fuel procs1 decls1 h =>
      ⟨staticAnalysis_erase decls fuel procs procs1 decls1 h,
        staticAnalysis_frame decls fuel depth procs procs1 decls1 h hc,
        fun _ _ h2 => staticAnalysis_unique h2 h⟩,
    staticAnalysisDeclaration_MAIN, staticAnalysisDeclaration_PROCEDURE,
    staticAnalysisDeclaration_RULE, staticAnalysis_cons,
    fun h fuel => staticAnalysis_noMain decls fuel procs h⟩

/-- Witness for C19: the procedures `P` (body `if x! then skip else skip`) and `Q` (body
`y!`), the declarations of `P`, of `Q` with a local rule declaration and of the main command
`if P then s else t`.  The run annotates the main command and, through the call, the body of
`P`; the body of `Q`, which no call reaches, is left as it was. -/
theorem driver_rule_witness :
    staticAnalysis 6
        [("P", IF_STATEMENT (ALAP_STATEMENT (RULE_CALL "x") none false false)
            SKIP_STATEMENT SKIP_STATEMENT none false),
         ("Q", ALAP_STATEMENT (RULE_CALL "y") none false false)]
        [PROCEDURE_DECLARATION "P" [],
         PROCEDURE_DECLARATION "Q" [RULE_DECLARATION "r"],
         MAIN_DECLARATION
           (IF_STATEMENT (PROCEDURE_CALL "P" NULL) (RULE_CALL "s") (RULE_CALL "t")
             none false)] =
      some
        ([("P", IF_STATEMENT (ALAP_STATEMENT (RULE_CALL "x") none false false)
            SKIP_STATEMENT SKIP_STATEMENT (some 1) false),
          ("Q", ALAP_STATEMENT (RULE_CALL "y") none false false)],
         [PROCEDURE_DECLARATION "P" [],
          PROCEDURE_DECLARATION "Q" [RULE_DECLARATION "r"],
          MAIN_DECLARATION
            (IF_STATEMENT (PROCEDURE_CALL "P" NULL) (RULE_CALL "s") (RULE_CALL "t")
              (some 0) false)]) ∧
    reachedDeclarations 6
        [("P", IF_STATEMENT (ALAP_STATEMENT (RULE_CALL "x") none false false)
            SKIP_STATEMENT SKIP_STATEMENT none false),
         ("Q", ALAP_STATEMENT (RULE_CALL "y") none false false)]
        [PROCEDURE_DECLARATION "P" [],
         PROCEDURE_DECLARATION "Q" [RULE_DECLARATION "r"],
         MAIN_DECLARATION
           (IF_STATEMENT (PROCEDURE_CALL "P" NULL) (RULE_CALL "s") (RULE_CALL "t")
             none false)] = ["P"] ∧
    (∃ fuel r, staticAnalysis fuel
        [("P", IF_STATEMENT (ALAP_STATEMENT (RULE_CALL "x") none false false)
            SKIP_STATEMENT SKIP_STATEMENT none false),
         ("Q", ALAP_STATEMENT (RULE_CALL "y") none false false)]
        [PROCEDURE_DECLARATION "P" [],
         PROCEDURE_DECLARATION "Q" [RULE_DECLARATION "r"],
         MAIN_DECLARATION
           (IF_STATEMENT (PROCEDURE_CALL "P" NULL) (RULE_CALL "s") (RULE_CALL "t")
             none false)] = some r) ∧
    (∀ fuel procs1 decls1, staticAnalysis fuel
        [("P", IF_STATEMENT (ALAP_STATEMENT (RULE_CALL "x") none false false)
            SKIP_STATEMENT SKIP_STATEMENT none false),
         ("Q", ALAP_STATEMENT (RULE_CALL "y") none false false)]
        [PROCEDURE_DECLARATION "P" [],
         PROCEDURE_DECLARATION "Q" [RULE_DECLARATION "r"],
         MAIN_DECLARATION
           (IF_STATEMENT (PROCEDURE_CALL "P" NULL) (RULE_CALL "s") (RULE_CALL "t")
             none false)] = some (procs1, decls1) →
      eraseProcedures procs1 =
        eraseProcedures
          [("P", IF_STATEMENT (ALAP_STATEMENT (RULE_CALL "x") none false false)
              SKIP_STATEMENT SKIP_STATEMENT none false),
           ("Q", ALAP_STATEMENT (RULE_CALL "y") none false false)] ∧
      (∀ n, n ∉ reachedDeclarations 6
          [("P", IF_STATEMENT (ALAP_STATEMENT (RULE_CALL "x") none false false)
              SKIP_STATEMENT SKIP_STATEMENT none false),
           ("Q", ALAP_STATEMENT (RULE_CALL "y") none false false)]
          [PROCEDURE_DECLARATION "P" [],
           PROCEDURE_DECLARATION "Q" [RULE_DECLARATION "r"],
           MAIN_DECLARATION
             (IF_STATEMENT (PROCEDURE_CALL "P" NULL) (RULE_CALL "s") (RULE_CALL "t")
               none false)] →
        commandsOf procs1 n =
          commandsOf
            [("P", IF_STATEMENT (ALAP_STATEMENT (RULE_CALL "x") none false false)
                SKIP_STATEMENT SKIP_STATEMENT none false),
             ("Q", ALAP_STATEMENT (RULE_CALL "y") none false false)] n) ∧
      ∀ fuel2 r, staticAnalysis fuel2
          [("P", IF_STATEMENT (ALAP_STATEMENT (RULE_CALL "x") none false false)
              SKIP_STATEMENT SKIP_STATEMENT none false),
           ("Q", ALAP_STATEMENT (RULE_CALL "y") none false false)]
          [PROCEDURE_DECLARATION "P" [],
           PROCEDURE_DECLARATION "Q" [RULE_DECLARATION "r"],
           MAIN_DECLARATION
             (IF_STATEMENT (PROCEDURE_CALL "P" NULL) (RULE_CALL "s") (RULE_CALL "t")
               none false)] = some r → r = (procs1, decls1)) :=
  ⟨rfl, rfl,
    (driver_rule 6
      [("P", IF_STATEMENT (ALAP_STATEMENT (RULE_CALL "x") none false false)
          SKIP_STATEMENT SKIP_STATEMENT none false),
       ("Q", ALAP_STATEMENT (RULE_CALL "y") none false false)]
      [PROCEDURE_DECLARATION "P" [],
       PROCEDURE_DECLARATION "Q" [RULE_DECLARATION "r"],
       MAIN_DECLARATION
         (IF_STATEMENT (PROCEDURE_CALL "P" NULL) (RULE_CALL "s") (RULE_CALL "t")
           none false)] (by rfl)).1,
    (driver_rule 6
      [("P", IF_STATEMENT (ALAP_STATEMENT (RULE_CALL "x") none false false)
          SKIP_STATEMENT SKIP_STATEMENT none false),
       ("Q", ALAP_STATEMENT (RULE_CALL "y") none false false)]
      [PROCEDURE_DECLARATION "P" [],
       PROCEDURE_DECLARATION "Q" [RULE_DECLARATION "r"],
       MAIN_DECLARATION
         (IF_STATEMENT (PROCEDURE_CALL "P" NULL) (RULE_CALL "s") (RULE_CALL "t")
           none false)] (by rfl)).2.1⟩

/-- C11 as stated fails: in `if r! then (if s! then skip else skip) else skip`, annotated from
restore point 0, the outer conditional and the conditional in its `then` branch are both
classified `COPY` and both receive restore point 0, so the restore points on the path through
the `then` branch are 0, 0 and do not increase strictly. -/
theorem snapshot_depth_counterexample :
    annotate
        (IF_STATEMENT (ALAP_STATEMENT (RULE_CALL "r") none false false)
          (IF_STATEMENT (ALAP_STATEMENT (RULE_CALL "s") none false false)
            SKIP_STATEMENT SKIP_STATEMENT none false)
          SKIP_STATEMENT none false) 0 =
      some
        (IF_STATEMENT (ALAP_STATEMENT (RULE_CALL "r") none false false)
          (IF_STATEMENT (ALAP_STATEMENT (RULE_CALL "s") none false false)
            SKIP_STATEMENT SKIP_STATEMENT (some 0) false)
          SKIP_STATEMENT (some 0) false) ∧
    ∃ p ∈ restorePaths
        (IF_STATEMENT (ALAP_STATEMENT (RULE_CALL "r") none false false)
          (IF_STATEMENT (ALAP_STATEMENT (RULE_CALL "s") none false false)
            SKIP_STATEMENT SKIP_STATEMENT (some 0) false)
          SKIP_STATEMENT (some 0) false),
      p.map Prod.fst = [0, 0] ∧ ¬ List.Chain' (fun a b => a < b) (p.map Prod.fst) := by
  refine ⟨by simp [annotate, getStatementType], [(0, false), (0, true)], ?_, rfl, ?_⟩
  · simp [restorePaths, pathEntry]
  · simp

/-- C11 (amended): `annotate(root, 0)` produces a result on every command tree that can be
traversed; when the command tree has default `restore_point` and `roll_back` fields, the nodes
of the command tree with a restore point written are its `COPY`-classified compound nodes, and
on every root-to-leaf path of the command tree (a call node is a leaf of the path: the body of
a called procedure is shared by its calls and is not part of the command tree) the restore
points written on the nodes of the path, read from the root downwards, start at 0 and, when
the path enters at most `INT_MAX` conditions and loop bodies of such nodes, never decrease;
the restore point of such a node is strictly less than that of every such descendant in its
condition or loop body, and less than or equal to that of every such descendant in its `then`
or `else` branch. -/
theorem snapshot_depth_rule (depth : Nat) (procs : Procedures) (root : GPStatement)
    (hc : closed depth procs root = true) (hu : ownUnwritten root = true) :
    ∃ fuel procs1 s1, Shared.annotate fuel procs root 0 = some (procs1, s1) ∧
      (∀ fuel2 r, Shared.annotate fuel2 procs root 0 = some r → r = (procs1, s1)) ∧
      (∀ n ∈ ownNodes s1, sharedAgreement procs1 n) ∧
      ∀ p ∈ ownPaths s1,
        (∀ x, p.head? = some x → x.1 = 0) ∧
        (((p.countP (fun y => y.2) : Nat) : Int) ≤ INT_MAX →
          List.Pairwise
            (fun a b => (a.2 = true → a.1 < b.1) ∧ (a.2 = false → a.1 ≤ b.1)) p) := by
  obtain ⟨fuel, ⟨procs1, s1⟩, hann⟩ := shared_annotate_total depth procs root hc 0
  refine ⟨fuel, procs1, s1, hann, fun _ _ h2 => shared_annotate_unique h2 hann,
    shared_annotate_agreement.1 _ _ _ _ _ _ hann hu, fun p hp => ?_⟩
  have h := shared_annotate_intChain.1 _ _ _ _ _ _ hann hu p hp
  exact ⟨intChain_head p 0 h, fun hb => intChain_pairwise p 0 h (by simpa using hb)⟩

/-- Witness for C11 (amended): the loop `((if a! then (try b! then skip else fail) else P); d)!`
annotated from restore point 0, where the procedure `P` has the body `c!`: the loop gets
restore point 0 and the conditional in its body restore point 1. -/
theorem snapshot_depth_rule_witness :
    Shared.annotate 9 [("P", ALAP_STATEMENT (RULE_CALL "c") none false false)]
        (ALAP_STATEMENT
          (COMMAND_SEQUENCE
            [IF_STATEMENT (ALAP_STATEMENT (RULE_CALL "a") none false false)
               (TRY_STATEMENT (ALAP_STATEMENT (RULE_CALL "b") none false false)
                 SKIP_STATEMENT FAIL_STATEMENT none false)
               (PROCEDURE_CALL "P" NULL) none false,
             RULE_CALL "d"])
          none false false) 0 =
      some
        ([("P", ALAP_STATEMENT (RULE_CALL "c") none false false)],
         ALAP_STATEMENT
          (COMMAND_SEQUENCE
            [IF_STATEMENT (ALAP_STATEMENT (RULE_CALL "a") none false false)
               (TRY_STATEMENT (ALAP_STATEMENT (RULE_CALL "b") none false false)
                 SKIP_STATEMENT FAIL_STATEMENT none false)
               (PROCEDURE_CALL "P" NULL) (some 1) false,
             RULE_CALL "d"])
          (some 0) false false) ∧
    ∃ fuel procs1 s1,
      Shared.annotate fuel [("P", ALAP_STATEMENT (RULE_CALL "c") none false false)]
        (ALAP_STATEMENT
          (COMMAND_SEQUENCE
            [IF_STATEMENT (ALAP_STATEMENT (RULE_CALL "a") none false false)
               (TRY_STATEMENT (ALAP_STATEMENT (RULE_CALL "b") none false false)
                 SKIP_STATEMENT FAIL_STATEMENT none false)
               (PROCEDURE_CALL "P" NULL) none false,
             RULE_CALL "d"])
          none false false) 0 = some (procs1, s1) ∧
      (∀ fuel2 r,
        Shared.annotate fuel2 [("P", ALAP_STATEMENT (RULE_CALL "c") none false false)]
          (ALAP_STATEMENT
            (COMMAND_SEQUENCE
              [IF_STATEMENT (ALAP_STATEMENT (RULE_CALL "a") none false false)
                 (TRY_STATEMENT (ALAP_STATEMENT (RULE_CALL "b") none false false)
                   SKIP_STATEMENT FAIL_STATEMENT none false)
                 (PROCEDURE_CALL "P" NULL) none false,
               RULE_CALL "d"])
            none false false) 0 = some r → r = (procs1, s1)) ∧
      (∀ n ∈ ownNodes s1, sharedAgreement procs1 n) ∧
      ∀ p ∈ ownPaths s1,
        (∀ x, p.head? = some x → x.1 = 0) ∧
        (((p.countP (fun y => y.2) : Nat) : Int) ≤ INT_MAX →
          List.Pairwise
            (fun a b => (a.2 = true → a.1 < b.1) ∧ (a.2 = false → a.1 ≤ b.1)) p) :=
  ⟨rfl, snapshot_depth_rule 9 [("P", ALAP_STATEMENT (RULE_CALL "c") none false false)]
    (ALAP_STATEMENT
      (COMMAND_SEQUENCE
        [IF_STATEMENT (ALAP_STATEMENT (RULE_CALL "a") none false false)
           (TRY_STATEMENT (ALAP_STATEMENT (RULE_CALL "b") none false false)
             SKIP_STATEMENT FAIL_STATEMENT none false)
           (PROCEDURE_CALL "P" NULL) none false,
         RULE_CALL "d"])
      none false false)
    (by rfl) (by rfl)⟩

/-- C20 as stated fails: with the procedure `P` of body `if x! then skip else skip`, declared
before the main command `if P then s else t`, `staticAnalysis` annotates the body of `P`
through the call only, which lies in the `COPY`-classified condition of the main conditional:
the conditional at the top of the body of `P`, itself classified `COPY` and without any
ancestor inside that body, is left with restore point 1 and not 0, in the one command tree
that the declaration of `P` and the call share. -/
theorem entry_point_counterexample :
    staticAnalysis 6
        [("P", IF_STATEMENT (ALAP_STATEMENT (RULE_CALL "x") none false false)
            SKIP_STATEMENT SKIP_STATEMENT none false)]
        [PROCEDURE_DECLARATION "P" [],
         MAIN_DECLARATION
           (IF_STATEMENT (PROCEDURE_CALL "P" NULL) (RULE_CALL "s") (RULE_CALL "t")
             none false)] =
      some
        ([("P", IF_STATEMENT (ALAP_STATEMENT (RULE_CALL "x") none false false)
            SKIP_STATEMENT SKIP_STATEMENT (some 1) false)],
         [PROCEDURE_DECLARATION "P" [],
          MAIN_DECLARATION
            (IF_STATEMENT (PROCEDURE_CALL "P" NULL) (RULE_CALL "s") (RULE_CALL "t")
              (some 0) false)]) ∧
    copyClassified
      [("P", IF_STATEMENT (ALAP_STATEMENT (RULE_CALL "x") none false false)
          SKIP_STATEMENT SKIP_STATEMENT (some 1) false)]
      (ALAP_STATEMENT (RULE_CALL "x") none false false) true :=
  ⟨rfl, 1, _, rfl, rfl⟩

/-- C20 (amended): in a run of `staticAnalysis` the annotation of the main command starts with
restore point 0, and the driver itself starts no annotation of a declared procedure (it only
analyses the local declarations).  The command tree of a procedure, shared by its declaration
and all its calls, is annotated at each call with the restore point with which the call is
annotated, and is written back to the procedure.  So after a call has been annotated with
`rp`, every `COPY`-classified compound node of the procedure body without `COPY`-classified
ancestor inside that body holds `rp`, whatever the body held before; after the next call it
holds the restore point of that call.  The same holds for the main command with 0.  Every
run of `annotate` on a command that can be traversed produces a result. -/
theorem entry_point_rule :
    (∀ fuel q m, staticAnalysisDeclaration fuel q (MAIN_DECLARATION m) =
      (Shared.annotate fuel q m 0).map fun r => (r.1, MAIN_DECLARATION r.2)) ∧
    (∀ fuel q n l, staticAnalysisDeclaration fuel q (PROCEDURE_DECLARATION n l) =
      (staticAnalysis fuel q l).map fun r => (r.1, PROCEDURE_DECLARATION n r.2)) ∧
    (∀ fuel q n p rp, Shared.annotate (fuel + 1) q (PROCEDURE_CALL n p) rp =
      (commandsOf q n).bind fun body =>
        (Shared.annotate fuel q body rp).map
          fun r => (writeCommands r.1 n r.2, PROCEDURE_CALL n p)) ∧
    (∀ fuel q n p rp q1 s1, Shared.annotate fuel q (PROCEDURE_CALL n p) rp = some (q1, s1) →
      ∃ body1, commandsOf q1 n = some body1 ∧ entryRestorePoint q1 rp body1) ∧
    (∀ fuel q m q1 d1, staticAnalysisDeclaration fuel q (MAIN_DECLARATION m) = some (q1, d1) →
      ∃ m1, d1 = MAIN_DECLARATION m1 ∧ entryRestorePoint q1 0 m1) ∧
    (∀ depth q s, closed depth q s = true → ∀ rp,
      ∃ fuel r, Shared.annotate fuel q s rp = some r) ∧
    (∀ q rp c t e r rb, entryRestorePoint q rp (IF_STATEMENT c t e r rb) →
      copyClassified q c true → r = some rp) ∧
    (∀ q rp c t e r rb, entryRestorePoint q rp (TRY_STATEMENT c t e r rb) →
      copyClassified q c false → r = some rp) ∧
    (∀ q rp b r rb sr, entryRestorePoint q rp (ALAP_STATEMENT b r rb sr) →
      copyClassified q b false → r = some rp) := by
  refine ⟨staticAnalysisDeclaration_MAIN, staticAnalysisDeclaration_PROCEDURE,
    shared_annotate_CALL, ?_, ?_, shared_annotate_total, ?_, ?_, ?_⟩
  · intro fuel q n p rp q1 s1 h
    obtain ⟨k, body, qa, body1, _, _, ha, _, hb⟩ := shared_annotate_CALL_body h
    exact ⟨body1, hb, shared_annotate_entry.1 _ _ _ _ _ _ ha _
      (shared_annotate_erase.1 _ _ _ _ _ _ h).2⟩
  · intro fuel q m q1 d1 h
    rw [staticAnalysisDeclaration_MAIN] at h
    simp only [Option.map_eq_some'] at h
    obtain ⟨⟨qa, m1⟩, ha, h⟩ := h
    simp only [Prod.mk.injEq] at h
    obtain ⟨rfl, rfl⟩ := h
    exact ⟨m1, rfl, shared_annotate_entry.1 _ _ _ _ _ _ ha _
      (shared_annotate_erase.1 _ _ _ _ _ _ ha).2⟩
  · intro q rp c t e r rb h hc
    simp only [entryRestorePoint] at h
    exact h.1 hc
  · intro q rp c t e r rb h hc
    simp only [entryRestorePoint] at h
    exact h.1 hc
  · intro q rp b r rb sr h hc
    simp only [entryRestorePoint] at h
    exact h.1 hc

/-- C12 (determinism, idempotence, P1): for every command tree `s` and every `rp`, running
`annotate` with `rp` a second time on the tree produced by a first run returns that tree: no
annotation field (`restore_point`, `roll_back`, `stop_recording`) of any node changes. -/
theorem annotate_idempotent (s : GPStatement) (rp : Int) (s1 : GPStatement)
    (h : annotate s rp = some s1) : annotate s1 rp = some s1 :=
  annotate_idem h

/-- Witness for C12: `try (a; (b!; c)!) then skip else (if d! then e else f)` at restore
point 5. -/
theorem annotate_idempotent_witness :
    annotate
        (TRY_STATEMENT
          (COMMAND_SEQUENCE
            [RULE_CALL "a",
             ALAP_STATEMENT
               (COMMAND_SEQUENCE
                 [ALAP_STATEMENT (RULE_CALL "b") none false false, RULE_CALL "c"])
               (some 5) false true])
          SKIP_STATEMENT
          (IF_STATEMENT (ALAP_STATEMENT (RULE_CALL "d") none false false)
            (RULE_CALL "e") (RULE_CALL "f") (some 5) false)
          none true) 5 =
      some
        (TRY_STATEMENT
          (COMMAND_SEQUENCE
            [RULE_CALL "a",
             ALAP_STATEMENT
               (COMMAND_SEQUENCE
                 [ALAP_STATEMENT (RULE_CALL "b") none false false, RULE_CALL "c"])
               (some 5) false true])
          SKIP_STATEMENT
          (IF_STATEMENT (ALAP_STATEMENT (RULE_CALL "d") none false false)
            (RULE_CALL "e") (RULE_CALL "f") (some 5) false)
          none true) :=
  annotate_idempotent
    (TRY_STATEMENT
      (COMMAND_SEQUENCE
        [RULE_CALL "a",
         ALAP_STATEMENT
           (COMMAND_SEQUENCE
             [ALAP_STATEMENT (RULE_CALL "b") none false false, RULE_CALL "c"])
           none false false])
      SKIP_STATEMENT
      (IF_STATEMENT (ALAP_STATEMENT (RULE_CALL "d") none false false)
        (RULE_CALL "e") (RULE_CALL "f") none false)
      none false)
    5 _ (by simp [annotate, annotateCommands, getStatementType, getSequenceType])

/-- C18 (frame of the classifier): a run of `getStatementType` or `getSequenceType` changes
neither the shape of the tree nor any `restore_point` or `roll_back` field (the trees before
and after agree once the `stop_recording` fields are reset), and the `stop_recording` field of
every `ALAP` node after the run is its value before the run or-ed with whether the run reached
that node with `if_body = false`, `com_seq = 1` and `last_command = true`: the field is set to
true on exactly those nodes, is never reset to false, and an `ALAP` node reached under any
other context is returned as it was. -/
theorem classifier_frame :
    (∀ s ib cs l t s1, getStatementType s ib cs l = some (t, s1) →
      clearStop s1 = clearStop s ∧
      stopFlags s1 = List.zipWith (fun a b => a || b) (stopFlags s) (tailReached s ib cs l) ∧
      ∀ i : Nat, (stopFlags s)[i]? = some true → (stopFlags s1)[i]? = some true) ∧
    (∀ cmds ib cs t cmds1, getSequenceType cmds ib cs = some (t, cmds1) →
      clearStopList cmds1 = clearStopList cmds ∧
      stopFlagsList cmds1 =
        List.zipWith (fun a b => a || b) (stopFlagsList cmds)
          (tailReachedSequence cmds ib cs) ∧
      ∀ i : Nat, (stopFlagsList cmds)[i]? = some true →
        (stopFlagsList cmds1)[i]? = some true) ∧
    (∀ body rp rb sr ib cs l, ∃ t,
      getStatementType (ALAP_STATEMENT body rp rb sr) ib cs l =
        some (t, ALAP_STATEMENT body rp rb
          (if ib = false ∧ cs = 1 ∧ l = true then true else sr))) := by
  refine ⟨fun s ib cs l t s1 h => ?_, fun cmds ib cs t cmds1 h => ?_,
    fun body rp rb sr ib cs l => ⟨_, getStatementType_ALAP body rp rb sr ib cs l⟩⟩
  · obtain ⟨h1, h2⟩ := getStatementType_frame s ib cs l t s1 h
    refine ⟨h1, h2, fun i hi => ?_⟩
    rw [h2]
    exact zipWith_or_left_true _ _ i
      (by rw [stopFlags, List.length_map, tailReached_length]) hi
  · obtain ⟨h1, h2⟩ := getSequenceType_frame cmds ib cs t cmds1 h
    refine ⟨h1, h2, fun i hi => ?_⟩
    rw [h2]
    exact zipWith_or_left_true _ _ i
      (by rw [stopFlagsList, List.length_map, tailReachedSequence_length]) hi

/-! ### Loops in tail position -/

/-- C13 as stated fails: in `try (a; (if b then skip else fail)!) then skip else fail`, with
default fields, the loop is classified under `(if_body = false, com_seq = 1,
last_command = true)` when the condition of the `try` is classified, with result `NO_COPY`,
and it ends with `stop_recording = true`; but its own body is classified `RECORD_CHANGES`, so
`annotate` sets `roll_back = true` on the loop. -/
theorem tail_loop_counterexample :
    annotate
        (TRY_STATEMENT
          (COMMAND_SEQUENCE
            [RULE_CALL "a",
             ALAP_STATEMENT
               (IF_STATEMENT (RULE_CALL "b") SKIP_STATEMENT FAIL_STATEMENT none false)
               none false false])
          SKIP_STATEMENT FAIL_STATEMENT none false) 0 =
      some
        (TRY_STATEMENT
          (COMMAND_SEQUENCE
            [RULE_CALL "a",
             ALAP_STATEMENT
               (IF_STATEMENT (RULE_CALL "b") SKIP_STATEMENT FAIL_STATEMENT none false)
               none true true])
          SKIP_STATEMENT FAIL_STATEMENT none true) ∧
    tailReached
        (COMMAND_SEQUENCE
          [RULE_CALL "a",
           ALAP_STATEMENT
             (IF_STATEMENT (RULE_CALL "b") SKIP_STATEMENT FAIL_STATEMENT none false)
             none false false]) false 0 false = [true] ∧
    classify
        (ALAP_STATEMENT
          (IF_STATEMENT (RULE_CALL "b") SKIP_STATEMENT FAIL_STATEMENT none false)
          none false false) false 1 true = some NO_COPY := by
  refine ⟨by simp [annotate, annotateCommands, getStatementType, getSequenceType], ?_, by rfl⟩
  simp [tailReached, tailReachedSequence, classify, getStatementType, loops]

/-- C13 (amended): a loop that the classifier reaches under `(if_body = false, com_seq = 1,
last_command = true)` is classified `NO_COPY` there and gets `stop_recording = true`; and
after `annotate` has run on a tree with default annotation fields, every `ALAP` node that the
classification made at a compound node of the tree reaches under that context has
`stop_recording = true`, while its `roll_back` and `restore_point` follow the classification
of its own body under `(false, 0, false)`: `roll_back` is set exactly when the body is
`RECORD_CHANGES`, a restore point is written exactly when it is `COPY`, and both are unset
exactly when it is `NO_COPY`.  The loops a classification reaches are those of `tailReached`,
which is the same on the tree before, during and after the pass, as these trees differ in
annotation fields only. -/
theorem tail_loop_rule (s : GPStatement) (rp : Int) (s1 : GPStatement)
    (hdef : defaultFields s = true) (hann : annotate s rp = some s1) :
    (∀ body p b sr, getStatementType (ALAP_STATEMENT body p b sr) false 1 true =
      some (NO_COPY, ALAP_STATEMENT body p b true)) ∧
    (∀ n ∈ nodes s1, ∀ c ib, classifiedPart n = some (c, ib) →
      ∀ (i : Nat) (a : GPStatement), (loops c)[i]? = some a →
        (tailReached c ib 0 false)[i]? = some true →
        stopRecording a = true ∧ agreement a) ∧
    (∀ c c0 ib, erase c0 = erase c → tailReached c0 ib 0 false = tailReached c ib 0 false) := by
  refine ⟨fun body p b sr => by rw [getStatementType_ALAP]; simp, ?_,
    fun c c0 ib h => tailReached_congr_erase h ib 0 false⟩
  intro n hn c ib hcp i a ha hr
  obtain ⟨ty, hfix⟩ := annotate_classification_fixed hann n hn c ib hcp
  refine ⟨tailReached_stopRecording hfix i a ha hr, ?_⟩
  have hmem : a ∈ nodes s1 :=
    nodes_trans s1 n a hn
      (nodes_trans n c a (nodes_classifiedPart hcp)
        (loops_subset_nodes c a (List.getElem?_mem ha)))
  exact agreement_of_unwritten hann (unwritten_of_defaultFields s hdef) a hmem

/-- Witness for C13 (amended): the conditional of the counterexample, annotated from restore
point 0. -/
theorem tail_loop_rule_witness :
    (∀ body p b sr, getStatementType (ALAP_STATEMENT body p b sr) false 1 true =
      some (NO_COPY, ALAP_STATEMENT body p b true)) ∧
    (∀ n ∈ nodes
        (TRY_STATEMENT
          (COMMAND_SEQUENCE
            [RULE_CALL "a",
             ALAP_STATEMENT
               (IF_STATEMENT (RULE_CALL "b") SKIP_STATEMENT FAIL_STATEMENT none false)
               none true true])
          SKIP_STATEMENT FAIL_STATEMENT none true),
      ∀ c ib, classifiedPart n = some (c, ib) →
      ∀ (i : Nat) (a : GPStatement), (loops c)[i]? = some a →
        (tailReached c ib 0 false)[i]? = some true →
        stopRecording a = true ∧ agreement a) ∧
    (∀ c c0 ib, erase c0 = erase c → tailReached c0 ib 0 false = tailReached c ib 0 false) :=
  tail_loop_rule
    (TRY_STATEMENT
      (COMMAND_SEQUENCE
        [RULE_CALL "a",
         ALAP_STATEMENT
           (IF_STATEMENT (RULE_CALL "b") SKIP_STATEMENT FAIL_STATEMENT none false)
           none false false])
      SKIP_STATEMENT FAIL_STATEMENT none false)
    0 _ (by rfl) (by simp [annotate, annotateCommands, getStatementType, getSequenceType])

/-- C14 as stated fails: for the main body `r; s!` of scenario S5, with default fields,
`annotate(body, 0)` returns the body unchanged: the trailing loop keeps
`stop_recording = false`, because the annotator classifies conditions and loop bodies only and
never the commands of the main sequence. -/
theorem main_sequence_counterexample :
    annotate
        (COMMAND_SEQUENCE [RULE_CALL "r", ALAP_STATEMENT (RULE_CALL "s") none false false])
        0 =
      some
        (COMMAND_SEQUENCE
          [RULE_CALL "r", ALAP_STATEMENT (RULE_CALL "s") none false false]) := by
  simp [annotate, annotateCommands, getStatementType]

/-- C14 (amended): for every main body that is a sequence whose last command is an `ALAP` node
with default annotation fields, `annotate(body, 0)` leaves that trailing `ALAP` with
`stop_recording = false` (the annotator does not classify the commands of the main sequence),
the commands before it being annotated from restore point 0; when the loop body is a single
rule call the `ALAP` also has `roll_back = false` and no restore point written. -/
theorem main_sequence_tail_loop (cmds : List GPStatement) (body s1 : GPStatement)
    (h : annotate (COMMAND_SEQUENCE (cmds ++ [ALAP_STATEMENT body none false false])) 0 =
      some s1) :
    ∃ cmds1 body1 p b,
      s1 = COMMAND_SEQUENCE (cmds1 ++ [ALAP_STATEMENT body1 p b false]) ∧
      annotateCommands cmds 0 = some cmds1 ∧
      (∀ n, body = RULE_CALL n → body1 = RULE_CALL n ∧ p = none ∧ b = false) := by
  obtain ⟨l1, rfl, hl⟩ := (annotate_SEQ_iff _ _ _).1 h
  obtain ⟨cmds1, x1, h1, h2, rfl⟩ := annotateCommands_append_singleton _ _ _ _ hl
  rw [annotate_ALAP_eq] at h2
  cases hc : getStatementType body false 0 false with
  | none => simp [hc] at h2
  | some r =>
    obtain ⟨ty, b1⟩ := r
    simp only [hc, zero_add] at h2
    cases hb : annotate b1 (if ty = COPY then 1 else 0) with
    | none => simp [hb] at h2
    | some b2 =>
      simp only [hb, Option.some.injEq] at h2
      subst h2
      refine ⟨cmds1, b2, _, _, rfl, h1, ?_⟩
      intro n hn
      subst hn
      simp only [getStatementType, Option.some.injEq, Prod.mk.injEq] at hc
      obtain ⟨rfl, rfl⟩ := hc
      simp only [annotate, Option.some.injEq] at hb
      simp [← hb]

/-- Witness for C14 (amended): the main body `r; s!` of scenario S5. -/
theorem main_sequence_tail_loop_witness :
    ∃ cmds1 body1 p b,
      COMMAND_SEQUENCE [RULE_CALL "r", ALAP_STATEMENT (RULE_CALL "s") none false false] =
        COMMAND_SEQUENCE (cmds1 ++ [ALAP_STATEMENT body1 p b false]) ∧
      annotateCommands [RULE_CALL "r"] 0 = some cmds1 ∧
      (∀ n, RULE_CALL "s" = RULE_CALL n → body1 = RULE_CALL n ∧ p = none ∧ b = false) :=
  main_sequence_tail_loop [RULE_CALL "r"] (RULE_CALL "s") _
    (by simp [annotate, annotateCommands, getStatementType])

/-! ### Malformed trees, unknown variants and the debug dump -/

/-- C21 as stated fails: for `if <null> then skip else skip` the classifier has no result on
the absent condition (`getStatementType` reads `statement->statement_type` through the null
pointer) and `annotate` does not complete. -/
theorem null_condition_counterexample :
    getStatementType NULL true 0 false = none ∧
    annotate (IF_STATEMENT NULL SKIP_STATEMENT SKIP_STATEMENT none false) 0 = none := by
  refine ⟨rfl, ?_⟩
  rw [annotate_IF_eq]
  rfl

/-- C21 (amended): for an `IF` or `TRY` node whose condition subtree is absent (null), the
classifier produces no result for that condition under any context, and `annotate` does not
complete on the node (nothing is written); a condition that is present and is a rule call, a
rule set call, `skip`, `fail` or `break` is classified `NO_COPY`. -/
theorem null_condition_rule :
    (∀ ib cs l, getStatementType NULL ib cs l = none) ∧
    (∀ t e p b rp, annotate (IF_STATEMENT NULL t e p b) rp = none ∧
      annotate (TRY_STATEMENT NULL t e p b) rp = none) ∧
    (∀ ib cs l n ns, classify (RULE_CALL n) ib cs l = some NO_COPY ∧
      classify (RULE_SET_CALL ns) ib cs l = some NO_COPY ∧
      classify SKIP_STATEMENT ib cs l = some NO_COPY ∧
      classify FAIL_STATEMENT ib cs l = some NO_COPY ∧
      classify BREAK_STATEMENT ib cs l = some NO_COPY) := by
  refine ⟨fun ib cs l => rfl, fun t e p b rp => ⟨?_, ?_⟩,
    fun ib cs l n ns => ⟨rfl, rfl, rfl, rfl, rfl⟩⟩
  · rw [annotate_IF_eq]; rfl
  · rw [annotate_TRY_eq]; rfl

/-- C22 (unknown command variant): on a node whose `statement_type` is none of the eleven known
variants, `getStatementType` returns `COPY` under every context and leaves the node as it is,
and `annotate` returns without changing the node. -/
theorem unknown_variant_rule (k : Nat) :
    (∀ ib cs l, getStatementType (UNKNOWN k) ib cs l = some (COPY, UNKNOWN k)) ∧
    (∀ rp, annotate (UNKNOWN k) rp = some (UNKNOWN k)) := by
  refine ⟨fun ib cs l => by rw [getStatementType], fun rp => by rw [annotate]⟩

/-- C28, evaluation of the code: for every prefix the buffer `file_name` has
`strlen(prefix) + 2` bytes while `strcpy` and `strcat` store the `strlen(prefix) + 2`
characters of the name and a terminating NUL, one byte more than the buffer holds; so the
debug block has no defined result, for the prefix `p` in particular (3 bytes for the 4 bytes of
`p_3` with its NUL). -/
theorem debug_dump_buffer (pfx : List Char) :
    debugFileName pfx = none ∧
    (pfx ++ ['_', '3']).length + 1 = (pfx.length + 2) + 1 ∧
    debugFileName ['p'] = none := by
  refine ⟨?_, by simp, by decide⟩
  simp [debugFileName]

/-! ### Conditionals and loop-free trees -/

/-- C23 (if/try equivalence, P6): `getStatementType` treats `IF(c, t, e)` and `TRY(c, t, e)`
by one rule under every context: the strategies returned are equal, and the calls leave the
same condition, `then` and `else` subtrees behind.  This holds for all `c`, `t`, `e`, those
without `ALAP` nodes in particular.  For a condition without `ALAP` nodes the two calls that
`annotate` makes on it, with `if_body = true` for an `IF` and `if_body = false` for a `TRY`,
also give the same result. -/
theorem if_try_equivalence (c t e : GPStatement) (rp : Option Int) (rb : Bool) (ib : Bool)
    (cs : Int) (l : Bool) :
    classify (IF_STATEMENT c t e rp rb) ib cs l = classify (TRY_STATEMENT c t e rp rb) ib cs l ∧
    (∀ ty c1 t1 e1,
      getStatementType (IF_STATEMENT c t e rp rb) ib cs l =
          some (ty, IF_STATEMENT c1 t1 e1 rp rb) ↔
        getStatementType (TRY_STATEMENT c t e rp rb) ib cs l =
          some (ty, TRY_STATEMENT c1 t1 e1 rp rb)) ∧
    (loops c = [] → getStatementType c true 0 false = getStatementType c false 0 false) := by
  refine ⟨by rw [classify_IF, classify_TRY], fun ty c1 t1 e1 => ?_,
    getStatementType_loopfree_if_body c 0 false⟩
  rw [getStatementType_IF, getStatementType_TRY]
  cases getStatementType c ib cs l with
  | none => simp
  | some r1 =>
    cases getStatementType t ib cs l with
    | none => simp
    | some r2 =>
      cases getStatementType e ib cs l with
      | none => simp
      | some r3 => simp

/-- C24 (a loop anywhere in an `if` body forces a deep copy): for a command `s` built from the
known variants (without null pointers and empty command lists), under `if_body = true` and
every `com_seq` and `last_command`, the classifier returns `COPY` exactly when `s` holds an
`ALAP` node, those in the bodies of called procedures included.  Hence `annotate` on an `IF`
node with condition `s` completes and writes the restore point `rp` when `s` holds a loop, and
leaves the field `restore_point` as it was when `s` holds none. -/
theorem loop_in_if_body (s : GPStatement) (hwf : wellFormed s = true)
    (hk : noUnknown s = true) :
    (∀ cs l, classify s true cs l = some COPY ↔ loops s ≠ []) ∧
    (∀ t e rpf rb rp, wellFormed t = true → wellFormed e = true →
      ∃ c2 t2 e2 rb1, annotate (IF_STATEMENT s t e rpf rb) rp =
        some (IF_STATEMENT c2 t2 e2 (if (loops s).isEmpty then rpf else some rp) rb1)) := by
  refine ⟨fun cs l => classify_if_body_COPY_iff s cs l hwf hk, ?_⟩
  intro t e rpf rb rp hwt hwe
  obtain ⟨ty, hc⟩ := classify_total s true 0 false hwf
  have hg := getStatementType_of_classify_if_body hc
  obtain ⟨c2, h1⟩ := annotate_total s (if ty = COPY then rp + 1 else rp) hwf
  obtain ⟨t2, h2⟩ := annotate_total t rp hwt
  obtain ⟨e2, h3⟩ := annotate_total e rp hwe
  refine ⟨c2, t2, e2, (if ty = RECORD_CHANGES then true else rb), ?_⟩
  rw [annotate_IF_eq, hg]
  simp only [h1, h2, h3]
  have hiff := classify_if_body_COPY_iff s 0 false hwf hk
  rw [hc] at hiff
  simp only [Option.some.injEq, ne_eq] at hiff
  cases hl : loops s with
  | nil =>
    rw [hl] at hiff
    simp only [not_true_eq_false, iff_false] at hiff
    simp [hiff]
  | cons a r =>
    rw [hl] at hiff
    simp only [reduceCtorEq, not_false_eq_true, iff_true] at hiff
    simp [hiff]

/-- Witness for C24: the condition `a; P` where the body of the procedure `P` is the loop
`b!`. -/
theorem loop_in_if_body_witness :
    (∀ cs l, classify
        (COMMAND_SEQUENCE
          [RULE_CALL "a",
           PROCEDURE_CALL "P" (ALAP_STATEMENT (RULE_CALL "b") none false false)])
        true cs l = some COPY ↔
      loops
        (COMMAND_SEQUENCE
          [RULE_CALL "a",
           PROCEDURE_CALL "P" (ALAP_STATEMENT (RULE_CALL "b") none false false)]) ≠ []) ∧
    (∀ t e rpf rb rp, wellFormed t = true → wellFormed e = true →
      ∃ c2 t2 e2 rb1,
        annotate
          (IF_STATEMENT
            (COMMAND_SEQUENCE
              [RULE_CALL "a",
               PROCEDURE_CALL "P" (ALAP_STATEMENT (RULE_CALL "b") none false false)])
            t e rpf rb) rp =
        some (IF_STATEMENT c2 t2 e2
          (if (loops
            (COMMAND_SEQUENCE
              [RULE_CALL "a",
               PROCEDURE_CALL "P"
                 (ALAP_STATEMENT (RULE_CALL "b") none false false)])).isEmpty
            then rpf else some rp) rb1)) :=
  loop_in_if_body
    (COMMAND_SEQUENCE
      [RULE_CALL "a", PROCEDURE_CALL "P" (ALAP_STATEMENT (RULE_CALL "b") none false false)])
    (by rfl) (by rfl)

/-- C30 (no loop, no copy): for a command `s` without `ALAP` nodes and without nodes of
unknown variant, `getStatementType` never returns `COPY`, returns the same strategy under
every two contexts, and returns the tree as it was (no `stop_recording` is set); when `s` has
no null pointer and no empty command list the strategy is `NO_COPY` or `RECORD_CHANGES`.  A
run of `annotate` on `s` changes `roll_back` fields only: no `restore_point` is written, and
the result has no `ALAP` node on which `stop_recording` could be set; on such a well-formed
`s` the run completes. -/
theorem no_loop_no_copy (s : GPStatement) (hl : loops s = []) (hk : noUnknown s = true) :
    (∀ ib cs l, classify s ib cs l ≠ some COPY) ∧
    (∀ ib cs l ib2 cs2 l2, classify s ib cs l = classify s ib2 cs2 l2) ∧
    (∀ ib cs l t s1, getStatementType s ib cs l = some (t, s1) → s1 = s) ∧
    (wellFormed s = true → ∀ ib cs l,
      classify s ib cs l = some NO_COPY ∨ classify s ib cs l = some RECORD_CHANGES) ∧
    (∀ rp s1, annotate s rp = some s1 →
      clearRollBack s1 = clearRollBack s ∧ stopFlags s1 = []) ∧
    (wellFormed s = true → ∀ rp, ∃ s1, annotate s rp = some s1) := by
  refine ⟨fun ib cs l => classify_loopfree_ne_COPY s ib cs l hl hk,
    fun ib cs l ib2 cs2 l2 => classify_loopfree s ib cs l ib2 cs2 l2 hl,
    fun ib cs l t s1 h => getStatementType_loopfree h hl, ?_, ?_,
    fun hwf rp => annotate_total s rp hwf⟩
  · intro hwf ib cs l
    obtain ⟨t, ht⟩ := classify_total s ib cs l hwf
    have hne := classify_loopfree_ne_COPY s ib cs l hl hk
    rw [ht] at hne ⊢
    cases t
    · exact Or.inl rfl
    · exact Or.inr rfl
    · exact absurd rfl hne
  · intro rp s1 h
    refine ⟨annotate_loopfree h hl hk, ?_⟩
    have hlen : (loops s1).length = (loops s).length := by
      rw [← loops_length_erase s1, annotate_erase h, loops_length_erase]
    rw [hl] at hlen
    simp [stopFlags, List.length_eq_zero.1 hlen]

/-- Witness for C30: the loop-free command `if a then (b; try c then skip else fail) else
(d or P)` with the procedure body `e`. -/
theorem no_loop_no_copy_witness :
    (∀ ib cs l, classify
      (IF_STATEMENT (RULE_CALL "a")
        (COMMAND_SEQUENCE
          [RULE_CALL "b",
           TRY_STATEMENT (RULE_CALL "c") SKIP_STATEMENT FAIL_STATEMENT none false])
        (PROGRAM_OR (RULE_CALL "d") (PROCEDURE_CALL "P" (RULE_CALL "e"))) none false)
      ib cs l ≠ some COPY) ∧
    (∀ ib cs l ib2 cs2 l2, classify
      (IF_STATEMENT (RULE_CALL "a")
        (COMMAND_SEQUENCE
          [RULE_CALL "b",
           TRY_STATEMENT (RULE_CALL "c") SKIP_STATEMENT FAIL_STATEMENT none false])
        (PROGRAM_OR (RULE_CALL "d") (PROCEDURE_CALL "P" (RULE_CALL "e"))) none false)
      ib cs l = classify
      (IF_STATEMENT (RULE_CALL "a")
        (COMMAND_SEQUENCE
          [RULE_CALL "b",
           TRY_STATEMENT (RULE_CALL "c") SKIP_STATEMENT FAIL_STATEMENT none false])
        (PROGRAM_OR (RULE_CALL "d") (PROCEDURE_CALL "P" (RULE_CALL "e"))) none false)
      ib2 cs2 l2) ∧
    (∀ ib cs l t s1, getStatementType
      (IF_STATEMENT (RULE_CALL "a")
        (COMMAND_SEQUENCE
          [RULE_CALL "b",
           TRY_STATEMENT (RULE_CALL "c") SKIP_STATEMENT FAIL_STATEMENT none false])
        (PROGRAM_OR (RULE_CALL "d") (PROCEDURE_CALL "P" (RULE_CALL "e"))) none false)
      ib cs l = some (t, s1) → s1 =
      IF_STATEMENT (RULE_CALL "a")
        (COMMAND_SEQUENCE
          [RULE_CALL "b",
           TRY_STATEMENT (RULE_CALL "c") SKIP_STATEMENT FAIL_STATEMENT none false])
        (PROGRAM_OR (RULE_CALL "d") (PROCEDURE_CALL "P" (RULE_CALL "e"))) none false) ∧
    (wellFormed
      (IF_STATEMENT (RULE_CALL "a")
        (COMMAND_SEQUENCE
          [RULE_CALL "b",
           TRY_STATEMENT (RULE_CALL "c") SKIP_STATEMENT FAIL_STATEMENT none false])
        (PROGRAM_OR (RULE_CALL "d") (PROCEDURE_CALL "P" (RULE_CALL "e"))) none false) = true →
      ∀ ib cs l,
      classify
        (IF_STATEMENT (RULE_CALL "a")
          (COMMAND_SEQUENCE
            [RULE_CALL "b",
             TRY_STATEMENT (RULE_CALL "c") SKIP_STATEMENT FAIL_STATEMENT none false])
          (PROGRAM_OR (RULE_CALL "d") (PROCEDURE_CALL "P" (RULE_CALL "e"))) none false)
        ib cs l = some NO_COPY ∨
      classify
        (IF_STATEMENT (RULE_CALL "a")
          (COMMAND_SEQUENCE
            [RULE_CALL "b",
             TRY_STATEMENT (RULE_CALL "c") SKIP_STATEMENT FAIL_STATEMENT none false])
          (PROGRAM_OR (RULE_CALL "d") (PROCEDURE_CALL "P" (RULE_CALL "e"))) none false)
        ib cs l = some RECORD_CHANGES) ∧
    (∀ rp s1, annotate
      (IF_STATEMENT (RULE_CALL "a")
        (COMMAND_SEQUENCE
          [RULE_CALL "b",
           TRY_STATEMENT (RULE_CALL "c") SKIP_STATEMENT FAIL_STATEMENT none false])
        (PROGRAM_OR (RULE_CALL "d") (PROCEDURE_CALL "P" (RULE_CALL "e"))) none false)
      rp = some s1 →
      clearRollBack s1 = clearRollBack
        (IF_STATEMENT (RULE_CALL "a")
          (COMMAND_SEQUENCE
            [RULE_CALL "b",
             TRY_STATEMENT (RULE_CALL "c") SKIP_STATEMENT FAIL_STATEMENT none false])
          (PROGRAM_OR (RULE_CALL "d") (PROCEDURE_CALL "P" (RULE_CALL "e"))) none false) ∧
      stopFlags s1 = []) ∧
    (wellFormed
      (IF_STATEMENT (RULE_CALL "a")
        (COMMAND_SEQUENCE
          [RULE_CALL "b",
           TRY_STATEMENT (RULE_CALL "c") SKIP_STATEMENT FAIL_STATEMENT none false])
        (PROGRAM_OR (RULE_CALL "d") (PROCEDURE_CALL "P" (RULE_CALL "e"))) none false) = true →
      ∀ rp, ∃ s1, annotate
        (IF_STATEMENT (RULE_CALL "a")
          (COMMAND_SEQUENCE
            [RULE_CALL "b",
             TRY_STATEMENT (RULE_CALL "c") SKIP_STATEMENT FAIL_STATEMENT none false])
          (PROGRAM_OR (RULE_CALL "d") (PROCEDURE_CALL "P" (RULE_CALL "e"))) none false)
        rp = some s1) :=
  no_loop_no_copy
    (IF_STATEMENT (RULE_CALL "a")
      (COMMAND_SEQUENCE
        [RULE_CALL "b",
         TRY_STATEMENT (RULE_CALL "c") SKIP_STATEMENT FAIL_STATEMENT none false])
      (PROGRAM_OR (RULE_CALL "d") (PROCEDURE_CALL "P" (RULE_CALL "e"))) none false)
    (by rfl) (by rfl)

/-! ### Restore points and copy depth -/

/-- C29 as stated fails.  With the procedure `P` of body `if (a!; b) then skip else skip`,
the command `try P then P else skip` annotated from restore point 0 is classified `COPY` and
gets restore point 0, and the conditional of `P`, annotated at 1 through the call in the
condition, is annotated again at 0 through the call in the `then` branch: the one body of `P`
is left with restore point 0 although it lies in the condition of a `COPY`-classified node.
And from `rp0 = INT_MAX` the conditional in the condition of
`if (if a! then skip else skip) then s else t` gets `INT_MIN`, not `rp0 + 1`. -/
theorem restore_point_copy_depth_counterexample :
    Shared.annotate 9
        [("P", IF_STATEMENT
          (COMMAND_SEQUENCE [ALAP_STATEMENT (RULE_CALL "a") none false false, RULE_CALL "b"])
          SKIP_STATEMENT SKIP_STATEMENT none false)]
        (TRY_STATEMENT (PROCEDURE_CALL "P" NULL) (PROCEDURE_CALL "P" NULL) SKIP_STATEMENT
          none false) 0 =
      some
        ([("P", IF_STATEMENT
          (COMMAND_SEQUENCE [ALAP_STATEMENT (RULE_CALL "a") none false false, RULE_CALL "b"])
          SKIP_STATEMENT SKIP_STATEMENT (some 0) false)],
         TRY_STATEMENT (PROCEDURE_CALL "P" NULL) (PROCEDURE_CALL "P" NULL) SKIP_STATEMENT
          (some 0) false) ∧
    Shared.annotate 9 []
        (IF_STATEMENT
          (IF_STATEMENT (ALAP_STATEMENT (RULE_CALL "a") none false false)
            SKIP_STATEMENT SKIP_STATEMENT none false)
          (RULE_CALL "s") (RULE_CALL "t") none false) 2147483647 =
      some
        ([],
         IF_STATEMENT
          (IF_STATEMENT (ALAP_STATEMENT (RULE_CALL "a") none false false)
            SKIP_STATEMENT SKIP_STATEMENT (some (-2147483648)) false)
          (RULE_CALL "s") (RULE_CALL "t") (some 2147483647) false) :=
  ⟨rfl, rfl⟩

/-- C29 (amended, restore point equals copy depth within the command tree and the range of
`int`): after `annotate(root, rp0)` on a command tree that can be traversed and has no written
`restore_point` and `roll_back` fields (nodes of unknown variant allowed), every node of the
command tree agrees with the classification of its condition or body, so a restore point is
written exactly on its `IF`, `TRY` and `ALAP` nodes classified `COPY`; and on every
root-to-leaf path of the command tree (a call node is a leaf) the restore point of the `k`-th
such node is `rp0` plus the number of the nodes before it on the path (its `COPY`-classified
ancestors) that the path leaves into the condition or the loop body, as long as this sum does
not exceed `INT_MAX`.  Ancestors left into a `then` or `else` branch and ancestors not
classified `COPY` add nothing.  The body of a called procedure is annotated anew at each call:
after a call has been annotated with `rp`, the restore points on the `COPY`-classified nodes of
the body are counted from `rp` in the same way, whatever the body held before. -/
theorem restore_point_copy_depth (depth : Nat) (procs : Procedures)
    (root : GPStatement) (rp0 : Int)
    (hc : closed depth procs root = true) (hu : ownUnwritten root = true) :
    (∃ fuel procs1 s1, Shared.annotate fuel procs root rp0 = some (procs1, s1) ∧
      (∀ fuel2 r, Shared.annotate fuel2 procs root rp0 = some r → r = (procs1, s1)) ∧
      (∀ n ∈ ownNodes s1, sharedAgreement procs1 n) ∧
      (∀ p ∈ ownPaths s1, ∀ (k : Nat) (x : Int × Bool), p[k]? = some x →
        rp0 + ((p.take k).countP (fun y => y.2) : Nat) ≤ INT_MAX →
        x.1 = rp0 + ((p.take k).countP (fun y => y.2) : Nat)) ∧
      copyDepth procs1 rp0 s1) ∧
    (∀ fuel q n p rp q1 c1, Shared.annotate fuel q (PROCEDURE_CALL n p) rp = some (q1, c1) →
      ∃ body1, commandsOf q1 n = some body1 ∧ copyDepth q1 rp body1) := by
  obtain ⟨fuel, ⟨procs1, s1⟩, hann⟩ := shared_annotate_total depth procs root hc rp0
  refine ⟨⟨fuel, procs1, s1, hann, fun _ _ h2 => shared_annotate_unique h2 hann,
    shared_annotate_agreement.1 _ _ _ _ _ _ hann hu,
    fun p hp => intChain_count p rp0 (shared_annotate_intChain.1 _ _ _ _ _ _ hann hu p hp),
    shared_annotate_copyDepth.1 _ _ _ _ _ _ hann _
      (shared_annotate_erase.1 _ _ _ _ _ _ hann).2⟩, ?_⟩
  intro fuel q n p rp q1 c1 h
  obtain ⟨k, body, qa, body1, _, _, ha, _, hb⟩ := shared_annotate_CALL_body h
  exact ⟨body1, hb, shared_annotate_copyDepth.1 _ _ _ _ _ _ ha _
    (shared_annotate_erase.1 _ _ _ _ _ _ h).2⟩

/-- Witness for C29 (amended): the loop `((if (try (a!; b) then skip else fail) then (c!; d)!
else P); e)!` annotated from restore point 3, where the procedure `P` has the body `(r!; s)!`:
the loop gets 3, the conditional 4, the `try` in its condition 5, the loop in its `then`
branch 4. -/
theorem restore_point_copy_depth_witness :
    Shared.annotate 12
        [("P", ALAP_STATEMENT
          (COMMAND_SEQUENCE [ALAP_STATEMENT (RULE_CALL "r") none false false, RULE_CALL "s"])
          none false false)]
        (ALAP_STATEMENT
          (COMMAND_SEQUENCE
            [IF_STATEMENT
               (TRY_STATEMENT
                 (COMMAND_SEQUENCE
                   [ALAP_STATEMENT (RULE_CALL "a") none false false, RULE_CALL "b"])
                 SKIP_STATEMENT FAIL_STATEMENT none false)
               (ALAP_STATEMENT
                 (COMMAND_SEQUENCE
                   [ALAP_STATEMENT (RULE_CALL "c") none false false, RULE_CALL "d"])
                 none false false)
               (PROCEDURE_CALL "P" NULL) none false,
             RULE_CALL "e"])
          none false false) 3 =
      some
        ([("P", ALAP_STATEMENT
          (COMMAND_SEQUENCE [ALAP_STATEMENT (RULE_CALL "r") none false false, RULE_CALL "s"])
          (some 4) false false)],
         ALAP_STATEMENT
          (COMMAND_SEQUENCE
            [IF_STATEMENT
               (TRY_STATEMENT
                 (COMMAND_SEQUENCE
                   [ALAP_STATEMENT (RULE_CALL "a") none false false, RULE_CALL "b"])
                 SKIP_STATEMENT FAIL_STATEMENT (some 5) false)
               (ALAP_STATEMENT
                 (COMMAND_SEQUENCE
                   [ALAP_STATEMENT (RULE_CALL "c") none false false, RULE_CALL "d"])
                 (some 4) false false)
               (PROCEDURE_CALL "P" NULL) (some 4) false,
             RULE_CALL "e"])
          (some 3) false false) ∧
    (∃ fuel procs1 s1,
      Shared.annotate fuel
        [("P", ALAP_STATEMENT
          (COMMAND_SEQUENCE [ALAP_STATEMENT (RULE_CALL "r") none false false, RULE_CALL "s"])
          none false false)]
        (ALAP_STATEMENT
          (COMMAND_SEQUENCE
            [IF_STATEMENT
               (TRY_STATEMENT
                 (COMMAND_SEQUENCE
                   [ALAP_STATEMENT (RULE_CALL "a") none false false, RULE_CALL "b"])
                 SKIP_STATEMENT FAIL_STATEMENT none false)
               (ALAP_STATEMENT
                 (COMMAND_SEQUENCE
                   [ALAP_STATEMENT (RULE_CALL "c") none false false, RULE_CALL "d"])
                 none false false)
               (PROCEDURE_CALL "P" NULL) none false,
             RULE_CALL "e"])
          none false false) 3 = some (procs1, s1) ∧
      (∀ fuel2 r,
        Shared.annotate fuel2
          [("P", ALAP_STATEMENT
            (COMMAND_SEQUENCE [ALAP_STATEMENT (RULE_CALL "r") none false false, RULE_CALL "s"])
            none false false)]
          (ALAP_STATEMENT
            (COMMAND_SEQUENCE
              [IF_STATEMENT
                 (TRY_STATEMENT
                   (COMMAND_SEQUENCE
                     [ALAP_STATEMENT (RULE_CALL "a") none false false, RULE_CALL "b"])
                   SKIP_STATEMENT FAIL_STATEMENT none false)
                 (ALAP_STATEMENT
                   (COMMAND_SEQUENCE
                     [ALAP_STATEMENT (RULE_CALL "c") none false false, RULE_CALL "d"])
                   none false false)
                 (PROCEDURE_CALL "P" NULL) none false,
               RULE_CALL "e"])
            none false false) 3 = some r → r = (procs1, s1)) ∧
      (∀ n ∈ ownNodes s1, sharedAgreement procs1 n) ∧
      (∀ p ∈ ownPaths s1, ∀ (k : Nat) (x : Int × Bool), p[k]? = some x →
        3 + ((p.take k).countP (fun y => y.2) : Nat) ≤ INT_MAX →
        x.1 = 3 + ((p.take k).countP (fun y => y.2) : Nat)) ∧
      copyDepth procs1 3 s1) ∧
    (∀ fuel q n p rp q1 c1, Shared.annotate fuel q (PROCEDURE_CALL n p) rp = some (q1, c1) →
      ∃ body1, commandsOf q1 n = some body1 ∧ copyDepth q1 rp body1) :=
  ⟨rfl, restore_point_copy_depth 12
    [("P", ALAP_STATEMENT
      (COMMAND_SEQUENCE [ALAP_STATEMENT (RULE_CALL "r") none false false, RULE_CALL "s"])
      none false false)]
    (ALAP_STATEMENT
      (COMMAND_SEQUENCE
        [IF_STATEMENT
           (TRY_STATEMENT
             (COMMAND_SEQUENCE
               [ALAP_STATEMENT (RULE_CALL "a") none false false, RULE_CALL "b"])
             SKIP_STATEMENT FAIL_STATEMENT none false)
           (ALAP_STATEMENT
             (COMMAND_SEQUENCE
               [ALAP_STATEMENT (RULE_CALL "c") none false false, RULE_CALL "d"])
             none false false)
           (PROCEDURE_CALL "P" NULL) none false,
         RULE_CALL "e"])
      none false false)
    3 (by rfl) (by rfl)⟩

/-! ### Loops that are not the last command of a body -/

/-- C26 as stated fails: for the body `(a; b!) or (c!; d)` with default fields the classifier
returns `COPY` under `(if_body = false, com_seq = 0, last_command = false)`, because of the
loop `c!` that is followed by `d`, and the same run has set `stop_recording` on the loop
`b!`. -/
theorem stop_recording_counterexample :
    defaultFields
      (PROGRAM_OR
        (COMMAND_SEQUENCE [RULE_CALL "a", ALAP_STATEMENT (RULE_CALL "b") none false false])
        (COMMAND_SEQUENCE [ALAP_STATEMENT (RULE_CALL "c") none false false, RULE_CALL "d"]))
      = true ∧
    getStatementType
      (PROGRAM_OR
        (COMMAND_SEQUENCE [RULE_CALL "a", ALAP_STATEMENT (RULE_CALL "b") none false false])
        (COMMAND_SEQUENCE [ALAP_STATEMENT (RULE_CALL "c") none false false, RULE_CALL "d"]))
      false 0 false =
    some (COPY,
      PROGRAM_OR
        (COMMAND_SEQUENCE [RULE_CALL "a", ALAP_STATEMENT (RULE_CALL "b") none false true])
        (COMMAND_SEQUENCE [ALAP_STATEMENT (RULE_CALL "c") none false false, RULE_CALL "d"])) := by
  refine ⟨by rfl, ?_⟩
  simp [getStatementType, getSequenceType]
  decide

/-- C26 (amended): `stop_recording` is set only on a loop that is itself classified `NO_COPY`
where the run reaches it.  For every try condition or loop body `s` with default fields, the
`ALAP` nodes on which the run of `getStatementType` under `(if_body = false, com_seq = 0,
last_command = false)` has set `stop_recording` are exactly those that the run reaches under
`(if_body = false, com_seq = 1, last_command = true)`, the context under which an `ALAP` node is
classified `NO_COPY`; no other field of the tree changes.  The strategy returned for `s` as a
whole may still be `COPY`. -/
theorem stop_recording_rule (s : GPStatement) (t : copyType) (s1 : GPStatement)
    (hdef : defaultFields s = true)
    (h : getStatementType s false 0 false = some (t, s1)) :
    stopFlags s1 = tailReached s false 0 false ∧
    clearStop s1 = clearStop s ∧
    (∀ body rp rb sr, getStatementType (ALAP_STATEMENT body rp rb sr) false 1 true =
      some (NO_COPY, ALAP_STATEMENT body rp rb true)) := by
  refine ⟨stopFlags_of_getStatementType hdef h, (getStatementType_frame s false 0 false t s1 h).1,
    fun body rp rb sr => ?_⟩
  rw [getStatementType_ALAP]
  simp

/-- Witness for C26 (amended): the body `(a; b!) or (c!; d)` of the counterexample; the run
reaches `b!` as the last command of a first-level sequence and `c!` not. -/
theorem stop_recording_rule_witness :
    stopFlags
      (PROGRAM_OR
        (COMMAND_SEQUENCE [RULE_CALL "a", ALAP_STATEMENT (RULE_CALL "b") none false true])
        (COMMAND_SEQUENCE [ALAP_STATEMENT (RULE_CALL "c") none false false, RULE_CALL "d"])) =
      tailReached
        (PROGRAM_OR
          (COMMAND_SEQUENCE [RULE_CALL "a", ALAP_STATEMENT (RULE_CALL "b") none false false])
          (COMMAND_SEQUENCE [ALAP_STATEMENT (RULE_CALL "c") none false false, RULE_CALL "d"]))
        false 0 false ∧
    clearStop
      (PROGRAM_OR
        (COMMAND_SEQUENCE [RULE_CALL "a", ALAP_STATEMENT (RULE_CALL "b") none false true])
        (COMMAND_SEQUENCE [ALAP_STATEMENT (RULE_CALL "c") none false false, RULE_CALL "d"])) =
      clearStop
        (PROGRAM_OR
          (COMMAND_SEQUENCE [RULE_CALL "a", ALAP_STATEMENT (RULE_CALL "b") none false false])
          (COMMAND_SEQUENCE [ALAP_STATEMENT (RULE_CALL "c") none false false, RULE_CALL "d"])) ∧
    (∀ body rp rb sr, getStatementType (ALAP_STATEMENT body rp rb sr) false 1 true =
      some (NO_COPY, ALAP_STATEMENT body rp rb true)) :=
  stop_recording_rule
    (PROGRAM_OR
      (COMMAND_SEQUENCE [RULE_CALL "a", ALAP_STATEMENT (RULE_CALL "b") none false false])
      (COMMAND_SEQUENCE [ALAP_STATEMENT (RULE_CALL "c") none false false, RULE_CALL "d"]))
    COPY
    (PROGRAM_OR
      (COMMAND_SEQUENCE [RULE_CALL "a", ALAP_STATEMENT (RULE_CALL "b") none false true])
      (COMMAND_SEQUENCE [ALAP_STATEMENT (RULE_CALL "c") none false false, RULE_CALL "d"]))
    (by rfl) (by simp [getStatementType, getSequenceType]; decide)

/-- C25, evaluation of the code: the body `(a; b!); c`, a sequence whose first command is the
nested sequence `a; b!`, is classified `RECORD_CHANGES` under `(if_body = false, com_seq = 0,
last_command = false)` and the loop `b!` gets `stop_recording = true`, although in the
flattened command order `a, b!, c` of the body the loop is followed by `c`; the body `P; c`
with the procedure body `a; b!` gives the same result, and a `TRY` with that condition gets
`roll_back = true` and no restore point.  The nested sequence is entered with `com_seq = 1`,
so its last command is taken for the last command of the body.  For the loops that are
themselves elements of the first-level sequence the rule holds: when a body of two or more
commands is not classified `COPY`, a loop among its elements is the last element. -/
theorem nested_tail_loop_evaluation :
    getStatementType
      (COMMAND_SEQUENCE
        [COMMAND_SEQUENCE [RULE_CALL "a", ALAP_STATEMENT (RULE_CALL "b") none false false],
         RULE_CALL "c"]) false 0 false =
      some (RECORD_CHANGES,
        COMMAND_SEQUENCE
          [COMMAND_SEQUENCE [RULE_CALL "a", ALAP_STATEMENT (RULE_CALL "b") none false true],
           RULE_CALL "c"]) ∧
    flatCommands
      (COMMAND_SEQUENCE
        [COMMAND_SEQUENCE [RULE_CALL "a", ALAP_STATEMENT (RULE_CALL "b") none false false],
         RULE_CALL "c"]) =
      [RULE_CALL "a", ALAP_STATEMENT (RULE_CALL "b") none false false, RULE_CALL "c"] ∧
    getStatementType
      (COMMAND_SEQUENCE
        [PROCEDURE_CALL "P"
           (COMMAND_SEQUENCE [RULE_CALL "a", ALAP_STATEMENT (RULE_CALL "b") none false false]),
         RULE_CALL "c"]) false 0 false =
      some (RECORD_CHANGES,
        COMMAND_SEQUENCE
          [PROCEDURE_CALL "P"
             (COMMAND_SEQUENCE [RULE_CALL "a", ALAP_STATEMENT (RULE_CALL "b") none false true]),
           RULE_CALL "c"]) ∧
    flatCommands
      (COMMAND_SEQUENCE
        [PROCEDURE_CALL "P"
           (COMMAND_SEQUENCE [RULE_CALL "a", ALAP_STATEMENT (RULE_CALL "b") none false false]),
         RULE_CALL "c"]) =
      [RULE_CALL "a", ALAP_STATEMENT (RULE_CALL "b") none false false, RULE_CALL "c"] ∧
    annotate
      (TRY_STATEMENT
        (COMMAND_SEQUENCE
          [PROCEDURE_CALL "P"
             (COMMAND_SEQUENCE
               [RULE_CALL "a", ALAP_STATEMENT (RULE_CALL "b") none false false]),
           RULE_CALL "c"])
        SKIP_STATEMENT FAIL_STATEMENT none false) 0 =
      some (TRY_STATEMENT
        (COMMAND_SEQUENCE
          [PROCEDURE_CALL "P"
             (COMMAND_SEQUENCE
               [RULE_CALL "a", ALAP_STATEMENT (RULE_CALL "b") none false true]),
           RULE_CALL "c"])
        SKIP_STATEMENT FAIL_STATEMENT none true) ∧
    (∀ (c d : GPStatement) (r : List GPStatement),
      wellFormedList (c :: d :: r) = true →
      classify (COMMAND_SEQUENCE (c :: d :: r)) false 0 false ≠ some COPY →
      ∀ (i : Nat) body rp rb sr, (c :: d :: r)[i]? = some (ALAP_STATEMENT body rp rb sr) →
        i + 1 = (c :: d :: r).length) := by
  refine ⟨by simp [getStatementType, getSequenceType], by rfl,
    by simp [getStatementType, getSequenceType], by rfl,
    by simp [annotate, annotateCommands, getStatementType, getSequenceType], ?_⟩
  intro c d r hwf hne i body rp rb sr hi
  obtain ⟨t, ht, _, hiff⟩ := getSequenceType_spec false 0 (c :: d :: r) hwf
  rw [classify_SEQ_cons, ht] at hne
  by_contra hlast
  apply hne
  rw [hiff.2 ⟨i, _, hi, ?_⟩]
  rw [classify_ALAP]
  simp only [List.length_cons] at hlast
  have hlast2 : ¬ i = r.length + 1 := by omega
  simp [hlast2]

/-! ### Monotonicity in `if_body` -/

/-- C31 (monotone in `if_body`): for every command `s` without null pointers and empty command
lists, and every `com_seq` and `last_command`, the strategy `getStatementType` returns for `s`
with `if_body = true` is at least the one it returns with `if_body = false`, in the order
`NO_COPY < RECORD_CHANGES < COPY`.  Hence for the same condition `s` and the same branches,
`annotate` gives an `IF` node the fields of a strategy `tI` and a `TRY` node the fields of a
strategy `tT` with `tT ≤ tI`: a restore point on the `TRY` means a restore point on the `IF`,
and `roll_back` on the `TRY` means `roll_back` or a restore point on the `IF`. -/
theorem if_body_monotone (s : GPStatement) (hwf : wellFormed s = true) :
    (∀ cs l, ∃ t1 t2, classify s true cs l = some t1 ∧ classify s false cs l = some t2 ∧
      t2 ≤ t1) ∧
    (∀ th el rp, wellFormed th = true → wellFormed el = true →
      ∃ tI tT c2 c3 th2 el2,
        annotate (IF_STATEMENT s th el none false) rp =
          some (IF_STATEMENT c2 th2 el2 (if tI = COPY then some rp else none)
            (decide (tI = RECORD_CHANGES))) ∧
        annotate (TRY_STATEMENT s th el none false) rp =
          some (TRY_STATEMENT c3 th2 el2 (if tT = COPY then some rp else none)
            (decide (tT = RECORD_CHANGES))) ∧
        tT ≤ tI) := by
  refine ⟨fun cs l => ?_, fun th el rp hwt hwe => ?_⟩
  · obtain ⟨t2, h2⟩ := classify_total s false cs l hwf
    obtain ⟨t1, h1, hle⟩ := classify_if_body_mono s cs l t2 h2
    exact ⟨t1, t2, h1, h2, hle⟩
  · obtain ⟨tT, c1, hgT⟩ := getStatementType_total s false 0 false hwf
    obtain ⟨tI, hI, hle⟩ :=
      classify_if_body_mono s 0 false tT (classify_of_getStatementType hgT)
    have hgI := getStatementType_of_classify_if_body hI
    have hwf1 : wellFormed c1 = true := by rw [getStatementType_wellFormed hgT, hwf]
    obtain ⟨c2, h1⟩ := annotate_total s (if tI = COPY then rp + 1 else rp) hwf
    obtain ⟨c3, h2⟩ := annotate_total c1 (if tT = COPY then rp + 1 else rp) hwf1
    obtain ⟨th2, h3⟩ := annotate_total th rp hwt
    obtain ⟨el2, h4⟩ := annotate_total el rp hwe
    refine ⟨tI, tT, c2, c3, th2, el2, ?_, ?_, hle⟩
    · rw [annotate_IF_eq, hgI]
      simp only [h1, h3, h4]
      cases tI <;> simp
    · rw [annotate_TRY_eq, hgT]
      simp only [h2, h3, h4]
      cases tT <;> simp

/-- Witness for C31: the condition `a; b!`, classified `COPY` inside an `if` condition and
`RECORD_CHANGES` as the condition of a `try`. -/
theorem if_body_monotone_witness :
    (∀ cs l, ∃ t1 t2,
      classify
        (COMMAND_SEQUENCE [RULE_CALL "a", ALAP_STATEMENT (RULE_CALL "b") none false false])
        true cs l = some t1 ∧
      classify
        (COMMAND_SEQUENCE [RULE_CALL "a", ALAP_STATEMENT (RULE_CALL "b") none false false])
        false cs l = some t2 ∧
      t2 ≤ t1) ∧
    (∀ th el rp, wellFormed th = true → wellFormed el = true →
      ∃ tI tT c2 c3 th2 el2,
        annotate
          (IF_STATEMENT
            (COMMAND_SEQUENCE
              [RULE_CALL "a", ALAP_STATEMENT (RULE_CALL "b") none false false])
            th el none false) rp =
          some (IF_STATEMENT c2 th2 el2 (if tI = COPY then some rp else none)
            (decide (tI = RECORD_CHANGES))) ∧
        annotate
          (TRY_STATEMENT
            (COMMAND_SEQUENCE
              [RULE_CALL "a", ALAP_STATEMENT (RULE_CALL "b") none false false])
            th el none false) rp =
          some (TRY_STATEMENT c3 th2 el2 (if tT = COPY then some rp else none)
            (decide (tT = RECORD_CHANGES))) ∧
        tT ≤ tI) :=
  if_body_monotone
    (COMMAND_SEQUENCE [RULE_CALL "a", ALAP_STATEMENT (RULE_CALL "b") none false false])
    (by rfl)

end GP2
